import Mathlib

/-!
# dev2gis go-orchestrator: task dispatch

A shallow embedding of the upload orchestration (`internal/heightmap/service.go`)
and of the queue client (`pkg/rabbitmq/client.go`), with the parts of the
handlers (`internal/heightmap/handler.go`), of the object-store client
(`internal/storage/minio/minio.go`) and of the auth service
(`internal/auth/service.go`) that the verified properties are about.

The collaborators (object store, job repository, broker, multipart files) are
outside the program.  Every call made to one of them is appended to a history,
together with the error it returned; what a call returns is decided by an
environment that sees the whole history so far.  `uuid.New()` and `time.Now()`
read from two streams supplied by the environment.  Logger and metrics calls
and `file.Close()` are not traced; the goroutine started by `reconnect` is not
modelled.
-/

namespace Dev2gis

/-! ## Strings, errors -/

/-- The upper-case and title-case runes outside ASCII of the table
`unicode.CaseRanges`, as (first rune, last rune, step, distance to the lower
case): an entry stands for the runes `first`, `first + step`, and so on up to
`last`.  These are the simple lower-case mappings of the Unicode Character
Database, the same in its versions 14.0, 15.0 and 15.1. -/
def lowerRanges : List (Nat × Nat × Nat × Int) :=
  [(0xC0, 0xD6, 1, 32), (0xD8, 0xDE, 1, 32), (0x100, 0x12E, 2, 1), (0x130, 0x130, 1, -199),
   (0x132, 0x136, 2, 1), (0x139, 0x147, 2, 1), (0x14A, 0x176, 2, 1), (0x178, 0x178, 1, -121),
   (0x179, 0x17D, 2, 1), (0x181, 0x181, 1, 210), (0x182, 0x184, 2, 1), (0x186, 0x186, 1, 206),
   (0x187, 0x187, 1, 1), (0x189, 0x18A, 1, 205), (0x18B, 0x18B, 1, 1), (0x18E, 0x18E, 1, 79),
   (0x18F, 0x18F, 1, 202), (0x190, 0x190, 1, 203), (0x191, 0x191, 1, 1), (0x193, 0x193, 1, 205),
   (0x194, 0x194, 1, 207), (0x196, 0x196, 1, 211), (0x197, 0x197, 1, 209), (0x198, 0x198, 1, 1),
   (0x19C, 0x19C, 1, 211), (0x19D, 0x19D, 1, 213), (0x19F, 0x19F, 1, 214), (0x1A0, 0x1A4, 2, 1),
   (0x1A6, 0x1A6, 1, 218), (0x1A7, 0x1A7, 1, 1), (0x1A9, 0x1A9, 1, 218), (0x1AC, 0x1AC, 1, 1),
   (0x1AE, 0x1AE, 1, 218), (0x1AF, 0x1AF, 1, 1), (0x1B1, 0x1B2, 1, 217), (0x1B3, 0x1B5, 2, 1),
   (0x1B7, 0x1B7, 1, 219), (0x1B8, 0x1B8, 1, 1), (0x1BC, 0x1BC, 1, 1), (0x1C4, 0x1C4, 1, 2),
   (0x1C5, 0x1C5, 1, 1), (0x1C7, 0x1C7, 1, 2), (0x1C8, 0x1C8, 1, 1), (0x1CA, 0x1CA, 1, 2),
   (0x1CB, 0x1DB, 2, 1), (0x1DE, 0x1EE, 2, 1), (0x1F1, 0x1F1, 1, 2), (0x1F2, 0x1F4, 2, 1),
   (0x1F6, 0x1F6, 1, -97), (0x1F7, 0x1F7, 1, -56), (0x1F8, 0x21E, 2, 1), (0x220, 0x220, 1, -130),
   (0x222, 0x232, 2, 1), (0x23A, 0x23A, 1, 10795), (0x23B, 0x23B, 1, 1), (0x23D, 0x23D, 1, -163),
   (0x23E, 0x23E, 1, 10792), (0x241, 0x241, 1, 1), (0x243, 0x243, 1, -195), (0x244, 0x244, 1, 69),
   (0x245, 0x245, 1, 71), (0x246, 0x24E, 2, 1), (0x370, 0x372, 2, 1), (0x376, 0x376, 1, 1),
   (0x37F, 0x37F, 1, 116), (0x386, 0x386, 1, 38), (0x388, 0x38A, 1, 37), (0x38C, 0x38C, 1, 64),
   (0x38E, 0x38F, 1, 63), (0x391, 0x3A1, 1, 32), (0x3A3, 0x3AB, 1, 32), (0x3CF, 0x3CF, 1, 8),
   (0x3D8, 0x3EE, 2, 1), (0x3F4, 0x3F4, 1, -60), (0x3F7, 0x3F7, 1, 1), (0x3F9, 0x3F9, 1, -7),
   (0x3FA, 0x3FA, 1, 1), (0x3FD, 0x3FF, 1, -130), (0x400, 0x40F, 1, 80), (0x410, 0x42F, 1, 32),
   (0x460, 0x480, 2, 1), (0x48A, 0x4BE, 2, 1), (0x4C0, 0x4C0, 1, 15), (0x4C1, 0x4CD, 2, 1),
   (0x4D0, 0x52E, 2, 1), (0x531, 0x556, 1, 48), (0x10A0, 0x10C5, 1, 7264),
   (0x10C7, 0x10C7, 1, 7264), (0x10CD, 0x10CD, 1, 7264), (0x13A0, 0x13EF, 1, 38864),
   (0x13F0, 0x13F5, 1, 8), (0x1C90, 0x1CBA, 1, -3008), (0x1CBD, 0x1CBF, 1, -3008),
   (0x1E00, 0x1E94, 2, 1), (0x1E9E, 0x1E9E, 1, -7615), (0x1EA0, 0x1EFE, 2, 1),
   (0x1F08, 0x1F0F, 1, -8), (0x1F18, 0x1F1D, 1, -8), (0x1F28, 0x1F2F, 1, -8),
   (0x1F38, 0x1F3F, 1, -8), (0x1F48, 0x1F4D, 1, -8), (0x1F59, 0x1F5F, 2, -8),
   (0x1F68, 0x1F6F, 1, -8), (0x1F88, 0x1F8F, 1, -8), (0x1F98, 0x1F9F, 1, -8),
   (0x1FA8, 0x1FAF, 1, -8), (0x1FB8, 0x1FB9, 1, -8), (0x1FBA, 0x1FBB, 1, -74),
   (0x1FBC, 0x1FBC, 1, -9), (0x1FC8, 0x1FCB, 1, -86), (0x1FCC, 0x1FCC, 1, -9),
   (0x1FD8, 0x1FD9, 1, -8), (0x1FDA, 0x1FDB, 1, -100), (0x1FE8, 0x1FE9, 1, -8),
   (0x1FEA, 0x1FEB, 1, -112), (0x1FEC, 0x1FEC, 1, -7), (0x1FF8, 0x1FF9, 1, -128),
   (0x1FFA, 0x1FFB, 1, -126), (0x1FFC, 0x1FFC, 1, -9), (0x2126, 0x2126, 1, -7517),
   (0x212A, 0x212A, 1, -8383), (0x212B, 0x212B, 1, -8262), (0x2132, 0x2132, 1, 28),
   (0x2160, 0x216F, 1, 16), (0x2183, 0x2183, 1, 1), (0x24B6, 0x24CF, 1, 26),
   (0x2C00, 0x2C2F, 1, 48), (0x2C60, 0x2C60, 1, 1), (0x2C62, 0x2C62, 1, -10743),
   (0x2C63, 0x2C63, 1, -3814), (0x2C64, 0x2C64, 1, -10727), (0x2C67, 0x2C6B, 2, 1),
   (0x2C6D, 0x2C6D, 1, -10780), (0x2C6E, 0x2C6E, 1, -10749), (0x2C6F, 0x2C6F, 1, -10783),
   (0x2C70, 0x2C70, 1, -10782), (0x2C72, 0x2C72, 1, 1), (0x2C75, 0x2C75, 1, 1),
   (0x2C7E, 0x2C7F, 1, -10815), (0x2C80, 0x2CE2, 2, 1), (0x2CEB, 0x2CED, 2, 1),
   (0x2CF2, 0x2CF2, 1, 1), (0xA640, 0xA66C, 2, 1), (0xA680, 0xA69A, 2, 1), (0xA722, 0xA72E, 2, 1),
   (0xA732, 0xA76E, 2, 1), (0xA779, 0xA77B, 2, 1), (0xA77D, 0xA77D, 1, -35332),
   (0xA77E, 0xA786, 2, 1), (0xA78B, 0xA78B, 1, 1), (0xA78D, 0xA78D, 1, -42280),
   (0xA790, 0xA792, 2, 1), (0xA796, 0xA7A8, 2, 1), (0xA7AA, 0xA7AA, 1, -42308),
   (0xA7AB, 0xA7AB, 1, -42319), (0xA7AC, 0xA7AC, 1, -42315), (0xA7AD, 0xA7AD, 1, -42305),
   (0xA7AE, 0xA7AE, 1, -42308), (0xA7B0, 0xA7B0, 1, -42258), (0xA7B1, 0xA7B1, 1, -42282),
   (0xA7B2, 0xA7B2, 1, -42261), (0xA7B3, 0xA7B3, 1, 928), (0xA7B4, 0xA7C2, 2, 1),
   (0xA7C4, 0xA7C4, 1, -48), (0xA7C5, 0xA7C5, 1, -42307), (0xA7C6, 0xA7C6, 1, -35384),
   (0xA7C7, 0xA7C9, 2, 1), (0xA7D0, 0xA7D0, 1, 1), (0xA7D6, 0xA7D8, 2, 1), (0xA7F5, 0xA7F5, 1, 1),
   (0xFF21, 0xFF3A, 1, 32), (0x10400, 0x10427, 1, 40), (0x104B0, 0x104D3, 1, 40),
   (0x10570, 0x1057A, 1, 39), (0x1057C, 0x1058A, 1, 39), (0x1058C, 0x10592, 1, 39),
   (0x10594, 0x10595, 1, 39), (0x10C80, 0x10CB2, 1, 64), (0x118A0, 0x118BF, 1, 32),
   (0x16E40, 0x16E5F, 1, 32), (0x1E900, 0x1E921, 1, 34)]

/-- Go `unicode.ToLower`: an ASCII rune is lower-cased directly, any other rune
through the case table. -/
def toLowerRune (c : Char) : Char :=
  if c.toNat < 128 then c.toLower
  else
    match lowerRanges.find?
      (fun r => r.1 ≤ c.toNat && c.toNat ≤ r.2.1 && (c.toNat - r.1) % r.2.2.1 == 0) with
    | some r => Char.ofNat (c.toNat + r.2.2.2).toNat
    | none => c

/-- Go `strings.ToLower`: every rune of the string mapped by `unicode.ToLower`. -/
def ToLower (s : String) : String := String.mk (s.data.map toLowerRune)

/-- The loop of `filepath.Ext`, run over the reversed path: `acc` is the part of
the path to the right of the position under inspection. -/
def extScan : List Char → List Char → List Char
  | [], _ => []
  | c :: rest, acc =>
    if c = '/' then []
    else if c = '.' then c :: acc
    else extScan rest (c :: acc)

/-- Go `filepath.Ext` (with `/` as the path separator). -/
def Ext (path : String) : String := String.mk (extScan path.data.reverse [])

/-- A Go `error` value: a plain message, or a message built by `fmt.Errorf`
with `%w` around a cause (`wrapNil` is `%w` applied to a nil error). -/
inductive GoError where
  | new (msg : String)
  | wrapNil (pre : String)
  | wrap (pre : String) (cause : GoError)
  deriving DecidableEq, Repr

deriving instance DecidableEq for Except

/-- The text of `err.Error()`. -/
def GoError.Error : GoError → String
  | .new msg => msg
  | .wrapNil pre => pre ++ "%!w(<nil>)"
  | .wrap pre cause => pre ++ cause.Error

/-- Go `errors.Unwrap`. -/
def GoError.Unwrap : GoError → Option GoError
  | .wrap _ cause => some cause
  | _ => none

/-- The call `fmt.Errorf(pre + "%w", cause)`. -/
def Errorf (pre : String) (cause : Option GoError) : GoError :=
  match cause with
  | some c => .wrap pre c
  | none => .wrapNil pre

/-! ## Data model -/

/-- A `uuid.UUID`, held as its canonical text (`UUID.String()`). -/
abbrev UUID := String

/-- A `time.Time`. -/
abbrev Time := Nat

structure MinioConfig where
  Endpoint : String
  AccessKeyID : String
  SecretAccessKey : String
  UseSSL : Bool
  UAVDataBucketName : String
  UAVModelsBucketName : String
  PublicURL : String
  deriving DecidableEq, Repr

structure RabbitMQConfig where
  URL : String
  QueueName : String
  Exchange : String
  ReconnectDelay : Int
  PublishRetries : Int
  DurableQueue : Bool
  AutoDelete : Bool
  deriving DecidableEq, Repr

structure Config where
  Minio : MinioConfig
  RabbitMQ : RabbitMQConfig
  deriving DecidableEq, Repr

/-- The part of a `multipart.FileHeader` the service reads. -/
structure FileHeader where
  Filename : String
  Size : Int
  ContentType : String
  deriving DecidableEq, Repr

structure HeightmapTask where
  JobID : String
  UserID : String
  ImageURL : String
  OutputBucket : String
  MinioEndpoint : String
  MinioPublicURL : String
  MinioAccessKey : String
  MinioSecretKey : String
  MinioUseSSL : Bool
  CreatedAt : Time
  Priority : Int
  deriving DecidableEq, Repr

structure BatchHeightmapTask where
  BatchJobID : String
  UserID : String
  ImageURLs : List String
  OutputBucket : String
  MinioEndpoint : String
  MinioPublicURL : String
  MinioAccessKey : String
  MinioSecretKey : String
  MinioUseSSL : Bool
  MergeMethod : String
  FastMode : Bool
  GenerationMode : String
  CreatedAt : Time
  Priority : Int
  deriving DecidableEq, Repr

structure CreateHeightmapJobParams where
  ID : UUID
  UserID : UUID
  ImageUrl : String
  Status : String
  CreatedAt : Time
  UpdatedAt : Time
  deriving DecidableEq, Repr

structure CreateBatchHeightmapJobParams where
  ID : UUID
  UserID : UUID
  Status : String
  ImageCount : Int
  MergeMethod : String
  GenerationMode : String
  CreatedAt : Time
  UpdatedAt : Time
  deriving DecidableEq, Repr

structure CreateBatchImageParams where
  ID : UUID
  BatchJobID : UUID
  BatchJobIDValid : Bool
  ImageUrl : String
  Status : String
  CreatedAt : Time
  deriving DecidableEq, Repr

structure UpdateJobErrorParams where
  ID : UUID
  ErrorMessage : String
  UpdatedAt : Time
  deriving DecidableEq, Repr

structure UpdateBatchJobErrorParams where
  ID : UUID
  ErrorMessage : String
  UpdatedAt : Time
  deriving DecidableEq, Repr

structure UploadResponse where
  ID : UUID
  Status : String
  deriving DecidableEq, Repr

structure BatchUploadResponse where
  ID : UUID
  Status : String
  ImageCount : Int
  MergeMethod : String
  deriving DecidableEq, Repr

/-- A value of a JSON object member, as far as the task messages need it. -/
inductive JSONValue where
  | str (s : String)
  | bool (b : Bool)
  | num (i : Int)
  | strs (xs : List String)
  deriving DecidableEq, Repr

/-- A JSON object: its members in the order of encoding. -/
abbrev JSONObject := List (String × JSONValue)

/-- The fields of `amqp091.Publishing` the client sets, `Timestamp` apart. -/
structure Publishing where
  DeliveryMode : Nat
  ContentType : String
  Body : JSONObject
  Priority : Nat
  deriving DecidableEq, Repr

/-- The constant `amqp091.Persistent`. -/
def Persistent : Nat := 2

/-- The constant `time.Second`; a `time.Duration` counts nanoseconds. -/
def Second : Int := 1000000000

/-! ## The outside world -/

/-- A call to a collaborator. -/
inductive Call where
  | Open (filename : String)
  | UploadFile (bucket objectName : String) (size : Int) (contentType : String)
  | CreateHeightmapJob (p : CreateHeightmapJobParams)
  | CreateBatchHeightmapJob (p : CreateBatchHeightmapJobParams)
  | CreateBatchImage (p : CreateBatchImageParams)
  | UpdateJobError (p : UpdateJobErrorParams)
  | UpdateBatchJobError (p : UpdateBatchJobErrorParams)
  | Dial (url : String)
  | Channel
  | ConnClose
  | ChanClose
  | QueueDeclare (name : String) (durable autoDelete : Bool)
  | Sleep (d : Int)
  | PublishWithContext (exchange key : String) (msg : Publishing)
  deriving DecidableEq, Repr

/-- The calls made so far, oldest first, each with the error it returned
(`none` is a nil error). -/
abbrev History := List (Call × Option GoError)

/-- What the collaborators answer. -/
structure Env where
  /-- the error returned by a call, given everything that happened before it -/
  respond : History → Call → Option GoError
  /-- the answer of `c.conn.IsClosed()` -/
  connIsClosed : History → Bool
  /-- the answer of `c.channel.IsClosed()` -/
  chanIsClosed : History → Bool
  /-- the successive results of `uuid.New()` -/
  uuid : Nat → UUID
  /-- the successive results of `time.Now()` -/
  now : Nat → Time
  /-- the JSON text of a timestamp, or the error of `Time.MarshalJSON` -/
  timeJSON : Time → Except GoError String

/-- The mutable state: the history, how many ids and clock readings were
drawn, and whether the client's `conn` and `channel` fields are non-nil. -/
structure World where
  history : History
  uuids : Nat
  clock : Nat
  conn : Bool
  channel : Bool
  deriving DecidableEq, Repr

/-- The state of a process whose queue client was constructed by `NewClient`
and that has made no call yet. -/
def World.start : World := ⟨[], 0, 0, true, true⟩

/-- Make a call: ask the environment, record call and answer. -/
def call (env : Env) (c : Call) (w : World) : Option GoError × World :=
  (env.respond w.history c, { w with history := w.history ++ [(c, env.respond w.history c)] })

/-- Make a call that returns nothing (`time.Sleep`) or whose result is dropped
by the caller without being looked at (`conn.Close()` in `reconnect`). -/
def callVoid (c : Call) (w : World) : World :=
  { w with history := w.history ++ [(c, none)] }

/-- Go `uuid.New()`. -/
def uuidNew (env : Env) (w : World) : UUID × World :=
  (env.uuid w.uuids, { w with uuids := w.uuids + 1 })

/-- Go `time.Now()`. -/
def timeNow (env : Env) (w : World) : Time × World :=
  (env.now w.clock, { w with clock := w.clock + 1 })

/-! ## pkg/rabbitmq/client.go -/

/-- `Client.IsConnected`: `c.conn != nil && !c.conn.IsClosed()`. -/
def IsConnected (env : Env) (w : World) : Bool :=
  w.conn && !env.connIsClosed w.history

/-- The guard `!c.IsConnected() || c.channel == nil || c.channel.IsClosed()`. -/
def unusable (env : Env) (w : World) : Bool :=
  !IsConnected env w || !w.channel || env.chanIsClosed w.history

/-- `Client.reconnect`. -/
def reconnect (env : Env) (cfg : RabbitMQConfig) (w : World) : Option GoError × World :=
  match call env (.Dial cfg.URL) w with
  | (some err, w1) => (some (Errorf "failed to dial RabbitMQ: " (some err)), w1)
  | (none, w1) =>
    match call env .Channel w1 with
    | (some err, w2) =>
      (some (Errorf "failed to open channel: " (some err)), callVoid .ConnClose w2)
    | (none, w2) => (none, { w2 with conn := true, channel := true })

/-- The conversion `uint8(p)` of a Go `int`. -/
def uint8 (p : Int) : Nat := (p % 256).toNat

/-- The `amqp091.Publishing` built for every delivery attempt. -/
def mkPublishing (body : JSONObject) (priority : Int) : Publishing :=
  { DeliveryMode := Persistent, ContentType := "application/json", Body := body,
    Priority := uint8 priority }

/-- How a retry loop ends: `return nil` from inside it, or falling out of it
with the value of `lastErr`. -/
inductive LoopEnd where
  | published
  | exhausted (lastErr : Option GoError)
  deriving DecidableEq, Repr

/-- The retry loop shared by `PublishTask` and `PublishBatchTask`
(`for attempt := 0; attempt <= c.config.PublishRetries; attempt++`), from
iteration `attempt` on, with `todo` iterations left to run. -/
def publishLoop (env : Env) (cfg : RabbitMQConfig) (queue : String) (msg : Publishing) :
    Nat → Int → Option GoError → World → LoopEnd × World
  | 0, _, lastErr, w => (.exhausted lastErr, w)
  | todo + 1, attempt, _, w =>
    let w1 := if attempt > 0 then callVoid (.Sleep (Second * attempt)) w else w
    match (if attempt > 0 ∧ unusable env w1 = true then reconnect env cfg w1 else (none, w1)) with
    | (some err, w2) => publishLoop env cfg queue msg todo (attempt + 1) (some err) w2
    | (none, w2) =>
      match call env (.PublishWithContext cfg.Exchange queue msg) w2 with
      | (none, w3) => (.published, w3)
      | (some err, w3) => publishLoop env cfg queue msg todo (attempt + 1) (some err) w3

/-- The number of iterations of `for attempt := 0; attempt <= n; attempt++`. -/
def iterations (n : Int) : Nat := (n + 1).toNat

/-- The `json.Marshal` of a `HeightmapTask` (struct tags of `messages.go`). -/
def marshalTask (env : Env) (t : HeightmapTask) : Except GoError JSONObject :=
  match env.timeJSON t.CreatedAt with
  | .error e => .error e
  | .ok ts => .ok
    [("job_id", .str t.JobID), ("user_id", .str t.UserID), ("image_url", .str t.ImageURL),
     ("output_bucket", .str t.OutputBucket), ("minio_endpoint", .str t.MinioEndpoint),
     ("minio_public_url", .str t.MinioPublicURL), ("minio_access_key", .str t.MinioAccessKey),
     ("minio_secret_key", .str t.MinioSecretKey), ("minio_use_ssl", .bool t.MinioUseSSL),
     ("created_at", .str ts), ("priority", .num t.Priority)]

/-- The `json.Marshal` of a `BatchHeightmapTask`. -/
def marshalBatchTask (env : Env) (t : BatchHeightmapTask) : Except GoError JSONObject :=
  match env.timeJSON t.CreatedAt with
  | .error e => .error e
  | .ok ts => .ok
    [("batch_job_id", .str t.BatchJobID), ("user_id", .str t.UserID),
     ("image_urls", .strs t.ImageURLs),
     ("output_bucket", .str t.OutputBucket), ("minio_endpoint", .str t.MinioEndpoint),
     ("minio_public_url", .str t.MinioPublicURL), ("minio_access_key", .str t.MinioAccessKey),
     ("minio_secret_key", .str t.MinioSecretKey), ("minio_use_ssl", .bool t.MinioUseSSL),
     ("merge_method", .str t.MergeMethod), ("fast_mode", .bool t.FastMode),
     ("generation_mode", .str t.GenerationMode),
     ("created_at", .str ts), ("priority", .num t.Priority)]

/-- Go `%d` of an `int`. -/
def fmtInt (n : Int) : String := toString n

/-- `Client.PublishTask`. -/
def PublishTask (env : Env) (cfg : RabbitMQConfig) (task : HeightmapTask) (w : World) :
    Option GoError × World :=
  match (if unusable env w = true then reconnect env cfg w else (none, w)) with
  | (some err, w1) => (some (Errorf "failed to reconnect before publishing: " (some err)), w1)
  | (none, w1) =>
    match marshalTask env task with
    | .error err => (some (Errorf "failed to marshal task: " (some err)), w1)
    | .ok body =>
      match publishLoop env cfg cfg.QueueName (mkPublishing body task.Priority)
          (iterations cfg.PublishRetries) 0 none w1 with
      | (.published, w2) => (none, w2)
      | (.exhausted lastErr, w2) =>
        (some (Errorf ("failed to publish task after " ++ fmtInt cfg.PublishRetries ++ " retries: ")
          lastErr), w2)

/-- `Client.PublishBatchTask`. -/
def PublishBatchTask (env : Env) (cfg : RabbitMQConfig) (task : BatchHeightmapTask) (w : World) :
    Option GoError × World :=
  match (if unusable env w = true then reconnect env cfg w else (none, w)) with
  | (some err, w1) =>
    (some (Errorf "failed to reconnect before publishing batch task: " (some err)), w1)
  | (none, w1) =>
    match marshalBatchTask env task with
    | .error err => (some (Errorf "failed to marshal batch task: " (some err)), w1)
    | .ok body =>
      match call env (.QueueDeclare (cfg.QueueName ++ "_batch") cfg.DurableQueue cfg.AutoDelete) w1 with
      | (some err, w2) => (some (Errorf "failed to declare batch queue: " (some err)), w2)
      | (none, w2) =>
        match publishLoop env cfg (cfg.QueueName ++ "_batch") (mkPublishing body task.Priority)
            (iterations cfg.PublishRetries) 0 none w2 with
        | (.published, w3) => (none, w3)
        | (.exhausted lastErr, w3) =>
          (some (Errorf
            ("failed to publish batch task after " ++ fmtInt cfg.PublishRetries ++ " retries: ")
            lastErr), w3)

/-- The dial loop of `NewClient` (`for attempt := 1; attempt <= maxRetries;
attempt++`, `maxRetries` being 30), from iteration `attempt` on with `todo`
iterations left: it ends with the error `NewClient` returns or, after a
successful dial, with `none`. The loop never runs out of iterations, since its
last one returns or breaks. -/
def dialLoop (env : Env) (cfg : RabbitMQConfig) : Nat → Int → World → Option GoError × World
  | 0, _, w => (none, w)
  | todo + 1, attempt, w =>
    match call env (.Dial cfg.URL) w with
    | (some err, w1) =>
      if attempt < 30 then
        dialLoop env cfg todo (attempt + 1) (callVoid (.Sleep cfg.ReconnectDelay) w1)
      else
        (some (Errorf ("failed to connect to RabbitMQ after " ++ fmtInt 30 ++ " attempts: ")
          (some err)), w1)
    | (none, w1) => (none, w1)

/-- `NewClient`: an error, or a client whose `conn` and `channel` are set. -/
def NewClient (env : Env) (cfg : RabbitMQConfig) (w : World) : Option GoError × World :=
  match dialLoop env cfg 30 1 w with
  | (some err, w1) => (some err, w1)
  | (none, w1) =>
    match call env .Channel w1 with
    | (some err, w2) =>
      (some (Errorf "failed to open channel: " (some err)), callVoid .ConnClose w2)
    | (none, w2) =>
      match call env (.QueueDeclare cfg.QueueName cfg.DurableQueue cfg.AutoDelete) w2 with
      | (some err, w3) =>
        (some (Errorf "failed to declare queue: " (some err)),
          callVoid .ConnClose (callVoid .ChanClose w3))
      | (none, w3) => (none, { w3 with conn := true, channel := true })

/-! ## internal/heightmap/service.go -/

/-- The test `ext != ".jpg" && ext != ".jpeg" && ext != ".png"`. -/
def badExt (ext : String) : Bool :=
  ext != ".jpg" && ext != ".jpeg" && ext != ".png"

/-- The bound `100*1024*1024` of the size checks. -/
def maxFileSize : Int := 100 * 1024 * 1024

/-- The conversion `int32(n)` of a Go `int`. -/
def int32 (n : Int) : Int := (n + 2 ^ 31) % 2 ^ 32 - 2 ^ 31

/-- `Service.UploadPhoto`. -/
def UploadPhoto (env : Env) (cfg : Config) (userID : UUID) (header : FileHeader) (w : World) :
    Except GoError UploadResponse × World :=
  match timeNow env w with
  | (_, w0) =>
  let ext := ToLower (Ext header.Filename)
  if badExt ext = true then
    (.error (.new ("неподдерживаемый формат файла: " ++ ext)), w0)
  else if header.Size > maxFileSize then
    (.error (.new "файл слишком большой: максимум 100МБ"), w0)
  else
    match uuidNew env w0 with
    | (jobID, w1) =>
    let objectName := "heightmaps/" ++ userID ++ "/" ++ jobID ++ ext
    match call env (.UploadFile cfg.Minio.UAVDataBucketName objectName header.Size
        header.ContentType) w1 with
    | (some err, w2) =>
      (.error (Errorf "не удалось загрузить файл в хранилище: " (some err)), w2)
    | (none, w2) =>
    let imageURL := cfg.Minio.PublicURL ++ "/" ++ cfg.Minio.UAVDataBucketName ++ "/" ++ objectName
    match timeNow env w2 with
    | (now, w3) =>
    match call env (.CreateHeightmapJob
        { ID := jobID, UserID := userID, ImageUrl := imageURL, Status := "pending",
          CreatedAt := now, UpdatedAt := now }) w3 with
    | (some err, w4) =>
      (.error (Errorf "не удалось создать задачу в базе данных: " (some err)), w4)
    | (none, w4) =>
    let task : HeightmapTask :=
      { JobID := jobID, UserID := userID, ImageURL := imageURL,
        OutputBucket := cfg.Minio.UAVModelsBucketName, MinioEndpoint := cfg.Minio.Endpoint,
        MinioPublicURL := cfg.Minio.PublicURL, MinioAccessKey := cfg.Minio.AccessKeyID,
        MinioSecretKey := cfg.Minio.SecretAccessKey, MinioUseSSL := cfg.Minio.UseSSL,
        CreatedAt := now, Priority := 0 }
    match PublishTask env cfg.RabbitMQ task w4 with
    | (some err, w5) =>
      match timeNow env w5 with
      | (now2, w6) =>
      let errMsg := "не удалось отправить задачу в очередь: " ++ err.Error
      match call env (.UpdateJobError { ID := jobID, ErrorMessage := errMsg, UpdatedAt := now2 })
          w6 with
      | (_, w7) => (.error (Errorf "не удалось отправить задачу: " (some err)), w7)
    | (none, w5) =>
      match timeNow env w5 with
      | (_, w6) => (.ok { ID := jobID, Status := "pending" }, w6)

/-- The body of the loop `for idx, fileHeader := range files` of
`BatchUploadPhotos`, from the file with index `idx` on; `imageURLs` holds the
URLs collected so far.  It ends with the complete list, or with the error the
function returns from inside the loop. -/
def uploadBatchFiles (env : Env) (cfg : Config) (userID batchJobID : UUID) (now : Time) :
    List FileHeader → Nat → List String → World → Except GoError (List String) × World
  | [], _, imageURLs, w => (.ok imageURLs, w)
  | fileHeader :: rest, idx, imageURLs, w =>
    match call env (.Open fileHeader.Filename) w with
    | (some err, w1) =>
      (.error (Errorf ("не удалось открыть файл " ++ fileHeader.Filename ++ ": ") (some err)), w1)
    | (none, w1) =>
    let ext := ToLower (Ext fileHeader.Filename)
    if badExt ext = true then
      (.error (.new ("неподдерживаемый формат файла " ++ fileHeader.Filename ++ ": " ++ ext)), w1)
    else if fileHeader.Size > maxFileSize then
      (.error (.new ("файл " ++ fileHeader.Filename ++ " слишком большой: максимум 100МБ")), w1)
    else
      match uuidNew env w1 with
      | (imageID, w2) =>
      let objectName := "batch-heightmaps/" ++ userID ++ "/" ++ batchJobID ++ "/image_" ++
        fmtInt idx ++ ext
      match call env (.UploadFile cfg.Minio.UAVDataBucketName objectName fileHeader.Size
          fileHeader.ContentType) w2 with
      | (some err, w3) =>
        (.error (Errorf ("не удалось загрузить файл " ++ fileHeader.Filename ++ " в хранилище: ")
          (some err)), w3)
      | (none, w3) =>
      let imageURL :=
        cfg.Minio.PublicURL ++ "/" ++ cfg.Minio.UAVDataBucketName ++ "/" ++ objectName
      match call env (.CreateBatchImage
          { ID := imageID, BatchJobID := batchJobID, BatchJobIDValid := true,
            ImageUrl := imageURL, Status := "pending", CreatedAt := now }) w3 with
      | (some err, w4) =>
        (.error (Errorf "не удалось создать запись изображения в базе данных: " (some err)), w4)
      | (none, w4) =>
        uploadBatchFiles env cfg userID batchJobID now rest (idx + 1) (imageURLs ++ [imageURL]) w4

/-- The default applied to an empty `mergeMethod`. -/
def resolveMergeMethod (mergeMethod : String) : String :=
  if mergeMethod = "" then "medium" else mergeMethod

/-- The default applied to an empty `generationMode`. -/
def resolveGenerationMode (generationMode : String) : String :=
  if generationMode = "" then "heightmap" else generationMode

/-- `Service.BatchUploadPhotos`. -/
def BatchUploadPhotos (env : Env) (cfg : Config) (userID : UUID) (files : List FileHeader)
    (mergeMethod : String) (fastMode : Bool) (generationMode : String) (w : World) :
    Except GoError BatchUploadResponse × World :=
  match timeNow env w with
  | (_, w0) =>
  if files.length = 0 then
    (.error (.new "файлы не предоставлены"), w0)
  else if files.length > 50 then
    (.error (.new "слишком много файлов: максимум 50 файлов в пакете"), w0)
  else
    let mergeMethod := resolveMergeMethod mergeMethod
    if mergeMethod ≠ "medium" ∧ mergeMethod ≠ "max" ∧ mergeMethod ≠ "low" then
      (.error (.new ("некорректный метод объединения: " ++ mergeMethod ++
        " (разрешены: low, medium, max)")), w0)
    else
    let generationMode := resolveGenerationMode generationMode
    if generationMode ≠ "heightmap" ∧ generationMode ≠ "orthophoto" ∧ generationMode ≠ "both" then
      (.error (.new ("некорректный режим генерации: " ++ generationMode ++
        " (разрешены: heightmap, orthophoto, both)")), w0)
    else if (generationMode = "orthophoto" ∨ generationMode = "both") ∧ files.length < 5 then
      (.error (.new
        ("для генерации ортофотоплана требуется минимум 5 изображений, предоставлено: " ++
          fmtInt files.length)), w0)
    else
    match uuidNew env w0 with
    | (batchJobID, w1) =>
    match timeNow env w1 with
    | (now, w2) =>
    match call env (.CreateBatchHeightmapJob
        { ID := batchJobID, UserID := userID, Status := "pending",
          ImageCount := int32 files.length, MergeMethod := mergeMethod,
          GenerationMode := generationMode, CreatedAt := now, UpdatedAt := now }) w2 with
    | (some err, w3) =>
      (.error (Errorf "не удалось создать пакетную задачу в базе данных: " (some err)), w3)
    | (none, w3) =>
    match uploadBatchFiles env cfg userID batchJobID now files 0 [] w3 with
    | (.error err, w4) => (.error err, w4)
    | (.ok imageURLs, w4) =>
    let task : BatchHeightmapTask :=
      { BatchJobID := batchJobID, UserID := userID, ImageURLs := imageURLs,
        OutputBucket := cfg.Minio.UAVModelsBucketName, MinioEndpoint := cfg.Minio.Endpoint,
        MinioPublicURL := cfg.Minio.PublicURL, MinioAccessKey := cfg.Minio.AccessKeyID,
        MinioSecretKey := cfg.Minio.SecretAccessKey, MinioUseSSL := cfg.Minio.UseSSL,
        MergeMethod := mergeMethod, FastMode := fastMode, GenerationMode := generationMode,
        CreatedAt := now, Priority := 0 }
    match PublishBatchTask env cfg.RabbitMQ task w4 with
    | (some err, w5) =>
      match timeNow env w5 with
      | (now2, w6) =>
      let errMsg := "не удалось отправить пакетную задачу в очередь: " ++ err.Error
      match call env (.UpdateBatchJobError
          { ID := batchJobID, ErrorMessage := errMsg, UpdatedAt := now2 }) w6 with
      | (_, w7) => (.error (Errorf "не удалось отправить пакетную задачу: " (some err)), w7)
    | (none, w5) =>
      match timeNow env w5 with
      | (_, w6) =>
        (.ok { ID := batchJobID, Status := "pending", ImageCount := files.length,
               MergeMethod := mergeMethod }, w6)

/-! ## internal/storage/minio/minio.go -/

/-- The fields of `Minio` that `NewMinio` copies from the configuration. -/
structure Minio where
  uavDataBucket : String
  uavModelsBucket : String
  publicURL : String
  deriving DecidableEq, Repr

/-- The `Minio` value `NewMinio` builds from a configuration. -/
def Minio.ofConfig (cfg : MinioConfig) : Minio :=
  { uavDataBucket := cfg.UAVDataBucketName, uavModelsBucket := cfg.UAVModelsBucketName,
    publicURL := cfg.PublicURL }

/-- `Minio.GetFileURL`. -/
def GetFileURL (m : Minio) (bucket objectName : String) : String :=
  m.publicURL ++ "/" ++ bucket ++ "/" ++ objectName

/-! ## internal/heightmap/handler.go -/

/-- A parsed multipart form: the uploaded files and the values, by field name. -/
structure MultipartForm where
  File : List (String × List FileHeader)
  Value : List (String × List String)
  deriving DecidableEq, Repr

/-- The part of a request the batch handler reads: the user id stored by the
authentication middleware, if any, and the multipart form, if it parses. -/
structure BatchRequest where
  userID : Option String
  form : Option MultipartForm
  deriving DecidableEq, Repr

/-- The answer of the batch handler: a status code with an error text or with
the result of the service. -/
inductive Response where
  | error (status : Nat) (msg : String)
  | accepted (status : Nat) (result : BatchUploadResponse)
  deriving DecidableEq, Repr

/-- The map lookup `form.File["files"]`: the files of a field, none if the field
is absent. -/
def formFiles (form : MultipartForm) (key : String) : List FileHeader :=
  (form.File.lookup key).getD []

/-- The call `c.DefaultPostForm(key, defaultValue)` of gin: the first value of the
field when the form has the field, else the default. -/
def DefaultPostForm (form : MultipartForm) (key defaultValue : String) : String :=
  match form.Value.lookup key with
  | some (v :: _) => v
  | _ => defaultValue

/-- `Handler.BatchUploadPhotos`; `parse` is `uuid.Parse`. -/
def Handler.BatchUploadPhotos (env : Env) (cfg : Config) (parse : String → Option UUID)
    (req : BatchRequest) (w : World) : Response × World :=
  match req.userID with
  | none => (.error 401 "Не авторизован", w)
  | some userIDStr =>
    match parse userIDStr with
    | none => (.error 400 "Некорректный ID пользователя", w)
    | some userID =>
      match req.form with
      | none => (.error 400 "Не удалось обработать форму", w)
      | some form =>
        let files := formFiles form "files"
        if files.length = 0 then (.error 400 "Файлы не предоставлены", w)
        else
          let mergeMethod := DefaultPostForm form "merge_method" "average"
          let fastMode := DefaultPostForm form "fast_mode" "false" == "true"
          let generationMode := DefaultPostForm form "generation_mode" "heightmap"
          match Dev2gis.BatchUploadPhotos env cfg userID files mergeMethod fastMode generationMode
              w with
          | (.error err, w1) => (.error 500 err.Error, w1)
          | (.ok result, w1) => (.accepted 202 result, w1)

/-! ## Reading a history -/

/-- The calls made between two states. -/
def newCalls (w w2 : World) : History := w2.history.drop w.history.length

/-- A delivery attempt: a call of `PublishWithContext`. -/
def isPublish : Call × Option GoError → Bool
  | (.PublishWithContext _ _ _, _) => true
  | _ => false

/-- A delivery attempt that returned a nil error. -/
def isAcked : Call × Option GoError → Bool
  | (.PublishWithContext _ _ _, none) => true
  | _ => false

/-- The number of delivery attempts in a history. -/
def publishAttempts (h : History) : Nat := h.countP isPublish

/-- The calls that go to the broker (or wait for it). -/
def isBroker : Call → Bool
  | .Dial _ | .Channel | .ConnClose | .ChanClose | .QueueDeclare _ _ _ | .Sleep _
  | .PublishWithContext _ _ _ => true
  | _ => false

/-- A write of an error state: `UpdateJobError` or `UpdateBatchJobError`. -/
def isUpdateError : Call × Option GoError → Bool
  | (.UpdateJobError _, _) => true
  | (.UpdateBatchJobError _, _) => true
  | _ => false

/-- The calls made for one file of a batch: open, upload, record creation. -/
def isFileCall : Call → Bool
  | .Open _ | .UploadFile _ _ _ _ | .CreateBatchImage _ => true
  | _ => false

/-- An open of an uploaded file. -/
def isOpenCall : Call × Option GoError → Bool
  | (.Open _, _) => true
  | _ => false

/-- A call of the object store's `UploadFile`. -/
def isUploadCall : Call × Option GoError → Bool
  | (.UploadFile _ _ _ _, _) => true
  | _ => false

/-- A call of `CreateBatchImage`. -/
def isImageCall : Call × Option GoError → Bool
  | (.CreateBatchImage _, _) => true
  | _ => false

/-- The cause a failed call contributes to `lastErr`: the error of a failed
delivery attempt, or the error `reconnect` builds from a failed dial or a
failed channel opening. -/
def failureOf : Call × Option GoError → Option GoError
  | (.PublishWithContext _ _ _, some e) => some e
  | (.Dial _, some e) => some (Errorf "failed to dial RabbitMQ: " (some e))
  | (.Channel, some e) => some (Errorf "failed to open channel: " (some e))
  | _ => none

/-- The cause of the last failed delivery attempt or failed reconnect of a
history, if there is one. -/
def lastFailure : History → Option GoError
  | [] => none
  | e :: rest => (lastFailure rest).or (failureOf e)

/-- The calls the retry loop can make: a sleep, the calls of `reconnect`, and a
delivery of `msg` to `queue` through the configured exchange. -/
def loopEvent (cfg : RabbitMQConfig) (queue : String) (msg : Publishing) :
    Call × Option GoError → Bool
  | (.Sleep _, none) => true
  | (.Dial url, _) => url == cfg.URL
  | (.Channel, _) => true
  | (.ConnClose, none) => true
  | (.PublishWithContext x k m, _) => x == cfg.Exchange && k == queue && m == msg
  | _ => false

/-! ## The calls a batch is expected to make -/

/-- The object key of the file with index `idx` of a batch. -/
def batchObjectName (userID batchJobID : UUID) (idx : Nat) (f : FileHeader) : String :=
  "batch-heightmaps/" ++ userID ++ "/" ++ batchJobID ++ "/image_" ++ fmtInt idx ++
    ToLower (Ext f.Filename)

/-- The public URL of the file with index `idx` of a batch. -/
def batchImageURL (cfg : Config) (userID batchJobID : UUID) (idx : Nat) (f : FileHeader) :
    String :=
  cfg.Minio.PublicURL ++ "/" ++ cfg.Minio.UAVDataBucketName ++ "/" ++
    batchObjectName userID batchJobID idx f

/-- The upload of the file with index `idx` of a batch. -/
def batchUploadCall (cfg : Config) (userID batchJobID : UUID) (idx : Nat) (f : FileHeader) :
    Call :=
  .UploadFile cfg.Minio.UAVDataBucketName (batchObjectName userID batchJobID idx f) f.Size
    f.ContentType

/-- The creation of the BatchImage record of the file with index `idx`, whose
id is the `u`-th id drawn. -/
def batchImageCall (env : Env) (cfg : Config) (userID batchJobID : UUID) (now : Time)
    (idx u : Nat) (f : FileHeader) : Call :=
  .CreateBatchImage
    { ID := env.uuid u, BatchJobID := batchJobID, BatchJobIDValid := true,
      ImageUrl := batchImageURL cfg userID batchJobID idx f, Status := "pending",
      CreatedAt := now }

/-- The calls made for a list of files that are all processed without error,
the first with index `idx` and image id number `u`: per file an open, an upload
and a record creation, each successful. -/
def expectedBatchCalls (env : Env) (cfg : Config) (userID batchJobID : UUID) (now : Time) :
    List FileHeader → Nat → Nat → History
  | [], _, _ => []
  | f :: rest, idx, u =>
    [(.Open f.Filename, none), (batchUploadCall cfg userID batchJobID idx f, none),
     (batchImageCall env cfg userID batchJobID now idx u f, none)] ++
      expectedBatchCalls env cfg userID batchJobID now rest (idx + 1) (u + 1)

/-- The URLs collected for a list of files, the first with index `idx`. -/
def expectedURLs (cfg : Config) (userID batchJobID : UUID) : List FileHeader → Nat → List String
  | [], _ => []
  | f :: rest, idx =>
    batchImageURL cfg userID batchJobID idx f :: expectedURLs cfg userID batchJobID rest (idx + 1)

/-- A file that passes the per-file checks of a batch: supported extension,
size within the bound. -/
def fileOk (f : FileHeader) : Bool :=
  !badExt (ToLower (Ext f.Filename)) && decide (f.Size ≤ maxFileSize)

/-- The calls made for a file at which the batch fails, and the error returned:
the open fails; the extension or the size is rejected after the open; the
upload fails; or the record creation fails after the upload. -/
def failedFileCalls (env : Env) (cfg : Config) (userID batchJobID : UUID) (now : Time)
    (f : FileHeader) (idx u : Nat) (calls : History) (e : GoError) : Prop :=
  (∃ err, calls = [(.Open f.Filename, some err)] ∧
    e = Errorf ("не удалось открыть файл " ++ f.Filename ++ ": ") (some err)) ∨
  (calls = [(.Open f.Filename, none)] ∧ badExt (ToLower (Ext f.Filename)) = true ∧
    e = .new ("неподдерживаемый формат файла " ++ f.Filename ++ ": " ++
      ToLower (Ext f.Filename))) ∨
  (calls = [(.Open f.Filename, none)] ∧ badExt (ToLower (Ext f.Filename)) = false ∧
    f.Size > maxFileSize ∧
    e = .new ("файл " ++ f.Filename ++ " слишком большой: максимум 100МБ")) ∨
  (∃ err, calls = [(.Open f.Filename, none),
      (batchUploadCall cfg userID batchJobID idx f, some err)] ∧ fileOk f = true ∧
    e = Errorf ("не удалось загрузить файл " ++ f.Filename ++ " в хранилище: ") (some err)) ∨
  (∃ err, calls = [(.Open f.Filename, none),
      (batchUploadCall cfg userID batchJobID idx f, none),
      (batchImageCall env cfg userID batchJobID now idx u f, some err)] ∧ fileOk f = true ∧
    e = Errorf "не удалось создать запись изображения в базе данных: " (some err))

/-- The batch-level checks of `BatchUploadPhotos` pass: file count, merge
method, generation mode and minimum number of images. -/
def batchValid (files : List FileHeader) (mergeMethod generationMode : String) : Prop :=
  files.length ≠ 0 ∧ files.length ≤ 50 ∧
  (resolveMergeMethod mergeMethod = "medium" ∨ resolveMergeMethod mergeMethod = "max" ∨
    resolveMergeMethod mergeMethod = "low") ∧
  (resolveGenerationMode generationMode = "heightmap" ∨
    resolveGenerationMode generationMode = "orthophoto" ∨
    resolveGenerationMode generationMode = "both") ∧
  ¬ ((resolveGenerationMode generationMode = "orthophoto" ∨
      resolveGenerationMode generationMode = "both") ∧ files.length < 5)

instance (files : List FileHeader) (mergeMethod generationMode : String) :
    Decidable (batchValid files mergeMethod generationMode) := by
  unfold batchValid; infer_instance

/-- The creation of the BatchJob record by a batch upload started in state `w`. -/
def batchJobCall (env : Env) (userID : UUID) (files : List FileHeader)
    (mergeMethod generationMode : String) (w : World) : Call :=
  .CreateBatchHeightmapJob
    { ID := env.uuid w.uuids, UserID := userID, Status := "pending",
      ImageCount := int32 files.length, MergeMethod := resolveMergeMethod mergeMethod,
      GenerationMode := resolveGenerationMode generationMode,
      CreatedAt := env.now (w.clock + 1), UpdatedAt := env.now (w.clock + 1) }

/-- The task a batch upload started in state `w` hands to the publisher. -/
def batchTask (env : Env) (cfg : Config) (userID : UUID) (files : List FileHeader)
    (mergeMethod : String) (fastMode : Bool) (generationMode : String) (w : World) :
    BatchHeightmapTask :=
  { BatchJobID := env.uuid w.uuids, UserID := userID,
    ImageURLs := expectedURLs cfg userID (env.uuid w.uuids) files 0,
    OutputBucket := cfg.Minio.UAVModelsBucketName, MinioEndpoint := cfg.Minio.Endpoint,
    MinioPublicURL := cfg.Minio.PublicURL, MinioAccessKey := cfg.Minio.AccessKeyID,
    MinioSecretKey := cfg.Minio.SecretAccessKey, MinioUseSSL := cfg.Minio.UseSSL,
    MergeMethod := resolveMergeMethod mergeMethod, FastMode := fastMode,
    GenerationMode := resolveGenerationMode generationMode,
    CreatedAt := env.now (w.clock + 1), Priority := 0 }

/-- The state of a batch upload started in state `w` after the creation of the
BatchJob record, where the per-file loop starts. -/
def batchCreatedState (env : Env) (userID : UUID) (files : List FileHeader)
    (mergeMethod generationMode : String) (w : World) : World :=
  { history := w.history ++ [(batchJobCall env userID files mergeMethod generationMode w, none)],
    uuids := w.uuids + 1, clock := w.clock + 2, conn := w.conn, channel := w.channel }

/-- The per-file loop of a batch upload started in state `w`. -/
def batchLoop (env : Env) (cfg : Config) (userID : UUID) (files : List FileHeader)
    (mergeMethod generationMode : String) (w : World) :
    Except GoError (List String) × World :=
  uploadBatchFiles env cfg userID (env.uuid w.uuids) (env.now (w.clock + 1)) files 0 []
    (batchCreatedState env userID files mergeMethod generationMode w)

/-- The state in which a batch upload started in state `w` calls the publisher:
the BatchJob record was created and every file was processed. -/
def batchPublishState (env : Env) (cfg : Config) (userID : UUID) (files : List FileHeader)
    (mergeMethod generationMode : String) (w : World) : World :=
  { history := w.history ++ (batchJobCall env userID files mergeMethod generationMode w, none) ::
      expectedBatchCalls env cfg userID (env.uuid w.uuids) (env.now (w.clock + 1)) files 0
        (w.uuids + 1),
    uuids := w.uuids + 1 + files.length, clock := w.clock + 2, conn := w.conn,
    channel := w.channel }

/-- The publisher call of a batch upload started in state `w`. -/
def batchPublish (env : Env) (cfg : Config) (userID : UUID) (files : List FileHeader)
    (mergeMethod : String) (fastMode : Bool) (generationMode : String) (w : World) :
    Option GoError × World :=
  PublishBatchTask env cfg.RabbitMQ
    (batchTask env cfg userID files mergeMethod fastMode generationMode w)
    (batchPublishState env cfg userID files mergeMethod generationMode w)

/-- The write of the error state after a failed batch publish. -/
def batchErrorCall (env : Env) (cfg : Config) (userID : UUID) (files : List FileHeader)
    (mergeMethod : String) (fastMode : Bool) (generationMode : String) (w : World)
    (err : GoError) : Call :=
  .UpdateBatchJobError
    { ID := env.uuid w.uuids,
      ErrorMessage := "не удалось отправить пакетную задачу в очередь: " ++ err.Error,
      UpdatedAt := env.now
        (batchPublish env cfg userID files mergeMethod fastMode generationMode w).2.clock }

/-- A batch upload started in state `w` gets as far as the publisher: the
batch-level checks pass, the BatchJob record is created and the per-file loop
ends without error. -/
def batchReachesPublish (env : Env) (cfg : Config) (userID : UUID) (files : List FileHeader)
    (mergeMethod generationMode : String) (w : World) : Prop :=
  batchValid files mergeMethod generationMode ∧
  env.respond w.history (batchJobCall env userID files mergeMethod generationMode w) = none ∧
  ∃ urls, (batchLoop env cfg userID files mergeMethod generationMode w).1 = .ok urls

/-! ## The calls a single upload is expected to make -/

/-- The object key of a single upload started in state `w`. -/
def uploadObjectName (env : Env) (userID : UUID) (header : FileHeader) (w : World) : String :=
  "heightmaps/" ++ userID ++ "/" ++ env.uuid w.uuids ++ ToLower (Ext header.Filename)

/-- The public URL of the image of a single upload started in state `w`. -/
def uploadImageURL (env : Env) (cfg : Config) (userID : UUID) (header : FileHeader)
    (w : World) : String :=
  cfg.Minio.PublicURL ++ "/" ++ cfg.Minio.UAVDataBucketName ++ "/" ++
    uploadObjectName env userID header w

/-- The object-store call of a single upload started in state `w`. -/
def uploadCall (env : Env) (cfg : Config) (userID : UUID) (header : FileHeader) (w : World) :
    Call :=
  .UploadFile cfg.Minio.UAVDataBucketName (uploadObjectName env userID header w) header.Size
    header.ContentType

/-- The creation of the Job record by a single upload started in state `w`. -/
def jobCall (env : Env) (cfg : Config) (userID : UUID) (header : FileHeader) (w : World) :
    Call :=
  .CreateHeightmapJob
    { ID := env.uuid w.uuids, UserID := userID,
      ImageUrl := uploadImageURL env cfg userID header w, Status := "pending",
      CreatedAt := env.now (w.clock + 1), UpdatedAt := env.now (w.clock + 1) }

/-- The task a single upload started in state `w` hands to the publisher. -/
def uploadTask (env : Env) (cfg : Config) (userID : UUID) (header : FileHeader) (w : World) :
    HeightmapTask :=
  { JobID := env.uuid w.uuids, UserID := userID,
    ImageURL := uploadImageURL env cfg userID header w,
    OutputBucket := cfg.Minio.UAVModelsBucketName, MinioEndpoint := cfg.Minio.Endpoint,
    MinioPublicURL := cfg.Minio.PublicURL, MinioAccessKey := cfg.Minio.AccessKeyID,
    MinioSecretKey := cfg.Minio.SecretAccessKey, MinioUseSSL := cfg.Minio.UseSSL,
    CreatedAt := env.now (w.clock + 1), Priority := 0 }

/-- The state in which a single upload started in state `w` calls the
publisher: the file was uploaded and the Job record created. -/
def uploadPublishState (env : Env) (cfg : Config) (userID : UUID) (header : FileHeader)
    (w : World) : World :=
  { history := w.history ++ [(uploadCall env cfg userID header w, none),
      (jobCall env cfg userID header w, none)],
    uuids := w.uuids + 1, clock := w.clock + 2, conn := w.conn, channel := w.channel }

/-- The publisher call of a single upload started in state `w`. -/
def uploadPublish (env : Env) (cfg : Config) (userID : UUID) (header : FileHeader)
    (w : World) : Option GoError × World :=
  PublishTask env cfg.RabbitMQ (uploadTask env cfg userID header w)
    (uploadPublishState env cfg userID header w)

/-- The write of the error state after a failed single publish. -/
def jobErrorCall (env : Env) (cfg : Config) (userID : UUID) (header : FileHeader) (w : World)
    (err : GoError) : Call :=
  .UpdateJobError
    { ID := env.uuid w.uuids,
      ErrorMessage := "не удалось отправить задачу в очередь: " ++ err.Error,
      UpdatedAt := env.now (uploadPublish env cfg userID header w).2.clock }

/-- A single upload started in state `w` gets as far as the publisher: the file
passes validation, the upload succeeds and the Job record is created. -/
def uploadReachesPublish (env : Env) (cfg : Config) (userID : UUID) (header : FileHeader)
    (w : World) : Prop :=
  fileOk header = true ∧
  env.respond w.history (uploadCall env cfg userID header w) = none ∧
  env.respond (w.history ++ [(uploadCall env cfg userID header w, none)])
    (jobCall env cfg userID header w) = none

/-! ## Concrete environments and inputs -/

/-- An environment in which every call succeeds and the connection is open. -/
def envOk : Env :=
  { respond := fun _ _ => none, connIsClosed := fun _ => false, chanIsClosed := fun _ => false,
    uuid := fun n => "id" ++ toString n, now := fun n => n, timeJSON := fun _ => .ok "t" }

/-- A configuration close to the test fixtures of the repository. -/
def cfgTest : Config :=
  { Minio := { Endpoint := "minio:9000", AccessKeyID := "ak", SecretAccessKey := "sk",
               UseSSL := false, UAVDataBucketName := "uav-data",
               UAVModelsBucketName := "uav-models", PublicURL := "http://minio:9000" },
    RabbitMQ := { URL := "amqp://rabbitmq:5672/", QueueName := "heightmap.tasks", Exchange := "",
                  ReconnectDelay := 5000000000, PublishRetries := 3, DurableQueue := true,
                  AutoDelete := false } }

/-- A transport that is down: the connection is closed and every call fails. -/
def envDown : Env :=
  { envOk with respond := fun _ _ => some (.new "connection refused"),
               connIsClosed := fun _ => true, chanIsClosed := fun _ => true }

/-- A broker that refuses every delivery on an open connection. -/
def envNack : Env :=
  { envOk with respond := fun _ c =>
      match c with
      | .PublishWithContext _ _ _ => some (.new "nack")
      | _ => none }

/-- A transport that accepts no delivery and is found closed, with the broker
unreachable, as soon as one delivery was attempted. -/
def envDrop : Env :=
  { envOk with respond := fun _ _ => some (.new "connection reset"),
               connIsClosed := fun h => h.any isPublish,
               chanIsClosed := fun h => h.any isPublish }

/-- An environment in which the job repository is unavailable. -/
def envRepoDown : Env :=
  { envOk with respond := fun _ c =>
      match c with
      | .CreateHeightmapJob _ => some (.new "db unavailable")
      | .CreateBatchHeightmapJob _ => some (.new "db unavailable")
      | .CreateBatchImage _ => some (.new "db unavailable")
      | _ => none }

/-- A single-image task. -/
def taskTest : HeightmapTask :=
  { JobID := "j1", UserID := "u", ImageURL := "http://minio:9000/uav-data/heightmaps/u/j1.png",
    OutputBucket := "uav-models", MinioEndpoint := "minio:9000",
    MinioPublicURL := "http://minio:9000", MinioAccessKey := "ak", MinioSecretKey := "sk",
    MinioUseSSL := false, CreatedAt := 0, Priority := 0 }

/-- A batch task. -/
def batchTaskTest : BatchHeightmapTask :=
  { BatchJobID := "b1", UserID := "u", ImageURLs := ["http://minio:9000/uav-data/x.png"],
    OutputBucket := "uav-models", MinioEndpoint := "minio:9000",
    MinioPublicURL := "http://minio:9000", MinioAccessKey := "ak", MinioSecretKey := "sk",
    MinioUseSSL := false, MergeMethod := "medium", FastMode := false,
    GenerationMode := "heightmap", CreatedAt := 0, Priority := 0 }

/-- A small PNG file. -/
def photoPng : FileHeader := ⟨"photo.png", 2097152, "image/png"⟩

/-- Three small JPEG files. -/
def threeJpgs : List FileHeader :=
  [⟨"a.jpg", 1000, "image/jpeg"⟩, ⟨"b.jpg", 1000, "image/jpeg"⟩, ⟨"c.jpg", 1000, "image/jpeg"⟩]

/-- A JPEG file followed by a BMP file. -/
def jpgThenBmp : List FileHeader :=
  [⟨"a.jpg", 1000, "image/jpeg"⟩, ⟨"b.bmp", 1000, "image/bmp"⟩]

/-- Five small PNG files. -/
def fivePngs : List FileHeader :=
  [⟨"p0.png", 1000, "image/png"⟩, ⟨"p1.png", 1000, "image/png"⟩, ⟨"p2.png", 1000, "image/png"⟩,
   ⟨"p3.png", 1000, "image/png"⟩, ⟨"p4.png", 1000, "image/png"⟩]

/-- A call of `CreateBatchHeightmapJob`. -/
def isBatchJobCall : Call × Option GoError → Bool
  | (.CreateBatchHeightmapJob _, _) => true
  | _ => false

/-- A call of `QueueDeclare`. -/
def isDeclare : Call × Option GoError → Bool
  | (.QueueDeclare _ _ _, _) => true
  | _ => false

/-- The wire encoding of `taskTest` with the timestamp text of `envOk`. -/
def bodyTest : JSONObject :=
  [("job_id", .str "j1"), ("user_id", .str "u"),
   ("image_url", .str "http://minio:9000/uav-data/heightmaps/u/j1.png"),
   ("output_bucket", .str "uav-models"), ("minio_endpoint", .str "minio:9000"),
   ("minio_public_url", .str "http://minio:9000"), ("minio_access_key", .str "ak"),
   ("minio_secret_key", .str "sk"), ("minio_use_ssl", .bool false),
   ("created_at", .str "t"), ("priority", .num 0)]

/-- The id of an authenticated user, in canonical text. -/
def userTest : String := "123e4567-e89b-12d3-a456-426614174000"

/-- The results of `uuid.Parse` on the ids used here: `userTest` parses, other
texts do not. -/
def parseTest (s : String) : Option UUID := if s = userTest then some s else none

/-- An authenticated batch request with five PNG files under `files` and no
other form field. -/
def requestNoMergeMethod : BatchRequest :=
  { userID := some userTest, form := some { File := [("files", fivePngs)], Value := [] } }

/-- The same request with the form field `merge_method=medium`. -/
def requestMedium : BatchRequest :=
  { userID := some userTest,
    form := some { File := [("files", fivePngs)], Value := [("merge_method", ["medium"])] } }

/-- The queue configuration of `cfgTest` with `RABBITMQ_PUBLISH_RETRIES=-1`. -/
def cfgNegative : RabbitMQConfig := { cfgTest.RabbitMQ with PublishRetries := -1 }

/-! ## NewMinio -/

/-- A call to the MinIO SDK made by `NewMinio`. -/
inductive MinioCall where
  | New (endpoint : String)
  | BucketExists (bucket : String)
  | MakeBucket (bucket : String)
  deriving DecidableEq, Repr

/-- What the MinIO SDK answers, given the calls made so far. -/
structure MinioEnv where
  /-- the error of `minio.New` -/
  newClient : String → Option GoError
  /-- the result of `client.BucketExists` -/
  bucketExists : List MinioCall → String → Except GoError Bool
  /-- the error of `client.MakeBucket` -/
  makeBucket : List MinioCall → String → Option GoError

/-- `Minio.ensureBucketExists`, passing the list of SDK calls made so far. -/
def ensureBucketExists (env : MinioEnv) (bucket : String) (h : List MinioCall) :
    Option GoError × List MinioCall :=
  match env.bucketExists h bucket with
  | .error err =>
    (some (Errorf "failed to check bucket existence: " (some err)), h ++ [.BucketExists bucket])
  | .ok found =>
    if !found then
      match env.makeBucket (h ++ [.BucketExists bucket]) bucket with
      | some err =>
        (some (Errorf "failed to create bucket: " (some err)),
          h ++ [.BucketExists bucket, .MakeBucket bucket])
      | none => (none, h ++ [.BucketExists bucket, .MakeBucket bucket])
    else (none, h ++ [.BucketExists bucket])

/-- `NewMinio`: an error, or the `Minio` value built from the configuration. -/
def NewMinio (env : MinioEnv) (cfg : MinioConfig) (h : List MinioCall) :
    Except GoError Minio × List MinioCall :=
  match env.newClient cfg.Endpoint with
  | some err =>
    (.error (Errorf "failed to create MinIO client: " (some err)), h ++ [.New cfg.Endpoint])
  | none =>
    let minio := Minio.ofConfig cfg
    match ensureBucketExists env minio.uavDataBucket (h ++ [.New cfg.Endpoint]) with
    | (some err, h1) => (.error (Errorf "failed to ensure bucket exists: " (some err)), h1)
    | (none, h1) =>
      if minio.uavModelsBucket ≠ "" ∨ minio.uavDataBucket ≠ "" then
        match ensureBucketExists env minio.uavModelsBucket h1 with
        | (some err, h2) =>
          (.error (Errorf "failed to ensure uav models bucket exists: " (some err)), h2)
        | (none, h2) => (.ok minio, h2)
      else (.ok minio, h1)

/-- An object store in which every bucket with a non-empty name exists and an
empty bucket name is refused. -/
def minioOk : MinioEnv :=
  { newClient := fun _ => none,
    bucketExists := fun _ b =>
      if b = "" then .error (.new "Bucket name cannot be empty") else .ok true,
    makeBucket := fun _ b =>
      if b = "" then some (.new "Bucket name cannot be empty") else none }

/-- The object-store configuration of `cfgTest` with no models bucket name. -/
def cfgNoModels : MinioConfig := { cfgTest.Minio with UAVModelsBucketName := "" }

/-! ## The list handlers of internal/heightmap/handler.go -/

/-- Go `strconv.Atoi` where `int` has 64 bits: an optional sign, then one or
more decimal digits, the value within the range of `int`; anything else is an
error. -/
def Atoi (s : String) : Option Int :=
  let digits := match s.data with
    | '-' :: r => r
    | '+' :: r => r
    | r => r
  if digits = [] ∨ digits.all Char.isDigit = false then none
  else
    let n : Int := digits.foldl (fun n c => n * 10 + ((c.toNat : Int) - 48)) 0
    let v := if s.data.head? = some '-' then -n else n
    if v < -9223372036854775808 ∨ v > 9223372036854775807 then none else some v

/-- The call `c.DefaultQuery(key, defaultValue)` of gin, given the value of the
query parameter if it is present. -/
def DefaultQuery (value : Option String) (defaultValue : String) : String :=
  value.getD defaultValue

/-- The limit and offset `Handler.ListHeightMaps` passes to
`Service.ListUserHeightmaps`, which hands them on to the repository unchanged,
for a request of an authenticated user with the given `limit` and `offset`
query parameters. -/
def ListHeightMapsArgs (limitQuery offsetQuery : Option String) : Int × Int :=
  let limitStr := DefaultQuery limitQuery "20"
  let offsetStr := DefaultQuery offsetQuery "0"
  let limit := match Atoi limitStr with
    | none => 20
    | some limit => if limit ≤ 0 then 20 else limit
  let limit := if limit > 100 then 100 else limit
  let offset := match Atoi offsetStr with
    | none => 0
    | some offset => if offset < 0 then 0 else offset
  (int32 limit, int32 offset)

/-- The limit and offset `Handler.ListBatchHeightMaps` passes to
`Service.ListUserBatchHeightmaps`. -/
def ListBatchHeightMapsArgs (limitQuery offsetQuery : Option String) : Int × Int :=
  let limitStr := DefaultQuery limitQuery "20"
  let offsetStr := DefaultQuery offsetQuery "0"
  let limit := match Atoi limitStr with
    | none => 20
    | some limit => if limit ≤ 0 then 20 else limit
  let limit := if limit > 100 then 100 else limit
  let offset := match Atoi offsetStr with
    | none => 0
    | some offset => if offset < 0 then 0 else offset
  (int32 limit, int32 offset)

/-! ## internal/auth/service.go -/

/-- The fields of `sqlc.User` the auth service reads. -/
structure User where
  ID : UUID
  Email : String
  PasswordHash : String
  Name : String
  deriving DecidableEq, Repr

structure TokenPair where
  AccessToken : String
  RefreshToken : String
  deriving DecidableEq, Repr

structure UserResponse where
  ID : String
  Email : String
  Name : String
  Role : String
  deriving DecidableEq, Repr

structure LoginResponse where
  User : UserResponse
  Tokens : TokenPair
  deriving DecidableEq, Repr

structure CreateUserRequest where
  Email : String
  Password : String
  Name : String
  deriving DecidableEq, Repr

structure LoginUserRequest where
  Email : String
  Password : String
  deriving DecidableEq, Repr

structure CreateParams where
  Email : String
  PasswordHash : String
  Name : String
  deriving DecidableEq, Repr

/-- A call of the auth service to the user queries, to bcrypt or to the JWT
service. -/
inductive AuthCall where
  | GetByEmail (email : String)
  | GenerateFromPassword (password : String)
  | CompareHashAndPassword (hash password : String)
  | Create (p : CreateParams)
  | GenerateTokenPair (userID : UUID) (email name role : String)
  deriving DecidableEq, Repr

/-- What the collaborators of the auth service answer, given the calls made so
far. -/
structure AuthEnv where
  getByEmail : List AuthCall → String → Except GoError User
  generateFromPassword : List AuthCall → String → Except GoError String
  compareHashAndPassword : String → String → Option GoError
  create : List AuthCall → CreateParams → Except GoError User
  generateTokenPair : List AuthCall → UUID → String → String → String →
    Except GoError TokenPair

/-- `AuthService.CreateUser`, passing the list of calls made so far. -/
def CreateUser (env : AuthEnv) (req : CreateUserRequest) (h : List AuthCall) :
    Except GoError LoginResponse × List AuthCall :=
  match env.getByEmail h req.Email with
  | .ok _ =>
    (.error (.new "пользователь с таким email уже существует"), h ++ [.GetByEmail req.Email])
  | .error _ =>
    match env.generateFromPassword (h ++ [.GetByEmail req.Email]) req.Password with
    | .error _ =>
      (.error (.new "ошибка обработки пароля"),
        h ++ [.GetByEmail req.Email, .GenerateFromPassword req.Password])
    | .ok hashedPassword =>
      match env.create (h ++ [.GetByEmail req.Email, .GenerateFromPassword req.Password])
          { Email := req.Email, PasswordHash := hashedPassword, Name := req.Name } with
      | .error _ =>
        (.error (.new "не удалось создать пользователя"),
          h ++ [.GetByEmail req.Email, .GenerateFromPassword req.Password,
            .Create { Email := req.Email, PasswordHash := hashedPassword, Name := req.Name }])
      | .ok user =>
        match env.generateTokenPair
            (h ++ [.GetByEmail req.Email, .GenerateFromPassword req.Password,
              .Create { Email := req.Email, PasswordHash := hashedPassword, Name := req.Name }])
            user.ID user.Email user.Name "user" with
        | .error _ =>
          (.error (.new "не удалось сгенерировать токены"),
            h ++ [.GetByEmail req.Email, .GenerateFromPassword req.Password,
              .Create { Email := req.Email, PasswordHash := hashedPassword, Name := req.Name },
              .GenerateTokenPair user.ID user.Email user.Name "user"])
        | .ok tokens =>
          (.ok { User := { ID := user.ID, Email := user.Email, Name := user.Name,
                           Role := "user" },
                 Tokens := tokens },
            h ++ [.GetByEmail req.Email, .GenerateFromPassword req.Password,
              .Create { Email := req.Email, PasswordHash := hashedPassword, Name := req.Name },
              .GenerateTokenPair user.ID user.Email user.Name "user"])

/-- `AuthService.LoginUser`, passing the list of calls made so far. -/
def LoginUser (env : AuthEnv) (req : LoginUserRequest) (h : List AuthCall) :
    Except GoError LoginResponse × List AuthCall :=
  match env.getByEmail h req.Email with
  | .error _ => (.error (.new "неверный email или пароль"), h ++ [.GetByEmail req.Email])
  | .ok user =>
    match env.compareHashAndPassword user.PasswordHash req.Password with
    | some _ =>
      (.error (.new "неверный email или пароль"),
        h ++ [.GetByEmail req.Email, .CompareHashAndPassword user.PasswordHash req.Password])
    | none =>
      match env.generateTokenPair
          (h ++ [.GetByEmail req.Email, .CompareHashAndPassword user.PasswordHash req.Password])
          user.ID user.Email user.Name "user" with
      | .error _ =>
        (.error (.new "не удалось сгенерировать токены"),
          h ++ [.GetByEmail req.Email, .CompareHashAndPassword user.PasswordHash req.Password,
            .GenerateTokenPair user.ID user.Email user.Name "user"])
      | .ok tokens =>
        (.ok { User := { ID := user.ID, Email := user.Email, Name := user.Name, Role := "user" },
               Tokens := tokens },
          h ++ [.GetByEmail req.Email, .CompareHashAndPassword user.PasswordHash req.Password,
            .GenerateTokenPair user.ID user.Email user.Name "user"])

/-- A call of `GenerateTokenPair`. -/
def isTokenCall : AuthCall → Bool
  | .GenerateTokenPair _ _ _ _ => true
  | _ => false

/-- A call of `Create`. -/
def isCreateCall : AuthCall → Bool
  | .Create _ => true
  | _ => false

/-- The mocks of `service_test.go`: one registered user, `existing@example.com`
with password `password123`; the stored hash is written `hash(password123)`. -/
def authTest : AuthEnv :=
  { getByEmail := fun _ email =>
      if email = "existing@example.com" then
        .ok { ID := "user-1", Email := email, PasswordHash := "hash(password123)",
              Name := "Existing User" }
      else .error (.new "not found"),
    generateFromPassword := fun _ password => .ok ("hash(" ++ password ++ ")"),
    compareHashAndPassword := fun hash password =>
      if hash = "hash(" ++ password ++ ")" then none
      else some (.new "crypto/bcrypt: hashedPassword is not the hash of the given password"),
    create := fun _ p =>
      .ok { ID := "user-2", Email := p.Email, PasswordHash := p.PasswordHash, Name := p.Name },
    generateTokenPair := fun _ _ _ _ _ =>
      .ok { AccessToken := "mock-access-token", RefreshToken := "mock-refresh-token" } }

/-! ## Runs rejected by validation -/

/-- A run of `UploadPhoto` rejected by validation: it returns an error without
having made a call (every run that gets past validation starts with the
upload). -/
def uploadRejected (env : Env) (cfg : Config) (userID : UUID) (header : FileHeader)
    (w : World) : Prop :=
  (∃ e, (UploadPhoto env cfg userID header w).1 = .error e) ∧
  newCalls w (UploadPhoto env cfg userID header w).2 = []

/-- A run of `BatchUploadPhotos` rejected by the batch-level validation: it
returns an error without having made a call (every run that gets past it starts
with the creation of the BatchJob record). -/
def batchRejected (env : Env) (cfg : Config) (userID : UUID) (files : List FileHeader)
    (mergeMethod : String) (fastMode : Bool) (generationMode : String) (w : World) : Prop :=
  (∃ e, (BatchUploadPhotos env cfg userID files mergeMethod fastMode generationMode w).1 =
    .error e) ∧
  newCalls w (BatchUploadPhotos env cfg userID files mergeMethod fastMode generationMode w).2 = []

/-- An iteration of the per-file loop of a batch rejected by the checks of the
file: it ends in an error right after the successful open. -/
def fileRejected (env : Env) (cfg : Config) (userID batchJobID : UUID) (now : Time)
    (f : FileHeader) (rest : List FileHeader) (idx : Nat) (urls : List String) (w : World) :
    Prop :=
  (∃ e, (uploadBatchFiles env cfg userID batchJobID now (f :: rest) idx urls w).1 = .error e) ∧
  (uploadBatchFiles env cfg userID batchJobID now (f :: rest) idx urls w).2.history =
    w.history ++ [(.Open f.Filename, none)]

/-- A call of `amqp091.Dial`. -/
def isDial : Call × Option GoError → Bool
  | (.Dial _, _) => true
  | _ => false

/-- A call of `time.Sleep`. -/
def isSleep : Call × Option GoError → Bool
  | (.Sleep _, _) => true
  | _ => false

/-- The durations slept in a history, in order. -/
def sleeps : History → List Int
  | [] => []
  | (.Sleep d, _) :: rest => d :: sleeps rest
  | _ :: rest => sleeps rest

/-- The calls of a run of failed dials in `NewClient`, each followed by the
wait of `ReconnectDelay`. -/
def failedDials (cfg : RabbitMQConfig) : List GoError → History
  | [] => []
  | e :: rest =>
    (.Dial cfg.URL, some e) :: (.Sleep cfg.ReconnectDelay, none) :: failedDials cfg rest

/-- The durations slept by `n` iterations of the retry loop that start with
iteration `a`: iteration `a` sleeps `a` seconds when `a > 0`. -/
def backoff : Nat → Int → List Int
  | 0, _ => []
  | n + 1, a => if a > 0 then (Second * a) :: backoff n (a + 1) else backoff n (a + 1)

/-- The answer of `c.conn.IsClosed() || c.channel.IsClosed()` after the calls
of a history. -/
def foundClosed (env : Env) (h : History) : Bool :=
  env.connIsClosed h || env.chanIsClosed h

/-- What precedes the delivery attempt of iteration `k` of the retry loop, in
the calls `pre` made since the history `base`: nothing in iteration 0; in a
later iteration the sleep of `k` seconds, after which the connection was found
open, or found closed and then re-established by a successful dial and channel
opening. -/
def retryForm (env : Env) (cfg : RabbitMQConfig) (base : History) (k : Int) (pre : History) :
    Prop :=
  (k = 0 ∧ pre = []) ∨
  (0 < k ∧
    ((∃ pre2, pre = pre2 ++ [(.Sleep (Second * k), none)] ∧
        foundClosed env (base ++ pre) = false) ∨
      (∃ pre2, pre = pre2 ++ [(.Sleep (Second * k), none), (.Dial cfg.URL, none),
          (.Channel, none)] ∧
        foundClosed env (base ++ (pre2 ++ [(.Sleep (Second * k), none)])) = true)))

/-! ## Validation -/

theorem badExt_eq_false_iff (ext : String) :
    badExt ext = false ↔ ext = ".jpg" ∨ ext = ".jpeg" ∨ ext = ".png" := by
  unfold badExt
  by_cases h1 : ext = ".jpg" <;> by_cases h2 : ext = ".jpeg" <;> by_cases h3 : ext = ".png" <;>
    simp [h1, h2, h3]

theorem UploadPhoto_of_badExt (env : Env) (cfg : Config) (userID : UUID)
    (header : FileHeader) (w : World) (h : badExt (ToLower (Ext header.Filename)) = true) :
    UploadPhoto env cfg userID header w =
      (.error (.new ("неподдерживаемый формат файла: " ++ ToLower (Ext header.Filename))),
       { w with clock := w.clock + 1 }) := by
  simp [UploadPhoto, timeNow, h]

theorem UploadPhoto_of_goodExt (env : Env) (cfg : Config) (userID : UUID)
    (header : FileHeader) (w : World) (h : badExt (ToLower (Ext header.Filename)) = false) :
    (UploadPhoto env cfg userID header w).1 ≠
      .error (.new ("неподдерживаемый формат файла: " ++ ToLower (Ext header.Filename))) := by
  have hne : ("неподдерживаемый формат файла: " ++ ToLower (Ext header.Filename)) ≠
      "файл слишком большой: максимум 100МБ" := by
    intro h1
    have := congrArg String.data h1
    simp at this
  have hne2 := hne.symm
  simp only [UploadPhoto, timeNow, uuidNew, h]
  repeat' split
  all_goals simp_all [Errorf]

theorem newCalls_self_clock (w : World) (n : Nat) : newCalls w { w with clock := n } = [] := by
  simp [newCalls]

/-- Values of `strings.ToLower`: ASCII, Latin-1, Cyrillic and Greek capitals, the
Kelvin sign, the dotted capital I, and runes without a lower case. -/
theorem ToLower_values :
    ToLower ".JPG" = ".jpg" ∧ ToLower ".JPÉG" = ".jpég" ∧ ToLower ".ЖΩ" = ".жω" ∧
    ToLower (String.mk [Char.ofNat 0x212A]) = "k" ∧ ToLower (String.mk [Char.ofNat 0x130]) = "i" ∧
    ToLower ".ß×_9" = ".ß×_9" := by
  decide

/-- C2: UploadPhoto returns the unsupported-format error, whose text names the
lower-cased extension, exactly when that extension is none of .jpg, .jpeg and
.png; it then has made no call at all and drawn no job id: the state differs
from the initial one by one clock reading only. -/
theorem C2_upload_photo_extension_check (env : Env) (cfg : Config) (userID : UUID)
    (header : FileHeader) (w : World) :
    ((UploadPhoto env cfg userID header w).1 =
        .error (.new ("неподдерживаемый формат файла: " ++ ToLower (Ext header.Filename)))
      ↔ ¬ (ToLower (Ext header.Filename) = ".jpg" ∨ ToLower (Ext header.Filename) = ".jpeg" ∨
            ToLower (Ext header.Filename) = ".png")) ∧
    ((UploadPhoto env cfg userID header w).1 =
        .error (.new ("неподдерживаемый формат файла: " ++ ToLower (Ext header.Filename)))
      → (UploadPhoto env cfg userID header w).2 = { w with clock := w.clock + 1 } ∧
        newCalls w (UploadPhoto env cfg userID header w).2 = []) := by
  rw [← badExt_eq_false_iff]
  cases h : badExt (ToLower (Ext header.Filename))
  · have := UploadPhoto_of_goodExt env cfg userID header w h
    simp [this]
  · simp [UploadPhoto_of_badExt env cfg userID header w h, newCalls_self_clock]

theorem C2_upload_photo_extension_check_witness :
    ToLower (Ext "снимок.JPÉG") = ".jpég" ∧
    (UploadPhoto envOk cfgTest "u" ⟨"снимок.JPÉG", 5, "image/jpeg"⟩ World.start).1 =
      .error (.new ("неподдерживаемый формат файла: " ++ ToLower (Ext "снимок.JPÉG"))) ∧
    (UploadPhoto envOk cfgTest "u" ⟨"снимок.JPÉG", 5, "image/jpeg"⟩ World.start).2 =
      { World.start with clock := 1 } ∧
    newCalls World.start
      (UploadPhoto envOk cfgTest "u" ⟨"снимок.JPÉG", 5, "image/jpeg"⟩ World.start).2 = [] ∧
    ¬ (UploadPhoto envOk cfgTest "u" ⟨"PHOTO.JPG", 5, "image/jpeg"⟩ World.start).1 =
      .error (.new ("неподдерживаемый формат файла: " ++ ToLower (Ext "PHOTO.JPG"))) :=
  ⟨by decide,
   (C2_upload_photo_extension_check envOk cfgTest "u" ⟨"снимок.JPÉG", 5, "image/jpeg"⟩
      World.start).1.mpr (by decide),
   ((C2_upload_photo_extension_check envOk cfgTest "u" ⟨"снимок.JPÉG", 5, "image/jpeg"⟩
      World.start).2 (by decide)).1,
   ((C2_upload_photo_extension_check envOk cfgTest "u" ⟨"снимок.JPÉG", 5, "image/jpeg"⟩
      World.start).2 (by decide)).2,
   fun h => (C2_upload_photo_extension_check envOk cfgTest "u" ⟨"PHOTO.JPG", 5, "image/jpeg"⟩
      World.start).1.mp h (by decide)⟩

/-- The errors returned from inside the per-file loop: a wrapped cause, or one
of the two per-file validation messages. -/
theorem uploadBatchFiles_error_form (env : Env) (cfg : Config) (userID batchJobID : UUID)
    (now : Time) (files : List FileHeader) :
    ∀ (idx : Nat) (urls : List String) (w : World) (e : GoError),
      (uploadBatchFiles env cfg userID batchJobID now files idx urls w).1 = .error e →
      (∃ pre c, e = .wrap pre c) ∨ (∃ s, e = .new ("неподдерживаемый формат файла " ++ s)) ∨
        (∃ s, e = .new ("файл " ++ s)) := by
  induction files with
  | nil => intro idx urls w e h; simp [uploadBatchFiles] at h
  | cons f rest ih =>
    intro idx urls w e h
    simp only [uploadBatchFiles, uuidNew] at h
    split at h
    · simp [Errorf] at h; exact Or.inl ⟨_, _, h.symm⟩
    · split at h
      · simp at h; exact Or.inr (Or.inl ⟨_, h.symm⟩)
      · split at h
        · simp at h; exact Or.inr (Or.inr ⟨_, h.symm⟩)
        · split at h
          · simp [Errorf] at h; exact Or.inl ⟨_, _, h.symm⟩
          · split at h
            · simp [Errorf] at h; exact Or.inl ⟨_, _, h.symm⟩
            · exact ih _ _ _ _ h

theorem BatchUploadPhotos_of_bad_count (env : Env) (cfg : Config) (userID : UUID)
    (files : List FileHeader) (mergeMethod : String) (fastMode : Bool) (generationMode : String)
    (w : World) (h : files.length = 0 ∨ files.length > 50) :
    (∃ e, (BatchUploadPhotos env cfg userID files mergeMethod fastMode generationMode w).1 =
        .error e) ∧
    (BatchUploadPhotos env cfg userID files mergeMethod fastMode generationMode w).2 =
      { w with clock := w.clock + 1 } := by
  simp only [BatchUploadPhotos, timeNow]
  rcases h with h | h
  · simp [h]
  · have h0 : files.length ≠ 0 := by omega
    simp [h, h0]

theorem BatchUploadPhotos_passes_count (env : Env) (cfg : Config) (userID : UUID)
    (files : List FileHeader) (mergeMethod : String) (fastMode : Bool) (generationMode : String)
    (w : World) (h1 : 1 ≤ files.length) (h2 : files.length ≤ 50) :
    (BatchUploadPhotos env cfg userID files mergeMethod fastMode generationMode w).1 ≠
        .error (.new "файлы не предоставлены") ∧
    (BatchUploadPhotos env cfg userID files mergeMethod fastMode generationMode w).1 ≠
        .error (.new "слишком много файлов: максимум 50 файлов в пакете") := by
  have h0 : files.length ≠ 0 := by omega
  have h50 : ¬ files.length > 50 := by omega
  simp only [BatchUploadPhotos, timeNow, uuidNew, h0, h50, if_false]
  constructor
  all_goals
    repeat' split
    all_goals first
      | (intro hc; simp only [Except.error.injEq, GoError.new.injEq, Errorf] at hc
         have hd := congrArg String.data hc
         simp at hd)
      | (simp [Errorf]; done)
      | (rename_i heq
         intro hc
         simp only [Except.error.injEq] at hc
         have hf := uploadBatchFiles_error_form _ _ _ _ _ _ _ _ _ _ (congrArg Prod.fst heq)
         rw [hc] at hf
         rcases hf with ⟨_, _, hf⟩ | ⟨_, hf⟩ | ⟨_, hf⟩
         · simp at hf
         · simp only [GoError.new.injEq] at hf
           have hd := congrArg String.data hf
           simp at hd
         · simp only [GoError.new.injEq] at hf
           have hd := congrArg String.data hf
           simp at hd)

/-- C3: BatchUploadPhotos returns the no-files error exactly when the file list
is empty and the too-many-files error exactly when it has more than 50 files
(so every length from 1 to 50 passes the count check); when it rejects a list
for its length it has made no call at all and drawn no id. -/
theorem C3_batch_count_check (env : Env) (cfg : Config) (userID : UUID)
    (files : List FileHeader) (mergeMethod : String) (fastMode : Bool) (generationMode : String)
    (w : World) :
    ((BatchUploadPhotos env cfg userID files mergeMethod fastMode generationMode w).1 =
        .error (.new "файлы не предоставлены") ↔ files.length = 0) ∧
    ((BatchUploadPhotos env cfg userID files mergeMethod fastMode generationMode w).1 =
        .error (.new "слишком много файлов: максимум 50 файлов в пакете") ↔ files.length > 50) ∧
    (files.length = 0 ∨ files.length > 50 →
      (BatchUploadPhotos env cfg userID files mergeMethod fastMode generationMode w).2 =
        { w with clock := w.clock + 1 } ∧
      newCalls w (BatchUploadPhotos env cfg userID files mergeMethod fastMode generationMode w).2
        = []) := by
  refine ⟨⟨fun h => ?_, fun h => ?_⟩, ⟨fun h => ?_, fun h => ?_⟩, fun h => ?_⟩
  · by_contra h0
    by_cases h50 : files.length > 50
    · simp [BatchUploadPhotos, timeNow, h0, h50] at h
    · exact (BatchUploadPhotos_passes_count env cfg userID files mergeMethod fastMode
        generationMode w (by omega) (by omega)).1 h
  · simp [BatchUploadPhotos, timeNow, h]
  · by_contra h50
    by_cases h0 : files.length = 0
    · simp [BatchUploadPhotos, timeNow, h0] at h
    · exact (BatchUploadPhotos_passes_count env cfg userID files mergeMethod fastMode
        generationMode w (by omega) (by omega)).2 h
  · have h0 : files.length ≠ 0 := by omega
    simp [BatchUploadPhotos, timeNow, h, h0]
  · rw [(BatchUploadPhotos_of_bad_count env cfg userID files mergeMethod fastMode
      generationMode w h).2]
    exact ⟨rfl, newCalls_self_clock w _⟩

theorem C3_batch_count_check_witness :
    (BatchUploadPhotos envOk cfgTest "u" [] "" false "" World.start).2 =
        { World.start with clock := 1 } ∧
      newCalls World.start (BatchUploadPhotos envOk cfgTest "u" [] "" false "" World.start).2
        = [] :=
  (C3_batch_count_check envOk cfgTest "u" [] "" false "" World.start).2.2 (Or.inl rfl)

/-- C4: a batch whose generation mode is orthophoto or both and that has fewer
than 5 files is rejected with an error, without any call and without drawing an
id; a batch in heightmap mode (given, or by default) never gets the
minimum-images error, whatever its file count. -/
theorem C4_batch_min_images (env : Env) (cfg : Config) (userID : UUID)
    (files : List FileHeader) (mergeMethod : String) (fastMode : Bool) (generationMode : String)
    (w : World) :
    ((generationMode = "orthophoto" ∨ generationMode = "both") → files.length < 5 →
      (∃ e, (BatchUploadPhotos env cfg userID files mergeMethod fastMode generationMode w).1 =
        .error e) ∧
      (BatchUploadPhotos env cfg userID files mergeMethod fastMode generationMode w).2 =
        { w with clock := w.clock + 1 } ∧
      newCalls w (BatchUploadPhotos env cfg userID files mergeMethod fastMode generationMode w).2
        = []) ∧
    ((generationMode = "heightmap" ∨ generationMode = "") → ∀ n : String,
      (BatchUploadPhotos env cfg userID files mergeMethod fastMode generationMode w).1 ≠
        .error (.new
          ("для генерации ортофотоплана требуется минимум 5 изображений, предоставлено: " ++ n)))
    := by
  constructor
  · intro hm hl
    have hmode : resolveGenerationMode generationMode = generationMode := by
      rcases hm with h | h <;> simp [resolveGenerationMode, h]
    have key : (∃ e, (BatchUploadPhotos env cfg userID files mergeMethod fastMode
          generationMode w).1 = .error e) ∧
        (BatchUploadPhotos env cfg userID files mergeMethod fastMode generationMode w).2 =
          { w with clock := w.clock + 1 } := by
      simp only [BatchUploadPhotos, timeNow, hmode]
      split_ifs with a b c d e
      · exact ⟨⟨_, rfl⟩, rfl⟩
      · exact ⟨⟨_, rfl⟩, rfl⟩
      · exact ⟨⟨_, rfl⟩, rfl⟩
      · exact ⟨⟨_, rfl⟩, rfl⟩
      · exact ⟨⟨_, rfl⟩, rfl⟩
      · exact absurd ⟨hm, hl⟩ e
    refine ⟨key.1, key.2, ?_⟩
    rw [key.2]
    exact newCalls_self_clock w _
  · intro hm n
    have hmode : resolveGenerationMode generationMode = "heightmap" := by
      rcases hm with h | h <;> simp [resolveGenerationMode, h]
    simp only [BatchUploadPhotos, timeNow, uuidNew, hmode]
    repeat' split
    all_goals first
      | (rename_i hx; simp at hx; done)
      | (intro hc; simp only [Except.error.injEq, GoError.new.injEq, Errorf] at hc
         have hd := congrArg String.data hc
         simp at hd)
      | (simp [Errorf]; done)
      | (rename_i heq
         intro hc
         simp only [Except.error.injEq] at hc
         have hf := uploadBatchFiles_error_form _ _ _ _ _ _ _ _ _ _ (congrArg Prod.fst heq)
         rw [hc] at hf
         rcases hf with ⟨_, _, hf⟩ | ⟨_, hf⟩ | ⟨_, hf⟩
         · simp at hf
         · simp only [GoError.new.injEq] at hf
           have hd := congrArg String.data hf
           simp at hd
         · simp only [GoError.new.injEq] at hf
           have hd := congrArg String.data hf
           simp at hd)

theorem C4_batch_min_images_witness :
    (∃ e, (BatchUploadPhotos envOk cfgTest "u" threeJpgs "" false "orthophoto" World.start).1 =
        .error e) ∧
      (BatchUploadPhotos envOk cfgTest "u" threeJpgs "" false "orthophoto" World.start).2 =
        { World.start with clock := 1 } ∧
      newCalls World.start
        (BatchUploadPhotos envOk cfgTest "u" threeJpgs "" false "orthophoto" World.start).2 = [] :=
  (C4_batch_min_images envOk cfgTest "u" threeJpgs "" false "orthophoto" World.start).1
    (Or.inl rfl) (by decide)

/-! ## The retry loop -/

theorem lastFailure_append (a b : History) :
    lastFailure (a ++ b) = (lastFailure b).or (lastFailure a) := by
  induction a with
  | nil => simp [lastFailure]
  | cons e rest ih =>
    rw [List.cons_append, lastFailure, ih, lastFailure]
    cases lastFailure b <;> simp

theorem publishAttempts_append (a b : History) :
    publishAttempts (a ++ b) = publishAttempts a + publishAttempts b := by
  simp [publishAttempts]

theorem newCalls_of_append (w w2 : World) (evs : History)
    (h : w2.history = w.history ++ evs) : newCalls w w2 = evs := by
  simp [newCalls, h]

/-- What `reconnect` does: it makes no delivery attempt, only calls the loop
may make, and returns the failure of its last call. -/
theorem reconnect_spec (env : Env) (cfg : RabbitMQConfig) (w : World) (queue : String)
    (msg : Publishing) :
    ∃ evs, (reconnect env cfg w).2.history = w.history ++ evs ∧
      evs.all (loopEvent cfg queue msg) = true ∧
      evs.any isPublish = false ∧
      (reconnect env cfg w).1 = lastFailure evs ∧
      (reconnect env cfg w).2.uuids = w.uuids ∧ (reconnect env cfg w).2.clock = w.clock := by
  unfold reconnect
  cases hd : env.respond w.history (.Dial cfg.URL) with
  | some e =>
    exact ⟨[(.Dial cfg.URL, some e)], by simp [call, hd], by simp [loopEvent],
      by simp [isPublish], by simp [call, hd, lastFailure, failureOf], by simp [call, hd],
      by simp [call, hd]⟩
  | none =>
    cases hc : env.respond (w.history ++ [(.Dial cfg.URL, none)]) .Channel with
    | some e =>
      exact ⟨[(.Dial cfg.URL, none), (.Channel, some e), (.ConnClose, none)],
        by simp [call, hd, hc, callVoid], by simp [loopEvent], by simp [isPublish],
        by simp [call, hd, hc, lastFailure, failureOf], by simp [call, hd, hc, callVoid],
        by simp [call, hd, hc, callVoid]⟩
    | none =>
      exact ⟨[(.Dial cfg.URL, none), (.Channel, none)],
        by simp [call, hd, hc], by simp [loopEvent], by simp [isPublish],
        by simp [call, hd, hc, lastFailure, failureOf], by simp [call, hd, hc],
        by simp [call, hd, hc]⟩

theorem isAcked_le_isPublish (e : Call × Option GoError) (h : isPublish e = false) :
    isAcked e = false := by
  rcases e with ⟨c, r⟩
  cases c <;> cases r <;> simp_all [isPublish, isAcked]

theorem any_isAcked_of_any_isPublish (evs : History) (h : evs.any isPublish = false) :
    evs.any isAcked = false := by
  simp only [List.any_eq_false] at h ⊢
  intro e he
  have := isAcked_le_isPublish e (by simpa using h e he)
  simp [this]

theorem publishAttempts_eq_zero (evs : History) (h : evs.any isPublish = false) :
    publishAttempts evs = 0 := by
  simp only [List.any_eq_false] at h
  simp only [publishAttempts, List.countP_eq_zero]
  intro e he
  simpa using h e he

theorem reconnect_ok (env : Env) (cfg : RabbitMQConfig) (w : World)
    (hre : ∀ h, env.respond h (.Dial cfg.URL) = none ∧ env.respond h .Channel = none) :
    (reconnect env cfg w).1 = none := by
  simp [reconnect, call, (hre _).1, (hre _).2]

/-- The sleep that opens an iteration of the retry loop. -/
theorem loop_sleep_spec (cfg : RabbitMQConfig) (queue : String) (msg : Publishing)
    (attempt : Int) (w : World) :
    ∃ s, (if attempt > 0 then callVoid (.Sleep (Second * attempt)) w else w).history = w.history ++ s ∧
      s.all (loopEvent cfg queue msg) = true ∧ s.any isPublish = false ∧ lastFailure s = none ∧
      (if attempt > 0 then callVoid (.Sleep (Second * attempt)) w else w).uuids = w.uuids ∧
      (if attempt > 0 then callVoid (.Sleep (Second * attempt)) w else w).clock = w.clock := by
  by_cases ha : attempt > 0
  · exact ⟨[(.Sleep (Second * attempt), none)], by simp [ha, callVoid], by simp [loopEvent],
      by simp [isPublish], by simp [lastFailure, failureOf], by simp [ha, callVoid],
      by simp [ha, callVoid]⟩
  · exact ⟨[], by simp [ha], by simp, by simp, by simp [lastFailure], by simp [ha], by simp [ha]⟩

/-- The guarded reconnect of an iteration of the retry loop (and of the entry
of the publish functions, with `guard` the condition under which it runs). -/
theorem guarded_reconnect_spec (env : Env) (cfg : RabbitMQConfig) (queue : String)
    (msg : Publishing) (guard : Prop) [Decidable guard] (w : World) :
    ∃ evs, (if guard then reconnect env cfg w else (none, w)).2.history = w.history ++ evs ∧
      evs.all (loopEvent cfg queue msg) = true ∧ evs.any isPublish = false ∧
      (if guard then reconnect env cfg w else (none, w)).1 = lastFailure evs ∧
      (if guard then reconnect env cfg w else (none, w)).2.uuids = w.uuids ∧
      (if guard then reconnect env cfg w else (none, w)).2.clock = w.clock ∧
      ((∀ h, env.respond h (.Dial cfg.URL) = none ∧ env.respond h .Channel = none) →
        (if guard then reconnect env cfg w else (none, w)).1 = none) := by
  by_cases hg : guard
  · obtain ⟨evs, h1, h2, h3, h4, h5, h6⟩ := reconnect_spec env cfg w queue msg
    exact ⟨evs, by simpa [hg] using h1, h2, h3, by simpa [hg] using h4, by simpa [hg] using h5,
      by simpa [hg] using h6, fun hre => by simpa [hg] using reconnect_ok env cfg w hre⟩
  · exact ⟨[], by simp [hg], by simp, by simp, by simp [hg, lastFailure], by simp [hg],
      by simp [hg], fun _ => by simp [hg]⟩

/-- The retry loop, described by the calls it makes: only loop calls, at most
one delivery attempt per iteration, nothing after an acknowledged delivery,
and on exhaustion the cause of the last failed call as `lastErr`. -/
theorem publishLoop_spec (env : Env) (cfg : RabbitMQConfig) (queue : String) (msg : Publishing) :
    ∀ (todo : Nat) (attempt : Int) (lastErr : Option GoError) (w : World),
    ∃ evs, (publishLoop env cfg queue msg todo attempt lastErr w).2.history = w.history ++ evs ∧
      evs.all (loopEvent cfg queue msg) = true ∧
      publishAttempts evs ≤ todo ∧
      ((publishLoop env cfg queue msg todo attempt lastErr w).1 = .published →
        ∃ pre, evs = pre ++ [(.PublishWithContext cfg.Exchange queue msg, none)] ∧
          pre.any isAcked = false) ∧
      (∀ le, (publishLoop env cfg queue msg todo attempt lastErr w).1 = .exhausted le →
        evs.any isAcked = false ∧ le = (lastFailure evs).or lastErr ∧
        (0 < todo → lastFailure evs ≠ none)) ∧
      (publishLoop env cfg queue msg todo attempt lastErr w).2.uuids = w.uuids ∧
      (publishLoop env cfg queue msg todo attempt lastErr w).2.clock = w.clock ∧
      ((∀ h x k m, env.respond h (.PublishWithContext x k m) ≠ none) →
        (∃ le, (publishLoop env cfg queue msg todo attempt lastErr w).1 = .exhausted le) ∧
        ((∀ h, env.respond h (.Dial cfg.URL) = none ∧ env.respond h .Channel = none) →
          publishAttempts evs = todo)) := by
  intro todo
  induction todo with
  | zero =>
    intro attempt lastErr w
    exact ⟨[], by simp [publishLoop], by simp, by simp [publishAttempts], by simp [publishLoop],
      by simp [publishLoop, lastFailure], rfl, rfl,
      fun _ => ⟨⟨lastErr, rfl⟩, fun _ => by simp [publishAttempts]⟩⟩
  | succ n ih =>
    intro attempt lastErr w
    simp only [publishLoop]
    obtain ⟨s, hs, hsall, hspub, hsfail, hsu, hsc⟩ := loop_sleep_spec cfg queue msg attempt w
    generalize (if attempt > 0 then callVoid (.Sleep (Second * attempt)) w else w) = w1 at *
    obtain ⟨evs2, h2, h2all, h2pub, h2fail, h2u, h2c, h2ok⟩ :=
      guarded_reconnect_spec env cfg queue msg (attempt > 0 ∧ unusable env w1 = true) w1
    generalize (if attempt > 0 ∧ unusable env w1 = true then reconnect env cfg w1
      else (none, w1)) = R at *
    rcases R with ⟨r, w2⟩
    simp only at h2 h2fail h2u h2c h2ok ⊢
    have hsack := any_isAcked_of_any_isPublish _ hspub
    have h2ack := any_isAcked_of_any_isPublish _ h2pub
    have hs0 := publishAttempts_eq_zero _ hspub
    have h20 := publishAttempts_eq_zero _ h2pub
    cases r with
    | some err =>
      simp only
      obtain ⟨evs3, i1, i2, i3, i4, i5, i6, i7, i8⟩ := ih (attempt + 1) (some err) w2
      refine ⟨s ++ evs2 ++ evs3, by rw [i1, h2, hs]; simp, by simp [hsall, h2all, i2],
        by (rw [publishAttempts_append, publishAttempts_append, hs0, h20]; omega),
        ?_, ?_, by rw [i6, h2u, hsu], by rw [i7, h2c, hsc], ?_⟩
      · intro hp
        obtain ⟨pre, hpre, hack⟩ := i4 hp
        exact ⟨s ++ evs2 ++ pre, by simp [hpre], by simp [hack, hsack, h2ack]⟩
      · intro le hle
        obtain ⟨a, b, _⟩ := i5 le hle
        have hlf : lastFailure (s ++ evs2 ++ evs3) = (lastFailure evs3).or (some err) := by
          rw [lastFailure_append, lastFailure_append, hsfail, ← h2fail]; simp
        refine ⟨by simp [a, hsack, h2ack], ?_, fun _ => ?_⟩
        · rw [hlf, b]; cases lastFailure evs3 <;> simp
        · rw [hlf]; cases lastFailure evs3 <;> simp
      · intro hfail
        obtain ⟨x, _⟩ := i8 hfail
        refine ⟨x, fun hre => ?_⟩
        have := h2ok hre
        simp at this
    | none =>
      simp only [call]
      cases hp : env.respond w2.history (.PublishWithContext cfg.Exchange queue msg) with
      | none =>
        simp only
        refine ⟨s ++ evs2 ++ [(.PublishWithContext cfg.Exchange queue msg, none)],
          by rw [h2, hs]; simp, by simp [hsall, h2all, loopEvent],
          by (rw [publishAttempts_append, publishAttempts_append, hs0, h20]
              simp [publishAttempts, isPublish]),
          fun _ => ⟨s ++ evs2, rfl, by simp [hsack, h2ack]⟩, by simp, h2u.trans hsu,
          h2c.trans hsc, fun hfail => absurd hp (hfail _ _ _ _)⟩
      | some e =>
        simp only
        obtain ⟨evs3, i1, i2, i3, i4, i5, i6, i7, i8⟩ := ih (attempt + 1) (some e)
          { w2 with history := w2.history ++ [(.PublishWithContext cfg.Exchange queue msg, some e)] }
        have hp0 : publishAttempts [(Call.PublishWithContext cfg.Exchange queue msg, some e)] = 1 := by
          simp [publishAttempts, isPublish]
        refine ⟨s ++ evs2 ++ [(.PublishWithContext cfg.Exchange queue msg, some e)] ++ evs3,
          by rw [i1]; simp [h2, hs], by simp [hsall, h2all, i2, loopEvent],
          by (rw [publishAttempts_append, publishAttempts_append, publishAttempts_append, hs0,
                h20, hp0]; omega),
          ?_, ?_, by rw [i6]; exact h2u.trans hsu, by rw [i7]; exact h2c.trans hsc, ?_⟩
        · intro hpb
          obtain ⟨pre, hpre, hack⟩ := i4 hpb
          exact ⟨s ++ evs2 ++ [(.PublishWithContext cfg.Exchange queue msg, some e)] ++ pre,
            by simp [hpre], by simp [hack, hsack, h2ack, isAcked]⟩
        · intro le hle
          obtain ⟨a, b, _⟩ := i5 le hle
          have hlf : lastFailure
              (s ++ evs2 ++ [(.PublishWithContext cfg.Exchange queue msg, some e)] ++ evs3) =
              (lastFailure evs3).or (some e) := by
            rw [lastFailure_append, lastFailure_append]
            simp [lastFailure, failureOf]
          refine ⟨by simp [a, hsack, h2ack, isAcked], ?_, fun _ => ?_⟩
          · rw [hlf, b]; cases lastFailure evs3 <;> simp
          · rw [hlf]; cases lastFailure evs3 <;> simp
        · intro hfail
          obtain ⟨x, y⟩ := i8 hfail
          refine ⟨x, fun hre => ?_⟩
          rw [publishAttempts_append, publishAttempts_append, publishAttempts_append, hs0,
            h20, hp0, y hre]
          omega

theorem loopEvent_isBroker (cfg : RabbitMQConfig) (queue : String) (msg : Publishing)
    (e : Call × Option GoError) (h : loopEvent cfg queue msg e = true) : isBroker e.1 = true := by
  rcases e with ⟨c, r⟩
  cases c <;> simp_all [loopEvent, isBroker]

theorem loopEvent_publish (cfg : RabbitMQConfig) (queue : String) (msg : Publishing)
    (e : Call × Option GoError) (h : loopEvent cfg queue msg e = true)
    (hp : isPublish e = true) : e.1 = .PublishWithContext cfg.Exchange queue msg := by
  rcases e with ⟨c, r⟩
  cases c <;> simp_all [loopEvent, isPublish]

/-- In a list that ends with its only acknowledged entry, nothing follows an
acknowledged entry. -/
theorem nothing_after_acked (P : History) (x : Call × Option GoError)
    (hP : P.any isAcked = false) (a : History) (e : Call × Option GoError) (post : History)
    (h : P ++ [x] = a ++ e :: post) (he : isAcked e = true) : post = [] := by
  rcases List.eq_nil_or_concat post with hnil | ⟨post2, y, hpost⟩
  · exact hnil
  · exfalso
    subst hpost
    have h2 : P ++ [x] = (a ++ e :: post2) ++ [y] := by simpa using h
    have h3 := List.append_inj_left' h2 rfl
    have hmem : e ∈ P := by rw [h3]; simp
    simp only [List.any_eq_false] at hP
    exact hP e hmem he

theorem no_acked_split (evs : History) (h : evs.any isAcked = false) (a : History)
    (e : Call × Option GoError) (post : History) (hs : evs = a ++ e :: post)
    (he : isAcked e = true) : post = [] := by
  exfalso
  simp only [List.any_eq_false] at h
  exact h e (by rw [hs]; simp) he

theorem iterations_pos (n : Int) (h : 0 ≤ n) : 0 < iterations n := by
  unfold iterations; omega

/-- What `PublishTask` does, read off the calls it makes. -/
theorem PublishTask_spec (env : Env) (cfg : RabbitMQConfig) (task : HeightmapTask) (w : World) :
    ∃ evs, (PublishTask env cfg task w).2.history = w.history ++ evs ∧
      (PublishTask env cfg task w).2.uuids = w.uuids ∧
      (PublishTask env cfg task w).2.clock = w.clock ∧
      (∀ e ∈ evs, isBroker e.1 = true) ∧
      (∀ e ∈ evs, isPublish e = true → ∃ body, marshalTask env task = .ok body ∧
        e.1 = .PublishWithContext cfg.Exchange cfg.QueueName (mkPublishing body task.Priority)) ∧
      ((PublishTask env cfg task w).1 = none ↔ evs.any isAcked = true) ∧
      (∀ a e post, evs = a ++ e :: post → isAcked e = true → post = []) ∧
      publishAttempts evs ≤ iterations cfg.PublishRetries ∧
      ((PublishTask env cfg task w).1 = none ∨
        ((PublishTask env cfg task w).1 =
            some (Errorf "failed to reconnect before publishing: " (lastFailure evs)) ∧
          lastFailure evs ≠ none ∧ publishAttempts evs = 0) ∨
        (∃ err, marshalTask env task = .error err ∧
          (PublishTask env cfg task w).1 = some (Errorf "failed to marshal task: " (some err)) ∧
          publishAttempts evs = 0) ∨
        ((PublishTask env cfg task w).1 =
            some (Errorf ("failed to publish task after " ++ fmtInt cfg.PublishRetries ++
              " retries: ") (lastFailure evs)) ∧
          (0 ≤ cfg.PublishRetries → lastFailure evs ≠ none))) ∧
      ((∀ h x k m, env.respond h (.PublishWithContext x k m) ≠ none) →
        (PublishTask env cfg task w).1 ≠ none ∧
        ((∃ body, marshalTask env task = .ok body) →
          (∀ h, env.respond h (.Dial cfg.URL) = none ∧ env.respond h .Channel = none) →
          publishAttempts evs = iterations cfg.PublishRetries)) := by
  unfold PublishTask
  obtain ⟨evs1, h1, h1all, h1pub, h1fail, h1u, h1c, h1ok⟩ :=
    guarded_reconnect_spec env cfg cfg.QueueName (mkPublishing [] 0) (unusable env w = true) w
  generalize (if unusable env w = true then reconnect env cfg w else (none, w)) = R at *
  rcases R with ⟨r, w1⟩
  simp only at h1 h1fail h1u h1c h1ok
  have h1ack := any_isAcked_of_any_isPublish _ h1pub
  have h10 := publishAttempts_eq_zero _ h1pub
  have h1br : ∀ e ∈ evs1, isBroker e.1 = true := fun e he =>
    loopEvent_isBroker _ _ _ e (by simpa using (List.all_eq_true.mp h1all) e he)
  have h1np : ∀ e ∈ evs1, isPublish e = true → False := fun e he hp => by
    have := (List.any_eq_false.mp h1pub) e he
    exact this hp
  cases r with
  | some err =>
    simp only
    refine ⟨evs1, h1, h1u, h1c, h1br, fun e he hp => (h1np e he hp).elim, by simp [h1ack],
      fun a e post hs he => no_acked_split evs1 h1ack a e post hs he, by omega,
      Or.inr (Or.inl ⟨by rw [← h1fail], by rw [← h1fail]; simp, h10⟩),
      fun _ => ⟨by simp, fun _ hre => ?_⟩⟩
    have := h1ok hre
    simp at this
  | none =>
    simp only
    cases hm : marshalTask env task with
    | error err =>
      simp only
      exact ⟨evs1, h1, h1u, h1c, h1br, fun e he hp => (h1np e he hp).elim, by simp [h1ack],
        fun a e post hs he => no_acked_split evs1 h1ack a e post hs he, by omega,
        Or.inr (Or.inr (Or.inl ⟨err, rfl, rfl, h10⟩)),
        fun _ => ⟨by simp, fun hb _ => by simp at hb⟩⟩
    | ok body =>
      simp only
      obtain ⟨evs2, i1, i2, i3, i4, i5, i6, i7, i8⟩ := publishLoop_spec env cfg cfg.QueueName
        (mkPublishing body task.Priority) (iterations cfg.PublishRetries) 0 none w1
      generalize publishLoop env cfg cfg.QueueName (mkPublishing body task.Priority)
        (iterations cfg.PublishRetries) 0 none w1 = L at *
      rcases L with ⟨l, w2⟩
      simp only at i1 i4 i5 i6 i7 i8
      have hbr : ∀ e ∈ evs1 ++ evs2, isBroker e.1 = true := by
        intro e he
        rcases List.mem_append.mp he with he | he
        · exact h1br e he
        · exact loopEvent_isBroker _ _ _ e (by simpa using (List.all_eq_true.mp i2) e he)
      have hpub : ∀ e ∈ evs1 ++ evs2, isPublish e = true →
          ∃ b, (Except.ok body : Except GoError JSONObject) = Except.ok b ∧
          e.1 = .PublishWithContext cfg.Exchange cfg.QueueName (mkPublishing b task.Priority) := by
        intro e he hp
        rcases List.mem_append.mp he with he | he
        · exact (h1np e he hp).elim
        · exact ⟨body, rfl, loopEvent_publish _ _ _ e
            (by simpa using (List.all_eq_true.mp i2) e he) hp⟩
      have hcnt : publishAttempts (evs1 ++ evs2) = publishAttempts evs2 := by
        rw [publishAttempts_append, h10]; omega
      have hlf : lastFailure (evs1 ++ evs2) = lastFailure evs2 := by
        rw [lastFailure_append, ← h1fail]; simp
      cases l with
      | published =>
        simp only
        obtain ⟨pre, hpre, hack⟩ := i4 rfl
        refine ⟨evs1 ++ evs2, by rw [i1, h1]; simp, i6.trans h1u, i7.trans h1c, hbr, hpub,
          by simp [hpre, isAcked], ?_, by rw [hcnt]; exact i3, Or.inl trivial,
          fun hfail => ?_⟩
        · intro a e post hs he
          have hs2 : (evs1 ++ pre) ++ [(Call.PublishWithContext cfg.Exchange cfg.QueueName
              (mkPublishing body task.Priority), none)] = a ++ e :: post := by
            rw [← hs, hpre]; simp
          exact nothing_after_acked (evs1 ++ pre) _ (by simp [h1ack, hack]) a e post hs2 he
        · obtain ⟨⟨le, hle⟩, _⟩ := i8 hfail
          simp at hle
      | exhausted le =>
        simp only
        obtain ⟨a1, a2, a3⟩ := i5 le rfl
        have hle : le = lastFailure (evs1 ++ evs2) := by rw [hlf, a2]; simp
        refine ⟨evs1 ++ evs2, by rw [i1, h1]; simp, i6.trans h1u, i7.trans h1c, hbr, hpub,
          by simp [h1ack, a1], fun a e post hs he =>
            no_acked_split (evs1 ++ evs2) (by simp [h1ack, a1]) a e post hs he,
          by rw [hcnt]; exact i3,
          Or.inr (Or.inr (Or.inr ⟨by rw [hle], fun hN => by
            rw [hlf]; exact a3 (iterations_pos _ hN)⟩)),
          fun hfail => ⟨by simp, fun _ hre => by rw [hcnt]; exact (i8 hfail).2 hre⟩⟩

/-- What `PublishBatchTask` does, read off the calls it makes. -/
theorem PublishBatchTask_spec (env : Env) (cfg : RabbitMQConfig) (task : BatchHeightmapTask)
    (w : World) :
    ∃ evs, (PublishBatchTask env cfg task w).2.history = w.history ++ evs ∧
      (PublishBatchTask env cfg task w).2.uuids = w.uuids ∧
      (PublishBatchTask env cfg task w).2.clock = w.clock ∧
      (∀ e ∈ evs, isBroker e.1 = true) ∧
      (∀ e ∈ evs, isPublish e = true → ∃ body, marshalBatchTask env task = .ok body ∧
        e.1 = .PublishWithContext cfg.Exchange (cfg.QueueName ++ "_batch")
          (mkPublishing body task.Priority)) ∧
      ((PublishBatchTask env cfg task w).1 = none ↔ evs.any isAcked = true) ∧
      (∀ a e post, evs = a ++ e :: post → isAcked e = true → post = []) ∧
      publishAttempts evs ≤ iterations cfg.PublishRetries ∧
      ((PublishBatchTask env cfg task w).1 = none ∨
        ((PublishBatchTask env cfg task w).1 =
            some (Errorf "failed to reconnect before publishing batch task: " (lastFailure evs)) ∧
          lastFailure evs ≠ none ∧ publishAttempts evs = 0) ∨
        (∃ err, marshalBatchTask env task = .error err ∧
          (PublishBatchTask env cfg task w).1 =
            some (Errorf "failed to marshal batch task: " (some err)) ∧
          publishAttempts evs = 0) ∨
        (∃ err, (PublishBatchTask env cfg task w).1 =
            some (Errorf "failed to declare batch queue: " (some err)) ∧
          publishAttempts evs = 0) ∨
        ((PublishBatchTask env cfg task w).1 =
            some (Errorf ("failed to publish batch task after " ++ fmtInt cfg.PublishRetries ++
              " retries: ") (lastFailure evs)) ∧
          (0 ≤ cfg.PublishRetries → lastFailure evs ≠ none))) ∧
      ((∀ h x k m, env.respond h (.PublishWithContext x k m) ≠ none) →
        (PublishBatchTask env cfg task w).1 ≠ none ∧
        ((∃ body, marshalBatchTask env task = .ok body) →
          (∀ h, env.respond h (.Dial cfg.URL) = none ∧ env.respond h .Channel = none) →
          (∀ h, env.respond h
            (.QueueDeclare (cfg.QueueName ++ "_batch") cfg.DurableQueue cfg.AutoDelete) = none) →
          publishAttempts evs = iterations cfg.PublishRetries)) := by
  unfold PublishBatchTask
  obtain ⟨evs1, h1, h1all, h1pub, h1fail, h1u, h1c, h1ok⟩ :=
    guarded_reconnect_spec env cfg cfg.QueueName (mkPublishing [] 0) (unusable env w = true) w
  generalize (if unusable env w = true then reconnect env cfg w else (none, w)) = R at *
  rcases R with ⟨r, w1⟩
  simp only at h1 h1fail h1u h1c h1ok
  have h1ack := any_isAcked_of_any_isPublish _ h1pub
  have h10 := publishAttempts_eq_zero _ h1pub
  have h1br : ∀ e ∈ evs1, isBroker e.1 = true := fun e he =>
    loopEvent_isBroker _ _ _ e (by simpa using (List.all_eq_true.mp h1all) e he)
  have h1np : ∀ e ∈ evs1, isPublish e = true → False := fun e he hp => by
    have := (List.any_eq_false.mp h1pub) e he
    exact this hp
  cases r with
  | some err =>
    simp only
    refine ⟨evs1, h1, h1u, h1c, h1br, fun e he hp => (h1np e he hp).elim, by simp [h1ack],
      fun a e post hs he => no_acked_split evs1 h1ack a e post hs he, by omega,
      Or.inr (Or.inl ⟨by rw [← h1fail], by rw [← h1fail]; simp, h10⟩),
      fun _ => ⟨by simp, fun _ hre => ?_⟩⟩
    have := h1ok hre
    simp at this
  | none =>
    simp only
    cases hm : marshalBatchTask env task with
    | error err =>
      simp only
      exact ⟨evs1, h1, h1u, h1c, h1br, fun e he hp => (h1np e he hp).elim, by simp [h1ack],
        fun a e post hs he => no_acked_split evs1 h1ack a e post hs he, by omega,
        Or.inr (Or.inr (Or.inl ⟨err, rfl, rfl, h10⟩)),
        fun _ => ⟨by simp, fun hb _ => by simp at hb⟩⟩
    | ok body =>
      simp only [call]
      cases hq : env.respond w1.history
          (.QueueDeclare (cfg.QueueName ++ "_batch") cfg.DurableQueue cfg.AutoDelete) with
      | some err =>
        simp only
        have hqpub : (evs1 ++ [(Call.QueueDeclare (cfg.QueueName ++ "_batch") cfg.DurableQueue
            cfg.AutoDelete, some err)]).any isPublish = false := by simp [h1pub, isPublish]
        refine ⟨evs1 ++ [(.QueueDeclare (cfg.QueueName ++ "_batch") cfg.DurableQueue
            cfg.AutoDelete, some err)], by simp [h1], h1u, h1c, ?_, ?_,
          by simp [any_isAcked_of_any_isPublish _ hqpub],
          fun a e post hs he => no_acked_split _ (any_isAcked_of_any_isPublish _ hqpub)
            a e post hs he,
          by rw [publishAttempts_eq_zero _ hqpub]; omega,
          Or.inr (Or.inr (Or.inr (Or.inl ⟨err, rfl, publishAttempts_eq_zero _ hqpub⟩))),
          fun _ => ⟨by simp, fun _ _ hqd => by simp [hqd] at hq⟩⟩
        · intro e he
          rcases List.mem_append.mp he with he | he
          · exact h1br e he
          · simp at he; subst he; simp [isBroker]
        · intro e he hp
          exact absurd hp (by simpa using (List.any_eq_false.mp hqpub) e he)
      | none =>
        simp only
        obtain ⟨evs2, i1, i2, i3, i4, i5, i6, i7, i8⟩ := publishLoop_spec env cfg
          (cfg.QueueName ++ "_batch") (mkPublishing body task.Priority)
          (iterations cfg.PublishRetries) 0 none
          { w1 with history := w1.history ++ [(.QueueDeclare (cfg.QueueName ++ "_batch")
              cfg.DurableQueue cfg.AutoDelete, none)] }
        generalize publishLoop env cfg (cfg.QueueName ++ "_batch")
          (mkPublishing body task.Priority) (iterations cfg.PublishRetries) 0 none
          { w1 with history := w1.history ++ [(.QueueDeclare (cfg.QueueName ++ "_batch")
              cfg.DurableQueue cfg.AutoDelete, none)] } = L at *
        rcases L with ⟨l, w2⟩
        simp only at i1 i4 i5 i6 i7 i8
        generalize hpre : evs1 ++ [(Call.QueueDeclare (cfg.QueueName ++ "_batch")
          cfg.DurableQueue cfg.AutoDelete, (none : Option GoError))] = pre
        have hprepub : pre.any isPublish = false := by
          rw [← hpre]; simp [h1pub, isPublish]
        have hpreack := any_isAcked_of_any_isPublish _ hprepub
        have hpre0 := publishAttempts_eq_zero _ hprepub
        have hprefail : lastFailure pre = none := by
          rw [← hpre, lastFailure_append, ← h1fail]; simp [lastFailure, failureOf]
        have hhist : w2.history = w.history ++ (pre ++ evs2) := by
          rw [i1, h1, ← hpre]; simp
        have hprebr : ∀ e ∈ pre, isBroker e.1 = true := by
          intro e he
          rw [← hpre] at he
          rcases List.mem_append.mp he with he | he
          · exact h1br e he
          · simp at he; subst he; simp [isBroker]
        have hbr : ∀ e ∈ pre ++ evs2, isBroker e.1 = true := by
          intro e he
          rcases List.mem_append.mp he with he | he
          · exact hprebr e he
          · exact loopEvent_isBroker _ _ _ e (by simpa using (List.all_eq_true.mp i2) e he)
        have hpub : ∀ e ∈ pre ++ evs2, isPublish e = true →
            ∃ b, (Except.ok body : Except GoError JSONObject) = Except.ok b ∧
            e.1 = .PublishWithContext cfg.Exchange (cfg.QueueName ++ "_batch")
              (mkPublishing b task.Priority) := by
          intro e he hp
          rcases List.mem_append.mp he with he | he
          · exact absurd hp (by simpa using (List.any_eq_false.mp hprepub) e he)
          · exact ⟨body, rfl, loopEvent_publish _ _ _ e
              (by simpa using (List.all_eq_true.mp i2) e he) hp⟩
        have hcnt : publishAttempts (pre ++ evs2) = publishAttempts evs2 := by
          rw [publishAttempts_append, hpre0]; omega
        have hlf : lastFailure (pre ++ evs2) = lastFailure evs2 := by
          rw [lastFailure_append, hprefail]; simp
        cases l with
        | published =>
          simp only
          obtain ⟨pre2, hpre2, hack⟩ := i4 rfl
          refine ⟨pre ++ evs2, hhist, i6.trans h1u, i7.trans h1c, hbr, hpub,
            by simp [hpre2, isAcked], ?_, by rw [hcnt]; exact i3, Or.inl trivial,
            fun hfail => ?_⟩
          · intro a e post hs he
            have hs2 : (pre ++ pre2) ++ [(Call.PublishWithContext cfg.Exchange
                (cfg.QueueName ++ "_batch") (mkPublishing body task.Priority), none)] =
                a ++ e :: post := by
              rw [← hs, hpre2]; simp
            exact nothing_after_acked (pre ++ pre2) _ (by simp [hpreack, hack]) a e post hs2 he
          · obtain ⟨⟨le, hle⟩, _⟩ := i8 hfail
            simp at hle
        | exhausted le =>
          simp only
          obtain ⟨a1, a2, a3⟩ := i5 le rfl
          have hle : le = lastFailure (pre ++ evs2) := by rw [hlf, a2]; simp
          refine ⟨pre ++ evs2, hhist, i6.trans h1u, i7.trans h1c, hbr, hpub,
            by simp [hpreack, a1], fun a e post hs he =>
              no_acked_split (pre ++ evs2) (by simp [hpreack, a1]) a e post hs he,
            by rw [hcnt]; exact i3,
            Or.inr (Or.inr (Or.inr (Or.inr ⟨by rw [hle], fun hN => by
              rw [hlf]; exact a3 (iterations_pos _ hN)⟩))),
            fun hfail => ⟨by simp, fun _ hre _ => by rw [hcnt]; exact (i8 hfail).2 hre⟩⟩

theorem iterations_cast (n : Int) (h : 0 ≤ n) : (iterations n : Int) = n + 1 := by
  unfold iterations; omega

/-- C5 fails as stated: with PublishRetries = 3 and a transport on which every
call fails, PublishTask and PublishBatchTask that find the connection closed
make no delivery attempt at all, and PublishTask that loses the connection
after its first attempt makes one attempt, not four. -/
theorem C5_counterexample :
    (∀ h c, envDown.respond h c ≠ none) ∧ (∀ h c, envDrop.respond h c ≠ none) ∧
    cfgTest.RabbitMQ.PublishRetries = 3 ∧
    (PublishTask envDown cfgTest.RabbitMQ taskTest World.start).1 ≠ none ∧
    publishAttempts (newCalls World.start
      (PublishTask envDown cfgTest.RabbitMQ taskTest World.start).2) = 0 ∧
    (publishAttempts (newCalls World.start
      (PublishTask envDown cfgTest.RabbitMQ taskTest World.start).2) : Int) ≠
        cfgTest.RabbitMQ.PublishRetries + 1 ∧
    (PublishBatchTask envDown cfgTest.RabbitMQ batchTaskTest World.start).1 ≠ none ∧
    publishAttempts (newCalls World.start
      (PublishBatchTask envDown cfgTest.RabbitMQ batchTaskTest World.start).2) = 0 ∧
    (PublishTask envDrop cfgTest.RabbitMQ taskTest World.start).1 ≠ none ∧
    publishAttempts (newCalls World.start
      (PublishTask envDrop cfgTest.RabbitMQ taskTest World.start).2) = 1 := by
  refine ⟨fun h c => by simp [envDown], fun h c => by simp [envDrop], rfl, ?_, ?_, ?_, ?_, ?_,
    ?_, ?_⟩
  all_goals decide

/-- C5, amended: for PublishRetries = N ≥ 0 and a transport on which no
delivery attempt succeeds, PublishTask and PublishBatchTask return an error
after at most N+1 delivery attempts; the attempts are exactly N+1 when the task
serializes, no reconnect fails and (for a batch task) the queue declaration
succeeds. -/
theorem C5_retry_bound (env : Env) (cfg : RabbitMQConfig) (w : World)
    (hN : 0 ≤ cfg.PublishRetries)
    (hfail : ∀ h x k m, env.respond h (.PublishWithContext x k m) ≠ none) :
    (∀ task : HeightmapTask,
      (PublishTask env cfg task w).1 ≠ none ∧
      (publishAttempts (newCalls w (PublishTask env cfg task w).2) : Int) ≤
        cfg.PublishRetries + 1 ∧
      ((∃ body, marshalTask env task = .ok body) →
        (∀ h, env.respond h (.Dial cfg.URL) = none ∧ env.respond h .Channel = none) →
        (publishAttempts (newCalls w (PublishTask env cfg task w).2) : Int) =
          cfg.PublishRetries + 1)) ∧
    (∀ task : BatchHeightmapTask,
      (PublishBatchTask env cfg task w).1 ≠ none ∧
      (publishAttempts (newCalls w (PublishBatchTask env cfg task w).2) : Int) ≤
        cfg.PublishRetries + 1 ∧
      ((∃ body, marshalBatchTask env task = .ok body) →
        (∀ h, env.respond h (.Dial cfg.URL) = none ∧ env.respond h .Channel = none) →
        (∀ h, env.respond h
          (.QueueDeclare (cfg.QueueName ++ "_batch") cfg.DurableQueue cfg.AutoDelete) = none) →
        (publishAttempts (newCalls w (PublishBatchTask env cfg task w).2) : Int) =
          cfg.PublishRetries + 1)) := by
  have hc := iterations_cast cfg.PublishRetries hN
  constructor
  · intro task
    obtain ⟨evs, h1, _, _, _, _, _, _, h8, _, h10⟩ := PublishTask_spec env cfg task w
    rw [newCalls_of_append _ _ _ h1]
    refine ⟨(h10 hfail).1, by omega, fun hb hre => ?_⟩
    rw [(h10 hfail).2 hb hre, hc]
  · intro task
    obtain ⟨evs, h1, _, _, _, _, _, _, h8, _, h10⟩ := PublishBatchTask_spec env cfg task w
    rw [newCalls_of_append _ _ _ h1]
    refine ⟨(h10 hfail).1, by omega, fun hb hre hq => ?_⟩
    rw [(h10 hfail).2 hb hre hq, hc]

theorem C5_retry_bound_witness :
    (publishAttempts (newCalls World.start
      (PublishTask envNack cfgTest.RabbitMQ taskTest World.start).2) : Int) = 3 + 1 :=
  ((C5_retry_bound envNack cfgTest.RabbitMQ World.start (by decide)
    (fun h x k m => by simp [envNack])).1 taskTest).2.2 ⟨_, rfl⟩ (fun h => by simp [envNack])

/-- C6: PublishTask returns nil exactly when one of the delivery attempts it
made was acknowledged, and it makes no call after an acknowledged attempt.
Otherwise it returns the error of the failed reconnect on entry, the
serialization error, or, the retry loop exhausted, an error that wraps the
cause of the last failed delivery attempt or failed reconnect; such a cause
exists whenever PublishRetries is not negative. -/
theorem C6_publish_task_result (env : Env) (cfg : RabbitMQConfig) (task : HeightmapTask)
    (w : World) :
    ((PublishTask env cfg task w).1 = none ↔
      (newCalls w (PublishTask env cfg task w).2).any isAcked = true) ∧
    (∀ a e post, newCalls w (PublishTask env cfg task w).2 = a ++ e :: post →
      isAcked e = true → post = []) ∧
    ((PublishTask env cfg task w).1 = none ∨
      ((PublishTask env cfg task w).1 =
          some (Errorf "failed to reconnect before publishing: "
            (lastFailure (newCalls w (PublishTask env cfg task w).2))) ∧
        lastFailure (newCalls w (PublishTask env cfg task w).2) ≠ none ∧
        publishAttempts (newCalls w (PublishTask env cfg task w).2) = 0) ∨
      (∃ err, marshalTask env task = .error err ∧
        (PublishTask env cfg task w).1 = some (Errorf "failed to marshal task: " (some err)) ∧
        publishAttempts (newCalls w (PublishTask env cfg task w).2) = 0) ∨
      ((PublishTask env cfg task w).1 =
          some (Errorf ("failed to publish task after " ++ fmtInt cfg.PublishRetries ++
            " retries: ") (lastFailure (newCalls w (PublishTask env cfg task w).2))) ∧
        (0 ≤ cfg.PublishRetries →
          lastFailure (newCalls w (PublishTask env cfg task w).2) ≠ none))) := by
  obtain ⟨evs, h1, _, _, _, _, h6, h7, _, h9, _⟩ := PublishTask_spec env cfg task w
  rw [newCalls_of_append _ _ _ h1]
  exact ⟨h6, h7, h9⟩

theorem C6_publish_task_result_witness :
    (newCalls World.start (PublishTask envOk cfgTest.RabbitMQ taskTest World.start).2).any
      isAcked = true :=
  (C6_publish_task_result envOk cfgTest.RabbitMQ taskTest World.start).1.mp (by decide)

/-! ## The per-file loop of a batch -/

/-- The per-file loop either processes every file, making the expected calls
and collecting the expected URLs, or stops at the first file `k` that fails,
having made the expected calls for the files before it and the calls of the
failure for file `k`, and nothing else. -/
theorem uploadBatchFiles_spec (env : Env) (cfg : Config) (userID batchJobID : UUID)
    (now : Time) (files : List FileHeader) :
    ∀ (idx : Nat) (urls : List String) (w : World),
    (∃ w2, uploadBatchFiles env cfg userID batchJobID now files idx urls w =
        (.ok (urls ++ expectedURLs cfg userID batchJobID files idx), w2) ∧
      w2.history = w.history ++
        expectedBatchCalls env cfg userID batchJobID now files idx w.uuids ∧
      w2.uuids = w.uuids + files.length ∧ w2.clock = w.clock ∧ w2.conn = w.conn ∧
      w2.channel = w.channel ∧ files.all fileOk = true) ∨
    (∃ k f e w2 calls, files[k]? = some f ∧ (files.take k).all fileOk = true ∧
      uploadBatchFiles env cfg userID batchJobID now files idx urls w = (.error e, w2) ∧
      w2.history = w.history ++
        (expectedBatchCalls env cfg userID batchJobID now (files.take k) idx w.uuids ++ calls) ∧
      failedFileCalls env cfg userID batchJobID now f (idx + k) (w.uuids + k) calls e ∧
      w2.clock = w.clock) := by
  induction files with
  | nil =>
    intro idx urls w
    exact Or.inl ⟨w, by simp [uploadBatchFiles, expectedURLs], by simp [expectedBatchCalls],
      rfl, rfl, rfl, rfl, by simp⟩
  | cons f rest ih =>
    intro idx urls w
    simp only [uploadBatchFiles, call, uuidNew]
    cases ho : env.respond w.history (.Open f.Filename) with
    | some err =>
      exact Or.inr ⟨0, f, _, _, [(.Open f.Filename, some err)], by simp, by simp, rfl,
        by simp [expectedBatchCalls], Or.inl ⟨err, rfl, rfl⟩, rfl⟩
    | none =>
      simp only
      by_cases hb : badExt (ToLower (Ext f.Filename)) = true
      · simp only [hb, if_true]
        exact Or.inr ⟨0, f, _, _, [(.Open f.Filename, none)], by simp, by simp, rfl,
          by simp [expectedBatchCalls], Or.inr (Or.inl ⟨rfl, hb, rfl⟩), rfl⟩
      · simp only [hb, if_false]
        by_cases hsz : f.Size > maxFileSize
        · simp only [hsz, if_true]
          exact Or.inr ⟨0, f, _, _, [(.Open f.Filename, none)], by simp, by simp, rfl,
            by simp [expectedBatchCalls],
            Or.inr (Or.inr (Or.inl ⟨rfl, by simpa using hb, hsz, rfl⟩)), rfl⟩
        · simp only [hsz, if_false]
          have hok : fileOk f = true := by
            simp only [fileOk, Bool.and_eq_true, Bool.not_eq_true', decide_eq_true_eq]
            exact ⟨by simpa using hb, by omega⟩
          cases hu : env.respond (w.history ++ [(.Open f.Filename, none)])
              (batchUploadCall cfg userID batchJobID idx f) with
          | some err =>
            simp only [batchUploadCall, batchObjectName] at hu
            simp only [hu]
            exact Or.inr ⟨0, f, _, _, [(.Open f.Filename, none),
                (batchUploadCall cfg userID batchJobID idx f, some err)], by simp, by simp, rfl,
              by simp [expectedBatchCalls, batchUploadCall, batchObjectName],
              Or.inr (Or.inr (Or.inr (Or.inl ⟨err, rfl, hok, rfl⟩))), rfl⟩
          | none =>
            simp only [batchUploadCall, batchObjectName] at hu
            simp only [hu]
            cases hc : env.respond (w.history ++ [(.Open f.Filename, none)] ++
                [(batchUploadCall cfg userID batchJobID idx f, none)])
                (batchImageCall env cfg userID batchJobID now idx w.uuids f) with
            | some err =>
              simp only [batchUploadCall, batchImageCall, batchImageURL, batchObjectName] at hc
              simp only [hc]
              exact Or.inr ⟨0, f, _, _, [(.Open f.Filename, none),
                  (batchUploadCall cfg userID batchJobID idx f, none),
                  (batchImageCall env cfg userID batchJobID now idx w.uuids f, some err)],
                by simp, by simp, rfl,
                by simp [expectedBatchCalls, batchUploadCall, batchImageCall, batchImageURL,
                  batchObjectName],
                Or.inr (Or.inr (Or.inr (Or.inr ⟨err, rfl, hok, rfl⟩))), rfl⟩
            | none =>
              simp only [batchUploadCall, batchImageCall, batchImageURL, batchObjectName] at hc
              simp only [hc]
              rcases ih (idx + 1) (urls ++ [batchImageURL cfg userID batchJobID idx f])
                { history := w.history ++ [(.Open f.Filename, none)] ++
                    [(batchUploadCall cfg userID batchJobID idx f, none)] ++
                    [(batchImageCall env cfg userID batchJobID now idx w.uuids f, none)],
                  uuids := w.uuids + 1, clock := w.clock, conn := w.conn,
                  channel := w.channel } with
                ⟨w2, h1, h2, h3, h4, h5, h6, h7⟩ |
                ⟨k, f2, e, w2, calls, h1, h0, h2, h3, h4, h5⟩
              · refine Or.inl ⟨w2, ?_, ?_, ?_, h4, h5, h6, by simp [hok, h7]⟩
                · have : urls ++ expectedURLs cfg userID batchJobID (f :: rest) idx =
                      urls ++ [batchImageURL cfg userID batchJobID idx f] ++
                        expectedURLs cfg userID batchJobID rest (idx + 1) := by
                    simp [expectedURLs]
                  rw [this]
                  exact h1
                · rw [h2]; simp [expectedBatchCalls]
                · rw [h3]; simp only [List.length_cons]; omega
              · have e1 : idx + 1 + k = idx + (k + 1) := by omega
                have e2 : w.uuids + 1 + k = w.uuids + (k + 1) := by omega
                simp only [e1, e2] at h4
                refine Or.inr ⟨k + 1, f2, e, w2, calls, by simpa using h1,
                  by simp [hok, h0], h2, ?_, h4, h5⟩
                rw [h3]; simp [expectedBatchCalls]

/-! ## The batch upload as a whole -/

theorem BatchUploadPhotos_invalid (env : Env) (cfg : Config) (userID : UUID)
    (files : List FileHeader) (mergeMethod : String) (fastMode : Bool) (generationMode : String)
    (w : World) (h : ¬ batchValid files mergeMethod generationMode) :
    (∃ e, (BatchUploadPhotos env cfg userID files mergeMethod fastMode generationMode w).1 =
      .error e) ∧
    (BatchUploadPhotos env cfg userID files mergeMethod fastMode generationMode w).2 =
      { w with clock := w.clock + 1 } := by
  simp only [BatchUploadPhotos, timeNow]
  split_ifs with a b c d e
  · exact ⟨⟨_, rfl⟩, rfl⟩
  · exact ⟨⟨_, rfl⟩, rfl⟩
  · exact ⟨⟨_, rfl⟩, rfl⟩
  · exact ⟨⟨_, rfl⟩, rfl⟩
  · exact ⟨⟨_, rfl⟩, rfl⟩
  · exfalso
    apply h
    refine ⟨a, by omega, ?_, ?_, e⟩
    · by_contra hc; push_neg at hc; exact c ⟨hc.1, hc.2.1, hc.2.2⟩
    · by_contra hc; push_neg at hc; exact d ⟨hc.1, hc.2.1, hc.2.2⟩

theorem BatchUploadPhotos_valid (env : Env) (cfg : Config) (userID : UUID)
    (files : List FileHeader) (mergeMethod : String) (fastMode : Bool) (generationMode : String)
    (w : World) (h : batchValid files mergeMethod generationMode) :
    (∃ err, env.respond w.history (batchJobCall env userID files mergeMethod generationMode w) =
        some err ∧
      (BatchUploadPhotos env cfg userID files mergeMethod fastMode generationMode w).1 =
        .error (Errorf "не удалось создать пакетную задачу в базе данных: " (some err)) ∧
      (BatchUploadPhotos env cfg userID files mergeMethod fastMode generationMode w).2.history =
        w.history ++ [(batchJobCall env userID files mergeMethod generationMode w, some err)]) ∨
    (env.respond w.history (batchJobCall env userID files mergeMethod generationMode w) = none ∧
      ∃ k f e calls, files[k]? = some f ∧ (files.take k).all fileOk = true ∧
        failedFileCalls env cfg userID (env.uuid w.uuids) (env.now (w.clock + 1)) f k
          (w.uuids + 1 + k) calls e ∧
        (batchLoop env cfg userID files mergeMethod generationMode w).1 = .error e ∧
        (BatchUploadPhotos env cfg userID files mergeMethod fastMode generationMode w).1 =
          .error e ∧
        (BatchUploadPhotos env cfg userID files mergeMethod fastMode generationMode w).2.history =
          w.history ++ (batchJobCall env userID files mergeMethod generationMode w, none) ::
            (expectedBatchCalls env cfg userID (env.uuid w.uuids) (env.now (w.clock + 1))
              (files.take k) 0 (w.uuids + 1) ++ calls)) ∨
    (env.respond w.history (batchJobCall env userID files mergeMethod generationMode w) = none ∧
      files.all fileOk = true ∧
      (batchLoop env cfg userID files mergeMethod generationMode w).1 =
        .ok (expectedURLs cfg userID (env.uuid w.uuids) files 0) ∧
      (((batchPublish env cfg userID files mergeMethod fastMode generationMode w).1 = none ∧
        (BatchUploadPhotos env cfg userID files mergeMethod fastMode generationMode w).1 =
          .ok { ID := env.uuid w.uuids, Status := "pending", ImageCount := files.length,
                MergeMethod := resolveMergeMethod mergeMethod } ∧
        (BatchUploadPhotos env cfg userID files mergeMethod fastMode generationMode w).2.history =
          (batchPublish env cfg userID files mergeMethod fastMode generationMode w).2.history) ∨
       (∃ err, (batchPublish env cfg userID files mergeMethod fastMode generationMode w).1 =
          some err ∧
        (BatchUploadPhotos env cfg userID files mergeMethod fastMode generationMode w).1 =
          .error (Errorf "не удалось отправить пакетную задачу: " (some err)) ∧
        (BatchUploadPhotos env cfg userID files mergeMethod fastMode generationMode w).2.history =
          (batchPublish env cfg userID files mergeMethod fastMode generationMode w).2.history ++
            [(batchErrorCall env cfg userID files mergeMethod fastMode generationMode w err,
              env.respond
                (batchPublish env cfg userID files mergeMethod fastMode generationMode w).2.history
                (batchErrorCall env cfg userID files mergeMethod fastMode generationMode w
                  err))]))) := by
  obtain ⟨h0, h50, hm, hg, hmin⟩ := h
  have c1 : ¬ files.length > 50 := by omega
  have c2 : ¬ (resolveMergeMethod mergeMethod ≠ "medium" ∧ resolveMergeMethod mergeMethod ≠ "max"
      ∧ resolveMergeMethod mergeMethod ≠ "low") := by
    rintro ⟨a, b, c⟩; rcases hm with h | h | h <;> contradiction
  have c3 : ¬ (resolveGenerationMode generationMode ≠ "heightmap" ∧
      resolveGenerationMode generationMode ≠ "orthophoto" ∧
      resolveGenerationMode generationMode ≠ "both") := by
    rintro ⟨a, b, c⟩; rcases hg with h | h | h <;> contradiction
  simp only [BatchUploadPhotos, timeNow, uuidNew, call, h0, c1, c2, c3, hmin, if_false]
  cases hc : env.respond w.history (batchJobCall env userID files mergeMethod generationMode w) with
  | some err =>
    simp only [batchJobCall] at hc
    simp only [hc]
    exact Or.inl ⟨err, rfl, rfl, rfl⟩
  | none =>
    simp only [batchJobCall] at hc
    simp only [hc]
    rcases uploadBatchFiles_spec env cfg userID (env.uuid w.uuids) (env.now (w.clock + 1)) files
        0 [] { history := w.history ++ [(batchJobCall env userID files mergeMethod
                 generationMode w, none)],
               uuids := w.uuids + 1, clock := w.clock + 1 + 1, conn := w.conn,
               channel := w.channel } with
      ⟨w2, h1, h2, h3, h4, h5, h6, h7⟩ | ⟨k, f, e, w2, calls, h1, hk, h2, h3, h4, h5⟩
    · have hloop : (batchLoop env cfg userID files mergeMethod generationMode w).1 =
          .ok (expectedURLs cfg userID (env.uuid w.uuids) files 0) := congrArg Prod.fst h1
      simp only [batchJobCall] at h1
      simp only [h1]
      have hw2 : w2 = batchPublishState env cfg userID files mergeMethod generationMode w := by
        rcases w2 with ⟨a, b, c, d, e⟩
        simp only at h2 h3 h4 h5 h6
        simp [batchPublishState, h2, h3, h4, h5, h6]
      subst hw2
      refine Or.inr (Or.inr ⟨trivial, h7, hloop, ?_⟩)
      simp only [batchPublish, batchTask, batchErrorCall, List.nil_append]
      split
      · rename_i err w5 heq
        simp only [heq]
        exact Or.inr ⟨err, rfl, rfl, rfl⟩
      · rename_i w5 heq
        simp only [heq]
        exact Or.inl ⟨trivial, trivial, trivial⟩
    · have hloop : (batchLoop env cfg userID files mergeMethod generationMode w).1 =
          .error e := congrArg Prod.fst h2
      simp only [batchJobCall] at h2
      simp only [h2]
      refine Or.inr (Or.inl ⟨trivial, k, f, e, calls, h1, hk, ?_, hloop, rfl, ?_⟩)
      · simpa [Nat.zero_add] using h4
      · simpa using h3

/-! ## The single upload as a whole -/

theorem UploadPhoto_invalid (env : Env) (cfg : Config) (userID : UUID) (header : FileHeader)
    (w : World) (h : fileOk header = false) :
    (∃ e, (UploadPhoto env cfg userID header w).1 = .error e) ∧
    (UploadPhoto env cfg userID header w).2 = { w with clock := w.clock + 1 } := by
  simp only [UploadPhoto, timeNow]
  split_ifs with a b
  · exact ⟨⟨_, rfl⟩, rfl⟩
  · exact ⟨⟨_, rfl⟩, rfl⟩
  · exfalso
    have : fileOk header = true := by
      simp only [fileOk, Bool.and_eq_true, Bool.not_eq_true', decide_eq_true_eq]
      exact ⟨by simpa using a, by omega⟩
    rw [this] at h
    exact Bool.noConfusion h

theorem UploadPhoto_valid (env : Env) (cfg : Config) (userID : UUID) (header : FileHeader)
    (w : World) (h : fileOk header = true) :
    (∃ err, env.respond w.history (uploadCall env cfg userID header w) = some err ∧
      (UploadPhoto env cfg userID header w).1 =
        .error (Errorf "не удалось загрузить файл в хранилище: " (some err)) ∧
      (UploadPhoto env cfg userID header w).2.history =
        w.history ++ [(uploadCall env cfg userID header w, some err)]) ∨
    (∃ err, env.respond (w.history ++ [(uploadCall env cfg userID header w, none)])
        (jobCall env cfg userID header w) = some err ∧
      (UploadPhoto env cfg userID header w).1 =
        .error (Errorf "не удалось создать задачу в базе данных: " (some err)) ∧
      (UploadPhoto env cfg userID header w).2.history =
        w.history ++ [(uploadCall env cfg userID header w, none),
          (jobCall env cfg userID header w, some err)]) ∨
    (env.respond w.history (uploadCall env cfg userID header w) = none ∧
      env.respond (w.history ++ [(uploadCall env cfg userID header w, none)])
        (jobCall env cfg userID header w) = none ∧
      (uploadPublish env cfg userID header w).1 = none ∧
      (UploadPhoto env cfg userID header w).1 =
        .ok { ID := env.uuid w.uuids, Status := "pending" } ∧
      (UploadPhoto env cfg userID header w).2.history =
        (uploadPublish env cfg userID header w).2.history) ∨
    (env.respond w.history (uploadCall env cfg userID header w) = none ∧
      env.respond (w.history ++ [(uploadCall env cfg userID header w, none)])
        (jobCall env cfg userID header w) = none ∧
      ∃ err, (uploadPublish env cfg userID header w).1 = some err ∧
      (UploadPhoto env cfg userID header w).1 =
        .error (Errorf "не удалось отправить задачу: " (some err)) ∧
      (UploadPhoto env cfg userID header w).2.history =
        (uploadPublish env cfg userID header w).2.history ++
          [(jobErrorCall env cfg userID header w err,
            env.respond (uploadPublish env cfg userID header w).2.history
              (jobErrorCall env cfg userID header w err))]) := by
  simp only [fileOk, Bool.and_eq_true, Bool.not_eq_true', decide_eq_true_eq] at h
  have hsz : ¬ header.Size > maxFileSize := by omega
  simp only [UploadPhoto, timeNow, uuidNew, call, h.1, hsz, if_false, Bool.false_eq_true]
  cases hu : env.respond w.history (uploadCall env cfg userID header w) with
  | some err =>
    simp only [uploadCall, uploadObjectName] at hu
    simp only [hu]
    exact Or.inl ⟨err, rfl, rfl, rfl⟩
  | none =>
    simp only [uploadCall, uploadObjectName] at hu
    simp only [hu]
    cases hj : env.respond (w.history ++ [(uploadCall env cfg userID header w, none)])
        (jobCall env cfg userID header w) with
    | some err =>
      simp only [uploadCall, jobCall, uploadImageURL, uploadObjectName] at hj
      simp only [hj]
      exact Or.inr (Or.inl ⟨err, rfl, rfl, by simp [uploadCall, jobCall, uploadImageURL,
        uploadObjectName]⟩)
    | none =>
      simp only [uploadCall, jobCall, uploadImageURL, uploadObjectName] at hj
      simp only [hj]
      refine Or.inr (Or.inr ?_)
      simp only [uploadPublish, uploadTask, jobErrorCall, uploadPublishState, uploadCall, jobCall,
        uploadImageURL, uploadObjectName, List.append_assoc, List.singleton_append]
      split
      · rename_i err w5 heq
        simp only [heq]
        exact Or.inr ⟨trivial, trivial, err, rfl, rfl, rfl⟩
      · rename_i w5 heq
        simp only [heq]
        exact Or.inl ⟨trivial, trivial, trivial, trivial, trivial⟩

theorem marshalTask_body (env : Env) (t : HeightmapTask) (body : JSONObject)
    (h : marshalTask env t = .ok body) : body.lookup "job_id" = some (.str t.JobID) := by
  unfold marshalTask at h
  split at h
  · exact absurd h (by simp)
  · simp only [Except.ok.injEq] at h
    subst h
    simp [List.lookup]

/-- The calls of a single upload: none when validation rejects the file; else
the upload, then the record creation, then the calls of the publisher and,
after a failed publish, the write of the error state. -/
theorem UploadPhoto_calls (env : Env) (cfg : Config) (userID : UUID) (header : FileHeader)
    (w : World) :
    ((∃ e, (UploadPhoto env cfg userID header w).1 = .error e) ∧
      newCalls w (UploadPhoto env cfg userID header w).2 = []) ∨
    (∃ err, (UploadPhoto env cfg userID header w).1 =
        .error (Errorf "не удалось загрузить файл в хранилище: " (some err)) ∧
      newCalls w (UploadPhoto env cfg userID header w).2 =
        [(uploadCall env cfg userID header w, some err)]) ∨
    (∃ err, (UploadPhoto env cfg userID header w).1 =
        .error (Errorf "не удалось создать задачу в базе данных: " (some err)) ∧
      newCalls w (UploadPhoto env cfg userID header w).2 =
        [(uploadCall env cfg userID header w, none),
          (jobCall env cfg userID header w, some err)]) ∨
    (∃ pevs tail, newCalls w (UploadPhoto env cfg userID header w).2 =
        (uploadCall env cfg userID header w, none) :: (jobCall env cfg userID header w, none) ::
          (pevs ++ tail) ∧
      (uploadPublish env cfg userID header w).2.history =
        (uploadPublishState env cfg userID header w).history ++ pevs ∧
      (∀ e ∈ pevs, isBroker e.1 = true) ∧
      (∀ e ∈ pevs, isPublish e = true → ∃ body,
        marshalTask env (uploadTask env cfg userID header w) = .ok body ∧
        e.1 = .PublishWithContext cfg.RabbitMQ.Exchange cfg.RabbitMQ.QueueName
          (mkPublishing body 0)) ∧
      (((uploadPublish env cfg userID header w).1 = none ∧ tail = [] ∧
          (UploadPhoto env cfg userID header w).1 =
            .ok { ID := env.uuid w.uuids, Status := "pending" }) ∨
        (∃ err, (uploadPublish env cfg userID header w).1 = some err ∧
          tail = [(jobErrorCall env cfg userID header w err,
            env.respond (uploadPublish env cfg userID header w).2.history
              (jobErrorCall env cfg userID header w err))] ∧
          (UploadPhoto env cfg userID header w).1 =
            .error (Errorf "не удалось отправить задачу: " (some err))))) := by
  cases hok : fileOk header with
  | false =>
    obtain ⟨h1, h2⟩ := UploadPhoto_invalid env cfg userID header w hok
    exact Or.inl ⟨h1, by rw [h2]; exact newCalls_self_clock w _⟩
  | true =>
    rcases UploadPhoto_valid env cfg userID header w hok with
      ⟨err, _, h2, h3⟩ | ⟨err, _, h2, h3⟩ | ⟨_, _, h1, h2, h3⟩ | ⟨_, _, err, h1, h2, h3⟩
    · exact Or.inr (Or.inl ⟨err, h2, newCalls_of_append _ _ _ h3⟩)
    · exact Or.inr (Or.inr (Or.inl ⟨err, h2, newCalls_of_append _ _ _ h3⟩))
    · obtain ⟨pevs, p1, _, _, p4, p5, _⟩ := PublishTask_spec env cfg.RabbitMQ
        (uploadTask env cfg userID header w) (uploadPublishState env cfg userID header w)
      refine Or.inr (Or.inr (Or.inr ⟨pevs, [], ?_, p1, p4, p5, Or.inl ⟨h1, rfl, h2⟩⟩))
      apply newCalls_of_append
      rw [h3]
      show (uploadPublish env cfg userID header w).2.history = _
      rw [show (uploadPublish env cfg userID header w).2.history = _ from p1]
      simp [uploadPublishState]
    · obtain ⟨pevs, p1, _, _, p4, p5, _⟩ := PublishTask_spec env cfg.RabbitMQ
        (uploadTask env cfg userID header w) (uploadPublishState env cfg userID header w)
      refine Or.inr (Or.inr (Or.inr ⟨pevs, _, ?_, p1, p4, p5, Or.inr ⟨err, h1, rfl, h2⟩⟩))
      apply newCalls_of_append
      rw [h3, show (uploadPublish env cfg userID header w).2.history = _ from p1]
      simp [uploadPublishState]

/-- The calls of a batch upload: none when a batch-level check rejects the
request; else the creation of the BatchJob record, then the calls for the files
in order up to the first failure, and, when no file fails, the calls of the
publisher and, after a failed publish, the write of the error state. -/
theorem BatchUploadPhotos_calls (env : Env) (cfg : Config) (userID : UUID)
    (files : List FileHeader) (mergeMethod : String) (fastMode : Bool) (generationMode : String)
    (w : World) :
    (¬ batchValid files mergeMethod generationMode ∧
      (∃ e, (BatchUploadPhotos env cfg userID files mergeMethod fastMode generationMode w).1 =
        .error e) ∧
      newCalls w (BatchUploadPhotos env cfg userID files mergeMethod fastMode generationMode w).2
        = []) ∨
    (batchValid files mergeMethod generationMode ∧
      ∃ err, (BatchUploadPhotos env cfg userID files mergeMethod fastMode generationMode w).1 =
        .error (Errorf "не удалось создать пакетную задачу в базе данных: " (some err)) ∧
      newCalls w (BatchUploadPhotos env cfg userID files mergeMethod fastMode generationMode w).2
        = [(batchJobCall env userID files mergeMethod generationMode w, some err)]) ∨
    (batchValid files mergeMethod generationMode ∧
      ∃ k f e calls, files[k]? = some f ∧ (files.take k).all fileOk = true ∧
      failedFileCalls env cfg userID (env.uuid w.uuids) (env.now (w.clock + 1)) f k
        (w.uuids + 1 + k) calls e ∧
      (BatchUploadPhotos env cfg userID files mergeMethod fastMode generationMode w).1 =
        .error e ∧
      newCalls w (BatchUploadPhotos env cfg userID files mergeMethod fastMode generationMode w).2
        = (batchJobCall env userID files mergeMethod generationMode w, none) ::
            (expectedBatchCalls env cfg userID (env.uuid w.uuids) (env.now (w.clock + 1))
              (files.take k) 0 (w.uuids + 1) ++ calls)) ∨
    (batchValid files mergeMethod generationMode ∧ files.all fileOk = true ∧
      ∃ pevs tail,
      newCalls w (BatchUploadPhotos env cfg userID files mergeMethod fastMode generationMode w).2
        = (batchJobCall env userID files mergeMethod generationMode w, none) ::
            (expectedBatchCalls env cfg userID (env.uuid w.uuids) (env.now (w.clock + 1))
              files 0 (w.uuids + 1) ++ (pevs ++ tail)) ∧
      (batchPublish env cfg userID files mergeMethod fastMode generationMode w).2.history =
        (batchPublishState env cfg userID files mergeMethod generationMode w).history ++ pevs ∧
      (∀ e ∈ pevs, isBroker e.1 = true) ∧
      (∀ e ∈ pevs, isPublish e = true → ∃ body,
        marshalBatchTask env
          (batchTask env cfg userID files mergeMethod fastMode generationMode w) = .ok body ∧
        e.1 = .PublishWithContext cfg.RabbitMQ.Exchange (cfg.RabbitMQ.QueueName ++ "_batch")
          (mkPublishing body 0)) ∧
      (((batchPublish env cfg userID files mergeMethod fastMode generationMode w).1 = none ∧
          tail = [] ∧
          (BatchUploadPhotos env cfg userID files mergeMethod fastMode generationMode w).1 =
            .ok { ID := env.uuid w.uuids, Status := "pending", ImageCount := files.length,
                  MergeMethod := resolveMergeMethod mergeMethod }) ∨
        (∃ err,
          (batchPublish env cfg userID files mergeMethod fastMode generationMode w).1 =
            some err ∧
          tail = [(batchErrorCall env cfg userID files mergeMethod fastMode generationMode w err,
            env.respond
              (batchPublish env cfg userID files mergeMethod fastMode generationMode w).2.history
              (batchErrorCall env cfg userID files mergeMethod fastMode generationMode w err))] ∧
          (BatchUploadPhotos env cfg userID files mergeMethod fastMode generationMode w).1 =
            .error (Errorf "не удалось отправить пакетную задачу: " (some err))))) := by
  by_cases hv : batchValid files mergeMethod generationMode
  swap
  · obtain ⟨h1, h2⟩ := BatchUploadPhotos_invalid env cfg userID files mergeMethod fastMode
      generationMode w hv
    exact Or.inl ⟨hv, h1, by rw [h2]; exact newCalls_self_clock w _⟩
  · rcases BatchUploadPhotos_valid env cfg userID files mergeMethod fastMode generationMode w hv
      with ⟨err, _, h2, h3⟩ | ⟨_, k, f, e, calls, hk, hall, hf, _, h2, h3⟩ |
        ⟨_, hall, _, ⟨h1, h2, h3⟩ | ⟨err, h1, h2, h3⟩⟩
    · exact Or.inr (Or.inl ⟨hv, err, h2, newCalls_of_append _ _ _ h3⟩)
    · exact Or.inr (Or.inr (Or.inl ⟨hv, k, f, e, calls, hk, hall, hf, h2,
        newCalls_of_append _ _ _ h3⟩))
    · obtain ⟨pevs, p1, _, _, p4, p5, _⟩ := PublishBatchTask_spec env cfg.RabbitMQ
        (batchTask env cfg userID files mergeMethod fastMode generationMode w)
        (batchPublishState env cfg userID files mergeMethod generationMode w)
      refine Or.inr (Or.inr (Or.inr ⟨hv, hall, pevs, [], ?_, p1, p4, p5, Or.inl ⟨h1, rfl, h2⟩⟩))
      apply newCalls_of_append
      rw [h3, show (batchPublish env cfg userID files mergeMethod fastMode generationMode
        w).2.history = _ from p1]
      simp [batchPublishState]
    · obtain ⟨pevs, p1, _, _, p4, p5, _⟩ := PublishBatchTask_spec env cfg.RabbitMQ
        (batchTask env cfg userID files mergeMethod fastMode generationMode w)
        (batchPublishState env cfg userID files mergeMethod generationMode w)
      refine Or.inr (Or.inr (Or.inr ⟨hv, hall, pevs, _, ?_, p1, p4, p5,
        Or.inr ⟨err, h1, rfl, h2⟩⟩))
      apply newCalls_of_append
      rw [h3, show (batchPublish env cfg userID files mergeMethod fastMode generationMode
        w).2.history = _ from p1]
      simp [batchPublishState]

theorem expectedBatchCalls_isFileCall (env : Env) (cfg : Config) (userID batchJobID : UUID)
    (now : Time) (files : List FileHeader) :
    ∀ (idx u : Nat), ∀ e ∈ expectedBatchCalls env cfg userID batchJobID now files idx u,
      isFileCall e.1 = true := by
  induction files with
  | nil => intro idx u e he; simp [expectedBatchCalls] at he
  | cons f rest ih =>
    intro idx u e he
    simp only [expectedBatchCalls, List.cons_append, List.nil_append, List.mem_cons] at he
    rcases he with he | he | he | he
    · subst he; rfl
    · subst he; rfl
    · subst he; rfl
    · exact ih _ _ e he

theorem failedFileCalls_isFileCall (env : Env) (cfg : Config) (userID batchJobID : UUID)
    (now : Time) (f : FileHeader) (idx u : Nat) (calls : History) (e : GoError)
    (h : failedFileCalls env cfg userID batchJobID now f idx u calls e) :
    ∀ c ∈ calls, isFileCall c.1 = true := by
  intro c hc
  rcases h with ⟨_, h, _⟩ | ⟨h, _⟩ | ⟨h, _⟩ | ⟨_, h, _⟩ | ⟨_, h, _⟩ <;>
    (subst h; simp only [List.mem_cons, List.mem_singleton, List.not_mem_nil, or_false] at hc)
  · subst hc; rfl
  · subst hc; rfl
  · subst hc; rfl
  · rcases hc with hc | hc <;> (subst hc; rfl)
  · rcases hc with hc | hc | hc <;> (subst hc; rfl)

theorem mem_of_split {α : Type} (l pre post : List α) (e : α) (h : l = pre ++ e :: post) :
    e ∈ l := by
  rw [h]; simp

theorem marshalBatchTask_body (env : Env) (t : BatchHeightmapTask) (body : JSONObject)
    (h : marshalBatchTask env t = .ok body) :
    body.lookup "batch_job_id" = some (.str t.BatchJobID) ∧
    body.lookup "merge_method" = some (.str t.MergeMethod) ∧
    body.lookup "generation_mode" = some (.str t.GenerationMode) := by
  unfold marshalBatchTask at h
  split at h
  · exact absurd h (by simp)
  · simp only [Except.ok.injEq] at h
    subst h
    simp [List.lookup]

theorem UploadPhoto_publish_after_create (env : Env) (cfg : Config) (userID : UUID)
    (header : FileHeader) (w : World) :
    (∀ pre x k m r post, newCalls w (UploadPhoto env cfg userID header w).2 =
        pre ++ (Call.PublishWithContext x k m, r) :: post →
      ∃ p, (Call.CreateHeightmapJob p, none) ∈ pre ∧
        m.Body.lookup "job_id" = some (.str p.ID)) ∧
    (∀ p err, (Call.CreateHeightmapJob p, some err) ∈
        newCalls w (UploadPhoto env cfg userID header w).2 →
      (newCalls w (UploadPhoto env cfg userID header w).2).any (fun e => isBroker e.1) = false)
    := by
  rcases UploadPhoto_calls env cfg userID header w with
    ⟨_, h⟩ | ⟨err, _, h⟩ | ⟨err, _, h⟩ | ⟨pevs, tail, h, _, p4, p5, ht⟩
  · rw [h]
    exact ⟨fun pre x k m r post hs => by simp at hs, fun p err hm => by simp at hm⟩
  · rw [h]
    refine ⟨fun pre x k m r post hs => ?_, fun p err hm => ?_⟩
    · have := mem_of_split _ _ _ _ hs
      simp [uploadCall] at this
    · simp [uploadCall] at hm
  · rw [h]
    refine ⟨fun pre x k m r post hs => ?_, fun p err hm => ?_⟩
    · have := mem_of_split _ _ _ _ hs
      simp [uploadCall, jobCall] at this
    · simp [uploadCall, jobCall, isBroker]
  · rw [h]
    have htail : ∀ e ∈ tail, isBroker e.1 = false := by
      intro e he
      rcases ht with ⟨_, ht, _⟩ | ⟨err, _, ht, _⟩
      · rw [ht] at he; simp at he
      · rw [ht] at he; simp only [List.mem_singleton] at he; subst he; rfl
    refine ⟨fun pre x k m r post hs => ?_, fun p err hm => ?_⟩
    · rcases pre with _ | ⟨a, _ | ⟨b, pre2⟩⟩
      · simp [uploadCall] at hs
      · simp [jobCall] at hs
      · simp only [List.cons_append, List.cons.injEq] at hs
        obtain ⟨ha, hb, hrest⟩ := hs
        have hmem : (Call.PublishWithContext x k m, r) ∈ pevs ++ tail :=
          mem_of_split _ _ _ _ hrest
        rcases List.mem_append.mp hmem with hm | hm
        · obtain ⟨body, hbody, hcall⟩ := p5 _ hm rfl
          simp only [Call.PublishWithContext.injEq] at hcall
          refine ⟨(⟨env.uuid w.uuids, userID, uploadImageURL env cfg userID header w, "pending",
              env.now (w.clock + 1), env.now (w.clock + 1)⟩ : CreateHeightmapJobParams), ?_, ?_⟩
          · rw [← hb]; simp [jobCall]
          · rw [hcall.2.2]
            exact marshalTask_body env _ body hbody
        · have := htail _ hm
          simp [isBroker] at this
    · simp only [List.mem_cons, List.mem_append] at hm
      rcases hm with hm | hm | hm | hm
      · simp [uploadCall] at hm
      · simp [jobCall] at hm
      · have := p4 _ hm
        simp [isBroker] at this
      · rcases ht with ⟨_, ht, _⟩ | ⟨err, _, ht, _⟩
        · rw [ht] at hm; simp at hm
        · rw [ht] at hm; simp [jobErrorCall] at hm

theorem BatchUploadPhotos_publish_after_create (env : Env) (cfg : Config) (userID : UUID)
    (files : List FileHeader) (mergeMethod : String) (fastMode : Bool) (generationMode : String)
    (w : World) :
    (∀ pre x k m r post,
      newCalls w (BatchUploadPhotos env cfg userID files mergeMethod fastMode generationMode w).2
        = pre ++ (Call.PublishWithContext x k m, r) :: post →
      ∃ p, (Call.CreateBatchHeightmapJob p, none) ∈ pre ∧
        m.Body.lookup "batch_job_id" = some (.str p.ID)) ∧
    (∀ p err, (Call.CreateBatchHeightmapJob p, some err) ∈
        newCalls w
          (BatchUploadPhotos env cfg userID files mergeMethod fastMode generationMode w).2 →
      (newCalls w (BatchUploadPhotos env cfg userID files mergeMethod fastMode generationMode
        w).2).any (fun e => isBroker e.1) = false) := by
  rcases BatchUploadPhotos_calls env cfg userID files mergeMethod fastMode generationMode w with
    ⟨_, _, h⟩ | ⟨_, err, _, h⟩ | ⟨_, k, f, e, calls, _, _, hf, _, h⟩ |
      ⟨_, _, pevs, tail, h, _, p4, p5, ht⟩
  · rw [h]
    exact ⟨fun pre x k m r post hs => by simp at hs, fun p err hm => by simp at hm⟩
  · rw [h]
    refine ⟨fun pre x k m r post hs => ?_, fun p err hm => ?_⟩
    · have := mem_of_split _ _ _ _ hs
      simp [batchJobCall] at this
    · simp [batchJobCall, isBroker]
  · rw [h]
    have hfc : ∀ c ∈ expectedBatchCalls env cfg userID (env.uuid w.uuids) (env.now (w.clock + 1))
        (files.take k) 0 (w.uuids + 1) ++ calls, isFileCall c.1 = true := by
      intro c hc
      rcases List.mem_append.mp hc with hc | hc
      · exact expectedBatchCalls_isFileCall _ _ _ _ _ _ _ _ c hc
      · exact failedFileCalls_isFileCall _ _ _ _ _ _ _ _ _ _ hf c hc
    refine ⟨fun pre x k m r post hs => ?_, fun p err hm => ?_⟩
    · have hm := mem_of_split _ _ _ _ hs
      simp only [List.mem_cons] at hm
      rcases hm with hm | hm
      · simp [batchJobCall] at hm
      · have := hfc _ hm
        simp [isFileCall] at this
    · simp only [List.mem_cons] at hm
      rcases hm with hm | hm
      · simp [batchJobCall] at hm
      · have := hfc _ hm
        simp [isFileCall] at this
  · rw [h]
    have htail : ∀ e ∈ tail, ∃ p, e.1 = Call.UpdateBatchJobError p := by
      intro e he
      rcases ht with ⟨_, ht, _⟩ | ⟨err, _, ht, _⟩
      · rw [ht] at he; simp at he
      · rw [ht] at he; simp only [List.mem_singleton] at he; subst he
        exact ⟨_, rfl⟩
    refine ⟨fun pre x k m r post hs => ?_, fun p err hm => ?_⟩
    · rcases pre with _ | ⟨a, pre2⟩
      · simp [batchJobCall] at hs
      · simp only [List.cons_append, List.cons.injEq] at hs
        obtain ⟨ha, hrest⟩ := hs
        have hmem := mem_of_split _ _ _ _ hrest
        rcases List.mem_append.mp hmem with hm | hm
        · have := expectedBatchCalls_isFileCall _ _ _ _ _ _ _ _ _ hm
          simp [isFileCall] at this
        · rcases List.mem_append.mp hm with hm | hm
          · obtain ⟨body, hbody, hcall⟩ := p5 _ hm rfl
            simp only [Call.PublishWithContext.injEq] at hcall
            refine ⟨(⟨env.uuid w.uuids, userID, "pending", int32 files.length,
              resolveMergeMethod mergeMethod, resolveGenerationMode generationMode,
              env.now (w.clock + 1), env.now (w.clock + 1)⟩ : CreateBatchHeightmapJobParams),
              ?_, ?_⟩
            · rw [← ha]; simp [batchJobCall]
            · rw [hcall.2.2]
              exact (marshalBatchTask_body env _ body hbody).1
          · obtain ⟨q, hq⟩ := htail _ hm
            simp at hq
    · simp only [List.mem_cons, List.mem_append] at hm
      rcases hm with hm | hm | hm | hm
      · simp [batchJobCall] at hm
      · have := expectedBatchCalls_isFileCall _ _ _ _ _ _ _ _ _ hm
        simp [isFileCall] at this
      · have := p4 _ hm
        simp [isBroker] at this
      · obtain ⟨q, hq⟩ := htail _ hm
        simp at hq

/-- C7: in every run of UploadPhoto and of BatchUploadPhotos, each delivery
attempt comes after a successful creation of the Job (BatchJob) record whose id
is the job_id (batch_job_id) of the message delivered; and when the creation of
the record fails, the run makes no call to the broker at all. -/
theorem C7_record_created_before_publish (env : Env) (cfg : Config) (userID : UUID)
    (w : World) :
    (∀ header : FileHeader,
      (∀ pre x k m r post, newCalls w (UploadPhoto env cfg userID header w).2 =
          pre ++ (Call.PublishWithContext x k m, r) :: post →
        ∃ p, (Call.CreateHeightmapJob p, none) ∈ pre ∧
          m.Body.lookup "job_id" = some (.str p.ID)) ∧
      (∀ p err, (Call.CreateHeightmapJob p, some err) ∈
          newCalls w (UploadPhoto env cfg userID header w).2 →
        (newCalls w (UploadPhoto env cfg userID header w).2).any (fun e => isBroker e.1) =
          false)) ∧
    (∀ (files : List FileHeader) (mergeMethod : String) (fastMode : Bool)
        (generationMode : String),
      (∀ pre x k m r post,
        newCalls w
          (BatchUploadPhotos env cfg userID files mergeMethod fastMode generationMode w).2
          = pre ++ (Call.PublishWithContext x k m, r) :: post →
        ∃ p, (Call.CreateBatchHeightmapJob p, none) ∈ pre ∧
          m.Body.lookup "batch_job_id" = some (.str p.ID)) ∧
      (∀ p err, (Call.CreateBatchHeightmapJob p, some err) ∈
          newCalls w
            (BatchUploadPhotos env cfg userID files mergeMethod fastMode generationMode w).2 →
        (newCalls w (BatchUploadPhotos env cfg userID files mergeMethod fastMode generationMode
          w).2).any (fun e => isBroker e.1) = false)) :=
  ⟨fun header => UploadPhoto_publish_after_create env cfg userID header w,
   fun files mergeMethod fastMode generationMode =>
     BatchUploadPhotos_publish_after_create env cfg userID files mergeMethod fastMode
       generationMode w⟩

theorem C7_record_created_before_publish_witness :
    (newCalls World.start (UploadPhoto envRepoDown cfgTest "u" photoPng World.start).2).any
      (fun e => isBroker e.1) = false :=
  ((C7_record_created_before_publish envRepoDown cfgTest "u" World.start).1 photoPng).2
    ⟨"id0", "u", "http://minio:9000/uav-data/heightmaps/u/id0.png", "pending", 1, 1⟩
    (.new "db unavailable") (by decide)

theorem isBroker_not_update (e : Call × Option GoError) (h : isBroker e.1 = true) :
    isUpdateError e = false := by
  rcases e with ⟨c, r⟩
  cases c <;> simp_all [isBroker, isUpdateError]

theorem isFileCall_not_update (e : Call × Option GoError) (h : isFileCall e.1 = true) :
    isUpdateError e = false ∧ isBroker e.1 = false := by
  rcases e with ⟨c, r⟩
  cases c <;> simp_all [isFileCall, isBroker, isUpdateError]

/-- The calls made up to the return of the publisher in a single upload. -/
theorem uploadPublish_calls (env : Env) (cfg : Config) (userID : UUID) (header : FileHeader)
    (w : World) :
    ∃ pevs, newCalls w (uploadPublish env cfg userID header w).2 =
        (uploadCall env cfg userID header w, none) :: (jobCall env cfg userID header w, none) ::
          pevs ∧
      (uploadPublish env cfg userID header w).2.history =
        w.history ++ ((uploadCall env cfg userID header w, none) ::
          (jobCall env cfg userID header w, none) :: pevs) ∧
      (∀ e ∈ pevs, isBroker e.1 = true) := by
  obtain ⟨pevs, p1, _, _, p4, _⟩ := PublishTask_spec env cfg.RabbitMQ
    (uploadTask env cfg userID header w) (uploadPublishState env cfg userID header w)
  have h : (uploadPublish env cfg userID header w).2.history =
      w.history ++ ((uploadCall env cfg userID header w, none) ::
        (jobCall env cfg userID header w, none) :: pevs) := by
    rw [show (uploadPublish env cfg userID header w).2.history = _ from p1]
    simp [uploadPublishState]
  exact ⟨pevs, newCalls_of_append _ _ _ h, h, p4⟩

theorem uploadPublish_no_update (env : Env) (cfg : Config) (userID : UUID)
    (header : FileHeader) (w : World) :
    (newCalls w (uploadPublish env cfg userID header w).2).any isUpdateError = false := by
  obtain ⟨pevs, h, _, hb⟩ := uploadPublish_calls env cfg userID header w
  rw [h]
  simp only [List.any_cons, Bool.or_eq_false_iff, List.any_eq_false]
  exact ⟨rfl, rfl, fun e he => by simp [isBroker_not_update e (hb e he)]⟩

theorem UploadPhoto_unreached (env : Env) (cfg : Config) (userID : UUID) (header : FileHeader)
    (w : World) (h : ¬ uploadReachesPublish env cfg userID header w) :
    (newCalls w (UploadPhoto env cfg userID header w).2).any isUpdateError = false := by
  cases hok : fileOk header with
  | false =>
    rw [(UploadPhoto_invalid env cfg userID header w hok).2, newCalls_self_clock]
    rfl
  | true =>
    rcases UploadPhoto_valid env cfg userID header w hok with
      ⟨err, _, _, h3⟩ | ⟨err, _, _, h3⟩ | ⟨hu, hj, _⟩ | ⟨hu, hj, _⟩
    · rw [newCalls_of_append _ _ _ h3]; rfl
    · rw [newCalls_of_append _ _ _ h3]; rfl
    · exact absurd ⟨hok, hu, hj⟩ h
    · exact absurd ⟨hok, hu, hj⟩ h

theorem UploadPhoto_reached (env : Env) (cfg : Config) (userID : UUID) (header : FileHeader)
    (w : World) (h : uploadReachesPublish env cfg userID header w) :
    ((uploadPublish env cfg userID header w).1 = none →
      newCalls w (UploadPhoto env cfg userID header w).2 =
        newCalls w (uploadPublish env cfg userID header w).2) ∧
    (∀ err, (uploadPublish env cfg userID header w).1 = some err →
      (UploadPhoto env cfg userID header w).1 =
        .error (Errorf "не удалось отправить задачу: " (some err)) ∧
      newCalls w (UploadPhoto env cfg userID header w).2 =
        newCalls w (uploadPublish env cfg userID header w).2 ++
          [(jobErrorCall env cfg userID header w err,
            env.respond (uploadPublish env cfg userID header w).2.history
              (jobErrorCall env cfg userID header w err))]) := by
  obtain ⟨hok, hu, hj⟩ := h
  obtain ⟨pevs, hn, hh, _⟩ := uploadPublish_calls env cfg userID header w
  rcases UploadPhoto_valid env cfg userID header w hok with
    ⟨err, hu2, _⟩ | ⟨err, hj2, _⟩ | ⟨_, _, h1, h2, h3⟩ | ⟨_, _, err, h1, h2, h3⟩
  · rw [hu] at hu2; exact absurd hu2 (by simp)
  · rw [hj] at hj2; exact absurd hj2 (by simp)
  · refine ⟨fun _ => ?_, fun err he => ?_⟩
    · rw [hn]; exact newCalls_of_append _ _ _ (h3.trans hh)
    · rw [h1] at he; exact absurd he (by simp)
  · refine ⟨fun hnone => ?_, fun err2 he => ?_⟩
    · rw [h1] at hnone; exact absurd hnone (by simp)
    · rw [h1] at he
      simp only [Option.some.injEq] at he
      subst he
      refine ⟨h2, ?_⟩
      rw [hn]
      apply newCalls_of_append
      rw [h3, hh]
      simp

/-- The single-upload half of C8. -/
theorem UploadPhoto_error_state (env : Env) (cfg : Config) (userID : UUID)
    (header : FileHeader) (w : World) :
    ((newCalls w (UploadPhoto env cfg userID header w).2).any isUpdateError = true ↔
      uploadReachesPublish env cfg userID header w ∧
        ∃ err, (uploadPublish env cfg userID header w).1 = some err) ∧
    (∀ err, uploadReachesPublish env cfg userID header w →
      (uploadPublish env cfg userID header w).1 = some err →
      (UploadPhoto env cfg userID header w).1 =
        .error (Errorf "не удалось отправить задачу: " (some err)) ∧
      (∃ t r, newCalls w (UploadPhoto env cfg userID header w).2 =
        newCalls w (uploadPublish env cfg userID header w).2 ++
          [(Call.UpdateJobError ⟨env.uuid w.uuids,
            "не удалось отправить задачу в очередь: " ++ err.Error, t⟩, r)]) ∧
      (newCalls w (uploadPublish env cfg userID header w).2).any isUpdateError = false ∧
      (∃ p, (Call.CreateHeightmapJob p, none) ∈
          newCalls w (uploadPublish env cfg userID header w).2 ∧ p.ID = env.uuid w.uuids) ∧
      "не удалось отправить задачу в очередь: " ++ err.Error ≠ "") := by
  have hnu := uploadPublish_no_update env cfg userID header w
  refine ⟨⟨fun hany => ?_, fun ⟨hr, err, he⟩ => ?_⟩, fun err hr he => ?_⟩
  · by_cases hr : uploadReachesPublish env cfg userID header w
    · refine ⟨hr, ?_⟩
      cases hp : (uploadPublish env cfg userID header w).1 with
      | some err => exact ⟨err, rfl⟩
      | none =>
        rw [(UploadPhoto_reached env cfg userID header w hr).1 hp, hnu] at hany
        exact absurd hany (by simp)
    · rw [UploadPhoto_unreached env cfg userID header w hr] at hany
      exact absurd hany (by simp)
  · rw [((UploadPhoto_reached env cfg userID header w hr).2 err he).2]
    simp [jobErrorCall, isUpdateError]
  · obtain ⟨h1, h2⟩ := (UploadPhoto_reached env cfg userID header w hr).2 err he
    obtain ⟨pevs, hn, _, _⟩ := uploadPublish_calls env cfg userID header w
    refine ⟨h1, ⟨_, _, h2⟩, hnu,
      ⟨(⟨env.uuid w.uuids, userID, uploadImageURL env cfg userID header w, "pending",
        env.now (w.clock + 1), env.now (w.clock + 1)⟩ : CreateHeightmapJobParams), ?_, rfl⟩, ?_⟩
    · rw [hn]
      exact List.mem_cons_of_mem _ (List.mem_cons_self _ _)
    · intro hc
      have := congrArg String.data hc
      simp at this

/-- The calls made up to the return of the publisher in a batch upload. -/
theorem batchPublish_calls (env : Env) (cfg : Config) (userID : UUID)
    (files : List FileHeader) (mergeMethod : String) (fastMode : Bool) (generationMode : String)
    (w : World) :
    ∃ pevs, newCalls w (batchPublish env cfg userID files mergeMethod fastMode generationMode
        w).2 = (batchJobCall env userID files mergeMethod generationMode w, none) ::
          (expectedBatchCalls env cfg userID (env.uuid w.uuids) (env.now (w.clock + 1)) files 0
            (w.uuids + 1) ++ pevs) ∧
      (batchPublish env cfg userID files mergeMethod fastMode generationMode w).2.history =
        w.history ++ ((batchJobCall env userID files mergeMethod generationMode w, none) ::
          (expectedBatchCalls env cfg userID (env.uuid w.uuids) (env.now (w.clock + 1)) files 0
            (w.uuids + 1) ++ pevs)) ∧
      (∀ e ∈ pevs, isBroker e.1 = true) := by
  obtain ⟨pevs, p1, _, _, p4, _⟩ := PublishBatchTask_spec env cfg.RabbitMQ
    (batchTask env cfg userID files mergeMethod fastMode generationMode w)
    (batchPublishState env cfg userID files mergeMethod generationMode w)
  have h : (batchPublish env cfg userID files mergeMethod fastMode generationMode w).2.history =
      w.history ++ ((batchJobCall env userID files mergeMethod generationMode w, none) ::
        (expectedBatchCalls env cfg userID (env.uuid w.uuids) (env.now (w.clock + 1)) files 0
          (w.uuids + 1) ++ pevs)) := by
    rw [show (batchPublish env cfg userID files mergeMethod fastMode generationMode
      w).2.history = _ from p1]
    simp [batchPublishState]
  exact ⟨pevs, newCalls_of_append _ _ _ h, h, p4⟩

theorem batchPublish_no_update (env : Env) (cfg : Config) (userID : UUID)
    (files : List FileHeader) (mergeMethod : String) (fastMode : Bool) (generationMode : String)
    (w : World) :
    (newCalls w (batchPublish env cfg userID files mergeMethod fastMode generationMode
      w).2).any isUpdateError = false := by
  obtain ⟨pevs, h, _, hb⟩ := batchPublish_calls env cfg userID files mergeMethod fastMode
    generationMode w
  rw [h]
  simp only [List.any_cons, List.any_append, Bool.or_eq_false_iff, List.any_eq_false]
  exact ⟨rfl, fun e he => by
      simp [(isFileCall_not_update e (expectedBatchCalls_isFileCall _ _ _ _ _ _ _ _ e he)).1],
    fun e he => by simp [isBroker_not_update e (hb e he)]⟩

theorem BatchUploadPhotos_unreached (env : Env) (cfg : Config) (userID : UUID)
    (files : List FileHeader) (mergeMethod : String) (fastMode : Bool) (generationMode : String)
    (w : World) (h : ¬ batchReachesPublish env cfg userID files mergeMethod generationMode w) :
    (newCalls w (BatchUploadPhotos env cfg userID files mergeMethod fastMode generationMode
      w).2).any isUpdateError = false := by
  by_cases hv : batchValid files mergeMethod generationMode
  swap
  · rw [(BatchUploadPhotos_invalid env cfg userID files mergeMethod fastMode generationMode w
      hv).2, newCalls_self_clock]
    rfl
  · rcases BatchUploadPhotos_valid env cfg userID files mergeMethod fastMode generationMode w hv
      with ⟨err, _, _, h3⟩ | ⟨_, k, f, e, calls, _, _, hf, _, _, h3⟩ | ⟨hc, _, hloop, _⟩
    · rw [newCalls_of_append _ _ _ h3]; rfl
    · rw [newCalls_of_append _ _ _ h3]
      simp only [List.any_cons, List.any_append, Bool.or_eq_false_iff, List.any_eq_false]
      exact ⟨rfl, fun e he => by
          simp [(isFileCall_not_update e
            (expectedBatchCalls_isFileCall _ _ _ _ _ _ _ _ e he)).1],
        fun e he => by
          simp [(isFileCall_not_update e
            (failedFileCalls_isFileCall _ _ _ _ _ _ _ _ _ _ hf e he)).1]⟩
    · exact absurd ⟨hv, hc, _, hloop⟩ h

theorem BatchUploadPhotos_reached (env : Env) (cfg : Config) (userID : UUID)
    (files : List FileHeader) (mergeMethod : String) (fastMode : Bool) (generationMode : String)
    (w : World) (h : batchReachesPublish env cfg userID files mergeMethod generationMode w) :
    ((batchPublish env cfg userID files mergeMethod fastMode generationMode w).1 = none →
      newCalls w (BatchUploadPhotos env cfg userID files mergeMethod fastMode generationMode w).2
        = newCalls w (batchPublish env cfg userID files mergeMethod fastMode generationMode
          w).2) ∧
    (∀ err, (batchPublish env cfg userID files mergeMethod fastMode generationMode w).1 =
        some err →
      (BatchUploadPhotos env cfg userID files mergeMethod fastMode generationMode w).1 =
        .error (Errorf "не удалось отправить пакетную задачу: " (some err)) ∧
      newCalls w (BatchUploadPhotos env cfg userID files mergeMethod fastMode generationMode w).2
        = newCalls w (batchPublish env cfg userID files mergeMethod fastMode generationMode
            w).2 ++
          [(batchErrorCall env cfg userID files mergeMethod fastMode generationMode w err,
            env.respond
              (batchPublish env cfg userID files mergeMethod fastMode generationMode w).2.history
              (batchErrorCall env cfg userID files mergeMethod fastMode generationMode w
                err))]) := by
  obtain ⟨hv, hc, urls, hl⟩ := h
  obtain ⟨pevs, hn, hh, _⟩ := batchPublish_calls env cfg userID files mergeMethod fastMode
    generationMode w
  rcases BatchUploadPhotos_valid env cfg userID files mergeMethod fastMode generationMode w hv
    with ⟨err, hc2, _⟩ | ⟨_, k, f, e, calls, _, _, _, hl2, _⟩ |
      ⟨_, _, _, ⟨h1, h2, h3⟩ | ⟨err, h1, h2, h3⟩⟩
  · rw [hc] at hc2; exact absurd hc2 (by simp)
  · rw [hl] at hl2; exact absurd hl2 (by simp)
  · refine ⟨fun _ => ?_, fun err he => ?_⟩
    · rw [hn]; exact newCalls_of_append _ _ _ (h3.trans hh)
    · rw [h1] at he; exact absurd he (by simp)
  · refine ⟨fun hnone => ?_, fun err2 he => ?_⟩
    · rw [h1] at hnone; exact absurd hnone (by simp)
    · rw [h1] at he
      simp only [Option.some.injEq] at he
      subst he
      refine ⟨h2, ?_⟩
      rw [hn]
      apply newCalls_of_append
      rw [h3, hh]
      simp

/-- The batch half of C8. -/
theorem BatchUploadPhotos_error_state (env : Env) (cfg : Config) (userID : UUID)
    (files : List FileHeader) (mergeMethod : String) (fastMode : Bool) (generationMode : String)
    (w : World) :
    ((newCalls w (BatchUploadPhotos env cfg userID files mergeMethod fastMode generationMode
        w).2).any isUpdateError = true ↔
      batchReachesPublish env cfg userID files mergeMethod generationMode w ∧
        ∃ err, (batchPublish env cfg userID files mergeMethod fastMode generationMode w).1 =
          some err) ∧
    (∀ err, batchReachesPublish env cfg userID files mergeMethod generationMode w →
      (batchPublish env cfg userID files mergeMethod fastMode generationMode w).1 = some err →
      (BatchUploadPhotos env cfg userID files mergeMethod fastMode generationMode w).1 =
        .error (Errorf "не удалось отправить пакетную задачу: " (some err)) ∧
      (∃ t r,
        newCalls w (BatchUploadPhotos env cfg userID files mergeMethod fastMode generationMode
          w).2 =
        newCalls w (batchPublish env cfg userID files mergeMethod fastMode generationMode w).2 ++
          [(Call.UpdateBatchJobError ⟨env.uuid w.uuids,
            "не удалось отправить пакетную задачу в очередь: " ++ err.Error, t⟩, r)]) ∧
      (newCalls w (batchPublish env cfg userID files mergeMethod fastMode generationMode
        w).2).any isUpdateError = false ∧
      (∃ p, (Call.CreateBatchHeightmapJob p, none) ∈
          newCalls w (batchPublish env cfg userID files mergeMethod fastMode generationMode
            w).2 ∧ p.ID = env.uuid w.uuids) ∧
      "не удалось отправить пакетную задачу в очередь: " ++ err.Error ≠ "") := by
  have hnu := batchPublish_no_update env cfg userID files mergeMethod fastMode generationMode w
  refine ⟨⟨fun hany => ?_, fun ⟨hr, err, he⟩ => ?_⟩, fun err hr he => ?_⟩
  · by_cases hr : batchReachesPublish env cfg userID files mergeMethod generationMode w
    · refine ⟨hr, ?_⟩
      cases hp : (batchPublish env cfg userID files mergeMethod fastMode generationMode w).1 with
      | some err => exact ⟨err, rfl⟩
      | none =>
        rw [(BatchUploadPhotos_reached env cfg userID files mergeMethod fastMode generationMode
          w hr).1 hp, hnu] at hany
        exact absurd hany (by simp)
    · rw [BatchUploadPhotos_unreached env cfg userID files mergeMethod fastMode generationMode
        w hr] at hany
      exact absurd hany (by simp)
  · rw [((BatchUploadPhotos_reached env cfg userID files mergeMethod fastMode generationMode
      w hr).2 err he).2]
    simp [batchErrorCall, isUpdateError]
  · obtain ⟨h1, h2⟩ := (BatchUploadPhotos_reached env cfg userID files mergeMethod fastMode
      generationMode w hr).2 err he
    obtain ⟨pevs, hn, _, _⟩ := batchPublish_calls env cfg userID files mergeMethod fastMode
      generationMode w
    refine ⟨h1, ⟨_, _, h2⟩, hnu,
      ⟨(⟨env.uuid w.uuids, userID, "pending", int32 files.length,
        resolveMergeMethod mergeMethod, resolveGenerationMode generationMode,
        env.now (w.clock + 1), env.now (w.clock + 1)⟩ : CreateBatchHeightmapJobParams),
        ?_, rfl⟩, ?_⟩
    · rw [hn]
      exact List.mem_cons_self _ _
    · intro hc
      have := congrArg String.data hc
      simp at this

/-- C8: UploadPhoto (BatchUploadPhotos) writes an error state exactly when it
gets as far as the publisher and the publisher returns an error. The write is
then the last call of the run and the only write of an error state; it names
the id of the Job (BatchJob) record created earlier in the run and carries a
non-empty message that ends with the text of the publisher's error; and the run
returns an error that wraps the publisher's error, whatever the write itself
returns. -/
theorem C8_error_state_on_publish_failure (env : Env) (cfg : Config) (userID : UUID)
    (w : World) :
    (∀ header : FileHeader,
      ((newCalls w (UploadPhoto env cfg userID header w).2).any isUpdateError = true ↔
        uploadReachesPublish env cfg userID header w ∧
          ∃ err, (uploadPublish env cfg userID header w).1 = some err) ∧
      (∀ err, uploadReachesPublish env cfg userID header w →
        (uploadPublish env cfg userID header w).1 = some err →
        (UploadPhoto env cfg userID header w).1 =
          .error (Errorf "не удалось отправить задачу: " (some err)) ∧
        (∃ t r, newCalls w (UploadPhoto env cfg userID header w).2 =
          newCalls w (uploadPublish env cfg userID header w).2 ++
            [(Call.UpdateJobError ⟨env.uuid w.uuids,
              "не удалось отправить задачу в очередь: " ++ err.Error, t⟩, r)]) ∧
        (newCalls w (uploadPublish env cfg userID header w).2).any isUpdateError = false ∧
        (∃ p, (Call.CreateHeightmapJob p, none) ∈
            newCalls w (uploadPublish env cfg userID header w).2 ∧ p.ID = env.uuid w.uuids) ∧
        "не удалось отправить задачу в очередь: " ++ err.Error ≠ "")) ∧
    (∀ (files : List FileHeader) (mergeMethod : String) (fastMode : Bool)
        (generationMode : String),
      ((newCalls w (BatchUploadPhotos env cfg userID files mergeMethod fastMode generationMode
          w).2).any isUpdateError = true ↔
        batchReachesPublish env cfg userID files mergeMethod generationMode w ∧
          ∃ err, (batchPublish env cfg userID files mergeMethod fastMode generationMode w).1 =
            some err) ∧
      (∀ err, batchReachesPublish env cfg userID files mergeMethod generationMode w →
        (batchPublish env cfg userID files mergeMethod fastMode generationMode w).1 = some err →
        (BatchUploadPhotos env cfg userID files mergeMethod fastMode generationMode w).1 =
          .error (Errorf "не удалось отправить пакетную задачу: " (some err)) ∧
        (∃ t r,
          newCalls w (BatchUploadPhotos env cfg userID files mergeMethod fastMode generationMode
            w).2 =
          newCalls w (batchPublish env cfg userID files mergeMethod fastMode generationMode
            w).2 ++
            [(Call.UpdateBatchJobError ⟨env.uuid w.uuids,
              "не удалось отправить пакетную задачу в очередь: " ++ err.Error, t⟩, r)]) ∧
        (newCalls w (batchPublish env cfg userID files mergeMethod fastMode generationMode
          w).2).any isUpdateError = false ∧
        (∃ p, (Call.CreateBatchHeightmapJob p, none) ∈
            newCalls w (batchPublish env cfg userID files mergeMethod fastMode generationMode
              w).2 ∧ p.ID = env.uuid w.uuids) ∧
        "не удалось отправить пакетную задачу в очередь: " ++ err.Error ≠ "")) :=
  ⟨fun header => UploadPhoto_error_state env cfg userID header w,
   fun files mergeMethod fastMode generationMode =>
     BatchUploadPhotos_error_state env cfg userID files mergeMethod fastMode generationMode w⟩

theorem C8_error_state_on_publish_failure_witness :
    (UploadPhoto envNack cfgTest "u" photoPng World.start).1 =
      .error (Errorf "не удалось отправить задачу: "
        (some (.wrap "failed to publish task after 3 retries: " (.new "nack")))) :=
  (((C8_error_state_on_publish_failure envNack cfgTest "u" World.start).1 photoPng).2
    (.wrap "failed to publish task after 3 retries: " (.new "nack"))
    ⟨by decide, by decide, by decide⟩ (by decide)).1

/-! ## Counting the calls of a batch -/

theorem expectedBatchCalls_counts (env : Env) (cfg : Config) (userID batchJobID : UUID)
    (now : Time) (files : List FileHeader) :
    ∀ (idx u : Nat),
      (expectedBatchCalls env cfg userID batchJobID now files idx u).countP isOpenCall =
        files.length ∧
      (expectedBatchCalls env cfg userID batchJobID now files idx u).countP isUploadCall =
        files.length ∧
      (expectedBatchCalls env cfg userID batchJobID now files idx u).countP isImageCall =
        files.length := by
  induction files with
  | nil => intro idx u; simp [expectedBatchCalls]
  | cons f rest ih =>
    intro idx u
    obtain ⟨h1, h2, h3⟩ := ih (idx + 1) (u + 1)
    simp only [expectedBatchCalls, List.countP_append, h1, h2, h3, List.length_cons]
    simp [List.countP_cons, isOpenCall, isUploadCall, isImageCall, batchUploadCall,
      batchImageCall]
    omega

theorem failedFileCalls_counts (env : Env) (cfg : Config) (userID batchJobID : UUID)
    (now : Time) (f : FileHeader) (idx u : Nat) (calls : History) (e : GoError)
    (h : failedFileCalls env cfg userID batchJobID now f idx u calls e) :
    calls.countP isOpenCall = 1 ∧ calls.countP isUploadCall ≤ 1 ∧
    calls.countP isImageCall ≤ 1 ∧
    (fileOk f = false → calls.countP isUploadCall = 0 ∧ calls.countP isImageCall = 0) := by
  rcases h with ⟨_, h, _⟩ | ⟨h, _⟩ | ⟨h, _⟩ | ⟨_, h, hok, _⟩ | ⟨_, h, hok, _⟩ <;> subst h <;>
    simp_all [List.countP_cons, isOpenCall, isUploadCall, isImageCall, batchUploadCall,
      batchImageCall]

theorem expectedBatchCalls_mem (env : Env) (cfg : Config) (userID batchJobID : UUID)
    (now : Time) (files : List FileHeader) :
    ∀ (idx u i : Nat) (g : FileHeader), files[i]? = some g →
      (batchUploadCall cfg userID batchJobID (idx + i) g, none) ∈
        expectedBatchCalls env cfg userID batchJobID now files idx u ∧
      (batchImageCall env cfg userID batchJobID now (idx + i) (u + i) g, none) ∈
        expectedBatchCalls env cfg userID batchJobID now files idx u := by
  induction files with
  | nil => intro idx u i g h; simp at h
  | cons f rest ih =>
    intro idx u i g h
    cases i with
    | zero =>
      simp only [List.getElem?_cons_zero, Option.some.injEq] at h
      subst h
      simp [expectedBatchCalls]
    | succ i =>
      simp only [List.getElem?_cons_succ] at h
      obtain ⟨h1, h2⟩ := ih (idx + 1) (u + 1) i g h
      have e1 : idx + 1 + i = idx + (i + 1) := by omega
      have e2 : u + 1 + i = u + (i + 1) := by omega
      rw [e1] at h1 h2
      rw [e2] at h2
      simp only [expectedBatchCalls, List.cons_append, List.nil_append, List.mem_cons]
      exact ⟨Or.inr (Or.inr (Or.inr h1)), Or.inr (Or.inr (Or.inr h2))⟩

/-- C9: when a batch upload that has created its BatchJob record fails in the
per-file loop, it fails at one file `k` (it cannot be opened, its extension or
size is rejected, its upload fails, or its BatchImage record cannot be
created). The calls of the run are then exactly: the creation of the BatchJob
record, an open, an upload and a record creation, all successful, for each
file below `k` in order, and the calls of the failure for file `k`. So every
file below `k` is uploaded and recorded, `k + 1` files are opened and at most
`k + 1` uploaded, there is no call after the failure (nothing is undone), no
call to the broker and no write to the BatchJob record. -/
theorem C9_batch_failure_at_file (env : Env) (cfg : Config) (userID : UUID)
    (files : List FileHeader) (mergeMethod : String) (fastMode : Bool) (generationMode : String)
    (w : World) (e : GoError)
    (hv : batchValid files mergeMethod generationMode)
    (hc : env.respond w.history (batchJobCall env userID files mergeMethod generationMode w) =
      none)
    (hl : (batchLoop env cfg userID files mergeMethod generationMode w).1 = .error e) :
    ∃ k f calls, files[k]? = some f ∧
      failedFileCalls env cfg userID (env.uuid w.uuids) (env.now (w.clock + 1)) f k
        (w.uuids + 1 + k) calls e ∧
      (BatchUploadPhotos env cfg userID files mergeMethod fastMode generationMode w).1 =
        .error e ∧
      newCalls w (BatchUploadPhotos env cfg userID files mergeMethod fastMode generationMode w).2
        = (batchJobCall env userID files mergeMethod generationMode w, none) ::
            (expectedBatchCalls env cfg userID (env.uuid w.uuids) (env.now (w.clock + 1))
              (files.take k) 0 (w.uuids + 1) ++ calls) ∧
      (∀ i g, i < k → files[i]? = some g →
        (batchUploadCall cfg userID (env.uuid w.uuids) i g, none) ∈
          newCalls w
            (BatchUploadPhotos env cfg userID files mergeMethod fastMode generationMode w).2 ∧
        (batchImageCall env cfg userID (env.uuid w.uuids) (env.now (w.clock + 1)) i
            (w.uuids + 1 + i) g, none) ∈
          newCalls w
            (BatchUploadPhotos env cfg userID files mergeMethod fastMode generationMode w).2) ∧
      (newCalls w (BatchUploadPhotos env cfg userID files mergeMethod fastMode generationMode
        w).2).countP isOpenCall = k + 1 ∧
      (newCalls w (BatchUploadPhotos env cfg userID files mergeMethod fastMode generationMode
        w).2).countP isUploadCall ≤ k + 1 ∧
      (newCalls w (BatchUploadPhotos env cfg userID files mergeMethod fastMode generationMode
        w).2).countP isImageCall ≤ k + 1 ∧
      (newCalls w (BatchUploadPhotos env cfg userID files mergeMethod fastMode generationMode
        w).2).any (fun c => isBroker c.1) = false ∧
      (newCalls w (BatchUploadPhotos env cfg userID files mergeMethod fastMode generationMode
        w).2).any isUpdateError = false := by
  rcases BatchUploadPhotos_valid env cfg userID files mergeMethod fastMode generationMode w hv
    with ⟨err, hc2, _⟩ | ⟨_, k, f, e2, calls, hk, _, hf, hl2, h2, h3⟩ | ⟨_, _, hl2, _⟩
  · rw [hc] at hc2; exact absurd hc2 (by simp)
  · rw [hl] at hl2
    simp only [Except.error.injEq] at hl2
    subst hl2
    have hn := newCalls_of_append _ _ _ h3
    have hklt : k < files.length := by
      obtain ⟨hlt, _⟩ := List.getElem?_eq_some.mp hk
      exact hlt
    have hlen : (files.take k).length = k := by
      rw [List.length_take]; omega
    obtain ⟨c1, c2, c3⟩ := expectedBatchCalls_counts env cfg userID (env.uuid w.uuids)
      (env.now (w.clock + 1)) (files.take k) 0 (w.uuids + 1)
    obtain ⟨d1, d2, d3, _⟩ := failedFileCalls_counts _ _ _ _ _ _ _ _ _ _ hf
    have hfc : ∀ c ∈ expectedBatchCalls env cfg userID (env.uuid w.uuids) (env.now (w.clock + 1))
        (files.take k) 0 (w.uuids + 1) ++ calls, isFileCall c.1 = true := by
      intro c hc
      rcases List.mem_append.mp hc with hc | hc
      · exact expectedBatchCalls_isFileCall _ _ _ _ _ _ _ _ c hc
      · exact failedFileCalls_isFileCall _ _ _ _ _ _ _ _ _ _ hf c hc
    refine ⟨k, f, calls, hk, hf, h2, hn, ?_, ?_, ?_, ?_, ?_, ?_⟩
    · intro i g hi hg
      have hg2 : (files.take k)[i]? = some g := by
        rw [List.getElem?_take_of_lt hi]; exact hg
      obtain ⟨m1, m2⟩ := expectedBatchCalls_mem env cfg userID (env.uuid w.uuids)
        (env.now (w.clock + 1)) (files.take k) 0 (w.uuids + 1) i g hg2
      rw [Nat.zero_add] at m1 m2
      rw [hn]
      exact ⟨List.mem_cons_of_mem _ (List.mem_append_left _ m1),
        List.mem_cons_of_mem _ (List.mem_append_left _ m2)⟩
    · rw [hn, List.countP_cons, List.countP_append, c1, d1, hlen]
      simp [batchJobCall, isOpenCall]
    · rw [hn, List.countP_cons, List.countP_append, c2, hlen]
      simp only [batchJobCall, isUploadCall]
      simp only [Bool.false_eq_true, if_false]
      omega
    · rw [hn, List.countP_cons, List.countP_append, c3, hlen]
      simp only [batchJobCall, isImageCall]
      simp only [Bool.false_eq_true, if_false]
      omega
    · rw [hn]
      simp only [List.any_cons, Bool.or_eq_false_iff, List.any_eq_false]
      exact ⟨rfl, fun c hc => by simp [(isFileCall_not_update c (hfc c hc)).2]⟩
    · rw [hn]
      simp only [List.any_cons, Bool.or_eq_false_iff, List.any_eq_false]
      exact ⟨rfl, fun c hc => by simp [(isFileCall_not_update c (hfc c hc)).1]⟩
  · rw [hl] at hl2; exact absurd hl2 (by simp)

theorem C9_batch_failure_at_file_witness :
    (BatchUploadPhotos envOk cfgTest "u" jpgThenBmp "" false "" World.start).1 =
      .error (.new "неподдерживаемый формат файла b.bmp: .bmp") := by
  obtain ⟨_, _, _, _, _, h, _⟩ := C9_batch_failure_at_file envOk cfgTest "u" jpgThenBmp ""
    false "" World.start (.new "неподдерживаемый формат файла b.bmp: .bmp")
    (by decide) (by decide) (by decide)
  exact h

/-- C10: an empty merge method resolves to `medium`, any other to itself. A
resolved value outside low, medium, max is rejected with no call made.
Every BatchJob record the run creates and every message it delivers carries
the resolved value, and a successful run has created such a record, has had
such a message acknowledged and answers with the same value. -/
theorem C10_merge_method (env : Env) (cfg : Config) (userID : UUID)
    (files : List FileHeader) (mergeMethod : String) (fastMode : Bool) (generationMode : String)
    (w : World) :
    (resolveMergeMethod "" = "medium" ∧
      (mergeMethod ≠ "" → resolveMergeMethod mergeMethod = mergeMethod)) ∧
    (¬ (resolveMergeMethod mergeMethod = "low" ∨ resolveMergeMethod mergeMethod = "medium" ∨
        resolveMergeMethod mergeMethod = "max") →
      (∃ e, (BatchUploadPhotos env cfg userID files mergeMethod fastMode generationMode w).1 =
        .error e) ∧
      (BatchUploadPhotos env cfg userID files mergeMethod fastMode generationMode w).2 =
        { w with clock := w.clock + 1 } ∧
      newCalls w (BatchUploadPhotos env cfg userID files mergeMethod fastMode generationMode w).2
        = []) ∧
    (∀ p r, (Call.CreateBatchHeightmapJob p, r) ∈
        newCalls w
          (BatchUploadPhotos env cfg userID files mergeMethod fastMode generationMode w).2 →
      p.MergeMethod = resolveMergeMethod mergeMethod) ∧
    (∀ x k m r, (Call.PublishWithContext x k m, r) ∈
        newCalls w
          (BatchUploadPhotos env cfg userID files mergeMethod fastMode generationMode w).2 →
      m.Body.lookup "merge_method" = some (.str (resolveMergeMethod mergeMethod))) ∧
    (∀ resp, (BatchUploadPhotos env cfg userID files mergeMethod fastMode generationMode w).1 =
        .ok resp →
      resp.MergeMethod = resolveMergeMethod mergeMethod ∧
      (∃ p, (Call.CreateBatchHeightmapJob p, none) ∈
          newCalls w
            (BatchUploadPhotos env cfg userID files mergeMethod fastMode generationMode w).2 ∧
        p.MergeMethod = resolveMergeMethod mergeMethod) ∧
      (∃ x k m, (Call.PublishWithContext x k m, none) ∈
          newCalls w
            (BatchUploadPhotos env cfg userID files mergeMethod fastMode generationMode w).2 ∧
        m.Body.lookup "merge_method" = some (.str (resolveMergeMethod mergeMethod)))) := by
  refine ⟨⟨by simp [resolveMergeMethod], fun h => by simp [resolveMergeMethod, h]⟩,
    fun hbad => ?_, ?_⟩
  · have hv : ¬ batchValid files mergeMethod generationMode := by
      rintro ⟨_, _, hm, _⟩
      exact hbad (by rcases hm with h | h | h <;> simp [h])
    obtain ⟨h1, h2⟩ := BatchUploadPhotos_invalid env cfg userID files mergeMethod fastMode
      generationMode w hv
    exact ⟨h1, h2, by rw [h2]; exact newCalls_self_clock w _⟩
  · rcases BatchUploadPhotos_calls env cfg userID files mergeMethod fastMode generationMode w
      with ⟨_, ⟨e, he⟩, h⟩ | ⟨_, err, he, h⟩ | ⟨_, k, f, e, calls, _, _, hf, he, h⟩ |
        ⟨_, _, pevs, tail, h, hh, p4, p5, ht⟩
    · rw [h]
      exact ⟨fun p r hm => by simp at hm, fun x k m r hm => by simp at hm,
        fun resp hr => by rw [he] at hr; exact absurd hr (by simp)⟩
    · rw [h]
      refine ⟨fun p r hm => ?_, fun x k m r hm => by simp [batchJobCall] at hm,
        fun resp hr => by rw [he] at hr; exact absurd hr (by simp)⟩
      simp only [batchJobCall, List.mem_singleton, Prod.mk.injEq,
        Call.CreateBatchHeightmapJob.injEq] at hm
      rw [hm.1]
    · rw [h]
      have hfc : ∀ c ∈ expectedBatchCalls env cfg userID (env.uuid w.uuids)
          (env.now (w.clock + 1)) (files.take k) 0 (w.uuids + 1) ++ calls,
          isFileCall c.1 = true := by
        intro c hc
        rcases List.mem_append.mp hc with hc | hc
        · exact expectedBatchCalls_isFileCall _ _ _ _ _ _ _ _ c hc
        · exact failedFileCalls_isFileCall _ _ _ _ _ _ _ _ _ _ hf c hc
      refine ⟨fun p r hm => ?_, fun x k m r hm => ?_,
        fun resp hr => by rw [he] at hr; exact absurd hr (by simp)⟩
      · simp only [List.mem_cons] at hm
        rcases hm with hm | hm
        · simp only [batchJobCall, Prod.mk.injEq, Call.CreateBatchHeightmapJob.injEq] at hm
          rw [hm.1]
        · have := hfc _ hm
          simp [isFileCall] at this
      · simp only [List.mem_cons] at hm
        rcases hm with hm | hm
        · simp [batchJobCall] at hm
        · have := hfc _ hm
          simp [isFileCall] at this
    · rw [h]
      have htail : ∀ c ∈ tail, ∃ q, c.1 = Call.UpdateBatchJobError q := by
        intro c hc
        rcases ht with ⟨_, ht, _⟩ | ⟨err, _, ht, _⟩
        · rw [ht] at hc; simp at hc
        · rw [ht] at hc; simp only [List.mem_singleton] at hc; subst hc
          exact ⟨_, rfl⟩
      have hpub : ∀ x k m r, (Call.PublishWithContext x k m, r) ∈ pevs →
          m.Body.lookup "merge_method" = some (.str (resolveMergeMethod mergeMethod)) := by
        intro x k m r hm
        obtain ⟨body, hbody, hcall⟩ := p5 _ hm rfl
        simp only [Call.PublishWithContext.injEq] at hcall
        rw [hcall.2.2]
        exact (marshalBatchTask_body env _ body hbody).2.1
      refine ⟨fun p r hm => ?_, fun x k m r hm => ?_, fun resp hr => ?_⟩
      · simp only [List.mem_cons, List.mem_append] at hm
        rcases hm with hm | hm | hm | hm
        · simp only [batchJobCall, Prod.mk.injEq, Call.CreateBatchHeightmapJob.injEq] at hm
          rw [hm.1]
        · have := expectedBatchCalls_isFileCall _ _ _ _ _ _ _ _ _ hm
          simp [isFileCall] at this
        · have := p4 _ hm
          simp [isBroker] at this
        · obtain ⟨q, hq⟩ := htail _ hm
          simp at hq
      · simp only [List.mem_cons, List.mem_append] at hm
        rcases hm with hm | hm | hm | hm
        · simp [batchJobCall] at hm
        · have := expectedBatchCalls_isFileCall _ _ _ _ _ _ _ _ _ hm
          simp [isFileCall] at this
        · exact hpub x k m r hm
        · obtain ⟨q, hq⟩ := htail _ hm
          simp at hq
      · rcases ht with ⟨hnone, _, hok⟩ | ⟨err, _, _, herr⟩
        swap
        · rw [herr] at hr; exact absurd hr (by simp)
        rw [hok] at hr
        simp only [Except.ok.injEq] at hr
        subst hr
        obtain ⟨pevs2, q1, _, _, _, _, q6, _⟩ := PublishBatchTask_spec env cfg.RabbitMQ
          (batchTask env cfg userID files mergeMethod fastMode generationMode w)
          (batchPublishState env cfg userID files mergeMethod generationMode w)
        have hpe : pevs2 = pevs := by
          have := q1.symm.trans hh
          exact List.append_cancel_left this
        subst hpe
        have hack : pevs2.any isAcked = true := q6.mp hnone
        obtain ⟨c, hcm, hca⟩ := List.any_eq_true.mp hack
        rcases c with ⟨cc, cr⟩
        cases cc <;> cases cr <;> simp [isAcked] at hca
        rename_i x k m
        refine ⟨rfl, ⟨(⟨env.uuid w.uuids, userID, "pending", int32 files.length,
          resolveMergeMethod mergeMethod, resolveGenerationMode generationMode,
          env.now (w.clock + 1), env.now (w.clock + 1)⟩ : CreateBatchHeightmapJobParams),
          List.mem_cons_self _ _, rfl⟩, x, k, m, ?_, hpub x k m none hcm⟩
        exact List.mem_cons_of_mem _ (List.mem_append_right _ (List.mem_append_left _ hcm))

theorem C10_merge_method_witness :
    ∃ x k m, (Call.PublishWithContext x k m, none) ∈
        newCalls World.start
          (BatchUploadPhotos envOk cfgTest "u" fivePngs "" false "" World.start).2 ∧
      m.Body.lookup "merge_method" = some (.str (resolveMergeMethod "")) :=
  ((C10_merge_method envOk cfgTest "u" fivePngs "" false "" World.start).2.2.2.2
    ⟨"id0", "pending", 5, "medium"⟩ (by decide)).2.2

theorem expectedBatchCalls_append (env : Env) (cfg : Config) (userID batchJobID : UUID)
    (now : Time) (l1 l2 : List FileHeader) (idx u : Nat) :
    expectedBatchCalls env cfg userID batchJobID now (l1 ++ l2) idx u =
      expectedBatchCalls env cfg userID batchJobID now l1 idx u ++
        expectedBatchCalls env cfg userID batchJobID now l2 (idx + l1.length) (u + l1.length) := by
  induction l1 generalizing idx u with
  | nil => simp [expectedBatchCalls]
  | cons f rest ih =>
    have h1 : idx + (rest.length + 1) = idx + 1 + rest.length := by omega
    have h2 : u + (rest.length + 1) = u + 1 + rest.length := by omega
    simp only [List.cons_append, expectedBatchCalls, List.append_eq, ih, List.length_cons,
      List.append_assoc, h1, h2]

theorem take_eq_take_append_cons (files : List FileHeader) (k j : Nat) (f : FileHeader)
    (hk : files[k]? = some f) (hkj : k < j) :
    ∃ rest, files.take j = files.take k ++ f :: rest := by
  have hklt : k < files.length := (List.getElem?_eq_some.mp hk).1
  have hf : files[k] = f := (List.getElem?_eq_some.mp hk).2
  refine ⟨(files.drop (k + 1)).take (j - k - 1), ?_⟩
  have hj : j = k + (j - k - 1 + 1) := by omega
  conv_lhs => rw [hj, List.take_add]
  rw [List.drop_eq_getElem_cons hklt, hf, List.take_succ_cons]

/-- The calls made for a failing file are the first calls a processed file
gets; a file that fails a per-file check is opened and nothing more. -/
theorem failedFileCalls_prefix (env : Env) (cfg : Config) (userID batchJobID : UUID)
    (now : Time) (f : FileHeader) (idx u : Nat) (calls : History) (e : GoError)
    (h : failedFileCalls env cfg userID batchJobID now f idx u calls e) :
    (∃ t, calls.map Prod.fst ++ t =
      [.Open f.Filename, batchUploadCall cfg userID batchJobID idx f,
        batchImageCall env cfg userID batchJobID now idx u f]) ∧
    (fileOk f = false → calls.map Prod.fst = [.Open f.Filename]) := by
  rcases h with ⟨_, h, _⟩ | ⟨h, _⟩ | ⟨h, _⟩ | ⟨_, h, hok, _⟩ | ⟨_, h, hok, _⟩ <;> subst h
  · exact ⟨⟨_, rfl⟩, fun _ => rfl⟩
  · exact ⟨⟨_, rfl⟩, fun _ => rfl⟩
  · exact ⟨⟨_, rfl⟩, fun _ => rfl⟩
  · exact ⟨⟨_, rfl⟩, fun hh => by rw [hok] at hh; cases hh⟩
  · exact ⟨⟨[], rfl⟩, fun hh => by rw [hok] at hh; cases hh⟩

/-- A failing file all of whose calls succeed fails a per-file check: it is
opened and nothing more, and when its extension is unsupported the error is the
unsupported-format error. -/
theorem failedFileCalls_no_error (env : Env) (cfg : Config) (userID batchJobID : UUID)
    (now : Time) (f : FileHeader) (idx u : Nat) (calls : History) (e : GoError)
    (h : failedFileCalls env cfg userID batchJobID now f idx u calls e)
    (hn : ∀ c ∈ calls, c.2 = none) :
    fileOk f = false ∧ calls = [(.Open f.Filename, none)] ∧
    (badExt (ToLower (Ext f.Filename)) = true →
      e = .new ("неподдерживаемый формат файла " ++ f.Filename ++ ": " ++
        ToLower (Ext f.Filename))) := by
  rcases h with ⟨err, h, _⟩ | ⟨h, hb, he⟩ | ⟨h, hb, hs, he⟩ | ⟨err, h, hok, _⟩ |
    ⟨err, h, hok, _⟩
  · subst h
    have := hn _ (List.mem_singleton.mpr rfl)
    cases this
  · exact ⟨by simp [fileOk, hb], h, fun _ => he⟩
  · refine ⟨?_, h, fun hb2 => ?_⟩
    · simp only [fileOk, hb, Bool.not_false, Bool.true_and, decide_eq_false_iff_not, not_le]
      exact hs
    · rw [hb] at hb2; cases hb2
  · subst h
    have := hn (batchUploadCall cfg userID batchJobID idx f, some err) (by simp)
    cases this
  · subst h
    have := hn (batchImageCall env cfg userID batchJobID now idx u f, some err) (by simp)
    cases this

/-- C1 fails as stated: for the batch a.jpg, b.bmp with every collaborator
available, BatchUploadPhotos returns the unsupported-format error for b.bmp
only after it has created the BatchJob record, uploaded a.jpg and created the
BatchImage record of a.jpg. -/
theorem C1_counterexample :
    (∃ f ∈ jpgThenBmp, badExt (ToLower (Ext f.Filename)) = true) ∧
    (BatchUploadPhotos envOk cfgTest "u" jpgThenBmp "" false "" World.start).1 =
      .error (.new "неподдерживаемый формат файла b.bmp: .bmp") ∧
    newCalls World.start
      (BatchUploadPhotos envOk cfgTest "u" jpgThenBmp "" false "" World.start).2 ≠ [] ∧
    newCalls World.start
      (BatchUploadPhotos envOk cfgTest "u" jpgThenBmp "" false "" World.start).2 =
      [(.CreateBatchHeightmapJob ⟨"id0", "u", "pending", 2, "medium", "heightmap", 1, 1⟩, none),
       (.Open "a.jpg", none),
       (.UploadFile "uav-data" "batch-heightmaps/u/id0/image_0.jpg" 1000 "image/jpeg", none),
       (.CreateBatchImage ⟨"id1", "id0", true,
          "http://minio:9000/uav-data/batch-heightmaps/u/id0/image_0.jpg", "pending", 1⟩, none),
       (.Open "b.bmp", none)] := by
  refine ⟨⟨⟨"b.bmp", 1000, "image/bmp"⟩, by decide, by decide⟩, by decide, by decide,
    by decide⟩

/-- C1, amended: a batch upload in which the file with index `j` has an
unsupported extension returns an error, makes no call to the broker and writes
no error state. It uploads and records at most the `j` files before that file
and opens at most `j + 1` files, and the calls it makes are, in order, an
initial part of this sequence: the creation of the BatchJob record, then for
each file before `j` its opening, its upload and the creation of its BatchImage
record, then the opening of file `j`. So the unsupported file and the files
after it are never uploaded or recorded. When the batch-level checks pass, the
creation of the BatchJob record is the first call of the run. When moreover
every file before `j` passes the per-file checks and no call of the run returns
an error, the run makes every call of the sequence, each successful, and
returns the unsupported-format error that names file `j` and its lower-cased
extension. -/
theorem C1_batch_unsupported_extension (env : Env) (cfg : Config) (userID : UUID)
    (files : List FileHeader) (mergeMethod : String) (fastMode : Bool) (generationMode : String)
    (w : World) (j : Nat) (g : FileHeader) (hj : files[j]? = some g)
    (hb : badExt (ToLower (Ext g.Filename)) = true) :
    (∃ e, (BatchUploadPhotos env cfg userID files mergeMethod fastMode generationMode w).1 =
      .error e) ∧
    (newCalls w (BatchUploadPhotos env cfg userID files mergeMethod fastMode generationMode
      w).2).any (fun c => isBroker c.1) = false ∧
    (newCalls w (BatchUploadPhotos env cfg userID files mergeMethod fastMode generationMode
      w).2).any isUpdateError = false ∧
    (newCalls w (BatchUploadPhotos env cfg userID files mergeMethod fastMode generationMode
      w).2).countP isUploadCall ≤ j ∧
    (newCalls w (BatchUploadPhotos env cfg userID files mergeMethod fastMode generationMode
      w).2).countP isImageCall ≤ j ∧
    (newCalls w (BatchUploadPhotos env cfg userID files mergeMethod fastMode generationMode
      w).2).countP isOpenCall ≤ j + 1 ∧
    (batchValid files mergeMethod generationMode → ∃ r,
      (newCalls w (BatchUploadPhotos env cfg userID files mergeMethod fastMode generationMode
        w).2).head? = some (batchJobCall env userID files mergeMethod generationMode w, r)) ∧
    (∃ t, (newCalls w (BatchUploadPhotos env cfg userID files mergeMethod fastMode generationMode
        w).2).map Prod.fst ++ t =
      batchJobCall env userID files mergeMethod generationMode w ::
        ((expectedBatchCalls env cfg userID (env.uuid w.uuids) (env.now (w.clock + 1))
          (files.take j) 0 (w.uuids + 1)).map Prod.fst ++ [.Open g.Filename])) ∧
    (batchValid files mergeMethod generationMode → (files.take j).all fileOk = true →
      (∀ c ∈ newCalls w (BatchUploadPhotos env cfg userID files mergeMethod fastMode
        generationMode w).2, c.2 = none) →
      (BatchUploadPhotos env cfg userID files mergeMethod fastMode generationMode w).1 =
        .error (.new ("неподдерживаемый формат файла " ++ g.Filename ++ ": " ++
          ToLower (Ext g.Filename))) ∧
      newCalls w (BatchUploadPhotos env cfg userID files mergeMethod fastMode generationMode w).2
        = (batchJobCall env userID files mergeMethod generationMode w, none) ::
            (expectedBatchCalls env cfg userID (env.uuid w.uuids) (env.now (w.clock + 1))
              (files.take j) 0 (w.uuids + 1) ++ [(.Open g.Filename, none)])) := by
  have hgbad : fileOk g = false := by simp [fileOk, hb]
  have hjlt : j < files.length := (List.getElem?_eq_some.mp hj).1
  have hgmem : g ∈ files := List.getElem?_mem hj
  rcases BatchUploadPhotos_calls env cfg userID files mergeMethod fastMode generationMode w
    with ⟨hv, he, h⟩ | ⟨_, err, he, h⟩ | ⟨_, k, f, e, calls, hk, hall, hf, he, h⟩ |
      ⟨_, hall, _⟩
  · rw [h]
    exact ⟨he, rfl, rfl, by simp, by simp, by simp, fun hv2 => absurd hv2 hv, ⟨_, rfl⟩,
      fun hv2 => absurd hv2 hv⟩
  · rw [h]
    refine ⟨⟨_, he⟩, rfl, rfl, by simp [batchJobCall, isUploadCall],
      by simp [batchJobCall, isImageCall], by simp [batchJobCall, isOpenCall],
      fun _ => ⟨_, rfl⟩, ⟨_, rfl⟩, fun _ _ hn => ?_⟩
    have := hn _ (List.mem_singleton.mpr rfl)
    cases this
  · rw [h]
    have hklt : k < files.length := (List.getElem?_eq_some.mp hk).1
    have hlen : (files.take k).length = k := by rw [List.length_take]; omega
    have hkj : k ≤ j := by
      by_contra hlt
      have hg2 : (files.take k)[j]? = some g := by
        rw [List.getElem?_take_of_lt (by omega)]; exact hj
      have := (List.all_eq_true.mp hall) g (List.getElem?_mem hg2)
      rw [hgbad] at this
      exact Bool.noConfusion this
    obtain ⟨c1, c2, c3⟩ := expectedBatchCalls_counts env cfg userID (env.uuid w.uuids)
      (env.now (w.clock + 1)) (files.take k) 0 (w.uuids + 1)
    obtain ⟨d1, d2, d3, d4⟩ := failedFileCalls_counts _ _ _ _ _ _ _ _ _ _ hf
    have hfc : ∀ c ∈ expectedBatchCalls env cfg userID (env.uuid w.uuids) (env.now (w.clock + 1))
        (files.take k) 0 (w.uuids + 1) ++ calls, isFileCall c.1 = true := by
      intro c hc
      rcases List.mem_append.mp hc with hc | hc
      · exact expectedBatchCalls_isFileCall _ _ _ _ _ _ _ _ c hc
      · exact failedFileCalls_isFileCall _ _ _ _ _ _ _ _ _ _ hf c hc
    have hfg : k = j → f = g := by
      intro hkeq
      subst hkeq
      rw [hj] at hk
      simp only [Option.some.injEq] at hk
      exact hk.symm
    have hzero : k = j → calls.countP isUploadCall = 0 ∧ calls.countP isImageCall = 0 := by
      intro hkeq
      have := hfg hkeq
      subst this
      exact d4 hgbad
    refine ⟨⟨_, he⟩, ?_, ?_, ?_, ?_, ?_, fun _ => ⟨_, rfl⟩, ?_, ?_⟩
    · simp only [List.any_cons, Bool.or_eq_false_iff, List.any_eq_false]
      exact ⟨rfl, fun c hc => by simp [(isFileCall_not_update c (hfc c hc)).2]⟩
    · simp only [List.any_cons, Bool.or_eq_false_iff, List.any_eq_false]
      exact ⟨rfl, fun c hc => by simp [(isFileCall_not_update c (hfc c hc)).1]⟩
    · rw [List.countP_cons, List.countP_append, c2, hlen]
      simp only [batchJobCall, isUploadCall, Bool.false_eq_true, if_false]
      rcases Nat.lt_or_eq_of_le hkj with hlt | heq
      · omega
      · have := (hzero heq).1
        omega
    · rw [List.countP_cons, List.countP_append, c3, hlen]
      simp only [batchJobCall, isImageCall, Bool.false_eq_true, if_false]
      rcases Nat.lt_or_eq_of_le hkj with hlt | heq
      · omega
      · have := (hzero heq).2
        omega
    · rw [List.countP_cons, List.countP_append, c1, d1, hlen]
      simp only [batchJobCall, isOpenCall, Bool.false_eq_true, if_false]
      omega
    · obtain ⟨⟨t, ht⟩, hopen⟩ := failedFileCalls_prefix _ _ _ _ _ _ _ _ _ _ hf
      simp only [List.map_cons, List.map_append, List.cons_append, List.cons.injEq, true_and]
      rcases Nat.lt_or_eq_of_le hkj with hlt | heq
      · obtain ⟨rest, hrest⟩ := take_eq_take_append_cons files k j f hk hlt
        rw [hrest, expectedBatchCalls_append, hlen]
        simp only [expectedBatchCalls, List.map_append, List.map_cons, List.map_nil,
          List.append_assoc, Nat.zero_add]
        refine ⟨t ++ ((expectedBatchCalls env cfg userID (env.uuid w.uuids)
          (env.now (w.clock + 1)) rest (k + 1) (w.uuids + 1 + k + 1)).map Prod.fst ++
            [.Open g.Filename]), ?_⟩
        rw [← List.append_assoc (calls.map Prod.fst) t, ht]
      · have hfeq := hfg heq
        subst heq
        subst hfeq
        rw [hopen hgbad]
        exact ⟨[], by simp⟩
    · intro _ hfirst hn
      have hn2 : ∀ c ∈ calls, c.2 = none := fun c hc =>
        hn c (List.mem_cons_of_mem _ (List.mem_append_right _ hc))
      obtain ⟨hbad, hcalls, htext⟩ := failedFileCalls_no_error _ _ _ _ _ _ _ _ _ _ hf hn2
      have heq : k = j := by
        rcases Nat.lt_or_eq_of_le hkj with hlt | heq
        · exfalso
          have hf2 : (files.take j)[k]? = some f := by
            rw [List.getElem?_take_of_lt hlt]; exact hk
          have := (List.all_eq_true.mp hfirst) f (List.getElem?_mem hf2)
          rw [hbad] at this
          exact Bool.noConfusion this
        · exact heq
      have hfeq := hfg heq
      subst heq
      subst hfeq
      rw [he, htext hb, hcalls]
      exact ⟨rfl, rfl⟩
  · have := (List.all_eq_true.mp hall) g hgmem
    rw [hgbad] at this
    exact Bool.noConfusion this

theorem C1_batch_unsupported_extension_witness :
    (BatchUploadPhotos envOk cfgTest "u" jpgThenBmp "" false "" World.start).1 =
        .error (.new ("неподдерживаемый формат файла " ++ "b.bmp" ++ ": " ++
          ToLower (Ext "b.bmp"))) ∧
      newCalls World.start
          (BatchUploadPhotos envOk cfgTest "u" jpgThenBmp "" false "" World.start).2 =
        (batchJobCall envOk "u" jpgThenBmp "" "" World.start, none) ::
          (expectedBatchCalls envOk cfgTest "u" (envOk.uuid World.start.uuids)
            (envOk.now (World.start.clock + 1)) (jpgThenBmp.take 1) 0
            (World.start.uuids + 1) ++ [(.Open "b.bmp", none)]) :=
  (C1_batch_unsupported_extension envOk cfgTest "u" jpgThenBmp "" false "" World.start 1
    ⟨"b.bmp", 1000, "image/bmp"⟩ (by decide) (by decide)).2.2.2.2.2.2.2.2 (by decide)
    (by decide) (by decide)

/-- C12: an empty generation mode resolves to `heightmap`, any other to itself.
A resolved value outside heightmap, orthophoto, both is rejected with no call
made. Every BatchJob record the run creates and every message it delivers
carries the resolved value, and a successful run has created such a record and
has had such a message acknowledged. -/
theorem C12_generation_mode (env : Env) (cfg : Config) (userID : UUID)
    (files : List FileHeader) (mergeMethod : String) (fastMode : Bool) (generationMode : String)
    (w : World) :
    (resolveGenerationMode "" = "heightmap" ∧
      (generationMode ≠ "" → resolveGenerationMode generationMode = generationMode)) ∧
    (¬ (resolveGenerationMode generationMode = "heightmap" ∨
        resolveGenerationMode generationMode = "orthophoto" ∨
        resolveGenerationMode generationMode = "both") →
      (∃ e, (BatchUploadPhotos env cfg userID files mergeMethod fastMode generationMode w).1 =
        .error e) ∧
      (BatchUploadPhotos env cfg userID files mergeMethod fastMode generationMode w).2 =
        { w with clock := w.clock + 1 } ∧
      newCalls w (BatchUploadPhotos env cfg userID files mergeMethod fastMode generationMode w).2
        = []) ∧
    (∀ p r, (Call.CreateBatchHeightmapJob p, r) ∈
        newCalls w
          (BatchUploadPhotos env cfg userID files mergeMethod fastMode generationMode w).2 →
      p.GenerationMode = resolveGenerationMode generationMode) ∧
    (∀ x k m r, (Call.PublishWithContext x k m, r) ∈
        newCalls w
          (BatchUploadPhotos env cfg userID files mergeMethod fastMode generationMode w).2 →
      m.Body.lookup "generation_mode" =
        some (.str (resolveGenerationMode generationMode))) ∧
    (∀ resp, (BatchUploadPhotos env cfg userID files mergeMethod fastMode generationMode w).1 =
        .ok resp →
      (∃ p, (Call.CreateBatchHeightmapJob p, none) ∈
          newCalls w
            (BatchUploadPhotos env cfg userID files mergeMethod fastMode generationMode w).2 ∧
        p.GenerationMode = resolveGenerationMode generationMode) ∧
      (∃ x k m, (Call.PublishWithContext x k m, none) ∈
          newCalls w
            (BatchUploadPhotos env cfg userID files mergeMethod fastMode generationMode w).2 ∧
        m.Body.lookup "generation_mode" =
        some (.str (resolveGenerationMode generationMode)))) := by
  refine ⟨⟨by simp [resolveGenerationMode], fun h => by simp [resolveGenerationMode, h]⟩,
    fun hbad => ?_, ?_⟩
  · have hv : ¬ batchValid files mergeMethod generationMode := by
      rintro ⟨_, _, _, hg, _⟩
      exact hbad (by rcases hg with h | h | h <;> simp [h])
    obtain ⟨h1, h2⟩ := BatchUploadPhotos_invalid env cfg userID files mergeMethod fastMode
      generationMode w hv
    exact ⟨h1, h2, by rw [h2]; exact newCalls_self_clock w _⟩
  · rcases BatchUploadPhotos_calls env cfg userID files mergeMethod fastMode generationMode w
      with ⟨_, ⟨e, he⟩, h⟩ | ⟨_, err, he, h⟩ | ⟨_, k, f, e, calls, _, _, hf, he, h⟩ |
        ⟨_, _, pevs, tail, h, hh, p4, p5, ht⟩
    · rw [h]
      exact ⟨fun p r hm => by simp at hm, fun x k m r hm => by simp at hm,
        fun resp hr => by rw [he] at hr; exact absurd hr (by simp)⟩
    · rw [h]
      refine ⟨fun p r hm => ?_, fun x k m r hm => by simp [batchJobCall] at hm,
        fun resp hr => by rw [he] at hr; exact absurd hr (by simp)⟩
      simp only [batchJobCall, List.mem_singleton, Prod.mk.injEq,
        Call.CreateBatchHeightmapJob.injEq] at hm
      rw [hm.1]
    · rw [h]
      have hfc : ∀ c ∈ expectedBatchCalls env cfg userID (env.uuid w.uuids)
          (env.now (w.clock + 1)) (files.take k) 0 (w.uuids + 1) ++ calls,
          isFileCall c.1 = true := by
        intro c hc
        rcases List.mem_append.mp hc with hc | hc
        · exact expectedBatchCalls_isFileCall _ _ _ _ _ _ _ _ c hc
        · exact failedFileCalls_isFileCall _ _ _ _ _ _ _ _ _ _ hf c hc
      refine ⟨fun p r hm => ?_, fun x k m r hm => ?_,
        fun resp hr => by rw [he] at hr; exact absurd hr (by simp)⟩
      · simp only [List.mem_cons] at hm
        rcases hm with hm | hm
        · simp only [batchJobCall, Prod.mk.injEq, Call.CreateBatchHeightmapJob.injEq] at hm
          rw [hm.1]
        · have := hfc _ hm
          simp [isFileCall] at this
      · simp only [List.mem_cons] at hm
        rcases hm with hm | hm
        · simp [batchJobCall] at hm
        · have := hfc _ hm
          simp [isFileCall] at this
    · rw [h]
      have htail : ∀ c ∈ tail, ∃ q, c.1 = Call.UpdateBatchJobError q := by
        intro c hc
        rcases ht with ⟨_, ht, _⟩ | ⟨err, _, ht, _⟩
        · rw [ht] at hc; simp at hc
        · rw [ht] at hc; simp only [List.mem_singleton] at hc; subst hc
          exact ⟨_, rfl⟩
      have hpub : ∀ x k m r, (Call.PublishWithContext x k m, r) ∈ pevs →
          m.Body.lookup "generation_mode" =
        some (.str (resolveGenerationMode generationMode)) := by
        intro x k m r hm
        obtain ⟨body, hbody, hcall⟩ := p5 _ hm rfl
        simp only [Call.PublishWithContext.injEq] at hcall
        rw [hcall.2.2]
        exact (marshalBatchTask_body env _ body hbody).2.2
      refine ⟨fun p r hm => ?_, fun x k m r hm => ?_, fun resp hr => ?_⟩
      · simp only [List.mem_cons, List.mem_append] at hm
        rcases hm with hm | hm | hm | hm
        · simp only [batchJobCall, Prod.mk.injEq, Call.CreateBatchHeightmapJob.injEq] at hm
          rw [hm.1]
        · have := expectedBatchCalls_isFileCall _ _ _ _ _ _ _ _ _ hm
          simp [isFileCall] at this
        · have := p4 _ hm
          simp [isBroker] at this
        · obtain ⟨q, hq⟩ := htail _ hm
          simp at hq
      · simp only [List.mem_cons, List.mem_append] at hm
        rcases hm with hm | hm | hm | hm
        · simp [batchJobCall] at hm
        · have := expectedBatchCalls_isFileCall _ _ _ _ _ _ _ _ _ hm
          simp [isFileCall] at this
        · exact hpub x k m r hm
        · obtain ⟨q, hq⟩ := htail _ hm
          simp at hq
      · rcases ht with ⟨hnone, _, hok⟩ | ⟨err, _, _, herr⟩
        swap
        · rw [herr] at hr; exact absurd hr (by simp)
        rw [hok] at hr
        simp only [Except.ok.injEq] at hr
        subst hr
        obtain ⟨pevs2, q1, _, _, _, _, q6, _⟩ := PublishBatchTask_spec env cfg.RabbitMQ
          (batchTask env cfg userID files mergeMethod fastMode generationMode w)
          (batchPublishState env cfg userID files mergeMethod generationMode w)
        have hpe : pevs2 = pevs := by
          have := q1.symm.trans hh
          exact List.append_cancel_left this
        subst hpe
        have hack : pevs2.any isAcked = true := q6.mp hnone
        obtain ⟨c, hcm, hca⟩ := List.any_eq_true.mp hack
        rcases c with ⟨cc, cr⟩
        cases cc <;> cases cr <;> simp [isAcked] at hca
        rename_i x k m
        refine ⟨⟨(⟨env.uuid w.uuids, userID, "pending", int32 files.length,
          resolveMergeMethod mergeMethod, resolveGenerationMode generationMode,
          env.now (w.clock + 1), env.now (w.clock + 1)⟩ : CreateBatchHeightmapJobParams),
          List.mem_cons_self _ _, rfl⟩, x, k, m, ?_, hpub x k m none hcm⟩
        exact List.mem_cons_of_mem _ (List.mem_append_right _ (List.mem_append_left _ hcm))

theorem C12_generation_mode_witness :
    ∃ x k m, (Call.PublishWithContext x k m, none) ∈
        newCalls World.start
          (BatchUploadPhotos envOk cfgTest "u" fivePngs "" false "" World.start).2 ∧
      m.Body.lookup "generation_mode" = some (.str (resolveGenerationMode "")) :=
  ((C12_generation_mode envOk cfgTest "u" fivePngs "" false "" World.start).2.2.2.2
    ⟨"id0", "pending", 5, "medium"⟩ (by decide)).2

/-! ## The size check -/

theorem UploadPhoto_size_error_iff (env : Env) (cfg : Config) (userID : UUID)
    (header : FileHeader) (w : World) :
    (UploadPhoto env cfg userID header w).1 =
        .error (.new "файл слишком большой: максимум 100МБ") ↔
      badExt (ToLower (Ext header.Filename)) = false ∧ header.Size > maxFileSize := by
  cases hb : badExt (ToLower (Ext header.Filename)) with
  | true =>
    rw [UploadPhoto_of_badExt env cfg userID header w hb]
    simp only [Except.error.injEq, GoError.new.injEq, Bool.true_eq_false, false_and, iff_false]
    intro hc
    have := congrArg String.data hc
    simp at this
  | false =>
    by_cases hsz : header.Size > maxFileSize
    · simp [UploadPhoto, timeNow, hb, hsz]
    · simp only [hsz, and_false, iff_false]
      simp only [UploadPhoto, timeNow, uuidNew, hb, hsz, if_false, Bool.false_eq_true]
      repeat' split
      all_goals simp_all [Errorf]

theorem UploadPhoto_of_big (env : Env) (cfg : Config) (userID : UUID)
    (header : FileHeader) (w : World) (h : header.Size > maxFileSize) :
    (∃ e, (UploadPhoto env cfg userID header w).1 = .error e) ∧
    (UploadPhoto env cfg userID header w).2 = { w with clock := w.clock + 1 } ∧
    newCalls w (UploadPhoto env cfg userID header w).2 = [] := by
  have hok : fileOk header = false := by
    simp only [fileOk, Bool.and_eq_false_iff, Bool.not_eq_false', decide_eq_false_iff_not]
    exact Or.inr (by omega)
  obtain ⟨h1, h2⟩ := UploadPhoto_invalid env cfg userID header w hok
  exact ⟨h1, h2, by rw [h2]; exact newCalls_self_clock w _⟩

theorem uploadBatchFiles_history (env : Env) (cfg : Config) (userID batchJobID : UUID)
    (now : Time) (files : List FileHeader) (idx : Nat) (urls : List String) (w : World) :
    ∃ evs, (uploadBatchFiles env cfg userID batchJobID now files idx urls w).2.history =
      w.history ++ evs := by
  rcases uploadBatchFiles_spec env cfg userID batchJobID now files idx urls w with
    ⟨w2, h1, h2, _⟩ | ⟨k, f, e, w2, calls, _, _, h1, h2, _⟩
  · exact ⟨_, by rw [h1]; exact h2⟩
  · exact ⟨_, by rw [h1]; exact h2⟩

/-- The per-file size check of a batch, at a file that was opened and has a
supported extension. -/
theorem uploadBatchFiles_size_check (env : Env) (cfg : Config) (userID batchJobID : UUID)
    (now : Time) (f : FileHeader) (rest : List FileHeader) (idx : Nat) (urls : List String)
    (w : World) (ho : env.respond w.history (.Open f.Filename) = none)
    (hb : badExt (ToLower (Ext f.Filename)) = false) :
    (f.Size > maxFileSize →
      uploadBatchFiles env cfg userID batchJobID now (f :: rest) idx urls w =
        (.error (.new ("файл " ++ f.Filename ++ " слишком большой: максимум 100МБ")),
          { w with history := w.history ++ [(.Open f.Filename, none)] })) ∧
    (f.Size ≤ maxFileSize →
      ∃ r tail, (uploadBatchFiles env cfg userID batchJobID now (f :: rest) idx urls w).2.history =
        w.history ++ (.Open f.Filename, none) ::
          (batchUploadCall cfg userID batchJobID idx f, r) :: tail) := by
  constructor
  · intro hsz
    simp [uploadBatchFiles, call, ho, hb, hsz]
  · intro hsz
    have hsz2 : ¬ f.Size > maxFileSize := by omega
    simp only [uploadBatchFiles, call, uuidNew, ho, hb, hsz2, if_false, Bool.false_eq_true]
    cases hu : env.respond (w.history ++ [(.Open f.Filename, none)])
        (batchUploadCall cfg userID batchJobID idx f) with
    | some err =>
      simp only [batchUploadCall, batchObjectName] at hu
      simp only [hu]
      exact ⟨some err, [], by simp [batchUploadCall, batchObjectName]⟩
    | none =>
      simp only [batchUploadCall, batchObjectName] at hu
      simp only [hu]
      cases hc : env.respond (w.history ++ [(.Open f.Filename, none)] ++
          [(batchUploadCall cfg userID batchJobID idx f, none)])
          (batchImageCall env cfg userID batchJobID now idx w.uuids f) with
      | some err =>
        simp only [batchUploadCall, batchImageCall, batchImageURL, batchObjectName] at hc
        simp only [hc]
        exact ⟨none, [(batchImageCall env cfg userID batchJobID now idx w.uuids f, some err)],
          by simp [batchUploadCall, batchImageCall, batchImageURL, batchObjectName]⟩
      | none =>
        simp only [batchUploadCall, batchImageCall, batchImageURL, batchObjectName] at hc
        simp only [hc]
        obtain ⟨evs, hevs⟩ := uploadBatchFiles_history env cfg userID batchJobID now rest
          (idx + 1) (urls ++ [batchImageURL cfg userID batchJobID idx f])
          { history := w.history ++ [(.Open f.Filename, none)] ++
              [(batchUploadCall cfg userID batchJobID idx f, none)] ++
              [(batchImageCall env cfg userID batchJobID now idx w.uuids f, none)],
            uuids := w.uuids + 1, clock := w.clock, conn := w.conn, channel := w.channel }
        refine ⟨none, (batchImageCall env cfg userID batchJobID now idx w.uuids f, none) :: evs,
          ?_⟩
        exact hevs.trans (by simp)

theorem UploadPhoto_size_accepts (env : Env) (cfg : Config) (userID : UUID)
    (header : FileHeader) (w : World) (h : fileOk header = true) :
    ∃ r tail, (UploadPhoto env cfg userID header w).2.history =
      w.history ++ (uploadCall env cfg userID header w, r) :: tail := by
  rcases UploadPhoto_valid env cfg userID header w h with
    ⟨err, _, _, h3⟩ | ⟨err, _, _, h3⟩ | ⟨_, _, _, _, h3⟩ | ⟨_, _, err, _, _, h3⟩
  · exact ⟨some err, [], h3⟩
  · exact ⟨none, [(jobCall env cfg userID header w, some err)], h3⟩
  · obtain ⟨pevs, p1, _⟩ := PublishTask_spec env cfg.RabbitMQ
      (uploadTask env cfg userID header w) (uploadPublishState env cfg userID header w)
    refine ⟨none, (jobCall env cfg userID header w, none) :: pevs, ?_⟩
    rw [h3, show (uploadPublish env cfg userID header w).2.history = _ from p1]
    simp [uploadPublishState]
  · obtain ⟨pevs, p1, _⟩ := PublishTask_spec env cfg.RabbitMQ
      (uploadTask env cfg userID header w) (uploadPublishState env cfg userID header w)
    refine ⟨none, (jobCall env cfg userID header w, none) :: (pevs ++
      [(jobErrorCall env cfg userID header w err,
        env.respond (uploadPublish env cfg userID header w).2.history
          (jobErrorCall env cfg userID header w err))]), ?_⟩
    rw [h3, show (uploadPublish env cfg userID header w).2.history = _ from p1]
    simp [uploadPublishState]

/-- C13: the bound of the size checks is 104857600 bytes. `UploadPhoto` returns
the size error exactly for a file with a supported extension and a size above
the bound; a file above the bound is always rejected with no call made; a file
with a supported extension and a size up to the bound, the bound included, is
handed to the object store. In the per-file loop of `BatchUploadPhotos`, a file
that was opened and has a supported extension is rejected with the size error,
right after the open, when its size is above the bound, and is handed to the
object store when its size is at most the bound. -/
theorem C13_size_check (env : Env) (cfg : Config) (userID batchJobID : UUID) (now : Time)
    (f : FileHeader) (rest : List FileHeader) (idx : Nat) (urls : List String) (w : World) :
    maxFileSize = 104857600 ∧
    ((UploadPhoto env cfg userID f w).1 =
        .error (.new "файл слишком большой: максимум 100МБ") ↔
      badExt (ToLower (Ext f.Filename)) = false ∧ f.Size > 104857600) ∧
    (f.Size > 104857600 →
      (∃ e, (UploadPhoto env cfg userID f w).1 = .error e) ∧
      newCalls w (UploadPhoto env cfg userID f w).2 = []) ∧
    (badExt (ToLower (Ext f.Filename)) = false → f.Size ≤ 104857600 →
      ∃ r tail, newCalls w (UploadPhoto env cfg userID f w).2 =
        (uploadCall env cfg userID f w, r) :: tail) ∧
    (env.respond w.history (.Open f.Filename) = none →
      badExt (ToLower (Ext f.Filename)) = false →
      (f.Size > 104857600 →
        uploadBatchFiles env cfg userID batchJobID now (f :: rest) idx urls w =
          (.error (.new ("файл " ++ f.Filename ++ " слишком большой: максимум 100МБ")),
            { w with history := w.history ++ [(.Open f.Filename, none)] })) ∧
      (f.Size ≤ 104857600 →
        ∃ r tail,
          (uploadBatchFiles env cfg userID batchJobID now (f :: rest) idx urls w).2.history =
            w.history ++ (.Open f.Filename, none) ::
              (batchUploadCall cfg userID batchJobID idx f, r) :: tail)) := by
  have hmax : maxFileSize = 104857600 := by decide
  refine ⟨hmax, ?_, ?_, ?_, ?_⟩
  · rw [← hmax]
    exact UploadPhoto_size_error_iff env cfg userID f w
  · intro h
    have h2 := UploadPhoto_of_big env cfg userID f w (by rw [hmax]; exact h)
    exact ⟨h2.1, h2.2.2⟩
  · intro hb hsz
    have hok : fileOk f = true := by
      simp only [fileOk, Bool.and_eq_true, Bool.not_eq_true', decide_eq_true_eq]
      exact ⟨hb, by rw [hmax]; exact hsz⟩
    obtain ⟨r, tail, h⟩ := UploadPhoto_size_accepts env cfg userID f w hok
    exact ⟨r, tail, newCalls_of_append _ _ _ h⟩
  · intro ho hb
    have h := uploadBatchFiles_size_check env cfg userID batchJobID now f rest idx urls w ho hb
    rw [hmax] at h
    exact h

theorem C13_size_check_witness :
    (104857601 : Int) > 104857600 ∧
    (∃ e, (UploadPhoto envOk cfgTest "u" ⟨"big.png", 104857601, "image/png"⟩ World.start).1 =
      .error e) ∧
    newCalls World.start
      (UploadPhoto envOk cfgTest "u" ⟨"big.png", 104857601, "image/png"⟩ World.start).2 = [] :=
  ⟨by decide, (C13_size_check envOk cfgTest "u" "b" 0 ⟨"big.png", 104857601, "image/png"⟩ [] 0 []
    World.start).2.2.1 (by decide)⟩

/-! ## The records of a successful batch -/

theorem countP_isAcked_eq_one (evs : History) (hany : evs.any isAcked = true)
    (hlast : ∀ a e post, evs = a ++ e :: post → isAcked e = true → post = []) :
    evs.countP isAcked = 1 := by
  induction evs with
  | nil => simp at hany
  | cons e rest ih =>
    cases he : isAcked e with
    | true =>
      have := hlast [] e rest rfl he
      subst this
      simp [List.countP_cons, he]
    | false =>
      have hany2 : rest.any isAcked = true := by
        simpa [List.any_cons, he] using hany
      have := ih hany2 (fun a x post hs hx => hlast (e :: a) x post (by rw [hs]; rfl) hx)
      simp [List.countP_cons, he, this]

theorem int32_of_small (n : Nat) (h : n ≤ 50) : int32 (n : Int) = n := by
  unfold int32
  norm_num
  omega

theorem expectedBatchCalls_image (env : Env) (cfg : Config) (userID batchJobID : UUID)
    (now : Time) (files : List FileHeader) :
    ∀ (idx u : Nat) (q : CreateBatchImageParams) (r : Option GoError),
      (Call.CreateBatchImage q, r) ∈ expectedBatchCalls env cfg userID batchJobID now files idx u →
      r = none ∧ q.Status = "pending" ∧ q.BatchJobID = batchJobID ∧ q.BatchJobIDValid = true := by
  induction files with
  | nil => intro idx u q r h; simp [expectedBatchCalls] at h
  | cons f rest ih =>
    intro idx u q r h
    simp only [expectedBatchCalls, List.cons_append, List.nil_append, List.mem_cons] at h
    rcases h with h | h | h | h
    · simp at h
    · simp [batchUploadCall] at h
    · simp only [batchImageCall, Prod.mk.injEq, Call.CreateBatchImage.injEq] at h
      obtain ⟨hq, hr⟩ := h
      subst hq
      exact ⟨hr, rfl, rfl, rfl⟩
    · exact ih _ _ q r h

theorem countP_eq_zero_of_file (l : History) (h : ∀ e ∈ l, isFileCall e.1 = true) :
    l.countP isBatchJobCall = 0 ∧ l.countP isAcked = 0 := by
  constructor <;>
  · rw [List.countP_eq_zero]
    intro e he
    have := h e he
    rcases e with ⟨c, r⟩
    cases c <;> simp_all [isFileCall, isBatchJobCall, isAcked]

theorem countP_eq_zero_of_broker (l : History) (h : ∀ e ∈ l, isBroker e.1 = true) :
    l.countP isBatchJobCall = 0 ∧ l.countP isImageCall = 0 := by
  constructor <;>
  · rw [List.countP_eq_zero]
    intro e he
    have := h e he
    rcases e with ⟨c, r⟩
    cases c <;> simp_all [isBroker, isBatchJobCall, isImageCall]

/-- C14: a batch upload of `n` files that returns a response has made these
calls: first the creation of one BatchJob record, successful, with status
pending and image count `n`; after it no further BatchJob creation and exactly
`n` BatchImage creations, each successful, with status pending and the id of
that BatchJob as its valid parent id; and exactly one acknowledged delivery,
every delivery attempt carrying the id of that BatchJob. The response has the
id of the BatchJob, status pending and image count `n`. -/
theorem C14_batch_success_records (env : Env) (cfg : Config) (userID : UUID)
    (files : List FileHeader) (mergeMethod : String) (fastMode : Bool) (generationMode : String)
    (w : World) (resp : BatchUploadResponse)
    (h : (BatchUploadPhotos env cfg userID files mergeMethod fastMode generationMode w).1 =
      .ok resp) :
    ∃ p rest,
      newCalls w (BatchUploadPhotos env cfg userID files mergeMethod fastMode generationMode w).2 =
        (.CreateBatchHeightmapJob p, none) :: rest ∧
      p.Status = "pending" ∧ p.ImageCount = files.length ∧
      rest.countP isBatchJobCall = 0 ∧
      rest.countP isImageCall = files.length ∧
      (∀ q r, (Call.CreateBatchImage q, r) ∈ rest →
        r = none ∧ q.Status = "pending" ∧ q.BatchJobID = p.ID ∧ q.BatchJobIDValid = true) ∧
      rest.countP isAcked = 1 ∧
      (∀ x k m r, (Call.PublishWithContext x k m, r) ∈ rest →
        m.Body.lookup "batch_job_id" = some (.str p.ID)) ∧
      resp.ID = p.ID ∧ resp.Status = "pending" ∧ resp.ImageCount = files.length := by
  rcases BatchUploadPhotos_calls env cfg userID files mergeMethod fastMode generationMode w with
    ⟨_, ⟨e, he⟩, _⟩ | ⟨_, err, he, _⟩ | ⟨_, k, f, e, calls, _, _, _, he, _⟩ |
      ⟨hv, hall, pevs, tail, hcalls, hhist, hbr, hpub, ⟨hok, htail, hresp⟩ | ⟨err, _, _, he⟩⟩
  · rw [he] at h; exact absurd h (by simp)
  · rw [he] at h; exact absurd h (by simp)
  · rw [he] at h; exact absurd h (by simp)
  · rw [hresp] at h
    simp only [Except.ok.injEq] at h
    subst h
    subst htail
    obtain ⟨evs, q1, _, _, _, _, q6, q7, _⟩ := PublishBatchTask_spec env cfg.RabbitMQ
      (batchTask env cfg userID files mergeMethod fastMode generationMode w)
      (batchPublishState env cfg userID files mergeMethod generationMode w)
    have hevs : evs = pevs := by
      have := q1.symm.trans hhist
      exact List.append_cancel_left this
    subst hevs
    have hack : evs.countP isAcked = 1 :=
      countP_isAcked_eq_one evs (q6.mp hok) q7
    have hfile := expectedBatchCalls_isFileCall env cfg userID (env.uuid w.uuids)
      (env.now (w.clock + 1)) files 0 (w.uuids + 1)
    obtain ⟨f1, f2⟩ := countP_eq_zero_of_file _ hfile
    obtain ⟨b1, b2⟩ := countP_eq_zero_of_broker _ hbr
    obtain ⟨_, _, c3⟩ := expectedBatchCalls_counts env cfg userID (env.uuid w.uuids)
      (env.now (w.clock + 1)) files 0 (w.uuids + 1)
    refine ⟨_, _, hcalls, rfl, int32_of_small _ hv.2.1, ?_, ?_, ?_, ?_, ?_, rfl, rfl, rfl⟩
    · simp [List.countP_append, f1, b1]
    · simp [List.countP_append, c3, b2]
    · intro q r hq
      simp only [List.append_nil, List.mem_append] at hq
      rcases hq with hq | hq
      · exact expectedBatchCalls_image env cfg userID _ _ files _ _ q r hq
      · have := hbr _ hq
        simp [isBroker] at this
    · simp [List.countP_append, f2, hack]
    · intro x k m r hm
      simp only [List.append_nil, List.mem_append] at hm
      rcases hm with hm | hm
      · have := hfile _ hm
        simp [isFileCall] at this
      · obtain ⟨body, hb, he⟩ := hpub _ hm rfl
        simp only [Call.PublishWithContext.injEq] at he
        rw [he.2.2]
        exact (marshalBatchTask_body env _ body hb).1
  · rw [he] at h; exact absurd h (by simp)

theorem C14_batch_success_records_witness :
    ∃ p rest,
      newCalls World.start (BatchUploadPhotos envOk cfgTest "u" fivePngs "" false "" World.start).2 =
        (.CreateBatchHeightmapJob p, none) :: rest ∧
      p.Status = "pending" ∧ p.ImageCount = fivePngs.length ∧
      rest.countP isBatchJobCall = 0 ∧
      rest.countP isImageCall = fivePngs.length ∧
      (∀ q r, (Call.CreateBatchImage q, r) ∈ rest →
        r = none ∧ q.Status = "pending" ∧ q.BatchJobID = p.ID ∧ q.BatchJobIDValid = true) ∧
      rest.countP isAcked = 1 ∧
      (∀ x k m r, (Call.PublishWithContext x k m, r) ∈ rest →
        m.Body.lookup "batch_job_id" = some (.str p.ID)) ∧
      (⟨"id0", "pending", 5, "medium"⟩ : BatchUploadResponse).ID = p.ID ∧
      (⟨"id0", "pending", 5, "medium"⟩ : BatchUploadResponse).Status = "pending" ∧
      (⟨"id0", "pending", 5, "medium"⟩ : BatchUploadResponse).ImageCount = fivePngs.length :=
  C14_batch_success_records envOk cfgTest "u" fivePngs "" false "" World.start
    ⟨"id0", "pending", 5, "medium"⟩ (by decide)

/-! ## The object keys and URLs of a batch -/

theorem expectedURLs_length (cfg : Config) (userID batchJobID : UUID) (files : List FileHeader) :
    ∀ idx, (expectedURLs cfg userID batchJobID files idx).length = files.length := by
  induction files with
  | nil => intro idx; rfl
  | cons f rest ih => intro idx; simp [expectedURLs, ih]

theorem expectedURLs_getElem (cfg : Config) (userID batchJobID : UUID)
    (files : List FileHeader) :
    ∀ (idx i : Nat) (g : FileHeader), files[i]? = some g →
      (expectedURLs cfg userID batchJobID files idx)[i]? =
        some (batchImageURL cfg userID batchJobID (idx + i) g) := by
  induction files with
  | nil => intro idx i g h; simp at h
  | cons f rest ih =>
    intro idx i g h
    cases i with
    | zero =>
      simp only [List.getElem?_cons_zero, Option.some.injEq] at h
      subst h
      simp [expectedURLs]
    | succ i =>
      simp only [List.getElem?_cons_succ] at h
      have := ih (idx + 1) i g h
      have e1 : idx + 1 + i = idx + (i + 1) := by omega
      rw [e1] at this
      simpa [expectedURLs] using this

theorem expectedBatchCalls_filter (env : Env) (cfg : Config) (userID batchJobID : UUID)
    (now : Time) (files : List FileHeader) :
    ∀ (idx u i : Nat) (g : FileHeader), files[i]? = some g →
      ((expectedBatchCalls env cfg userID batchJobID now files idx u).filter isUploadCall)[i]? =
        some (batchUploadCall cfg userID batchJobID (idx + i) g, none) ∧
      ((expectedBatchCalls env cfg userID batchJobID now files idx u).filter isImageCall)[i]? =
        some (batchImageCall env cfg userID batchJobID now (idx + i) (u + i) g, none) := by
  induction files with
  | nil => intro idx u i g h; simp at h
  | cons f rest ih =>
    intro idx u i g h
    have hu : (expectedBatchCalls env cfg userID batchJobID now (f :: rest) idx u).filter
        isUploadCall = (batchUploadCall cfg userID batchJobID idx f, none) ::
          (expectedBatchCalls env cfg userID batchJobID now rest (idx + 1) (u + 1)).filter
            isUploadCall := by
      simp [expectedBatchCalls, List.filter_cons, isUploadCall, batchUploadCall, batchImageCall]
    have hi : (expectedBatchCalls env cfg userID batchJobID now (f :: rest) idx u).filter
        isImageCall = (batchImageCall env cfg userID batchJobID now idx u f, none) ::
          (expectedBatchCalls env cfg userID batchJobID now rest (idx + 1) (u + 1)).filter
            isImageCall := by
      simp [expectedBatchCalls, List.filter_cons, isImageCall, batchUploadCall, batchImageCall]
    rw [hu, hi]
    cases i with
    | zero =>
      simp only [List.getElem?_cons_zero, Option.some.injEq] at h
      subst h
      simp
    | succ i =>
      simp only [List.getElem?_cons_succ] at h
      obtain ⟨h1, h2⟩ := ih (idx + 1) (u + 1) i g h
      have e1 : idx + 1 + i = idx + (i + 1) := by omega
      have e2 : u + 1 + i = u + (i + 1) := by omega
      rw [e1] at h1 h2
      rw [e2] at h2
      simp only [List.getElem?_cons_succ]
      exact ⟨h1, h2⟩

theorem filter_eq_nil_of_broker (l : History) (h : ∀ e ∈ l, isBroker e.1 = true) :
    l.filter isUploadCall = [] ∧ l.filter isImageCall = [] := by
  constructor <;>
  · rw [List.filter_eq_nil_iff]
    intro e he
    have := h e he
    rcases e with ⟨c, r⟩
    cases c <;> simp_all [isBroker, isUploadCall, isImageCall]

theorem filter_eq_nil_of_update (l : History) (h : ∀ e ∈ l, isUpdateError e = true) :
    l.filter isUploadCall = [] ∧ l.filter isImageCall = [] := by
  constructor <;>
  · rw [List.filter_eq_nil_iff]
    intro e he
    have := h e he
    rcases e with ⟨c, r⟩
    cases c <;> simp_all [isUpdateError, isUploadCall, isImageCall]

theorem marshalBatchTask_image_urls (env : Env) (t : BatchHeightmapTask) (body : JSONObject)
    (h : marshalBatchTask env t = .ok body) :
    body.lookup "image_urls" = some (.strs t.ImageURLs) := by
  unfold marshalBatchTask at h
  split at h
  · exact absurd h (by simp)
  · simp only [Except.ok.injEq] at h
    subst h
    simp [List.lookup]

/-- C15: for a batch upload of `n` files that gets as far as the publisher, the
task handed to `PublishBatchTask` has `n` image URLs and every delivery attempt
carries that list under `image_urls`. For the `i`-th file, with extension
lower-cased, the `i`-th entry of the list is
`<publicURL>/<bucket>/batch-heightmaps/<userID>/<batchJobID>/image_<i><ext>`,
the `i`-th upload of the run puts the file under the key
`batch-heightmaps/<userID>/<batchJobID>/image_<i><ext>` of that bucket, and the
`i`-th BatchImage record created holds the same URL. -/
theorem C15_batch_image_urls (env : Env) (cfg : Config) (userID : UUID)
    (files : List FileHeader) (mergeMethod : String) (fastMode : Bool) (generationMode : String)
    (w : World) (h : batchReachesPublish env cfg userID files mergeMethod generationMode w) :
    (batchTask env cfg userID files mergeMethod fastMode generationMode w).ImageURLs.length =
      files.length ∧
    (∃ tail,
      newCalls w (BatchUploadPhotos env cfg userID files mergeMethod fastMode generationMode w).2 =
        newCalls w (PublishBatchTask env cfg.RabbitMQ
          (batchTask env cfg userID files mergeMethod fastMode generationMode w)
          (batchPublishState env cfg userID files mergeMethod generationMode w)).2 ++ tail) ∧
    (∀ x k m r, (Call.PublishWithContext x k m, r) ∈
        newCalls w (BatchUploadPhotos env cfg userID files mergeMethod fastMode generationMode
          w).2 →
      m.Body.lookup "image_urls" = some (.strs
        (batchTask env cfg userID files mergeMethod fastMode generationMode w).ImageURLs)) ∧
    (∀ (i : Nat) (f : FileHeader), files[i]? = some f →
      (batchTask env cfg userID files mergeMethod fastMode generationMode w).ImageURLs[i]? =
        some (cfg.Minio.PublicURL ++ "/" ++ cfg.Minio.UAVDataBucketName ++ "/" ++
          ("batch-heightmaps/" ++ userID ++ "/" ++ env.uuid w.uuids ++ "/image_" ++ fmtInt i ++
            ToLower (Ext f.Filename))) ∧
      ((newCalls w (BatchUploadPhotos env cfg userID files mergeMethod fastMode generationMode
          w).2).filter isUploadCall)[i]? =
        some (.UploadFile cfg.Minio.UAVDataBucketName
          ("batch-heightmaps/" ++ userID ++ "/" ++ env.uuid w.uuids ++ "/image_" ++ fmtInt i ++
            ToLower (Ext f.Filename)) f.Size f.ContentType, none) ∧
      ((newCalls w (BatchUploadPhotos env cfg userID files mergeMethod fastMode generationMode
          w).2).filter isImageCall)[i]? =
        some (.CreateBatchImage
          { ID := env.uuid (w.uuids + 1 + i), BatchJobID := env.uuid w.uuids,
            BatchJobIDValid := true,
            ImageUrl := cfg.Minio.PublicURL ++ "/" ++ cfg.Minio.UAVDataBucketName ++ "/" ++
              ("batch-heightmaps/" ++ userID ++ "/" ++ env.uuid w.uuids ++ "/image_" ++
                fmtInt i ++ ToLower (Ext f.Filename)),
            Status := "pending", CreatedAt := env.now (w.clock + 1) }, none)) := by
  obtain ⟨pevs, q1, _, _, q4, q5, _⟩ := PublishBatchTask_spec env cfg.RabbitMQ
    (batchTask env cfg userID files mergeMethod fastMode generationMode w)
    (batchPublishState env cfg userID files mergeMethod generationMode w)
  have hh : (batchPublish env cfg userID files mergeMethod fastMode generationMode w).2.history =
      w.history ++ ((batchJobCall env userID files mergeMethod generationMode w, none) ::
        (expectedBatchCalls env cfg userID (env.uuid w.uuids) (env.now (w.clock + 1)) files 0
          (w.uuids + 1) ++ pevs)) := by
    rw [show (batchPublish env cfg userID files mergeMethod fastMode generationMode
      w).2.history = _ from q1]
    simp [batchPublishState]
  have hn := newCalls_of_append _ _ _ hh
  obtain ⟨r1, r2⟩ := BatchUploadPhotos_reached env cfg userID files mergeMethod fastMode
    generationMode w h
  have hcalls : ∃ tail,
      newCalls w (BatchUploadPhotos env cfg userID files mergeMethod fastMode generationMode
        w).2 = newCalls w (batchPublish env cfg userID files mergeMethod fastMode generationMode
          w).2 ++ tail ∧ ∀ e ∈ tail, isUpdateError e = true := by
    cases hp : (batchPublish env cfg userID files mergeMethod fastMode generationMode w).1 with
    | none => exact ⟨[], by rw [r1 hp]; simp, by simp⟩
    | some err =>
      refine ⟨_, (r2 err hp).2, ?_⟩
      intro e he
      simp only [List.mem_singleton] at he
      subst he
      rfl
  obtain ⟨tail, ht, htail⟩ := hcalls
  have hfile := expectedBatchCalls_isFileCall env cfg userID (env.uuid w.uuids)
    (env.now (w.clock + 1)) files 0 (w.uuids + 1)
  obtain ⟨b1, b2⟩ := filter_eq_nil_of_broker pevs q4
  have t1 := filter_eq_nil_of_update tail htail
  refine ⟨expectedURLs_length _ _ _ _ _, ⟨tail, ht⟩, ?_, ?_⟩
  · intro x k m r hm
    rw [ht, hn] at hm
    simp only [List.mem_append, List.mem_cons] at hm
    rcases hm with (hm | hm | hm) | hm
    · simp [batchJobCall] at hm
    · have := hfile _ hm
      simp [isFileCall] at this
    · obtain ⟨body, hb, he⟩ := q5 _ hm rfl
      simp only [Call.PublishWithContext.injEq] at he
      rw [he.2.2]
      exact marshalBatchTask_image_urls env _ body hb
    · have := htail _ hm
      simp [isUpdateError] at this
  · intro i f hf
    have e1 := expectedURLs_getElem cfg userID (env.uuid w.uuids) files 0 i f hf
    obtain ⟨e2, e3⟩ := expectedBatchCalls_filter env cfg userID (env.uuid w.uuids)
      (env.now (w.clock + 1)) files 0 (w.uuids + 1) i f hf
    rw [Nat.zero_add] at e1 e2 e3
    refine ⟨e1, ?_, ?_⟩
    · rw [ht, hn]
      simp only [List.filter_append, List.filter_cons, b1, t1.1, List.append_nil]
      simpa [batchJobCall, isUploadCall] using e2
    · rw [ht, hn]
      simp only [List.filter_append, List.filter_cons, b2, t1.2, List.append_nil]
      simpa [batchJobCall, isImageCall] using e3

theorem C15_batch_image_urls_witness :
    (batchTask envOk cfgTest "u" threeJpgs "" false "" World.start).ImageURLs[2]? =
      some "http://minio:9000/uav-data/batch-heightmaps/u/id0/image_2.jpg" :=
  ((C15_batch_image_urls envOk cfgTest "u" threeJpgs "" false "" World.start
    ⟨by decide, by decide, expectedURLs cfgTest "u" "id0" threeJpgs 0, by decide⟩).2.2.2 2
      ⟨"c.jpg", 1000, "image/jpeg"⟩ (by decide)).1

/-! ## The object key, the record and the response of a single upload -/

theorem marshalTask_image_url (env : Env) (t : HeightmapTask) (body : JSONObject)
    (h : marshalTask env t = .ok body) : body.lookup "image_url" = some (.str t.ImageURL) := by
  unfold marshalTask at h
  split at h
  · exact absurd h (by simp)
  · simp only [Except.ok.injEq] at h
    subst h
    simp [List.lookup]

theorem isBroker_not_file (e : Call × Option GoError) (h : isBroker e.1 = true) :
    isUploadCall e = false ∧ ∀ p r, e ≠ (Call.CreateHeightmapJob p, r) := by
  rcases e with ⟨c, r⟩
  cases c <;> simp_all [isBroker, isUploadCall]

/-- The calls of a single upload that passes validation: the upload first; any
record creation after it is the one of `jobCall`, any delivery attempt carries
the task of `uploadTask`, and there is no second upload. -/
theorem UploadPhoto_valid_calls (env : Env) (cfg : Config) (userID : UUID)
    (header : FileHeader) (w : World) (h : fileOk header = true) :
    ∃ r rest, newCalls w (UploadPhoto env cfg userID header w).2 =
        (uploadCall env cfg userID header w, r) :: rest ∧
      (∀ e ∈ rest, isUploadCall e = false) ∧
      (∀ p r2, (Call.CreateHeightmapJob p, r2) ∈ rest →
        Call.CreateHeightmapJob p = jobCall env cfg userID header w) ∧
      (∀ x k m r2, (Call.PublishWithContext x k m, r2) ∈ rest → ∃ body,
        marshalTask env (uploadTask env cfg userID header w) = .ok body ∧
        m = mkPublishing body 0) := by
  rcases UploadPhoto_calls env cfg userID header w with
    ⟨_, hn⟩ | ⟨err, _, hn⟩ | ⟨err, _, hn⟩ | ⟨pevs, tail, hn, _, hbr, hpub, ht⟩
  · obtain ⟨r, tl, ha⟩ := UploadPhoto_size_accepts env cfg userID header w h
    rw [newCalls_of_append _ _ _ ha] at hn
    exact absurd hn (by simp)
  · exact ⟨_, [], hn, by simp, by simp, by simp⟩
  · refine ⟨_, _, hn, ?_, ?_, ?_⟩
    · intro e he
      simp only [List.mem_singleton] at he
      subst he
      rfl
    · intro p r2 hp
      simp only [List.mem_singleton, Prod.mk.injEq] at hp
      exact hp.1
    · intro x k m r2 hp
      simp [jobCall] at hp
  · have htail : ∀ e ∈ tail, isUpdateError e = true := by
      rcases ht with ⟨_, ht, _⟩ | ⟨err, _, ht, _⟩ <;> subst ht
      · simp
      · intro e he
        simp only [List.mem_singleton] at he
        subst he
        rfl
    refine ⟨_, _, hn, ?_, ?_, ?_⟩
    · intro e he
      simp only [List.mem_cons, List.mem_append] at he
      rcases he with he | he | he
      · subst he; rfl
      · exact (isBroker_not_file e (hbr e he)).1
      · have := htail e he
        rcases e with ⟨c, r⟩
        cases c <;> simp_all [isUpdateError, isUploadCall]
    · intro p r2 hp
      simp only [List.mem_cons, List.mem_append, Prod.mk.injEq] at hp
      rcases hp with hp | hp | hp
      · exact hp.1
      · exact absurd rfl ((isBroker_not_file _ (hbr _ hp)).2 p r2)
      · have := htail _ hp
        simp [isUpdateError] at this
    · intro x k m r2 hp
      simp only [List.mem_cons, List.mem_append] at hp
      rcases hp with hp | hp | hp
      · simp [jobCall] at hp
      · obtain ⟨body, hb, he⟩ := hpub _ hp rfl
        simp only [Call.PublishWithContext.injEq] at he
        exact ⟨body, hb, he.2.2⟩
      · have := htail _ hp
        simp [isUpdateError] at this

/-- C16: a single upload that passes validation first uploads the file, once,
to the data bucket under the key `heightmaps/<userID>/<jobID><ext>`, `jobID`
being the id drawn for the job and `ext` the lower-cased extension of the file
name. Every Job record it creates and every message it delivers holds, as image
URL, the string `Minio.GetFileURL` returns for that bucket and key, which is
`<publicURL>/<bucket>/<key>`; so does the task handed to the publisher. -/
theorem C16_single_object_key (env : Env) (cfg : Config) (userID : UUID)
    (header : FileHeader) (w : World) (h : fileOk header = true) :
    ∃ r rest,
      newCalls w (UploadPhoto env cfg userID header w).2 =
        (.UploadFile cfg.Minio.UAVDataBucketName
          ("heightmaps/" ++ userID ++ "/" ++ env.uuid w.uuids ++ ToLower (Ext header.Filename))
          header.Size header.ContentType, r) :: rest ∧
      (∀ e ∈ rest, isUploadCall e = false) ∧
      (∀ p r2, (Call.CreateHeightmapJob p, r2) ∈ rest →
        p.ID = env.uuid w.uuids ∧
        p.ImageUrl = GetFileURL (Minio.ofConfig cfg.Minio) cfg.Minio.UAVDataBucketName
          ("heightmaps/" ++ userID ++ "/" ++ env.uuid w.uuids ++
            ToLower (Ext header.Filename))) ∧
      (∀ x k m r2, (Call.PublishWithContext x k m, r2) ∈ rest →
        m.Body.lookup "image_url" = some (.str
          (GetFileURL (Minio.ofConfig cfg.Minio) cfg.Minio.UAVDataBucketName
            ("heightmaps/" ++ userID ++ "/" ++ env.uuid w.uuids ++
              ToLower (Ext header.Filename))))) ∧
      (uploadTask env cfg userID header w).ImageURL =
        GetFileURL (Minio.ofConfig cfg.Minio) cfg.Minio.UAVDataBucketName
          ("heightmaps/" ++ userID ++ "/" ++ env.uuid w.uuids ++
            ToLower (Ext header.Filename)) ∧
      GetFileURL (Minio.ofConfig cfg.Minio) cfg.Minio.UAVDataBucketName
          ("heightmaps/" ++ userID ++ "/" ++ env.uuid w.uuids ++
            ToLower (Ext header.Filename)) =
        cfg.Minio.PublicURL ++ "/" ++ cfg.Minio.UAVDataBucketName ++ "/" ++
          ("heightmaps/" ++ userID ++ "/" ++ env.uuid w.uuids ++
            ToLower (Ext header.Filename)) := by
  obtain ⟨r, rest, hn, hup, hjob, hpub⟩ := UploadPhoto_valid_calls env cfg userID header w h
  refine ⟨r, rest, hn, hup, ?_, ?_, rfl, rfl⟩
  · intro p r2 hp
    have := hjob p r2 hp
    simp only [jobCall, Call.CreateHeightmapJob.injEq] at this
    subst this
    exact ⟨rfl, rfl⟩
  · intro x k m r2 hp
    obtain ⟨body, hb, hm⟩ := hpub x k m r2 hp
    subst hm
    exact marshalTask_image_url env _ body hb

theorem C16_single_object_key_witness :
    ∃ r rest,
      newCalls World.start (UploadPhoto envOk cfgTest "u" photoPng World.start).2 =
        (.UploadFile "uav-data" "heightmaps/u/id0.png" 2097152 "image/png", r) :: rest ∧
      (∀ p r2, (Call.CreateHeightmapJob p, r2) ∈ rest →
        p.ImageUrl = "http://minio:9000/uav-data/heightmaps/u/id0.png") := by
  obtain ⟨r, rest, h1, _, h3, _⟩ :=
    C16_single_object_key envOk cfgTest "u" photoPng World.start (by decide)
  exact ⟨r, rest, h1, fun p r2 hp => (h3 p r2 hp).2⟩

/-- C17: a single upload that passes validation, whose upload and record
creation succeed and whose publish returns no error, returns the response with
status pending and the id drawn for the job. Its calls are the upload, the
creation of the Job record with that id and status pending, both successful,
and then calls to the broker only, among them exactly one acknowledged
delivery; every delivery attempt carries that id as `job_id`. -/
theorem C17_single_upload_response (env : Env) (cfg : Config) (userID : UUID)
    (header : FileHeader) (w : World)
    (h : uploadReachesPublish env cfg userID header w)
    (hp : (PublishTask env cfg.RabbitMQ (uploadTask env cfg userID header w)
      (uploadPublishState env cfg userID header w)).1 = none) :
    (UploadPhoto env cfg userID header w).1 =
      .ok { ID := env.uuid w.uuids, Status := "pending" } ∧
    ∃ p rest,
      newCalls w (UploadPhoto env cfg userID header w).2 =
        (uploadCall env cfg userID header w, none) :: (.CreateHeightmapJob p, none) :: rest ∧
      p.ID = env.uuid w.uuids ∧ p.Status = "pending" ∧
      (∀ e ∈ rest, isBroker e.1 = true) ∧
      rest.countP isAcked = 1 ∧
      (∀ x k m r, (Call.PublishWithContext x k m, r) ∈ rest →
        m.Body.lookup "job_id" = some (.str (env.uuid w.uuids))) := by
  obtain ⟨pevs, q1, _, _, q4, q5, q6, q7, _⟩ := PublishTask_spec env cfg.RabbitMQ
    (uploadTask env cfg userID header w) (uploadPublishState env cfg userID header w)
  have hp2 : (uploadPublish env cfg userID header w).1 = none := hp
  have hh : (uploadPublish env cfg userID header w).2.history =
      w.history ++ ((uploadCall env cfg userID header w, none) ::
        (jobCall env cfg userID header w, none) :: pevs) := by
    rw [show (uploadPublish env cfg userID header w).2.history = _ from q1]
    simp [uploadPublishState]
  have hn := (UploadPhoto_reached env cfg userID header w h).1 hp2
  rw [newCalls_of_append _ _ _ hh] at hn
  have hok : (UploadPhoto env cfg userID header w).1 =
      .ok { ID := env.uuid w.uuids, Status := "pending" } := by
    rcases UploadPhoto_valid env cfg userID header w h.1 with
      ⟨err, hu2, _⟩ | ⟨err, hj2, _⟩ | ⟨_, _, _, h2, _⟩ | ⟨_, _, err, h1, _⟩
    · rw [h.2.1] at hu2; exact absurd hu2 (by simp)
    · rw [h.2.2] at hj2; exact absurd hj2 (by simp)
    · exact h2
    · rw [hp2] at h1; exact absurd h1 (by simp)
  refine ⟨hok, _, pevs, hn, rfl, rfl, q4, countP_isAcked_eq_one pevs (q6.mp hp) q7, ?_⟩
  intro x k m r hm
  obtain ⟨body, hb, he⟩ := q5 _ hm rfl
  simp only [Call.PublishWithContext.injEq] at he
  rw [he.2.2]
  exact marshalTask_body env _ body hb

theorem C17_single_upload_response_witness :
    (UploadPhoto envOk cfgTest "u" photoPng World.start).1 =
      .ok { ID := "id0", Status := "pending" } :=
  (C17_single_upload_response envOk cfgTest "u" photoPng World.start
    ⟨by decide, by decide, by decide⟩ (by decide)).1

/-! ## The queues declared and published to -/

theorem loopEvent_not_declare (cfg : RabbitMQConfig) (queue : String) (msg : Publishing)
    (e : Call × Option GoError) (h : loopEvent cfg queue msg e = true) : isDeclare e = false := by
  rcases e with ⟨c, r⟩
  cases c <;> simp_all [loopEvent, isDeclare]

theorem all_loopEvent_not_declare (cfg : RabbitMQConfig) (queue : String) (msg : Publishing)
    (l : History) (h : l.all (loopEvent cfg queue msg) = true) :
    ∀ e ∈ l, isDeclare e = false := fun e he =>
  loopEvent_not_declare cfg queue msg e (by simpa using (List.all_eq_true.mp h) e he)

theorem PublishTask_no_declare (env : Env) (cfg : RabbitMQConfig) (task : HeightmapTask)
    (w : World) :
    ∃ evs, (PublishTask env cfg task w).2.history = w.history ++ evs ∧
      ∀ e ∈ evs, isDeclare e = false := by
  unfold PublishTask
  obtain ⟨evs1, h1, h1all, _⟩ :=
    guarded_reconnect_spec env cfg cfg.QueueName (mkPublishing [] 0) (unusable env w = true) w
  have hd1 := all_loopEvent_not_declare _ _ _ _ h1all
  generalize (if unusable env w = true then reconnect env cfg w else (none, w)) = R at *
  rcases R with ⟨r, w1⟩
  simp only at h1
  cases r with
  | some err => exact ⟨evs1, h1, hd1⟩
  | none =>
    simp only
    cases hm : marshalTask env task with
    | error err => exact ⟨evs1, h1, hd1⟩
    | ok body =>
      simp only
      obtain ⟨evs2, i1, i2, _⟩ := publishLoop_spec env cfg cfg.QueueName
        (mkPublishing body task.Priority) (iterations cfg.PublishRetries) 0 none w1
      have hd2 := all_loopEvent_not_declare _ _ _ _ i2
      generalize publishLoop env cfg cfg.QueueName (mkPublishing body task.Priority)
        (iterations cfg.PublishRetries) 0 none w1 = L at *
      rcases L with ⟨l, w2⟩
      simp only at i1
      have hh : w2.history = w.history ++ (evs1 ++ evs2) := by rw [i1, h1]; simp
      have hd : ∀ e ∈ evs1 ++ evs2, isDeclare e = false := by
        intro e he
        rcases List.mem_append.mp he with he | he
        · exact hd1 e he
        · exact hd2 e he
      cases l with
      | published => exact ⟨_, hh, hd⟩
      | exhausted le => exact ⟨_, hh, hd⟩

/-- The calls of `PublishBatchTask`: those of the reconnect at entry, with no
declaration among them, then nothing, or the declaration of the batch queue
followed, when it succeeds, by the calls of the retry loop. -/
theorem PublishBatchTask_shape (env : Env) (cfg : RabbitMQConfig) (task : BatchHeightmapTask)
    (w : World) :
    ∃ pre rest, (PublishBatchTask env cfg task w).2.history = w.history ++ (pre ++ rest) ∧
      (∀ e ∈ pre, isDeclare e = false) ∧ pre.any isPublish = false ∧
      (unusable env w = false → pre = []) ∧
      ((rest = [] ∧ (PublishBatchTask env cfg task w).1 ≠ none ∧
          (unusable env w = false → ∃ err, marshalBatchTask env task = .error err)) ∨
        (∃ err, rest = [(.QueueDeclare (cfg.QueueName ++ "_batch") cfg.DurableQueue
          cfg.AutoDelete, some err)]) ∨
        (∃ loopevs, rest = (.QueueDeclare (cfg.QueueName ++ "_batch") cfg.DurableQueue
            cfg.AutoDelete, none) :: loopevs ∧
          ∀ e ∈ loopevs, isDeclare e = false)) := by
  unfold PublishBatchTask
  by_cases hg : unusable env w = true
  · obtain ⟨evs1, h1, h1all, h1pub, h1fail, _⟩ := reconnect_spec env cfg w cfg.QueueName
      (mkPublishing [] 0)
    have hd1 := all_loopEvent_not_declare _ _ _ _ h1all
    simp only [hg, if_true]
    generalize reconnect env cfg w = R at *
    rcases R with ⟨r, w1⟩
    simp only at h1
    cases r with
    | some err =>
      exact ⟨evs1, [], by simpa using h1, hd1, h1pub, (fun hu => absurd hu (by simp)),
        Or.inl ⟨rfl, by simp, (fun hu => absurd hu (by simp))⟩⟩
    | none =>
      simp only
      cases hm : marshalBatchTask env task with
      | error err =>
        exact ⟨evs1, [], by simpa using h1, hd1, h1pub, (fun hu => absurd hu (by simp)),
          Or.inl ⟨rfl, by simp, (fun hu => absurd hu (by simp))⟩⟩
      | ok body =>
        simp only [call]
        cases hq : env.respond w1.history
            (.QueueDeclare (cfg.QueueName ++ "_batch") cfg.DurableQueue cfg.AutoDelete) with
        | some err =>
          exact ⟨evs1, _, by simp [h1], hd1, h1pub, (fun hu => absurd hu (by simp)),
            Or.inr (Or.inl ⟨err, rfl⟩)⟩
        | none =>
          simp only
          obtain ⟨evs2, i1, i2, _⟩ := publishLoop_spec env cfg
            (cfg.QueueName ++ "_batch") (mkPublishing body task.Priority)
            (iterations cfg.PublishRetries) 0 none
            { w1 with history := w1.history ++ [(.QueueDeclare (cfg.QueueName ++ "_batch")
                cfg.DurableQueue cfg.AutoDelete, none)] }
          have hd2 := all_loopEvent_not_declare _ _ _ _ i2
          generalize publishLoop env cfg (cfg.QueueName ++ "_batch")
            (mkPublishing body task.Priority) (iterations cfg.PublishRetries) 0 none
            { w1 with history := w1.history ++ [(.QueueDeclare (cfg.QueueName ++ "_batch")
                cfg.DurableQueue cfg.AutoDelete, none)] } = L at *
          rcases L with ⟨l, w2⟩
          simp only at i1
          have hh : w2.history = w.history ++ (evs1 ++
              (Call.QueueDeclare (cfg.QueueName ++ "_batch") cfg.DurableQueue cfg.AutoDelete,
                (none : Option GoError)) :: evs2) := by
            rw [i1, h1]; simp
          cases l with
          | published =>
            exact ⟨evs1, _, hh, hd1, h1pub, (fun hu => absurd hu (by simp)),
              Or.inr (Or.inr ⟨evs2, rfl, hd2⟩)⟩
          | exhausted le =>
            exact ⟨evs1, _, hh, hd1, h1pub, (fun hu => absurd hu (by simp)),
              Or.inr (Or.inr ⟨evs2, rfl, hd2⟩)⟩
  · have hg2 : unusable env w = false := by simpa using hg
    simp only [hg2, Bool.false_eq_true, if_false]
    cases hm : marshalBatchTask env task with
    | error err =>
      exact ⟨[], [], by simp, by simp, by simp, fun _ => rfl,
        Or.inl ⟨rfl, by simp, fun _ => ⟨err, rfl⟩⟩⟩
    | ok body =>
      simp only [call]
      cases hq : env.respond w.history
          (.QueueDeclare (cfg.QueueName ++ "_batch") cfg.DurableQueue cfg.AutoDelete) with
      | some err =>
        exact ⟨[], _, by simp [hq], by simp, by simp, fun _ => rfl, Or.inr (Or.inl ⟨err, rfl⟩)⟩
      | none =>
        simp only
        obtain ⟨evs2, i1, i2, _⟩ := publishLoop_spec env cfg
          (cfg.QueueName ++ "_batch") (mkPublishing body task.Priority)
          (iterations cfg.PublishRetries) 0 none
          { w with history := w.history ++ [(.QueueDeclare (cfg.QueueName ++ "_batch")
              cfg.DurableQueue cfg.AutoDelete, none)] }
        have hd2 := all_loopEvent_not_declare _ _ _ _ i2
        generalize publishLoop env cfg (cfg.QueueName ++ "_batch")
          (mkPublishing body task.Priority) (iterations cfg.PublishRetries) 0 none
          { w with history := w.history ++ [(.QueueDeclare (cfg.QueueName ++ "_batch")
              cfg.DurableQueue cfg.AutoDelete, none)] } = L at *
        rcases L with ⟨l, w2⟩
        simp only at i1
        have hh : w2.history = w.history ++ ([] ++
            (Call.QueueDeclare (cfg.QueueName ++ "_batch") cfg.DurableQueue cfg.AutoDelete,
              (none : Option GoError)) :: evs2) := by
          rw [i1]; simp
        cases l with
        | published =>
          exact ⟨[], _, hh, by simp, by simp, fun _ => rfl, Or.inr (Or.inr ⟨evs2, rfl, hd2⟩)⟩
        | exhausted le =>
          exact ⟨[], _, hh, by simp, by simp, fun _ => rfl, Or.inr (Or.inr ⟨evs2, rfl, hd2⟩)⟩

theorem dialLoop_no_declare (env : Env) (cfg : RabbitMQConfig) :
    ∀ (todo : Nat) (attempt : Int) (w : World),
      ∃ evs, (dialLoop env cfg todo attempt w).2.history = w.history ++ evs ∧
        ∀ e ∈ evs, isDeclare e = false := by
  intro todo
  induction todo with
  | zero => intro attempt w; exact ⟨[], by simp [dialLoop], by simp⟩
  | succ n ih =>
    intro attempt w
    simp only [dialLoop, call]
    cases hd : env.respond w.history (.Dial cfg.URL) with
    | none => exact ⟨[(.Dial cfg.URL, none)], rfl, by simp [isDeclare]⟩
    | some err =>
      simp only
      by_cases ha : attempt < 30
      · simp only [ha, if_true]
        obtain ⟨evs, h1, h2⟩ := ih (attempt + 1)
          (callVoid (.Sleep cfg.ReconnectDelay)
            { w with history := w.history ++ [(.Dial cfg.URL, some err)] })
        refine ⟨(.Dial cfg.URL, some err) :: (.Sleep cfg.ReconnectDelay, none) :: evs, ?_, ?_⟩
        · rw [h1]; simp [callVoid]
        · intro e he
          simp only [List.mem_cons] at he
          rcases he with he | he | he
          · subst he; rfl
          · subst he; rfl
          · exact h2 e he
      · simp only [ha, if_false]
        exact ⟨[(.Dial cfg.URL, some err)], rfl, by simp [isDeclare]⟩

/-- The only queue `NewClient` declares is the configured one. -/
theorem NewClient_declares (env : Env) (cfg : RabbitMQConfig) (w : World) :
    ∃ evs, (NewClient env cfg w).2.history = w.history ++ evs ∧
      ∀ n d a r, (Call.QueueDeclare n d a, r) ∈ evs → n = cfg.QueueName := by
  unfold NewClient
  obtain ⟨evs1, h1, h2⟩ := dialLoop_no_declare env cfg 30 1 w
  have hd1 : ∀ n d a r, (Call.QueueDeclare n d a, r) ∈ evs1 → n = cfg.QueueName := by
    intro n d a r hm
    have := h2 _ hm
    simp [isDeclare] at this
  generalize dialLoop env cfg 30 1 w = R at *
  rcases R with ⟨r, w1⟩
  simp only at h1
  cases r with
  | some err => exact ⟨evs1, h1, hd1⟩
  | none =>
    simp only [call]
    cases hc : env.respond w1.history .Channel with
    | some err =>
      refine ⟨evs1 ++ [(.Channel, some err), (.ConnClose, none)], by simp [callVoid, h1], ?_⟩
      intro n d a r hm
      simp only [List.mem_append, List.mem_cons, List.mem_singleton, Prod.mk.injEq,
        List.not_mem_nil, or_false] at hm
      rcases hm with hm | hm | hm
      · exact hd1 n d a r hm
      · exact absurd hm.1 (by simp)
      · exact absurd hm.1 (by simp)
    | none =>
      simp only
      cases hq : env.respond (w1.history ++ [(.Channel, none)])
          (.QueueDeclare cfg.QueueName cfg.DurableQueue cfg.AutoDelete) with
      | some err =>
        refine ⟨evs1 ++ [(.Channel, none),
          (.QueueDeclare cfg.QueueName cfg.DurableQueue cfg.AutoDelete, some err),
          (.ChanClose, none), (.ConnClose, none)], by simp [callVoid, h1], ?_⟩
        intro n d a r hm
        simp only [List.mem_append, List.mem_cons, List.mem_singleton, Prod.mk.injEq,
          List.not_mem_nil, or_false] at hm
        rcases hm with hm | hm | hm | hm | hm
        · exact hd1 n d a r hm
        · exact absurd hm.1 (by simp)
        · simp only [Call.QueueDeclare.injEq] at hm
          exact hm.1.1
        · exact absurd hm.1 (by simp)
        · exact absurd hm.1 (by simp)
      | none =>
        refine ⟨evs1 ++ [(.Channel, none),
          (.QueueDeclare cfg.QueueName cfg.DurableQueue cfg.AutoDelete, none)],
          by simp [h1], ?_⟩
        intro n d a r hm
        simp only [List.mem_append, List.mem_cons, List.mem_singleton, Prod.mk.injEq,
          List.not_mem_nil, or_false] at hm
        rcases hm with hm | hm | hm
        · exact hd1 n d a r hm
        · exact absurd hm.1 (by simp)
        · simp only [Call.QueueDeclare.injEq] at hm
          exact hm.1.1

theorem mem_before_publish (pre0 loopevs pre post : History) (d e : Call × Option GoError)
    (hs : pre0 ++ d :: loopevs = pre ++ e :: post) (hp0 : pre0.any isPublish = false)
    (hd : isPublish d = false) (he : isPublish e = true) : d ∈ pre := by
  rcases List.append_eq_append_iff.mp hs with ⟨a, h1, h2⟩ | ⟨c, h1, h2⟩
  · cases a with
    | nil =>
      simp only [List.nil_append, List.cons.injEq] at h2
      rw [h2.1] at hd
      rw [hd] at he
      cases he
    | cons x a2 =>
      simp only [List.cons_append, List.cons.injEq] at h2
      rw [h1, h2.1]
      simp
  · exfalso
    cases c with
    | nil =>
      simp only [List.nil_append, List.cons.injEq] at h2
      rw [← h2.1] at hd
      rw [hd] at he
      cases he
    | cons x c2 =>
      simp only [List.cons_append, List.cons.injEq] at h2
      have hm : e ∈ pre0 := by rw [h1, ← h2.1]; simp
      simp only [List.any_eq_false] at hp0
      exact hp0 e hm he

theorem queue_batch_ne (q : String) : q ++ "_batch" ≠ q := by
  intro h
  have := congrArg String.length h
  simp at this
  exact absurd this (by decide)

/-- C18 fails as stated: with a broker that refuses every delivery and three
retries configured, one call of `PublishBatchTask` makes four delivery attempts
but declares the batch queue once, before the first of them: the calls are the
declaration, then four deliveries with a sleep between them. -/
theorem C18_counterexample :
    (PublishBatchTask envNack cfgTest.RabbitMQ batchTaskTest World.start).1 ≠ none ∧
    publishAttempts (newCalls World.start
      (PublishBatchTask envNack cfgTest.RabbitMQ batchTaskTest World.start).2) = 4 ∧
    (newCalls World.start
      (PublishBatchTask envNack cfgTest.RabbitMQ batchTaskTest World.start).2).countP
        isDeclare = 1 ∧
    (newCalls World.start
      (PublishBatchTask envNack cfgTest.RabbitMQ batchTaskTest World.start).2).map
        (fun c => (isDeclare c, isPublish c)) =
      [(true, false), (false, true), (false, false), (false, true), (false, false),
       (false, true), (false, false), (false, true)] := by
  refine ⟨by decide, by decide, by decide, by decide⟩

/-- C18, amended: `PublishTask` declares no queue and makes every delivery
attempt through the configured exchange with the configured queue name `q` as
routing key; when it returns no error, a delivery to `q` was acknowledged.
`PublishBatchTask` makes every delivery attempt with the key `q` followed by
`_batch`, a name different from `q`; the only queue it declares is that one,
with the configured durability and auto-delete flags, at most once per call and
not again on a retry; every delivery attempt of a call comes after a successful
declaration in the same call; when it returns no error, a delivery to that
queue was acknowledged; and on a usable connection, with a task that
serializes, the declaration is the first call it makes. `NewClient` declares no
queue but `q`, so the batch queue is first declared by a batch publish. -/
theorem C18_queue_names (env : Env) (cfg : RabbitMQConfig) (w : World) :
    cfg.QueueName ++ "_batch" ≠ cfg.QueueName ∧
    (∀ task : HeightmapTask,
      (∀ x k m r, (Call.PublishWithContext x k m, r) ∈
          newCalls w (PublishTask env cfg task w).2 → x = cfg.Exchange ∧ k = cfg.QueueName) ∧
      (∀ e ∈ newCalls w (PublishTask env cfg task w).2, isDeclare e = false) ∧
      ((PublishTask env cfg task w).1 = none →
        ∃ m, (Call.PublishWithContext cfg.Exchange cfg.QueueName m, none) ∈
          newCalls w (PublishTask env cfg task w).2)) ∧
    (∀ task : BatchHeightmapTask,
      (∀ x k m r, (Call.PublishWithContext x k m, r) ∈
          newCalls w (PublishBatchTask env cfg task w).2 →
        x = cfg.Exchange ∧ k = cfg.QueueName ++ "_batch") ∧
      (∀ n d a r, (Call.QueueDeclare n d a, r) ∈
          newCalls w (PublishBatchTask env cfg task w).2 →
        n = cfg.QueueName ++ "_batch" ∧ d = cfg.DurableQueue ∧ a = cfg.AutoDelete) ∧
      (newCalls w (PublishBatchTask env cfg task w).2).countP isDeclare ≤ 1 ∧
      (∀ pre e post, newCalls w (PublishBatchTask env cfg task w).2 = pre ++ e :: post →
        isPublish e = true →
        (Call.QueueDeclare (cfg.QueueName ++ "_batch") cfg.DurableQueue cfg.AutoDelete, none) ∈
          pre) ∧
      ((PublishBatchTask env cfg task w).1 = none →
        ∃ m, (Call.PublishWithContext cfg.Exchange (cfg.QueueName ++ "_batch") m, none) ∈
          newCalls w (PublishBatchTask env cfg task w).2) ∧
      (unusable env w = false → (∃ body, marshalBatchTask env task = .ok body) →
        ∃ r tail, newCalls w (PublishBatchTask env cfg task w).2 =
          (.QueueDeclare (cfg.QueueName ++ "_batch") cfg.DurableQueue cfg.AutoDelete, r) ::
            tail)) ∧
    (∀ n d a r, (Call.QueueDeclare n d a, r) ∈ newCalls w (NewClient env cfg w).2 →
      n = cfg.QueueName) := by
  refine ⟨queue_batch_ne _, fun task => ?_, fun task => ?_, ?_⟩
  · obtain ⟨evs, q1, _, _, _, q5, q6, _⟩ := PublishTask_spec env cfg task w
    obtain ⟨evs2, d1, d2⟩ := PublishTask_no_declare env cfg task w
    have hn := newCalls_of_append _ _ _ q1
    have hn2 := newCalls_of_append _ _ _ d1
    refine ⟨?_, by rw [hn2]; exact d2, ?_⟩
    · intro x k m r hm
      rw [hn] at hm
      obtain ⟨body, _, he⟩ := q5 _ hm rfl
      simp only [Call.PublishWithContext.injEq] at he
      exact ⟨he.1, he.2.1⟩
    · intro hok
      obtain ⟨e, he, hack⟩ := List.any_eq_true.mp (q6.mp hok)
      have hpub : isPublish e = true := by
        cases hp : isPublish e with
        | true => rfl
        | false => rw [isAcked_le_isPublish e hp] at hack; cases hack
      obtain ⟨body, _, hc⟩ := q5 e he hpub
      rcases e with ⟨c, r⟩
      simp only at hc
      subst hc
      cases r with
      | some err => simp [isAcked] at hack
      | none => exact ⟨_, by rw [hn]; exact he⟩
  · obtain ⟨evs, q1, _, _, _, q5, q6, _⟩ := PublishBatchTask_spec env cfg task w
    obtain ⟨pre0, rest, s1, s2, s3, s4, s5⟩ := PublishBatchTask_shape env cfg task w
    have hn := newCalls_of_append _ _ _ q1
    have hn2 := newCalls_of_append _ _ _ s1
    have hpub : ∀ x k m r, (Call.PublishWithContext x k m, r) ∈
        newCalls w (PublishBatchTask env cfg task w).2 →
        x = cfg.Exchange ∧ k = cfg.QueueName ++ "_batch" := by
      intro x k m r hm
      rw [hn] at hm
      obtain ⟨body, _, he⟩ := q5 _ hm rfl
      simp only [Call.PublishWithContext.injEq] at he
      exact ⟨he.1, he.2.1⟩
    have hok : (PublishBatchTask env cfg task w).1 = none →
        ∃ m, (Call.PublishWithContext cfg.Exchange (cfg.QueueName ++ "_batch") m, none) ∈
          newCalls w (PublishBatchTask env cfg task w).2 := by
      intro hok
      obtain ⟨e, he, hack⟩ := List.any_eq_true.mp (q6.mp hok)
      have hpub : isPublish e = true := by
        cases hp : isPublish e with
        | true => rfl
        | false => rw [isAcked_le_isPublish e hp] at hack; cases hack
      obtain ⟨body, _, hc⟩ := q5 e he hpub
      rcases e with ⟨c, r⟩
      simp only at hc
      subst hc
      cases r with
      | some err => simp [isAcked] at hack
      | none => exact ⟨_, by rw [hn]; exact he⟩
    have hc0 : pre0.countP isDeclare = 0 := by
      rw [List.countP_eq_zero]
      intro e he
      simp [s2 e he]
    refine ⟨hpub, ?_, ?_, ?_, hok, ?_⟩
    · intro n d a r hm
      rw [hn2] at hm
      rcases List.mem_append.mp hm with hm | hm
      · have := s2 _ hm
        simp [isDeclare] at this
      · rcases s5 with ⟨h0, _⟩ | ⟨err, h0⟩ | ⟨loopevs, h0, hl⟩
        · rw [h0] at hm; simp at hm
        · rw [h0] at hm
          simp only [List.mem_singleton, Prod.mk.injEq, Call.QueueDeclare.injEq] at hm
          exact hm.1
        · rw [h0] at hm
          simp only [List.mem_cons, Prod.mk.injEq, Call.QueueDeclare.injEq] at hm
          rcases hm with hm | hm
          · exact hm.1
          · have := hl _ hm
            simp [isDeclare] at this
    · rw [hn2, List.countP_append, hc0]
      rcases s5 with ⟨h0, _⟩ | ⟨err, h0⟩ | ⟨loopevs, h0, hl⟩
      · rw [h0]; simp
      · rw [h0]; simp [List.countP_cons, isDeclare]
      · have hl0 : loopevs.countP isDeclare = 0 := by
          rw [List.countP_eq_zero]
          intro e he
          simp [hl e he]
        rw [h0]
        simp [List.countP_cons, isDeclare, hl0]
    · intro pre e post hs he
      rw [hn2] at hs
      rcases s5 with ⟨h0, _⟩ | ⟨err, h0⟩ | ⟨loopevs, h0, hl⟩
      · exfalso
        rw [h0, List.append_nil] at hs
        simp only [List.any_eq_false] at s3
        exact s3 e (by rw [hs]; simp) he
      · exfalso
        rw [h0] at hs
        have hm : e ∈ pre0 ++ [(Call.QueueDeclare (cfg.QueueName ++ "_batch") cfg.DurableQueue
            cfg.AutoDelete, some err)] := by rw [hs]; simp
        rcases List.mem_append.mp hm with hm | hm
        · simp only [List.any_eq_false] at s3
          exact s3 e hm he
        · simp only [List.mem_singleton] at hm
          subst hm
          simp [isPublish] at he
      · rw [h0] at hs
        exact mem_before_publish pre0 loopevs pre post _ e hs s3 rfl he
    · intro hu hb
      rw [hn2, s4 hu]
      rcases s5 with ⟨_, _, h0⟩ | ⟨err, h0⟩ | ⟨loopevs, h0, _⟩
      · obtain ⟨body, hb⟩ := hb
        obtain ⟨err, he⟩ := h0 hu
        rw [hb] at he
        cases he
      · exact ⟨_, [], by rw [h0]; rfl⟩
      · exact ⟨_, loopevs, by rw [h0]; rfl⟩
  · obtain ⟨evs, n1, n2⟩ := NewClient_declares env cfg w
    intro n d a r hm
    rw [newCalls_of_append _ _ _ n1] at hm
    exact n2 n d a r hm

theorem C18_queue_names_witness :
    ∃ m, (Call.PublishWithContext "" "heightmap.tasks_batch" m, none) ∈
      newCalls World.start (PublishBatchTask envOk cfgTest.RabbitMQ batchTaskTest World.start).2 :=
  ((C18_queue_names envOk cfgTest.RabbitMQ World.start).2.2.1 batchTaskTest).2.2.2.2.1
    (by decide)

/-! ## Delivery properties and wire encoding -/

theorem uint8_cast (p : Int) : (uint8 p : Int) = p % 256 := by
  unfold uint8
  have : 0 ≤ p % 256 := Int.emod_nonneg p (by decide)
  omega

theorem uint8_of_byte (p : Int) (h0 : 0 ≤ p) (h1 : p ≤ 255) : (uint8 p : Int) = p := by
  rw [uint8_cast]
  omega

theorem mkPublishing_properties (body : JSONObject) (p : Int) :
    (mkPublishing body p).DeliveryMode = Persistent ∧
    (mkPublishing body p).ContentType = "application/json" ∧
    ((mkPublishing body p).Priority : Int) = p % 256 ∧
    (mkPublishing body p).Priority < 256 ∧
    (0 ≤ p → p ≤ 255 → ((mkPublishing body p).Priority : Int) = p) := by
  refine ⟨rfl, rfl, uint8_cast p, ?_, uint8_of_byte p⟩
  have := uint8_cast p
  simp only [mkPublishing]
  omega

/-- C19: the persistent delivery mode is the AMQP value 2. Every delivery
attempt of `PublishTask` and of `PublishBatchTask` has the persistent delivery
mode and the content type `application/json`; its priority is a byte, equal to
the priority of the task modulo 256, hence to the priority itself when that is
between 0 and 255. -/
theorem C19_delivery_properties (env : Env) (cfg : RabbitMQConfig) (w : World) :
    Persistent = 2 ∧
    (∀ (task : HeightmapTask) (x k : String) (m : Publishing) (r : Option GoError),
      (Call.PublishWithContext x k m, r) ∈ newCalls w (PublishTask env cfg task w).2 →
      m.DeliveryMode = Persistent ∧ m.ContentType = "application/json" ∧
      (m.Priority : Int) = task.Priority % 256 ∧ m.Priority < 256 ∧
      (0 ≤ task.Priority → task.Priority ≤ 255 → (m.Priority : Int) = task.Priority)) ∧
    (∀ (task : BatchHeightmapTask) (x k : String) (m : Publishing) (r : Option GoError),
      (Call.PublishWithContext x k m, r) ∈ newCalls w (PublishBatchTask env cfg task w).2 →
      m.DeliveryMode = Persistent ∧ m.ContentType = "application/json" ∧
      (m.Priority : Int) = task.Priority % 256 ∧ m.Priority < 256 ∧
      (0 ≤ task.Priority → task.Priority ≤ 255 → (m.Priority : Int) = task.Priority)) := by
  refine ⟨rfl, ?_, ?_⟩
  · intro task x k m r hm
    obtain ⟨evs, q1, _, _, _, q5, _⟩ := PublishTask_spec env cfg task w
    rw [newCalls_of_append _ _ _ q1] at hm
    obtain ⟨body, _, he⟩ := q5 _ hm rfl
    simp only [Call.PublishWithContext.injEq] at he
    rw [he.2.2]
    exact mkPublishing_properties body task.Priority
  · intro task x k m r hm
    obtain ⟨evs, q1, _, _, _, q5, _⟩ := PublishBatchTask_spec env cfg task w
    rw [newCalls_of_append _ _ _ q1] at hm
    obtain ⟨body, _, he⟩ := q5 _ hm rfl
    simp only [Call.PublishWithContext.injEq] at he
    rw [he.2.2]
    exact mkPublishing_properties body task.Priority

theorem C19_delivery_properties_witness :
    (Call.PublishWithContext "" "heightmap.tasks" (mkPublishing bodyTest 0), none) ∈
      newCalls World.start (PublishTask envOk cfgTest.RabbitMQ taskTest World.start).2 ∧
    (mkPublishing bodyTest 0).DeliveryMode = Persistent ∧
    (mkPublishing bodyTest 0).ContentType = "application/json" ∧
    ((mkPublishing bodyTest 0).Priority : Int) = taskTest.Priority % 256 ∧
    (mkPublishing bodyTest 0).Priority < 256 ∧
    (0 ≤ taskTest.Priority → taskTest.Priority ≤ 255 →
      ((mkPublishing bodyTest 0).Priority : Int) = taskTest.Priority) :=
  ⟨by decide, (C19_delivery_properties envOk cfgTest.RabbitMQ World.start).2.1 taskTest ""
    "heightmap.tasks" (mkPublishing bodyTest 0) none (by decide)⟩

theorem marshalTask_ok (env : Env) (t : HeightmapTask) (body : JSONObject)
    (h : marshalTask env t = .ok body) :
    ∃ ts, env.timeJSON t.CreatedAt = .ok ts ∧ body =
      [("job_id", .str t.JobID), ("user_id", .str t.UserID), ("image_url", .str t.ImageURL),
       ("output_bucket", .str t.OutputBucket), ("minio_endpoint", .str t.MinioEndpoint),
       ("minio_public_url", .str t.MinioPublicURL), ("minio_access_key", .str t.MinioAccessKey),
       ("minio_secret_key", .str t.MinioSecretKey), ("minio_use_ssl", .bool t.MinioUseSSL),
       ("created_at", .str ts), ("priority", .num t.Priority)] := by
  unfold marshalTask at h
  split at h
  · exact absurd h (by simp)
  · rename_i ts hts
    simp only [Except.ok.injEq] at h
    exact ⟨ts, hts, h.symm⟩

theorem marshalBatchTask_ok (env : Env) (t : BatchHeightmapTask) (body : JSONObject)
    (h : marshalBatchTask env t = .ok body) :
    ∃ ts, env.timeJSON t.CreatedAt = .ok ts ∧ body =
      [("batch_job_id", .str t.BatchJobID), ("user_id", .str t.UserID),
       ("image_urls", .strs t.ImageURLs),
       ("output_bucket", .str t.OutputBucket), ("minio_endpoint", .str t.MinioEndpoint),
       ("minio_public_url", .str t.MinioPublicURL), ("minio_access_key", .str t.MinioAccessKey),
       ("minio_secret_key", .str t.MinioSecretKey), ("minio_use_ssl", .bool t.MinioUseSSL),
       ("merge_method", .str t.MergeMethod), ("fast_mode", .bool t.FastMode),
       ("generation_mode", .str t.GenerationMode),
       ("created_at", .str ts), ("priority", .num t.Priority)] := by
  unfold marshalBatchTask at h
  split at h
  · exact absurd h (by simp)
  · rename_i ts hts
    simp only [Except.ok.injEq] at h
    exact ⟨ts, hts, h.symm⟩

/-- C20: when a single task serializes, its encoding has exactly the keys
`job_id`, `user_id`, `image_url`, `output_bucket`, `minio_endpoint`,
`minio_public_url`, `minio_access_key`, `minio_secret_key`, `minio_use_ssl`,
`created_at`, `priority`, each once, and each key holds the value of its field,
`created_at` holding the JSON text of the timestamp. The same holds for a batch
task with the keys `batch_job_id`, `user_id`, `image_urls`, `output_bucket`,
the five `minio_` keys, `merge_method`, `fast_mode`, `generation_mode`,
`created_at`, `priority`. Serialization fails only when the timestamp has no
JSON text, and the body of every delivery attempt of `PublishTask` and of
`PublishBatchTask` is the encoding of the task. -/
theorem C20_wire_encoding (env : Env) (cfg : RabbitMQConfig) (w : World) :
    (∀ (t : HeightmapTask) (body : JSONObject), marshalTask env t = .ok body →
      body.map Prod.fst = ["job_id", "user_id", "image_url", "output_bucket", "minio_endpoint",
        "minio_public_url", "minio_access_key", "minio_secret_key", "minio_use_ssl",
        "created_at", "priority"] ∧
      (body.map Prod.fst).Nodup ∧
      body.lookup "job_id" = some (.str t.JobID) ∧
      body.lookup "user_id" = some (.str t.UserID) ∧
      body.lookup "image_url" = some (.str t.ImageURL) ∧
      body.lookup "output_bucket" = some (.str t.OutputBucket) ∧
      body.lookup "minio_endpoint" = some (.str t.MinioEndpoint) ∧
      body.lookup "minio_public_url" = some (.str t.MinioPublicURL) ∧
      body.lookup "minio_access_key" = some (.str t.MinioAccessKey) ∧
      body.lookup "minio_secret_key" = some (.str t.MinioSecretKey) ∧
      body.lookup "minio_use_ssl" = some (.bool t.MinioUseSSL) ∧
      (∃ ts, env.timeJSON t.CreatedAt = .ok ts ∧ body.lookup "created_at" = some (.str ts)) ∧
      body.lookup "priority" = some (.num t.Priority)) ∧
    (∀ (t : BatchHeightmapTask) (body : JSONObject), marshalBatchTask env t = .ok body →
      body.map Prod.fst = ["batch_job_id", "user_id", "image_urls", "output_bucket",
        "minio_endpoint", "minio_public_url", "minio_access_key", "minio_secret_key",
        "minio_use_ssl", "merge_method", "fast_mode", "generation_mode", "created_at",
        "priority"] ∧
      (body.map Prod.fst).Nodup ∧
      body.lookup "batch_job_id" = some (.str t.BatchJobID) ∧
      body.lookup "user_id" = some (.str t.UserID) ∧
      body.lookup "image_urls" = some (.strs t.ImageURLs) ∧
      body.lookup "output_bucket" = some (.str t.OutputBucket) ∧
      body.lookup "minio_endpoint" = some (.str t.MinioEndpoint) ∧
      body.lookup "minio_public_url" = some (.str t.MinioPublicURL) ∧
      body.lookup "minio_access_key" = some (.str t.MinioAccessKey) ∧
      body.lookup "minio_secret_key" = some (.str t.MinioSecretKey) ∧
      body.lookup "minio_use_ssl" = some (.bool t.MinioUseSSL) ∧
      body.lookup "merge_method" = some (.str t.MergeMethod) ∧
      body.lookup "fast_mode" = some (.bool t.FastMode) ∧
      body.lookup "generation_mode" = some (.str t.GenerationMode) ∧
      (∃ ts, env.timeJSON t.CreatedAt = .ok ts ∧ body.lookup "created_at" = some (.str ts)) ∧
      body.lookup "priority" = some (.num t.Priority)) ∧
    (∀ (t : HeightmapTask), (∃ body, marshalTask env t = .ok body) ↔
      ∃ ts, env.timeJSON t.CreatedAt = .ok ts) ∧
    (∀ (t : BatchHeightmapTask), (∃ body, marshalBatchTask env t = .ok body) ↔
      ∃ ts, env.timeJSON t.CreatedAt = .ok ts) ∧
    (∀ (t : HeightmapTask) (x k : String) (m : Publishing) (r : Option GoError),
      (Call.PublishWithContext x k m, r) ∈ newCalls w (PublishTask env cfg t w).2 →
      marshalTask env t = .ok m.Body) ∧
    (∀ (t : BatchHeightmapTask) (x k : String) (m : Publishing) (r : Option GoError),
      (Call.PublishWithContext x k m, r) ∈ newCalls w (PublishBatchTask env cfg t w).2 →
      marshalBatchTask env t = .ok m.Body) := by
  refine ⟨?_, ?_, ?_, ?_, ?_, ?_⟩
  · intro t body h
    obtain ⟨ts, hts, hb⟩ := marshalTask_ok env t body h
    subst hb
    refine ⟨rfl, by simp only [List.map]; decide, ?_, ?_, ?_, ?_, ?_, ?_, ?_, ?_, ?_, ⟨ts, hts, ?_⟩, ?_⟩ <;>
      simp [List.lookup]
  · intro t body h
    obtain ⟨ts, hts, hb⟩ := marshalBatchTask_ok env t body h
    subst hb
    refine ⟨rfl, by simp only [List.map]; decide, ?_, ?_, ?_, ?_, ?_, ?_, ?_, ?_, ?_, ?_, ?_, ?_, ⟨ts, hts, ?_⟩, ?_⟩ <;>
      simp [List.lookup]
  · intro t
    constructor
    · rintro ⟨body, h⟩
      obtain ⟨ts, hts, _⟩ := marshalTask_ok env t body h
      exact ⟨ts, hts⟩
    · rintro ⟨ts, hts⟩
      simp [marshalTask, hts]
  · intro t
    constructor
    · rintro ⟨body, h⟩
      obtain ⟨ts, hts, _⟩ := marshalBatchTask_ok env t body h
      exact ⟨ts, hts⟩
    · rintro ⟨ts, hts⟩
      simp [marshalBatchTask, hts]
  · intro t x k m r hm
    obtain ⟨evs, q1, _, _, _, q5, _⟩ := PublishTask_spec env cfg t w
    rw [newCalls_of_append _ _ _ q1] at hm
    obtain ⟨body, hb, he⟩ := q5 _ hm rfl
    simp only [Call.PublishWithContext.injEq] at he
    rw [he.2.2]
    exact hb
  · intro t x k m r hm
    obtain ⟨evs, q1, _, _, _, q5, _⟩ := PublishBatchTask_spec env cfg t w
    rw [newCalls_of_append _ _ _ q1] at hm
    obtain ⟨body, hb, he⟩ := q5 _ hm rfl
    simp only [Call.PublishWithContext.injEq] at he
    rw [he.2.2]
    exact hb

theorem C20_wire_encoding_witness :
    marshalTask envOk taskTest = .ok bodyTest ∧
    bodyTest.map Prod.fst = ["job_id", "user_id", "image_url", "output_bucket", "minio_endpoint",
      "minio_public_url", "minio_access_key", "minio_secret_key", "minio_use_ssl",
      "created_at", "priority"] ∧
    bodyTest.lookup "image_url" =
      some (.str "http://minio:9000/uav-data/heightmaps/u/j1.png") :=
  ⟨by decide,
   ((C20_wire_encoding envOk cfgTest.RabbitMQ World.start).1 taskTest bodyTest (by decide)).1,
   ((C20_wire_encoding envOk cfgTest.RabbitMQ World.start).1 taskTest bodyTest
     (by decide)).2.2.2.2.1⟩

/-! ## The default merge method of the handler -/

/-- A request without a `merge_method` field that gets as far as the service,
with at most 50 files, is answered with status 500 and the invalid-merge-method
error for `average`. -/
theorem Handler_no_merge_method (env : Env) (cfg : Config) (parse : String → Option UUID)
    (req : BatchRequest) (w : World) (userIDStr : String) (userID : UUID) (form : MultipartForm)
    (hu : req.userID = some userIDStr) (hp : parse userIDStr = some userID)
    (hf : req.form = some form) (h0 : (formFiles form "files").length ≠ 0)
    (h50 : (formFiles form "files").length ≤ 50)
    (hno : form.Value.lookup "merge_method" = none) :
    Handler.BatchUploadPhotos env cfg parse req w =
      (.error 500 "некорректный метод объединения: average (разрешены: low, medium, max)",
        { w with clock := w.clock + 1 }) := by
  have h50b : ¬ (formFiles form "files").length > 50 := by omega
  have hne : resolveMergeMethod "average" ≠ "medium" ∧ resolveMergeMethod "average" ≠ "max" ∧
      resolveMergeMethod "average" ≠ "low" := by decide
  simp only [Handler.BatchUploadPhotos, hu, hp, hf, h0, if_false, DefaultPostForm, hno,
    Dev2gis.BatchUploadPhotos, timeNow, h50b, hne, and_self, if_true]
  rfl

/-- C11: what the code does on a request without a `merge_method` field. The
handler fills in `average`, which the service rejects: the request with five
PNG files and no other field is answered with status 500 and the
invalid-merge-method error, no call made, whereas the same request with
`merge_method=medium` is accepted with status 202, and the service itself,
given an empty merge method, resolves it to `medium` and succeeds. -/
theorem C11_handler_default_merge_method :
    DefaultPostForm ⟨[("files", fivePngs)], []⟩ "merge_method" "average" = "average" ∧
    Handler.BatchUploadPhotos envOk cfgTest parseTest requestNoMergeMethod World.start =
      (.error 500 "некорректный метод объединения: average (разрешены: low, medium, max)",
        { World.start with clock := 1 }) ∧
    (Handler.BatchUploadPhotos envOk cfgTest parseTest requestMedium World.start).1 =
      .accepted 202 ⟨"id0", "pending", 5, "medium"⟩ ∧
    (BatchUploadPhotos envOk cfgTest userTest fivePngs "" false "" World.start).1 =
      .ok ⟨"id0", "pending", 5, "medium"⟩ := by
  refine ⟨by decide, by decide, by decide, by decide⟩

/-! ## Negative retry counts -/

/-- With a negative `PublishRetries` the retry loop of `PublishTask` runs no
iteration: on a usable connection, with a task that serializes, no call is
made and the error returned wraps a nil cause. -/
theorem PublishTask_negative_retries (env : Env) (cfg : RabbitMQConfig) (task : HeightmapTask)
    (w : World) (hN : cfg.PublishRetries < 0) (hu : unusable env w = false)
    (body : JSONObject) (hb : marshalTask env task = .ok body) :
    PublishTask env cfg task w =
      (some (.wrapNil ("failed to publish task after " ++ fmtInt cfg.PublishRetries ++
        " retries: ")), w) := by
  have hi : iterations cfg.PublishRetries = 0 := by
    unfold iterations
    omega
  simp [PublishTask, hu, hb, hi, publishLoop, Errorf]

/-- C28: what the code does with `PublishRetries = -1`. On a usable connection
and with every call succeeding, `PublishTask` makes no call at all, so no
publish attempt, and returns the error `failed to publish task after -1
retries: %!w(<nil>)`, which wraps no cause. -/
theorem C28_negative_retries :
    unusable envOk World.start = false ∧
    PublishTask envOk cfgNegative taskTest World.start =
      (some (.wrapNil "failed to publish task after -1 retries: "), World.start) ∧
    publishAttempts
      (newCalls World.start (PublishTask envOk cfgNegative taskTest World.start).2) = 0 ∧
    (GoError.wrapNil "failed to publish task after -1 retries: ").Unwrap = none ∧
    (GoError.wrapNil "failed to publish task after -1 retries: ").Error =
      "failed to publish task after -1 retries: %!w(<nil>)" := by
  refine ⟨by decide, by decide, by decide, rfl, by decide⟩

/-! ## The buckets NewMinio checks -/

theorem ensureBucketExists_calls (env : MinioEnv) (bucket : String) (h : List MinioCall) :
    ∃ tail, (ensureBucketExists env bucket h).2 = h ++ MinioCall.BucketExists bucket :: tail := by
  unfold ensureBucketExists
  cases env.bucketExists h bucket with
  | error err => exact ⟨[], rfl⟩
  | ok found =>
    cases found with
    | true => exact ⟨[], rfl⟩
    | false =>
      simp only [Bool.not_false, if_true]
      cases env.makeBucket (h ++ [.BucketExists bucket]) bucket with
      | some err => exact ⟨[.MakeBucket bucket], rfl⟩
      | none => exact ⟨[.MakeBucket bucket], rfl⟩

/-- With a data bucket name and no models bucket name, `NewMinio` that gets
past the data bucket calls `BucketExists` with the empty string. -/
theorem NewMinio_empty_models (env : MinioEnv) (cfg : MinioConfig) (h : List MinioCall)
    (hm : cfg.UAVModelsBucketName = "") (hd : cfg.UAVDataBucketName ≠ "")
    (hn : env.newClient cfg.Endpoint = none)
    (he : (ensureBucketExists env cfg.UAVDataBucketName (h ++ [.New cfg.Endpoint])).1 = none) :
    MinioCall.BucketExists "" ∈ (NewMinio env cfg h).2 := by
  obtain ⟨tail, ht⟩ := ensureBucketExists_calls env ""
    (ensureBucketExists env cfg.UAVDataBucketName (h ++ [.New cfg.Endpoint])).2
  simp only [NewMinio, hn, Minio.ofConfig, hm, hd, ne_eq, not_true_eq_false, not_false_eq_true,
    or_true, if_true]
  generalize ensureBucketExists env cfg.UAVDataBucketName (h ++ [.New cfg.Endpoint]) = R at *
  rcases R with ⟨r, h1⟩
  simp only at he ht
  subst he
  simp only
  generalize ensureBucketExists env "" h1 = R2 at *
  rcases R2 with ⟨r2, h2⟩
  simp only at ht
  subst ht
  cases r2 <;> simp

/-- C30: what the code does with a data bucket name and an empty models bucket
name. The guard before the second `ensureBucketExists` also passes when only
the data bucket name is non-empty, so `NewMinio` checks the data bucket and
then calls `BucketExists` with the empty string; as the store refuses that
name, construction fails. With both names set, both buckets are checked and
construction succeeds. -/
theorem C30_empty_models_bucket :
    cfgNoModels.UAVModelsBucketName = "" ∧
    NewMinio minioOk cfgNoModels [] =
      (.error (.wrap "failed to ensure uav models bucket exists: "
        (.wrap "failed to check bucket existence: " (.new "Bucket name cannot be empty"))),
        [.New "minio:9000", .BucketExists "uav-data", .BucketExists ""]) ∧
    NewMinio minioOk cfgTest.Minio [] =
      (.ok ⟨"uav-data", "uav-models", "http://minio:9000"⟩,
        [.New "minio:9000", .BucketExists "uav-data", .BucketExists "uav-models"]) := by
  refine ⟨rfl, by decide, by decide⟩

/-! ## Limit and offset of the list handlers -/

theorem ListBatchHeightMapsArgs_eq (limitQuery offsetQuery : Option String) :
    ListBatchHeightMapsArgs limitQuery offsetQuery = ListHeightMapsArgs limitQuery offsetQuery :=
  rfl

/-- The limit passed on is always between 1 and 100. -/
theorem ListHeightMapsArgs_limit (limitQuery offsetQuery : Option String) :
    1 ≤ (ListHeightMapsArgs limitQuery offsetQuery).1 ∧
    (ListHeightMapsArgs limitQuery offsetQuery).1 ≤ 100 := by
  simp only [ListHeightMapsArgs, int32]
  cases Atoi (DefaultQuery limitQuery "20") with
  | none => norm_num
  | some l =>
    simp only
    split_ifs <;> norm_num
    all_goals omega

/-- An offset below 2^31 is passed on as given (0 when negative). -/
theorem ListHeightMapsArgs_offset (limitQuery offsetQuery : Option String) (o : Int)
    (h : Atoi (DefaultQuery offsetQuery "0") = some o) (h0 : 0 ≤ o) (h1 : o < 2147483648) :
    (ListHeightMapsArgs limitQuery offsetQuery).2 = o := by
  simp only [ListHeightMapsArgs, h, int32]
  have : ¬ o < 0 := by omega
  simp only [this, if_false]
  norm_num
  omega

/-- C29: what the code does with `offset=2147483648`. `strconv.Atoi` accepts
the text, the value is not negative and so is kept, and the conversion to
`int32` turns it into -2147483648, which both list handlers pass on as the
offset; `offset=4294967301` is passed on as 5. The limit is computed as
claimed, and small offsets are passed unchanged. -/
theorem C29_offset_overflow :
    Atoi "2147483648" = some 2147483648 ∧
    ListHeightMapsArgs none (some "2147483648") = (20, -2147483648) ∧
    ListBatchHeightMapsArgs none (some "2147483648") = (20, -2147483648) ∧
    ListHeightMapsArgs (some "500") (some "4294967301") = (100, 5) ∧
    ListHeightMapsArgs (some "abc") (some "-3") = (20, 0) ∧
    ListHeightMapsArgs (some "50") (some "7") = (50, 7) := by
  refine ⟨by decide, by decide, by decide, by decide, by decide, by decide⟩

/-! ## Login and registration failures -/

theorem LoginUser_not_found (env : AuthEnv) (req : LoginUserRequest) (h : List AuthCall)
    (e : GoError) (hq : env.getByEmail h req.Email = .error e) :
    LoginUser env req h =
      (.error (.new "неверный email или пароль"), h ++ [.GetByEmail req.Email]) := by
  simp [LoginUser, hq]

theorem LoginUser_mismatch (env : AuthEnv) (req : LoginUserRequest) (h : List AuthCall)
    (user : User) (e : GoError) (hq : env.getByEmail h req.Email = .ok user)
    (hc : env.compareHashAndPassword user.PasswordHash req.Password = some e) :
    LoginUser env req h =
      (.error (.new "неверный email или пароль"),
        h ++ [.GetByEmail req.Email, .CompareHashAndPassword user.PasswordHash req.Password]) := by
  simp [LoginUser, hq, hc]

/-- C26: a login for an email no user has and a login with a password that does
not match the stored hash return the same error, with the same text; the first
makes the user lookup only, the second the lookup and the hash comparison, and
neither calls `GenerateTokenPair`. -/
theorem C26_login_failure_uniform (env1 env2 : AuthEnv) (req1 req2 : LoginUserRequest)
    (h1 h2 : List AuthCall) (e1 e2 : GoError) (user : User)
    (hnf : env1.getByEmail h1 req1.Email = .error e1)
    (hq : env2.getByEmail h2 req2.Email = .ok user)
    (hc : env2.compareHashAndPassword user.PasswordHash req2.Password = some e2) :
    (LoginUser env1 req1 h1).1 = (LoginUser env2 req2 h2).1 ∧
    (∃ err, (LoginUser env1 req1 h1).1 = .error err ∧
      (LoginUser env2 req2 h2).1 = .error err ∧ err.Error = "неверный email или пароль") ∧
    (LoginUser env1 req1 h1).2 = h1 ++ [.GetByEmail req1.Email] ∧
    (LoginUser env2 req2 h2).2 =
      h2 ++ [.GetByEmail req2.Email,
        .CompareHashAndPassword user.PasswordHash req2.Password] ∧
    ((LoginUser env1 req1 h1).2.drop h1.length).any isTokenCall = false ∧
    ((LoginUser env2 req2 h2).2.drop h2.length).any isTokenCall = false := by
  rw [LoginUser_not_found env1 req1 h1 e1 hnf, LoginUser_mismatch env2 req2 h2 user e2 hq hc]
  refine ⟨rfl, ⟨_, rfl, rfl, rfl⟩, rfl, rfl, ?_, ?_⟩ <;> simp [isTokenCall]

theorem C26_login_failure_uniform_witness :
    (LoginUser authTest ⟨"notfound@example.com", "password123"⟩ []).1 =
      (LoginUser authTest ⟨"existing@example.com", "wrongpassword"⟩ []).1 :=
  (C26_login_failure_uniform authTest authTest ⟨"notfound@example.com", "password123"⟩
    ⟨"existing@example.com", "wrongpassword"⟩ [] [] (.new "not found")
    (.new "crypto/bcrypt: hashedPassword is not the hash of the given password")
    ⟨"user-1", "existing@example.com", "hash(password123)", "Existing User"⟩
    (by decide) (by decide) (by decide)).1

/-- A registration for an email that belongs to a user fails after the lookup,
with no user created and no token generated. -/
theorem CreateUser_existing (env : AuthEnv) (req : CreateUserRequest) (h : List AuthCall)
    (user : User) (hq : env.getByEmail h req.Email = .ok user) :
    CreateUser env req h =
      (.error (.new "пользователь с таким email уже существует"),
        h ++ [.GetByEmail req.Email]) := by
  simp [CreateUser, hq]

/-- C27: what the code does on the registration of `TestCreateUser` for an
email that belongs to a user. `CreateUser` fails after the lookup, with no user
created and no token generated, but its error text is
`пользователь с таким email уже существует`, not `user already exists`. -/
theorem C27_user_exists_message :
    CreateUser authTest ⟨"existing@example.com", "password123", "Existing User"⟩ [] =
      (.error (.new "пользователь с таким email уже существует"),
        [.GetByEmail "existing@example.com"]) ∧
    (GoError.new "пользователь с таким email уже существует").Error ≠ "user already exists" ∧
    (CreateUser authTest ⟨"existing@example.com", "password123", "Existing User"⟩ []).2.any
      isCreateCall = false ∧
    (CreateUser authTest ⟨"existing@example.com", "password123", "Existing User"⟩ []).2.any
      isTokenCall = false := by
  refine ⟨by decide, by decide, by decide, by decide⟩

/-! ## Validation depends on its input alone -/

theorem fileOk_congr (g1 g2 : FileHeader) (hn : g1.Filename = g2.Filename)
    (hs : g1.Size = g2.Size) : fileOk g1 = fileOk g2 := by
  simp [fileOk, hn, hs]

theorem all_fileOk_congr :
    ∀ (files1 files2 : List FileHeader),
      files1.map (fun f => (f.Filename, f.Size)) = files2.map (fun f => (f.Filename, f.Size)) →
      files1.all fileOk = files2.all fileOk := by
  intro files1
  induction files1 with
  | nil =>
    intro files2 h
    cases files2 with
    | nil => rfl
    | cons g rest => simp at h
  | cons f rest ih =>
    intro files2 h
    cases files2 with
    | nil => simp at h
    | cons g rest2 =>
      simp only [List.map_cons, List.cons.injEq, Prod.mk.injEq] at h
      simp only [List.all_cons, ih rest2 h.2, fileOk_congr f g h.1.1 h.1.2]

theorem uploadRejected_iff (env : Env) (cfg : Config) (userID : UUID) (header : FileHeader)
    (w : World) : uploadRejected env cfg userID header w ↔ fileOk header = false := by
  constructor
  · intro h
    cases hok : fileOk header with
    | false => rfl
    | true =>
      obtain ⟨r, tail, ha⟩ := UploadPhoto_size_accepts env cfg userID header w hok
      have := h.2
      rw [newCalls_of_append _ _ _ ha] at this
      exact absurd this (by simp)
  · intro hok
    obtain ⟨h1, h2⟩ := UploadPhoto_invalid env cfg userID header w hok
    exact ⟨h1, by rw [h2]; exact newCalls_self_clock w _⟩

theorem UploadPhoto_rejected_result (env1 env2 : Env) (cfg1 cfg2 : Config) (u1 u2 : UUID)
    (g1 g2 : FileHeader) (w1 w2 : World) (hn : g1.Filename = g2.Filename)
    (hs : g1.Size = g2.Size) (hok : fileOk g1 = false) :
    (UploadPhoto env1 cfg1 u1 g1 w1).1 = (UploadPhoto env2 cfg2 u2 g2 w2).1 := by
  cases hb : badExt (ToLower (Ext g1.Filename)) with
  | true =>
    rw [UploadPhoto_of_badExt env1 cfg1 u1 g1 w1 hb,
      UploadPhoto_of_badExt env2 cfg2 u2 g2 w2 (by rw [← hn]; exact hb), hn]
  | false =>
    have hsz : g1.Size > maxFileSize := by
      simp only [fileOk, hb, Bool.not_false, Bool.true_and, decide_eq_false_iff_not] at hok
      omega
    rw [(UploadPhoto_size_error_iff env1 cfg1 u1 g1 w1).mpr ⟨hb, hsz⟩,
      (UploadPhoto_size_error_iff env2 cfg2 u2 g2 w2).mpr
        ⟨by rw [← hn]; exact hb, by rw [← hs]; exact hsz⟩]

theorem batchValid_congr (files1 files2 : List FileHeader) (mm gm : String)
    (hl : files1.length = files2.length) :
    batchValid files1 mm gm ↔ batchValid files2 mm gm := by
  simp [batchValid, hl]

theorem batchRejected_iff (env : Env) (cfg : Config) (userID : UUID) (files : List FileHeader)
    (mergeMethod : String) (fastMode : Bool) (generationMode : String) (w : World) :
    batchRejected env cfg userID files mergeMethod fastMode generationMode w ↔
      ¬ batchValid files mergeMethod generationMode := by
  constructor
  · intro h hv
    have h2 := h.2
    rcases BatchUploadPhotos_calls env cfg userID files mergeMethod fastMode generationMode w with
      ⟨hnv, _⟩ | ⟨_, err, _, hn⟩ | ⟨_, k, f, e, calls, _, _, _, _, hn⟩ |
        ⟨_, _, pevs, tail, hn, _⟩
    · exact hnv hv
    · rw [hn] at h2; exact absurd h2 (by simp)
    · rw [hn] at h2; exact absurd h2 (by simp)
    · rw [hn] at h2; exact absurd h2 (by simp)
  · intro hv
    obtain ⟨h1, h2⟩ := BatchUploadPhotos_invalid env cfg userID files mergeMethod fastMode
      generationMode w hv
    exact ⟨h1, by rw [h2]; exact newCalls_self_clock w _⟩

theorem BatchUploadPhotos_rejected_result (env1 env2 : Env) (cfg1 cfg2 : Config) (u1 u2 : UUID)
    (files1 files2 : List FileHeader) (mm gm : String) (fm1 fm2 : Bool) (w1 w2 : World)
    (hl : files1.length = files2.length) (hv : ¬ batchValid files1 mm gm) :
    (BatchUploadPhotos env1 cfg1 u1 files1 mm fm1 gm w1).1 =
      (BatchUploadPhotos env2 cfg2 u2 files2 mm fm2 gm w2).1 := by
  simp only [BatchUploadPhotos, timeNow, hl]
  split_ifs with a b c d e
  · rfl
  · rfl
  · rfl
  · rfl
  · rfl
  · exfalso
    apply hv
    rw [batchValid_congr files1 files2 mm gm hl]
    refine ⟨a, by omega, ?_, ?_, e⟩
    · by_contra hc; push_neg at hc; exact c ⟨hc.1, hc.2.1, hc.2.2⟩
    · by_contra hc; push_neg at hc; exact d ⟨hc.1, hc.2.1, hc.2.2⟩

/-- The checks of a file in the per-file loop, after a successful open: the run
is rejected right there exactly when the file fails them. -/
theorem fileRejected_iff (env : Env) (cfg : Config) (userID batchJobID : UUID) (now : Time)
    (f : FileHeader) (rest : List FileHeader) (idx : Nat) (urls : List String) (w : World)
    (ho : env.respond w.history (.Open f.Filename) = none) :
    fileRejected env cfg userID batchJobID now f rest idx urls w ↔ fileOk f = false := by
  cases hb : badExt (ToLower (Ext f.Filename)) with
  | true =>
    have hok : fileOk f = false := by simp [fileOk, hb]
    simp only [hok, iff_true]
    simp [fileRejected, uploadBatchFiles, call, ho, hb]
  | false =>
    obtain ⟨hbig, hsmall⟩ := uploadBatchFiles_size_check env cfg userID batchJobID now f rest idx
      urls w ho hb
    by_cases hsz : f.Size > maxFileSize
    · have hok : fileOk f = false := by
        simp only [fileOk, hb, Bool.not_false, Bool.true_and, decide_eq_false_iff_not]
        omega
      simp only [hok, iff_true]
      unfold fileRejected
      rw [hbig hsz]
      exact ⟨⟨_, rfl⟩, rfl⟩
    · have hok : fileOk f = true := by
        simp only [fileOk, hb, Bool.not_false, Bool.true_and, decide_eq_true_eq]
        omega
      simp only [hok, Bool.true_eq_false, iff_false]
      intro hr
      obtain ⟨r, tail, ht⟩ := hsmall (by omega)
      have := hr.2
      rw [ht] at this
      simp at this

theorem uploadBatchFiles_rejected_result (env1 env2 : Env) (cfg1 cfg2 : Config)
    (u1 u2 b1 b2 : UUID) (now1 now2 : Time) (g1 g2 : FileHeader) (rest1 rest2 : List FileHeader)
    (idx1 idx2 : Nat) (urls1 urls2 : List String) (w1 w2 : World)
    (hn : g1.Filename = g2.Filename) (hs : g1.Size = g2.Size)
    (ho1 : env1.respond w1.history (.Open g1.Filename) = none)
    (ho2 : env2.respond w2.history (.Open g2.Filename) = none)
    (hok : fileOk g1 = false) :
    (uploadBatchFiles env1 cfg1 u1 b1 now1 (g1 :: rest1) idx1 urls1 w1).1 =
      (uploadBatchFiles env2 cfg2 u2 b2 now2 (g2 :: rest2) idx2 urls2 w2).1 := by
  rw [hn] at ho1
  cases hb : badExt (ToLower (Ext g2.Filename)) with
  | true => simp [uploadBatchFiles, call, ho1, ho2, hn, hb]
  | false =>
    have hsz : g2.Size > maxFileSize := by
      simp only [fileOk, hn, hb, Bool.not_false, Bool.true_and, decide_eq_false_iff_not] at hok
      omega
    simp [uploadBatchFiles, call, ho1, ho2, hn, hs, hb, hsz]

/-- C25: whether validation rejects depends on the validated input alone, not
on the environment, the configuration, the user, the state or the content
type. Two runs of `UploadPhoto` with the same file name and size are both
rejected by validation or both get past it, and when rejected they return the
same error. Two runs of `BatchUploadPhotos` with the same file names and sizes,
merge method and generation mode are both rejected by the batch-level
validation or both get past it, with the same error when rejected; and when a
file fails its checks neither run returns a response. In the per-file loop, two
iterations that opened a file of the same name and size both reject it or both
go on, with the same error when they reject. -/
theorem C25_validation_deterministic (env1 env2 : Env) (cfg1 cfg2 : Config) (u1 u2 : UUID)
    (w1 w2 : World) :
    (∀ g1 g2 : FileHeader, g1.Filename = g2.Filename → g1.Size = g2.Size →
      (uploadRejected env1 cfg1 u1 g1 w1 ↔ uploadRejected env2 cfg2 u2 g2 w2) ∧
      (uploadRejected env1 cfg1 u1 g1 w1 →
        (UploadPhoto env1 cfg1 u1 g1 w1).1 = (UploadPhoto env2 cfg2 u2 g2 w2).1)) ∧
    (∀ (files1 files2 : List FileHeader) (mm gm : String) (fm1 fm2 : Bool),
      files1.map (fun f => (f.Filename, f.Size)) = files2.map (fun f => (f.Filename, f.Size)) →
      (batchRejected env1 cfg1 u1 files1 mm fm1 gm w1 ↔
        batchRejected env2 cfg2 u2 files2 mm fm2 gm w2) ∧
      (batchRejected env1 cfg1 u1 files1 mm fm1 gm w1 →
        (BatchUploadPhotos env1 cfg1 u1 files1 mm fm1 gm w1).1 =
          (BatchUploadPhotos env2 cfg2 u2 files2 mm fm2 gm w2).1) ∧
      (files1.all fileOk = false →
        (∀ resp, (BatchUploadPhotos env1 cfg1 u1 files1 mm fm1 gm w1).1 ≠ .ok resp) ∧
        (∀ resp, (BatchUploadPhotos env2 cfg2 u2 files2 mm fm2 gm w2).1 ≠ .ok resp))) ∧
    (∀ (g1 g2 : FileHeader) (rest1 rest2 : List FileHeader) (b1 b2 : UUID) (now1 now2 : Time)
        (idx1 idx2 : Nat) (urls1 urls2 : List String),
      g1.Filename = g2.Filename → g1.Size = g2.Size →
      env1.respond w1.history (.Open g1.Filename) = none →
      env2.respond w2.history (.Open g2.Filename) = none →
      (fileRejected env1 cfg1 u1 b1 now1 g1 rest1 idx1 urls1 w1 ↔
        fileRejected env2 cfg2 u2 b2 now2 g2 rest2 idx2 urls2 w2) ∧
      (fileRejected env1 cfg1 u1 b1 now1 g1 rest1 idx1 urls1 w1 →
        (uploadBatchFiles env1 cfg1 u1 b1 now1 (g1 :: rest1) idx1 urls1 w1).1 =
          (uploadBatchFiles env2 cfg2 u2 b2 now2 (g2 :: rest2) idx2 urls2 w2).1)) := by
  refine ⟨?_, ?_, ?_⟩
  · intro g1 g2 hn hs
    have hc := fileOk_congr g1 g2 hn hs
    refine ⟨?_, fun hr => ?_⟩
    · rw [uploadRejected_iff, uploadRejected_iff, hc]
    · exact UploadPhoto_rejected_result env1 env2 cfg1 cfg2 u1 u2 g1 g2 w1 w2 hn hs
        ((uploadRejected_iff env1 cfg1 u1 g1 w1).mp hr)
  · intro files1 files2 mm gm fm1 fm2 hm
    have hl : files1.length = files2.length := by
      have := congrArg List.length hm
      simpa using this
    have hall := all_fileOk_congr files1 files2 hm
    have never : ∀ (env : Env) (cfg : Config) (u : UUID) (files : List FileHeader) (fm : Bool)
        (w : World), files.all fileOk = false →
        ∀ resp, (BatchUploadPhotos env cfg u files mm fm gm w).1 ≠ .ok resp := by
      intro env cfg u files fm w hf resp hr
      rcases BatchUploadPhotos_calls env cfg u files mm fm gm w with
        ⟨_, ⟨e, he⟩, _⟩ | ⟨_, err, he, _⟩ | ⟨_, k, f, e, calls, _, _, _, he, _⟩ |
          ⟨_, hok, _⟩
      · rw [he] at hr; exact absurd hr (by simp)
      · rw [he] at hr; exact absurd hr (by simp)
      · rw [he] at hr; exact absurd hr (by simp)
      · rw [hok] at hf; exact absurd hf (by simp)
    refine ⟨?_, fun hr => ?_, fun hf => ⟨never env1 cfg1 u1 files1 fm1 w1 hf,
      never env2 cfg2 u2 files2 fm2 w2 (by rw [← hall]; exact hf)⟩⟩
    · rw [batchRejected_iff, batchRejected_iff, batchValid_congr files1 files2 mm gm hl]
    · exact BatchUploadPhotos_rejected_result env1 env2 cfg1 cfg2 u1 u2 files1 files2 mm gm
        fm1 fm2 w1 w2 hl ((batchRejected_iff env1 cfg1 u1 files1 mm fm1 gm w1).mp hr)
  · intro g1 g2 rest1 rest2 b1 b2 now1 now2 idx1 idx2 urls1 urls2 hn hs ho1 ho2
    have hc := fileOk_congr g1 g2 hn hs
    refine ⟨?_, fun hr => ?_⟩
    · rw [fileRejected_iff env1 cfg1 u1 b1 now1 g1 rest1 idx1 urls1 w1 ho1,
        fileRejected_iff env2 cfg2 u2 b2 now2 g2 rest2 idx2 urls2 w2 ho2, hc]
    · exact uploadBatchFiles_rejected_result env1 env2 cfg1 cfg2 u1 u2 b1 b2 now1 now2 g1 g2
        rest1 rest2 idx1 idx2 urls1 urls2 w1 w2 hn hs ho1 ho2
        ((fileRejected_iff env1 cfg1 u1 b1 now1 g1 rest1 idx1 urls1 w1 ho1).mp hr)

theorem C25_validation_deterministic_witness :
    (UploadPhoto envOk cfgTest "u" ⟨"scan.bmp", 1000, "image/bmp"⟩ World.start).1 =
      (UploadPhoto envDown cfgTest "v" ⟨"scan.bmp", 1000, "application/octet-stream"⟩
        World.start).1 :=
  ((C25_validation_deterministic envOk envDown cfgTest cfgTest "u" "v" World.start
    World.start).1 ⟨"scan.bmp", 1000, "image/bmp"⟩
      ⟨"scan.bmp", 1000, "application/octet-stream"⟩ rfl rfl).2
    ⟨⟨.new "неподдерживаемый формат файла: .bmp", by decide⟩, by decide⟩

/-! ## The dial attempts of NewClient -/

theorem sleeps_append (a b : History) : sleeps (a ++ b) = sleeps a ++ sleeps b := by
  induction a with
  | nil => rfl
  | cons e rest ih =>
    rcases e with ⟨c, r⟩
    cases c <;> simp [sleeps, ih]

theorem failedDials_counts (cfg : RabbitMQConfig) (errs : List GoError) :
    (failedDials cfg errs).countP isDial = errs.length ∧
    sleeps (failedDials cfg errs) = List.replicate errs.length cfg.ReconnectDelay := by
  induction errs with
  | nil => exact ⟨rfl, rfl⟩
  | cons e rest ih =>
    simp [failedDials, List.countP_cons, isDial, sleeps, ih.1, ih.2, List.replicate_succ]

/-- The dial loop of `NewClient` from attempt `attempt` on, with the iterations
up to attempt 30 left: failed dials, each followed by a wait, then a last dial
that succeeds or is the failed 30th. -/
theorem dialLoop_trace (env : Env) (cfg : RabbitMQConfig) :
    ∀ (todo : Nat) (attempt : Int) (w : World), attempt + todo = 31 → 0 < todo →
      ∃ errs last, (dialLoop env cfg todo attempt w).2.history =
          w.history ++ (failedDials cfg errs ++ [(.Dial cfg.URL, last)]) ∧
        (errs.length : Int) ≤ 30 - attempt ∧
        (last = none → (dialLoop env cfg todo attempt w).1 = none) ∧
        (∀ e, last = some e → (errs.length : Int) = 30 - attempt ∧
          (dialLoop env cfg todo attempt w).1 =
            some (Errorf "failed to connect to RabbitMQ after 30 attempts: " (some e))) ∧
        (dialLoop env cfg todo attempt w).2.conn = w.conn ∧
        (dialLoop env cfg todo attempt w).2.channel = w.channel ∧
        ((∀ h, env.respond h (.Dial cfg.URL) ≠ none) → last ≠ none) := by
  intro todo
  induction todo with
  | zero => intro attempt w _ h; omega
  | succ n ih =>
    intro attempt w hsum _
    simp only [dialLoop, call]
    cases hd : env.respond w.history (.Dial cfg.URL) with
    | none =>
      exact ⟨[], none, rfl, (by simp; omega), fun _ => rfl, fun e he => (by cases he), rfl, rfl,
        fun hall => absurd hd (hall _)⟩
    | some err =>
      simp only
      by_cases ha : attempt < 30
      · simp only [ha, if_true]
        have hn : 0 < n := by omega
        obtain ⟨errs, last, h1, h2, h3, h4, h5, h6, h7⟩ := ih (attempt + 1)
          (callVoid (.Sleep cfg.ReconnectDelay)
            { w with history := w.history ++ [(.Dial cfg.URL, some err)] })
          (by push_cast at hsum ⊢; omega) hn
        refine ⟨err :: errs, last, ?_, ?_, h3, ?_, h5, h6, h7⟩
        · rw [h1]; simp [callVoid, failedDials]
        · simp only [List.length_cons]; push_cast; omega
        · intro e he
          obtain ⟨h41, h42⟩ := h4 e he
          exact ⟨by simp only [List.length_cons]; push_cast; omega, h42⟩
      · simp only [ha, if_false]
        refine ⟨[], some err, rfl, (by simp; omega), fun h => (by cases h), ?_, trivial, trivial,
          fun _ => (by simp)⟩
        intro e he
        simp only [Option.some.injEq] at he
        subst he
        exact ⟨(by simp; omega), (by simp [fmtInt]; rfl)⟩

theorem sleeps_eq_nil (l : History) (h : ∀ e ∈ l, isSleep e = false) : sleeps l = [] := by
  induction l with
  | nil => rfl
  | cons e rest ih =>
    have he := h e (by simp)
    have hr := ih (fun x hx => h x (by simp [hx]))
    rcases e with ⟨c, r⟩
    cases c <;> simp_all [sleeps, isSleep]

/-- The calls of `NewClient`: the dial loop, then calls that are neither dials
nor waits. -/
theorem NewClient_trace (env : Env) (cfg : RabbitMQConfig) (w : World) :
    ∃ errs last rest, newCalls w (NewClient env cfg w).2 =
        failedDials cfg errs ++ (.Dial cfg.URL, last) :: rest ∧
      errs.length ≤ 29 ∧
      (∀ e ∈ rest, isDial e = false ∧ isSleep e = false) ∧
      (∀ e, last = some e → errs.length = 29 ∧ rest = [] ∧
        (NewClient env cfg w).1 =
          some (Errorf "failed to connect to RabbitMQ after 30 attempts: " (some e)) ∧
        (NewClient env cfg w).2.conn = w.conn ∧ (NewClient env cfg w).2.channel = w.channel) ∧
      ((∀ h, env.respond h (.Dial cfg.URL) ≠ none) → last ≠ none) := by
  unfold NewClient
  obtain ⟨errs, last, h1, h2, h3, h4, h5, h6, h7⟩ := dialLoop_trace env cfg 30 1 w (by norm_num)
    (by norm_num)
  have hlen : errs.length ≤ 29 := by omega
  generalize dialLoop env cfg 30 1 w = R at *
  rcases R with ⟨r, w1⟩
  simp only at h1 h3 h4 h5 h6
  cases last with
  | some e =>
    obtain ⟨h41, h42⟩ := h4 e rfl
    subst h42
    simp only
    exact ⟨errs, some e, [], newCalls_of_append _ _ _ h1, hlen, (by simp),
      fun e2 he2 => (by
        simp only [Option.some.injEq] at he2
        subst he2
        exact ⟨by omega, rfl, rfl, h5, h6⟩), h7⟩
  | none =>
    have hr := h3 rfl
    subst hr
    simp only [call]
    cases hc : env.respond w1.history .Channel with
    | some err =>
      refine ⟨errs, none, [(.Channel, some err), (.ConnClose, none)],
        newCalls_of_append _ _ _ (by simp [callVoid, h1]), hlen, ?_, fun e he => (by cases he),
        h7⟩
      intro e he
      simp only [List.mem_cons, List.mem_singleton, List.not_mem_nil, or_false] at he
      rcases he with he | he <;> (subst he; exact ⟨rfl, rfl⟩)
    | none =>
      simp only
      cases hq : env.respond (w1.history ++ [(.Channel, none)])
          (.QueueDeclare cfg.QueueName cfg.DurableQueue cfg.AutoDelete) with
      | some err =>
        refine ⟨errs, none, [(.Channel, none),
          (.QueueDeclare cfg.QueueName cfg.DurableQueue cfg.AutoDelete, some err),
          (.ChanClose, none), (.ConnClose, none)],
          newCalls_of_append _ _ _ (by simp [callVoid, h1]), hlen, ?_,
          fun e he => (by cases he), h7⟩
        intro e he
        simp only [List.mem_cons, List.mem_singleton, List.not_mem_nil, or_false] at he
        rcases he with he | he | he | he <;> (subst he; exact ⟨rfl, rfl⟩)
      | none =>
        refine ⟨errs, none, [(.Channel, none),
          (.QueueDeclare cfg.QueueName cfg.DurableQueue cfg.AutoDelete, none)],
          newCalls_of_append _ _ _ (by simp [h1]), hlen, ?_, fun e he => (by cases he), h7⟩
        intro e he
        simp only [List.mem_cons, List.mem_singleton, List.not_mem_nil, or_false] at he
        rcases he with he | he <;> (subst he; exact ⟨rfl, rfl⟩)

/-- C23: the calls of `NewClient` are a run of failed dials, each followed by a
wait of `ReconnectDelay`, then one more dial, then calls that are neither dials
nor waits. So it dials `k` times, `k` at most 30, all but the last dial failed,
and waits `k - 1` times, each time `ReconnectDelay`. When the last dial fails
it is the 30th and `NewClient` returns the connect error at once, leaving the
connection and channel fields as they were. When every dial fails there are 30
dials and 29 waits. -/
theorem C23_initial_dial_attempts (env : Env) (cfg : RabbitMQConfig) (w : World) :
    ∃ errs last rest,
      newCalls w (NewClient env cfg w).2 =
        failedDials cfg errs ++ (.Dial cfg.URL, last) :: rest ∧
      (∀ e ∈ rest, isDial e = false ∧ isSleep e = false) ∧
      (newCalls w (NewClient env cfg w).2).countP isDial = errs.length + 1 ∧
      errs.length + 1 ≤ 30 ∧
      sleeps (newCalls w (NewClient env cfg w).2) =
        List.replicate errs.length cfg.ReconnectDelay ∧
      (∀ e, last = some e → errs.length + 1 = 30 ∧ rest = [] ∧
        (NewClient env cfg w).1 =
          some (Errorf "failed to connect to RabbitMQ after 30 attempts: " (some e)) ∧
        (NewClient env cfg w).2.conn = w.conn ∧ (NewClient env cfg w).2.channel = w.channel) ∧
      ((∀ h, env.respond h (.Dial cfg.URL) ≠ none) →
        (newCalls w (NewClient env cfg w).2).countP isDial = 30 ∧
        sleeps (newCalls w (NewClient env cfg w).2) = List.replicate 29 cfg.ReconnectDelay ∧
        ∃ e, (NewClient env cfg w).1 =
          some (Errorf "failed to connect to RabbitMQ after 30 attempts: " (some e))) := by
  obtain ⟨errs, last, rest, h1, h2, h3, h4, h5⟩ := NewClient_trace env cfg w
  obtain ⟨c1, c2⟩ := failedDials_counts cfg errs
  have hrd : rest.countP isDial = 0 := by
    rw [List.countP_eq_zero]
    intro e he
    simp [(h3 e he).1]
  have hrs : sleeps rest = [] := sleeps_eq_nil rest (fun e he => (h3 e he).2)
  have hcount : (newCalls w (NewClient env cfg w).2).countP isDial = errs.length + 1 := by
    rw [h1, List.countP_append, List.countP_cons, c1, hrd]
    simp [isDial]
  have hsleeps : sleeps (newCalls w (NewClient env cfg w).2) =
      List.replicate errs.length cfg.ReconnectDelay := by
    rw [h1, sleeps_append, c2]
    simp [sleeps, hrs]
  refine ⟨errs, last, rest, h1, h3, hcount, by omega, hsleeps, ?_, ?_⟩
  · intro e he
    obtain ⟨a, b, c, d⟩ := h4 e he
    exact ⟨by omega, b, c, d⟩
  · intro hall
    cases hl : last with
    | none => exact absurd hl (h5 hall)
    | some e =>
      obtain ⟨a, b, c, d⟩ := h4 e hl
      refine ⟨by rw [hcount, a], by rw [hsleeps, a], e, c⟩

theorem C23_initial_dial_attempts_witness :
    (newCalls World.start (NewClient envDown cfgTest.RabbitMQ World.start).2).countP isDial =
      30 ∧
    sleeps (newCalls World.start (NewClient envDown cfgTest.RabbitMQ World.start).2) =
      List.replicate 29 cfgTest.RabbitMQ.ReconnectDelay := by
  obtain ⟨_, _, _, _, _, _, _, _, _, h⟩ :=
    C23_initial_dial_attempts envDown cfgTest.RabbitMQ World.start
  have h2 := h (fun _ => by simp [envDown])
  exact ⟨h2.1, h2.2.1⟩

/-! ## The trace of the retry loop -/

theorem unusable_eq (env : Env) (w : World) (hc : w.conn = true) (hch : w.channel = true) :
    unusable env w = foundClosed env w.history := by
  simp [unusable, IsConnected, foundClosed, hc, hch]

theorem flags_of_usable (env : Env) (w : World) (h : unusable env w = false) :
    w.conn = true ∧ w.channel = true := by
  simp only [unusable, IsConnected, Bool.or_eq_false_iff, Bool.not_eq_false',
    Bool.and_eq_true, Bool.not_eq_true'] at h
  exact ⟨h.1.1.1, h.1.2⟩

theorem retryForm_shift (env : Env) (cfg : RabbitMQConfig) (base block pre : History) (k : Int)
    (hk : 0 < k) (h : retryForm env cfg (base ++ block) k pre) :
    retryForm env cfg base k (block ++ pre) := by
  rcases h with ⟨h0, _⟩ | ⟨_, ⟨pre2, hp, hf⟩ | ⟨pre2, hp, hf⟩⟩
  · omega
  · refine Or.inr ⟨hk, Or.inl ⟨block ++ pre2, by rw [hp]; simp, ?_⟩⟩
    rw [← hf]; simp
  · refine Or.inr ⟨hk, Or.inr ⟨block ++ pre2, by rw [hp]; simp, ?_⟩⟩
    rw [← hf]; simp

/-- A split of `a ++ b` at a delivery attempt, when `a` holds none. -/
theorem split_after_block (a b pre post : History) (e : Call × Option GoError)
    (hs : a ++ b = pre ++ e :: post) (ha : a.any isPublish = false) (he : isPublish e = true) :
    ∃ pre2, pre = a ++ pre2 ∧ b = pre2 ++ e :: post := by
  rcases List.append_eq_append_iff.mp hs with ⟨c, h1, h2⟩ | ⟨c, h1, h2⟩
  · exact ⟨c, h1, h2⟩
  · cases c with
    | nil =>
      simp only [List.nil_append] at h2
      simp only [List.append_nil] at h1
      exact ⟨[], by simp [h1], by simpa using h2.symm⟩
    | cons x c2 =>
      exfalso
      simp only [List.cons_append, List.cons.injEq] at h2
      have hm : e ∈ a := by rw [h1, ← h2.1]; simp
      simp only [List.any_eq_false] at ha
      exact ha e hm he

/-- A split of `(a ++ [p]) ++ b` at a delivery attempt, when `a` holds none:
the attempt is `p`, or it lies in `b`. -/
theorem split_block_publish (a b pre post : History) (p e : Call × Option GoError)
    (hs : a ++ p :: b = pre ++ e :: post) (ha : a.any isPublish = false)
    (he : isPublish e = true) :
    (pre = a ∧ e = p ∧ post = b) ∨ ∃ pre2, pre = a ++ p :: pre2 ∧ b = pre2 ++ e :: post := by
  obtain ⟨pre2, h1, h2⟩ := split_after_block a (p :: b) pre post e hs ha he
  cases pre2 with
  | nil =>
    simp only [List.nil_append, List.cons.injEq] at h2
    exact Or.inl ⟨by simpa using h1, h2.1.symm, h2.2.symm⟩
  | cons x pre3 =>
    simp only [List.cons_append, List.cons.injEq] at h2
    exact Or.inr ⟨pre3, by rw [h1, h2.1], h2.2⟩

/-- One iteration of the retry loop on a client whose connection and channel
fields are set: the calls `B0` before the delivery attempt, then the attempt,
which ends the loop when acknowledged; or, after a failed reconnect, no attempt
in this iteration. -/
theorem publishLoop_step (env : Env) (cfg : RabbitMQConfig) (queue : String) (msg : Publishing)
    (n : Nat) (a : Int) (le : Option GoError) (w : World) (ha : 0 ≤ a)
    (hc : w.conn = true) (hch : w.channel = true) :
    ∃ B0 : History,
      sleeps B0 = (if a > 0 then [Second * a] else []) ∧ B0.any isPublish = false ∧
      ((retryForm env cfg w.history a B0 ∧
          (((publishLoop env cfg queue msg (n + 1) a le w).1 = .published ∧
              (publishLoop env cfg queue msg (n + 1) a le w).2.history =
                w.history ++ (B0 ++ [(.PublishWithContext cfg.Exchange queue msg, none)])) ∨
            (∃ err w2, publishLoop env cfg queue msg (n + 1) a le w =
                publishLoop env cfg queue msg n (a + 1) (some err) w2 ∧
              w2.history =
                w.history ++ (B0 ++ [(.PublishWithContext cfg.Exchange queue msg, some err)]) ∧
              w2.conn = true ∧ w2.channel = true))) ∨
        (0 < a ∧ ∃ err w2, publishLoop env cfg queue msg (n + 1) a le w =
            publishLoop env cfg queue msg n (a + 1) (some err) w2 ∧
          w2.history = w.history ++ B0 ∧ w2.conn = true ∧ w2.channel = true)) := by
  by_cases hpos : a > 0
  · -- a later iteration: sleep, then the connection check
    have hu : unusable env (callVoid (.Sleep (Second * a)) w) =
        foundClosed env (w.history ++ [(.Sleep (Second * a), none)]) :=
      unusable_eq env _ hc hch
    cases hfc : foundClosed env (w.history ++ [(.Sleep (Second * a), none)]) with
    | false =>
      rw [hfc] at hu
      refine ⟨[(.Sleep (Second * a), none)], by simp [sleeps, hpos], by simp [isPublish],
        Or.inl ⟨Or.inr ⟨hpos, Or.inl ⟨[], rfl, hfc⟩⟩, ?_⟩⟩
      simp only [publishLoop, hpos, if_true, hu, Bool.false_eq_true, and_false, if_false, call]
      cases hr : env.respond (callVoid (.Sleep (Second * a)) w).history
          (.PublishWithContext cfg.Exchange queue msg) with
      | none => exact Or.inl ⟨rfl, by simp [callVoid]⟩
      | some err => exact Or.inr ⟨err, _, rfl, by simp [callVoid], hc, hch⟩
    | true =>
      rw [hfc] at hu
      simp only [publishLoop, hpos, if_true, hu, and_self]
      simp only [reconnect, call]
      cases hd : env.respond (callVoid (.Sleep (Second * a)) w).history (.Dial cfg.URL) with
      | some e =>
        refine ⟨[(.Sleep (Second * a), none), (.Dial cfg.URL, some e)], by simp [sleeps, hpos],
          by simp [isPublish], Or.inr ⟨trivial, _, _, rfl, by simp [callVoid], hc, hch⟩⟩
      | none =>
        simp only
        cases hcl : env.respond ((callVoid (.Sleep (Second * a)) w).history ++
            [(.Dial cfg.URL, none)]) .Channel with
        | some e =>
          refine ⟨[(.Sleep (Second * a), none), (.Dial cfg.URL, none), (.Channel, some e),
            (.ConnClose, none)], by simp [sleeps, hpos], by simp [isPublish],
            Or.inr ⟨trivial, _, _, rfl, by simp [callVoid], hc, hch⟩⟩
        | none =>
          refine ⟨[(.Sleep (Second * a), none), (.Dial cfg.URL, none), (.Channel, none)],
            by simp [sleeps, hpos], by simp [isPublish],
            Or.inl ⟨Or.inr ⟨hpos, Or.inr ⟨[], rfl, by simpa using hfc⟩⟩, ?_⟩⟩
          simp only
          cases hr : env.respond ((callVoid (.Sleep (Second * a)) w).history ++
              [(.Dial cfg.URL, none)] ++ [(.Channel, none)])
              (.PublishWithContext cfg.Exchange queue msg) with
          | none => exact Or.inl ⟨rfl, by simp [callVoid]⟩
          | some err => exact Or.inr ⟨err, _, rfl, by simp [callVoid], rfl, rfl⟩
  · have h0 : a = 0 := by omega
    subst h0
    refine ⟨[], by simp [sleeps], by simp, Or.inl ⟨Or.inl ⟨rfl, rfl⟩, ?_⟩⟩
    simp only [publishLoop, gt_iff_lt, lt_self_iff_false, if_false, false_and, call]
    cases hr : env.respond w.history (.PublishWithContext cfg.Exchange queue msg) with
    | none => exact Or.inl ⟨rfl, by simp⟩
    | some err => exact Or.inr ⟨err, _, rfl, by simp, hc, hch⟩

theorem backoff_succ (n : Nat) (a : Int) :
    backoff (n + 1) a = (if a > 0 then [Second * a] else []) ++ backoff n (a + 1) := by
  simp only [backoff]
  split_ifs <;> rfl

theorem sleeps_publish (x k : String) (m : Publishing) (r : Option GoError) :
    sleeps [(Call.PublishWithContext x k m, r)] = [] := rfl

/-- The retry loop on a client whose connection and channel fields are set,
from iteration `a` on: it runs `j` iterations, each later than iteration 0
starting with its sleep; all of them when it falls out of the loop; and what
precedes each delivery attempt is described by `retryForm`. -/
theorem publishLoop_trace (env : Env) (cfg : RabbitMQConfig) (queue : String)
    (msg : Publishing) :
    ∀ (todo : Nat) (a : Int) (le : Option GoError) (w : World), 0 ≤ a →
      w.conn = true → w.channel = true →
      ∃ evs j, (publishLoop env cfg queue msg todo a le w).2.history = w.history ++ evs ∧
        j ≤ todo ∧ sleeps evs = backoff j a ∧
        (∀ l, (publishLoop env cfg queue msg todo a le w).1 = .exhausted l → j = todo) ∧
        (a = 0 → evs = [] ∨
          ∃ r tl, evs = (.PublishWithContext cfg.Exchange queue msg, r) :: tl) ∧
        (∀ pre e post, evs = pre ++ e :: post → isPublish e = true →
          ∃ i : Nat, i < j ∧ sleeps pre = backoff (i + 1) a ∧
            retryForm env cfg w.history (a + i) pre) := by
  intro todo
  induction todo with
  | zero =>
    intro a le w _ _ _
    refine ⟨[], 0, by simp [publishLoop], le_refl _, rfl, fun _ _ => rfl, fun _ => Or.inl rfl, ?_⟩
    intro pre e post hs
    simp at hs
  | succ n ih =>
    intro a le w ha hc hch
    obtain ⟨B0, hsl, hnp, hstep⟩ := publishLoop_step env cfg queue msg n a le w ha hc hch
    have hB0 : a = 0 → retryForm env cfg w.history a B0 → B0 = [] := by
      intro h0 hr
      rcases hr with ⟨_, h⟩ | ⟨h, _⟩
      · exact h
      · omega
    rcases hstep with ⟨hform, ⟨hpub, hhist⟩ | ⟨err, w2, heq, hhist, hc2, hch2⟩⟩ |
      ⟨hpos, err, w2, heq, hhist, hc2, hch2⟩
    · -- acknowledged in this iteration
      refine ⟨B0 ++ [(.PublishWithContext cfg.Exchange queue msg, none)], 1, hhist, by omega, ?_,
        ?_, ?_, ?_⟩
      · rw [sleeps_append, hsl, sleeps_publish, backoff_succ]
        simp [backoff]
      · intro l hl
        rw [hpub] at hl
        cases hl
      · intro h0
        rw [hB0 h0 hform]
        exact Or.inr ⟨none, [], rfl⟩
      · intro pre e post hs he
        rcases split_block_publish B0 [] pre post _ e (by simpa using hs) hnp he with
          ⟨h1, _, _⟩ | ⟨pre2, _, h2⟩
        · refine ⟨0, by omega, ?_, ?_⟩
          · rw [h1, hsl, backoff_succ]
            simp [backoff]
          · rw [h1]
            simpa using hform
        · simp at h2
    · -- a failed delivery attempt, then the rest of the loop
      obtain ⟨evs2, j2, i1, i2, i3, i4, _, i6⟩ := ih (a + 1) (some err) w2 (by omega) hc2 hch2
      refine ⟨B0 ++ (.PublishWithContext cfg.Exchange queue msg, some err) :: evs2, j2 + 1, ?_,
        by omega, ?_, ?_, ?_, ?_⟩
      · rw [heq, i1, hhist]; simp
      · rw [sleeps_append, hsl, backoff_succ]
        congr 1
      · intro l hl
        rw [heq] at hl
        rw [i4 l hl]
      · intro h0
        rw [hB0 h0 hform]
        exact Or.inr ⟨some err, evs2, rfl⟩
      · intro pre e post hs he
        rcases split_block_publish B0 evs2 pre post _ e hs hnp he with
          ⟨h1, _, _⟩ | ⟨pre2, h1, h2⟩
        · refine ⟨0, by omega, ?_, ?_⟩
          · rw [h1, hsl, backoff_succ]
            simp [backoff]
          · rw [h1]
            simpa using hform
        · obtain ⟨i, hi, hs2, hr2⟩ := i6 pre2 e post h2 he
          refine ⟨i + 1, by omega, ?_, ?_⟩
          · rw [h1, sleeps_append, hsl, backoff_succ (i + 1) a]
            congr 1
          · rw [hhist] at hr2
            have hk : a + 1 + (i : Int) = a + ((i + 1 : Nat) : Int) := by push_cast; omega
            rw [hk] at hr2
            have := retryForm_shift env cfg w.history
              (B0 ++ [(.PublishWithContext cfg.Exchange queue msg, some err)]) pre2 _
              (by push_cast; omega) hr2
            rw [h1]
            simpa using this
    · -- a failed reconnect, then the rest of the loop
      obtain ⟨evs2, j2, i1, i2, i3, i4, _, i6⟩ := ih (a + 1) (some err) w2 (by omega) hc2 hch2
      refine ⟨B0 ++ evs2, j2 + 1, ?_, by omega, ?_, ?_, fun h0 => by omega, ?_⟩
      · rw [heq, i1, hhist]; simp
      · rw [sleeps_append, hsl, backoff_succ, i3]
      · intro l hl
        rw [heq] at hl
        rw [i4 l hl]
      · intro pre e post hs he
        obtain ⟨pre2, h1, h2⟩ := split_after_block B0 evs2 pre post e hs hnp he
        obtain ⟨i, hi, hs2, hr2⟩ := i6 pre2 e post h2 he
        refine ⟨i + 1, by omega, ?_, ?_⟩
        · rw [h1, sleeps_append, hsl, backoff_succ (i + 1) a, hs2]
        · rw [hhist] at hr2
          have hk : a + 1 + (i : Int) = a + ((i + 1 : Nat) : Int) := by push_cast; omega
          rw [hk] at hr2
          rw [h1]
          exact retryForm_shift env cfg w.history B0 pre2 _ (by push_cast; omega) hr2

/-- The reconnect at the entry of the publish functions: it runs when the
client is found unusable, starts with a dial, neither sleeps nor declares nor
publishes, and leaves the connection and channel fields set when it returns no
error. -/
theorem entry_trace (env : Env) (cfg : RabbitMQConfig) (w : World) :
    ∃ pre0, (if unusable env w = true then reconnect env cfg w else (none, w)).2.history =
        w.history ++ pre0 ∧
      sleeps pre0 = [] ∧ pre0.any isPublish = false ∧
      (∀ e ∈ pre0, isDeclare e = false ∧ isSleep e = false) ∧
      (unusable env w = false → pre0 = []) ∧
      (unusable env w = true →
        (if unusable env w = true then reconnect env cfg w else (none, w)) =
          reconnect env cfg w ∧
        ∃ r tl, pre0 = (.Dial cfg.URL, r) :: tl) ∧
      ((if unusable env w = true then reconnect env cfg w else (none, w)).1 = none →
        (if unusable env w = true then reconnect env cfg w else (none, w)).2.conn = true ∧
        (if unusable env w = true then reconnect env cfg w else (none, w)).2.channel = true) := by
  cases hu : unusable env w with
  | false =>
    simp only [Bool.false_eq_true, if_false]
    exact ⟨[], (by simp), rfl, rfl, (by simp), fun _ => rfl, fun h => (by cases h),
      fun _ => flags_of_usable env w hu⟩
  | true =>
    simp only [if_true]
    simp only [reconnect, call]
    cases hd : env.respond w.history (.Dial cfg.URL) with
    | some e =>
      exact ⟨[(.Dial cfg.URL, some e)], rfl, rfl, rfl, (by simp [isDeclare, isSleep]),
        fun h => (by cases h), fun _ => ⟨trivial, _, _, rfl⟩, fun h => (by cases h)⟩
    | none =>
      simp only
      cases hc : env.respond (w.history ++ [(.Dial cfg.URL, none)]) .Channel with
      | some e =>
        exact ⟨[(.Dial cfg.URL, none), (.Channel, some e), (.ConnClose, none)],
          (by simp [callVoid]), rfl, rfl, (by simp [isDeclare, isSleep]),
          fun h => (by cases h), fun _ => ⟨trivial, _, _, rfl⟩, fun h => (by cases h)⟩
      | none =>
        exact ⟨[(.Dial cfg.URL, none), (.Channel, none)], (by simp), rfl, rfl,
          (by simp [isDeclare, isSleep]), fun h => (by cases h), fun _ => ⟨trivial, _, _, rfl⟩,
          fun _ => ⟨rfl, rfl⟩⟩

theorem prefix_ne_reconnect (s : String) :
    "failed to reconnect before publishing: " ≠ "failed to publish task after " ++ s ∧
    "failed to marshal task: " ≠ "failed to publish task after " ++ s ∧
    "failed to reconnect before publishing batch task: " ≠
      "failed to publish batch task after " ++ s ∧
    "failed to marshal batch task: " ≠ "failed to publish batch task after " ++ s ∧
    "failed to declare batch queue: " ≠ "failed to publish batch task after " ++ s := by
  refine ⟨?_, ?_, ?_, ?_, ?_⟩ <;>
  · intro h
    have := congrArg String.data h
    simp at this

theorem Errorf_pre (pre1 pre2 : String) (c1 c2 : Option GoError)
    (h : Errorf pre1 c1 = Errorf pre2 c2) : pre1 = pre2 := by
  cases c1 <;> cases c2 <;> simp [Errorf] at h
  · exact h
  · exact h.1

/-- The calls of `PublishTask`: those of the reconnect at entry, `pre0`, then
those of the retry loop, `loopevs`, which runs `j` iterations. -/
theorem PublishTask_trace (env : Env) (cfg : RabbitMQConfig) (task : HeightmapTask)
    (w : World) :
    ∃ pre0 loopevs j,
      (PublishTask env cfg task w).2.history = w.history ++ (pre0 ++ loopevs) ∧
      sleeps pre0 = [] ∧ pre0.any isPublish = false ∧
      (unusable env w = false → pre0 = []) ∧
      (unusable env w = true → (reconnect env cfg w).2.history = w.history ++ pre0 ∧
        ∃ r tl, pre0 = (.Dial cfg.URL, r) :: tl) ∧
      (∀ err, unusable env w = true → (reconnect env cfg w).1 = some err →
        (PublishTask env cfg task w).1 =
          some (Errorf "failed to reconnect before publishing: " (some err)) ∧
        loopevs = []) ∧
      j ≤ iterations cfg.PublishRetries ∧ sleeps loopevs = backoff j 0 ∧
      (loopevs = [] ∨ ∃ e tl, loopevs = e :: tl ∧ isPublish e = true) ∧
      (∀ c, (PublishTask env cfg task w).1 =
          some (Errorf ("failed to publish task after " ++ fmtInt cfg.PublishRetries ++
            " retries: ") c) → j = iterations cfg.PublishRetries) ∧
      (∀ pre e post, loopevs = pre ++ e :: post → isPublish e = true →
        ∃ i : Nat, i < j ∧ sleeps pre = backoff (i + 1) 0 ∧
          retryForm env cfg (w.history ++ pre0) i pre) := by
  unfold PublishTask
  obtain ⟨pre0, e1, e2, e3, _, e5, e6, e7⟩ := entry_trace env cfg w
  generalize (if unusable env w = true then reconnect env cfg w else (none, w)) = R at *
  rcases R with ⟨r, w1⟩
  simp only at e1 e7
  have hrec : unusable env w = true → (reconnect env cfg w).2.history = w.history ++ pre0 ∧
      ∃ r tl, pre0 = (Call.Dial cfg.URL, r) :: tl := by
    intro hu
    obtain ⟨h1, h2⟩ := e6 hu
    rw [← h1]
    exact ⟨e1, h2⟩
  cases r with
  | some err =>
    refine ⟨pre0, [], 0, by simpa using e1, e2, e3, e5, hrec, ?_, Nat.zero_le _, rfl,
      Or.inl rfl, ?_, ?_⟩
    · intro err2 hu he
      rw [← (e6 hu).1] at he
      simp only [Option.some.injEq] at he
      subst he
      exact ⟨rfl, rfl⟩
    · intro c hc
      simp only [Option.some.injEq] at hc
      exact absurd (Errorf_pre _ _ _ _ hc) (prefix_ne_reconnect _).1
    · intro pre e post hs
      simp at hs
  | none =>
    simp only
    have hflags := e7 rfl
    have hnorec : ∀ err, unusable env w = true → (reconnect env cfg w).1 = some err → False := by
      intro err hu he
      rw [← (e6 hu).1] at he
      cases he
    cases hm : marshalTask env task with
    | error err =>
      refine ⟨pre0, [], 0, by simpa using e1, e2, e3, e5, hrec,
        fun err hu he => (hnorec err hu he).elim, Nat.zero_le _, rfl, Or.inl rfl, ?_, ?_⟩
      · intro c hc
        simp only [Option.some.injEq] at hc
        exact absurd (Errorf_pre _ _ _ _ hc) (prefix_ne_reconnect _).2.1
      · intro pre e post hs
        simp at hs
    | ok body =>
      simp only
      obtain ⟨evs, j, i1, i2, i3, i4, i5, i6⟩ := publishLoop_trace env cfg cfg.QueueName
        (mkPublishing body task.Priority) (iterations cfg.PublishRetries) 0 none w1
        (le_refl _) hflags.1 hflags.2
      generalize publishLoop env cfg cfg.QueueName (mkPublishing body task.Priority)
        (iterations cfg.PublishRetries) 0 none w1 = L at *
      rcases L with ⟨l, w2⟩
      simp only at i1 i4
      have hh : w2.history = w.history ++ (pre0 ++ evs) := by rw [i1, e1]; simp
      have hfirst : evs = [] ∨ ∃ e tl, evs = e :: tl ∧ isPublish e = true := by
        rcases i5 rfl with h | ⟨r, tl, h⟩
        · exact Or.inl h
        · exact Or.inr ⟨_, tl, h, rfl⟩
      have hsplit : ∀ pre e post, evs = pre ++ e :: post → isPublish e = true →
          ∃ i : Nat, i < j ∧ sleeps pre = backoff (i + 1) 0 ∧
            retryForm env cfg (w.history ++ pre0) i pre := by
        intro pre e post hs he
        obtain ⟨i, hi, h1, h2⟩ := i6 pre e post hs he
        rw [e1, Int.zero_add] at h2
        exact ⟨i, hi, h1, h2⟩
      cases l with
      | published =>
        refine ⟨pre0, evs, j, hh, e2, e3, e5, hrec, fun err hu he => (hnorec err hu he).elim,
          i2, i3, hfirst, ?_, hsplit⟩
        intro c hc
        cases hc
      | exhausted le =>
        exact ⟨pre0, evs, j, hh, e2, e3, e5, hrec, fun err hu he => (hnorec err hu he).elim,
          i2, i3, hfirst, fun c _ => i4 le rfl, hsplit⟩

/-- The calls of `PublishBatchTask`: those of the reconnect at entry and the
declaration of the batch queue, `pre1`, then those of the retry loop,
`loopevs`, which runs `j` iterations. -/
theorem PublishBatchTask_trace (env : Env) (cfg : RabbitMQConfig) (task : BatchHeightmapTask)
    (w : World) :
    ∃ pre1 loopevs j,
      (PublishBatchTask env cfg task w).2.history = w.history ++ (pre1 ++ loopevs) ∧
      sleeps pre1 = [] ∧ pre1.any isPublish = false ∧
      (unusable env w = true → ∃ r tl, pre1 = (.Dial cfg.URL, r) :: tl) ∧
      (∀ err, unusable env w = true → (reconnect env cfg w).1 = some err →
        (PublishBatchTask env cfg task w).1 =
          some (Errorf "failed to reconnect before publishing batch task: " (some err)) ∧
        loopevs = [] ∧ (reconnect env cfg w).2.history = w.history ++ pre1) ∧
      j ≤ iterations cfg.PublishRetries ∧ sleeps loopevs = backoff j 0 ∧
      (loopevs = [] ∨ ∃ e tl, loopevs = e :: tl ∧ isPublish e = true) ∧
      (∀ c, (PublishBatchTask env cfg task w).1 =
          some (Errorf ("failed to publish batch task after " ++ fmtInt cfg.PublishRetries ++
            " retries: ") c) → j = iterations cfg.PublishRetries) ∧
      (∀ pre e post, loopevs = pre ++ e :: post → isPublish e = true →
        ∃ i : Nat, i < j ∧ sleeps pre = backoff (i + 1) 0 ∧
          retryForm env cfg (w.history ++ pre1) i pre) := by
  unfold PublishBatchTask
  obtain ⟨pre0, e1, e2, e3, _, e5, e6, e7⟩ := entry_trace env cfg w
  generalize (if unusable env w = true then reconnect env cfg w else (none, w)) = R at *
  rcases R with ⟨r, w1⟩
  simp only at e1 e7
  have hdial : ∀ (x : History), unusable env w = true →
      ∃ r tl, pre0 ++ x = (Call.Dial cfg.URL, r) :: tl := by
    intro x hu
    obtain ⟨_, r, tl, h2⟩ := e6 hu
    exact ⟨r, tl ++ x, by rw [h2]; rfl⟩
  cases r with
  | some err =>
    refine ⟨pre0, [], 0, by simpa using e1, e2, e3,
      fun hu => (by simpa using hdial [] hu), ?_, Nat.zero_le _, rfl, Or.inl rfl, ?_, ?_⟩
    · intro err2 hu he
      have h1 := (e6 hu).1
      rw [← h1] at he ⊢
      simp only [Option.some.injEq] at he
      subst he
      exact ⟨rfl, rfl, e1⟩
    · intro c hc
      simp only [Option.some.injEq] at hc
      exact absurd (Errorf_pre _ _ _ _ hc) (prefix_ne_reconnect _).2.2.1
    · intro pre e post hs
      simp at hs
  | none =>
    simp only
    have hflags := e7 rfl
    have hnorec : ∀ err, unusable env w = true → (reconnect env cfg w).1 = some err → False := by
      intro err hu he
      rw [← (e6 hu).1] at he
      cases he
    cases hm : marshalBatchTask env task with
    | error err =>
      refine ⟨pre0, [], 0, by simpa using e1, e2, e3,
        fun hu => (by simpa using hdial [] hu),
        fun err hu he => (hnorec err hu he).elim, Nat.zero_le _, rfl, Or.inl rfl, ?_, ?_⟩
      · intro c hc
        simp only [Option.some.injEq] at hc
        exact absurd (Errorf_pre _ _ _ _ hc) (prefix_ne_reconnect _).2.2.2.1
      · intro pre e post hs
        simp at hs
    | ok body =>
      simp only [call]
      cases hq : env.respond w1.history
          (.QueueDeclare (cfg.QueueName ++ "_batch") cfg.DurableQueue cfg.AutoDelete) with
      | some err =>
        refine ⟨pre0 ++ [(.QueueDeclare (cfg.QueueName ++ "_batch") cfg.DurableQueue
            cfg.AutoDelete, some err)], [], 0, by simp [e1], ?_, ?_, fun hu => hdial _ hu,
          fun err hu he => (hnorec err hu he).elim, Nat.zero_le _, rfl, Or.inl rfl, ?_, ?_⟩
        · rw [sleeps_append, e2]; rfl
        · simp [e3, isPublish]
        · intro c hc
          simp only [Option.some.injEq] at hc
          exact absurd (Errorf_pre _ _ _ _ hc) (prefix_ne_reconnect _).2.2.2.2
        · intro pre e post hs
          simp at hs
      | none =>
        simp only
        obtain ⟨evs, j, i1, i2, i3, i4, i5, i6⟩ := publishLoop_trace env cfg
          (cfg.QueueName ++ "_batch") (mkPublishing body task.Priority)
          (iterations cfg.PublishRetries) 0 none
          { w1 with history := w1.history ++ [(.QueueDeclare (cfg.QueueName ++ "_batch")
              cfg.DurableQueue cfg.AutoDelete, none)] }
          (le_refl _) hflags.1 hflags.2
        generalize publishLoop env cfg (cfg.QueueName ++ "_batch")
          (mkPublishing body task.Priority) (iterations cfg.PublishRetries) 0 none
          { w1 with history := w1.history ++ [(.QueueDeclare (cfg.QueueName ++ "_batch")
              cfg.DurableQueue cfg.AutoDelete, none)] } = L at *
        rcases L with ⟨l, w2⟩
        simp only at i1 i4 i6
        have hh : w2.history = w.history ++ ((pre0 ++ [(Call.QueueDeclare
            (cfg.QueueName ++ "_batch") cfg.DurableQueue cfg.AutoDelete,
              (none : Option GoError))]) ++ evs) := by
          rw [i1, e1]; simp
        have hs1 : sleeps (pre0 ++ [(Call.QueueDeclare (cfg.QueueName ++ "_batch")
            cfg.DurableQueue cfg.AutoDelete, (none : Option GoError))]) = [] := by
          rw [sleeps_append, e2]; rfl
        have hp1 : (pre0 ++ [(Call.QueueDeclare (cfg.QueueName ++ "_batch")
            cfg.DurableQueue cfg.AutoDelete, (none : Option GoError))]).any isPublish = false := by
          simp [e3, isPublish]
        have hfirst : evs = [] ∨ ∃ e tl, evs = e :: tl ∧ isPublish e = true := by
          rcases i5 rfl with h | ⟨r, tl, h⟩
          · exact Or.inl h
          · exact Or.inr ⟨_, tl, h, rfl⟩
        have hsplit : ∀ pre e post, evs = pre ++ e :: post → isPublish e = true →
            ∃ i : Nat, i < j ∧ sleeps pre = backoff (i + 1) 0 ∧
              retryForm env cfg (w.history ++ (pre0 ++ [(Call.QueueDeclare
                (cfg.QueueName ++ "_batch") cfg.DurableQueue cfg.AutoDelete,
                  (none : Option GoError))])) i pre := by
          intro pre e post hs he
          obtain ⟨i, hi, h1, h2⟩ := i6 pre e post hs he
          rw [e1, Int.zero_add, List.append_assoc] at h2
          exact ⟨i, hi, h1, h2⟩
        cases l with
        | published =>
          refine ⟨_, evs, j, hh, hs1, hp1, fun hu => hdial _ hu,
            fun err hu he => (hnorec err hu he).elim, i2, i3, hfirst, ?_, hsplit⟩
          intro c hc
          cases hc
        | exhausted le =>
          exact ⟨_, evs, j, hh, hs1, hp1, fun hu => hdial _ hu,
            fun err hu he => (hnorec err hu he).elim, i2, i3, hfirst, fun c _ => i4 le rfl,
            hsplit⟩

theorem isSleep_of_sleeps_nil (l : History) (h : sleeps l = []) : ∀ e ∈ l, isSleep e = false := by
  induction l with
  | nil => intro e he; simp at he
  | cons x rest ih =>
    intro e he
    rcases x with ⟨c, r⟩
    have hx : isSleep (c, r) = false ∧ sleeps rest = [] := by
      cases c <;> simp_all [sleeps, isSleep]
    rcases List.mem_cons.mp he with he | he
    · rw [he]; exact hx.1
    · exact ih hx.2 e he

theorem backoff_from (n : Nat) : ∀ (a : Int), 0 < a →
    backoff n a = (List.range n).map (fun (k : Nat) => Second * (a + (k : Int))) := by
  induction n with
  | zero => intro a _; rfl
  | succ n ih =>
    intro a ha
    rw [backoff_succ, ih (a + 1) (by omega), List.range_succ_eq_map]
    simp only [ha, if_true, List.map_cons, List.map_map, List.singleton_append,
      Nat.cast_zero, add_zero]
    congr 1
    apply List.map_congr_left
    intro k _
    simp only [Function.comp, Nat.succ_eq_add_one]
    push_cast
    ring_nf

theorem backoff_zero (n : Nat) :
    backoff (n + 1) 0 = (List.range n).map (fun (k : Nat) => Second * ((k : Int) + 1)) := by
  rw [backoff_succ, backoff_from n (0 + 1) (by norm_num)]
  simp only [gt_iff_lt, lt_self_iff_false, if_false, List.nil_append]
  apply List.map_congr_left
  intro k _
  ring_nf

theorem sum_backoff (n : Nat) :
    ((List.range n).map (fun (k : Nat) => Second * ((k : Int) + 1))).sum =
      Second * ((n : Int) * ((n : Int) + 1) / 2) := by
  have h2 : ∀ m : Nat, 2 * ((List.range m).map (fun (k : Nat) => Second * ((k : Int) + 1))).sum =
      Second * ((m : Int) * ((m : Int) + 1)) := by
    intro m
    induction m with
    | zero => simp
    | succ m ih =>
      rw [List.range_succ, List.map_append, List.sum_append, mul_add, ih]
      simp only [List.map_cons, List.map_nil, List.sum_cons, List.sum_nil, add_zero]
      push_cast
      ring
  obtain ⟨q, hq⟩ : ∃ q : Int, (n : Int) * ((n : Int) + 1) = 2 * q := by
    rcases Int.even_mul_succ_self (n : Int) with ⟨q, hq⟩
    exact ⟨q, by rw [hq]; ring⟩
  have h := h2 n
  rw [hq] at h ⊢
  rw [Int.mul_ediv_cancel_left q (by norm_num)]
  have : 2 * ((List.range n).map (fun (k : Nat) => Second * ((k : Int) + 1))).sum = 2 * (Second * q) := by
    rw [h]; ring
  omega

/-- What precedes a delivery attempt in the calls of a publish function, given
the description of its retry loop. -/
theorem trace_publish_split (env : Env) (cfg : RabbitMQConfig) (base pre1 loopevs : History)
    (j : Nat) (hs1 : sleeps pre1 = []) (hp1 : pre1.any isPublish = false)
    (hsplit : ∀ pre e post, loopevs = pre ++ e :: post → isPublish e = true →
      ∃ i : Nat, i < j ∧ sleeps pre = backoff (i + 1) 0 ∧
        retryForm env cfg (base ++ pre1) i pre) :
    ∀ pre e post, pre1 ++ loopevs = pre ++ e :: post → isPublish e = true →
      ∃ i : Nat, i < j ∧ sleeps pre = backoff (i + 1) 0 ∧
        ((i = 0 ∧ pre = pre1) ∨ (0 < i ∧ retryForm env cfg base i pre)) := by
  intro pre e post hs he
  obtain ⟨pre2, h1, h2⟩ := split_after_block pre1 loopevs pre post e hs hp1 he
  obtain ⟨i, hi, h3, h4⟩ := hsplit pre2 e post h2 he
  refine ⟨i, hi, by rw [h1, sleeps_append, hs1, h3]; rfl, ?_⟩
  cases i with
  | zero =>
    left
    rcases h4 with ⟨_, h⟩ | ⟨h, _⟩
    · exact ⟨rfl, by rw [h1, h]; simp⟩
    · simp at h
  | succ i =>
    right
    refine ⟨by omega, ?_⟩
    rw [h1]
    exact retryForm_shift env cfg base pre1 pre2 _ (by push_cast; omega) h4

/-- Every sleep of a publish function comes after a delivery attempt. -/
theorem trace_sleep_after_publish (pre1 loopevs : History) (hs1 : sleeps pre1 = [])
    (hfirst : loopevs = [] ∨ ∃ e tl, loopevs = e :: tl ∧ isPublish e = true) :
    ∀ pre e post, pre1 ++ loopevs = pre ++ e :: post → isSleep e = true →
      pre.any isPublish = true := by
  intro pre e post hs he
  have hns := isSleep_of_sleeps_nil pre1 hs1
  have hnp : ∀ x : Call × Option GoError, isPublish x = true → isSleep x = true → False := by
    intro x h1 h2
    rcases x with ⟨c, r⟩
    cases c <;> simp_all [isPublish, isSleep]
  rcases List.append_eq_append_iff.mp hs with ⟨a, h1, h2⟩ | ⟨c, h1, h2⟩
  · rcases hfirst with h0 | ⟨p, tl, hl, hp⟩
    · rw [h0] at h2
      simp at h2
    · rw [hl] at h2
      cases a with
      | nil =>
        simp only [List.nil_append, List.cons.injEq] at h2
        rw [h2.1] at hp
        exact (hnp e hp he).elim
      | cons x a2 =>
        simp only [List.cons_append, List.cons.injEq] at h2
        rw [h1, ← h2.1]
        simp [hp]
  · cases c with
    | nil =>
      simp only [List.nil_append] at h2
      rcases hfirst with h0 | ⟨p, tl, hl, hp⟩
      · rw [h0] at h2
        simp at h2
      · rw [hl] at h2
        simp only [List.cons.injEq] at h2
        rw [← h2.1] at hp
        exact (hnp e hp he).elim
    | cons x c2 =>
      simp only [List.cons_append, List.cons.injEq] at h2
      have hm : e ∈ pre1 := by rw [h1, h2.1]; simp
      rw [hns e hm] at he
      cases he

/-- The sleeps of a publish function whose retry loop ran `j` iterations. -/
theorem sleeps_of_trace (N : Int) (pre1 loopevs : History) (j : Nat)
    (hs1 : sleeps pre1 = []) (hj : j ≤ iterations N) (hl : sleeps loopevs = backoff j 0) :
    sleeps (pre1 ++ loopevs) =
        (List.range (j - 1)).map (fun (k : Nat) => Second * ((k : Int) + 1)) ∧
      (0 ≤ N → ((j - 1 : Nat) : Int) ≤ N) ∧ (N < 0 → j - 1 = 0) ∧
      (∀ k : Nat, 1 ≤ k → k ≤ j - 1 →
        (sleeps (pre1 ++ loopevs))[k - 1]? = some (Second * (k : Int))) ∧
      (j = iterations N → 0 ≤ N → ((j - 1 : Nat) : Int) = N ∧
        (sleeps (pre1 ++ loopevs)).sum = Second * (N * (N + 1) / 2)) := by
  have hlist : sleeps (pre1 ++ loopevs) =
      (List.range (j - 1)).map (fun (k : Nat) => Second * ((k : Int) + 1)) := by
    rw [sleeps_append, hs1, List.nil_append, hl]
    cases j with
    | zero => rfl
    | succ j2 => rw [backoff_zero]; rfl
  have hit : 0 ≤ N → (iterations N : Int) = N + 1 := fun h => iterations_cast N h
  refine ⟨hlist, ?_, ?_, ?_, ?_⟩
  · intro h0
    have := hit h0
    omega
  · intro hneg
    have : iterations N = 0 := by unfold iterations; omega
    omega
  · intro k h1 hk
    rw [hlist, List.getElem?_map, List.getElem?_range (by omega)]
    simp only [Option.map_some']
    congr 1
    have : ((k - 1 : Nat) : Int) + 1 = k := by omega
    rw [this]
  · intro hje h0
    have h1 := hit h0
    have hm : ((j - 1 : Nat) : Int) = N := by omega
    refine ⟨hm, ?_⟩
    rw [hlist, sum_backoff, hm]

/-- In a retry the delivery attempt follows the sleep of the iteration, or the
successful reconnect made after it. -/
theorem retry_of_trace (env : Env) (cfg : RabbitMQConfig) (base pre : History) (j i : Nat)
    (hi : i < j) (hsl : sleeps pre = backoff (i + 1) 0) (hpre : pre.any isPublish = true)
    (pre1 : History) (hp1 : pre1.any isPublish = false)
    (h : (i = 0 ∧ pre = pre1) ∨ (0 < i ∧ retryForm env cfg base i pre)) :
    1 ≤ i ∧ i ≤ j - 1 ∧
    sleeps pre = (List.range i).map (fun (k : Nat) => Second * ((k : Int) + 1)) ∧
    (∃ pre2 rc, pre = pre2 ++ (.Sleep (Second * (i : Int)), none) :: rc ∧
      (rc = [] ∨ rc = [(.Dial cfg.URL, none), (.Channel, none)])) ∧
    ((∃ pre2 d, pre = pre2 ++ [(.Sleep d, none)] ∧ foundClosed env (base ++ pre) = false) ∨
      (∃ pre2 d, pre = pre2 ++ [(.Sleep d, none), (.Dial cfg.URL, none), (.Channel, none)] ∧
        foundClosed env (base ++ (pre2 ++ [(.Sleep d, none)])) = true)) := by
  rcases h with ⟨_, h0⟩ | ⟨hpos, hr⟩
  · rw [h0, hp1] at hpre
    cases hpre
  · refine ⟨by omega, by omega, by rw [hsl, backoff_zero], ?_, ?_⟩
    · rcases hr with ⟨h0, _⟩ | ⟨_, ⟨pre2, hp, _⟩ | ⟨pre2, hp, _⟩⟩
      · omega
      · exact ⟨pre2, [], hp, Or.inl rfl⟩
      · exact ⟨pre2, _, hp, Or.inr rfl⟩
    · rcases hr with ⟨h0, _⟩ | ⟨_, ⟨pre2, hp, hf⟩ | ⟨pre2, hp, hf⟩⟩
      · omega
      · exact Or.inl ⟨pre2, _, hp, hf⟩
      · exact Or.inr ⟨pre2, _, hp, hf⟩

/-! ## Backoff and reconnect of the publish functions -/

/-- C21: the sleeps made by `PublishTask` and by `PublishBatchTask` are, in
order, 1 second, 2 seconds, ... up to `m` seconds, with `m` at most
`PublishRetries` (none when that is negative): the `k`-th sleep lasts `k`
seconds. No sleep comes before the first delivery attempt. Every delivery
attempt that is a retry comes after `k` sleeps, `k` at least 1, the last of
which, of `k` seconds, is directly before it or before the successful
reconnect that precedes it. When the function falls out of its retry loop,
with `N = PublishRetries` not negative, it has slept `N` times, for
`N (N + 1) / 2` seconds in total. -/
theorem C21_linear_backoff (env : Env) (cfg : RabbitMQConfig) (w : World) :
    (∀ task : HeightmapTask, ∃ m : Nat,
      sleeps (newCalls w (PublishTask env cfg task w).2) =
        (List.range m).map (fun (k : Nat) => Second * ((k : Int) + 1)) ∧
      (0 ≤ cfg.PublishRetries → (m : Int) ≤ cfg.PublishRetries) ∧
      (cfg.PublishRetries < 0 → m = 0) ∧
      (∀ k : Nat, 1 ≤ k → k ≤ m →
        (sleeps (newCalls w (PublishTask env cfg task w).2))[k - 1]? =
          some (Second * (k : Int))) ∧
      (∀ pre e post, newCalls w (PublishTask env cfg task w).2 = pre ++ e :: post →
        isSleep e = true → pre.any isPublish = true) ∧
      (∀ pre e post, newCalls w (PublishTask env cfg task w).2 = pre ++ e :: post →
        isPublish e = true → pre.any isPublish = true →
        ∃ k : Nat, 1 ≤ k ∧ k ≤ m ∧
          sleeps pre = (List.range k).map (fun (i : Nat) => Second * ((i : Int) + 1)) ∧
          ∃ pre2 rc, pre = pre2 ++ (.Sleep (Second * (k : Int)), none) :: rc ∧
            (rc = [] ∨ rc = [(.Dial cfg.URL, none), (.Channel, none)])) ∧
      (∀ c, (PublishTask env cfg task w).1 =
          some (Errorf ("failed to publish task after " ++ fmtInt cfg.PublishRetries ++
            " retries: ") c) → 0 ≤ cfg.PublishRetries →
        (m : Int) = cfg.PublishRetries ∧
        (sleeps (newCalls w (PublishTask env cfg task w).2)).sum =
          Second * (cfg.PublishRetries * (cfg.PublishRetries + 1) / 2))) ∧
    (∀ task : BatchHeightmapTask, ∃ m : Nat,
      sleeps (newCalls w (PublishBatchTask env cfg task w).2) =
        (List.range m).map (fun (k : Nat) => Second * ((k : Int) + 1)) ∧
      (0 ≤ cfg.PublishRetries → (m : Int) ≤ cfg.PublishRetries) ∧
      (cfg.PublishRetries < 0 → m = 0) ∧
      (∀ k : Nat, 1 ≤ k → k ≤ m →
        (sleeps (newCalls w (PublishBatchTask env cfg task w).2))[k - 1]? =
          some (Second * (k : Int))) ∧
      (∀ pre e post, newCalls w (PublishBatchTask env cfg task w).2 = pre ++ e :: post →
        isSleep e = true → pre.any isPublish = true) ∧
      (∀ pre e post, newCalls w (PublishBatchTask env cfg task w).2 = pre ++ e :: post →
        isPublish e = true → pre.any isPublish = true →
        ∃ k : Nat, 1 ≤ k ∧ k ≤ m ∧
          sleeps pre = (List.range k).map (fun (i : Nat) => Second * ((i : Int) + 1)) ∧
          ∃ pre2 rc, pre = pre2 ++ (.Sleep (Second * (k : Int)), none) :: rc ∧
            (rc = [] ∨ rc = [(.Dial cfg.URL, none), (.Channel, none)])) ∧
      (∀ c, (PublishBatchTask env cfg task w).1 =
          some (Errorf ("failed to publish batch task after " ++ fmtInt cfg.PublishRetries ++
            " retries: ") c) → 0 ≤ cfg.PublishRetries →
        (m : Int) = cfg.PublishRetries ∧
        (sleeps (newCalls w (PublishBatchTask env cfg task w).2)).sum =
          Second * (cfg.PublishRetries * (cfg.PublishRetries + 1) / 2))) := by
  constructor
  · intro task
    obtain ⟨pre0, loopevs, j, t1, t2, t3, _, _, _, t7, t8, t9, t10, t11⟩ :=
      PublishTask_trace env cfg task w
    have hn := newCalls_of_append _ _ _ t1
    obtain ⟨s1, s2, s3, s4, s5⟩ := sleeps_of_trace cfg.PublishRetries pre0 loopevs j t2 t7 t8
    have hsplit := trace_publish_split env cfg w.history pre0 loopevs j t2 t3 t11
    rw [hn]
    refine ⟨j - 1, s1, s2, s3, s4, trace_sleep_after_publish pre0 loopevs t2 t9, ?_, ?_⟩
    · intro pre e post hs he hpre
      obtain ⟨i, hi, hsl, hform⟩ := hsplit pre e post hs he
      obtain ⟨r1, r2, r3, r4, _⟩ := retry_of_trace env cfg w.history pre j i hi hsl hpre pre0 t3
        hform
      exact ⟨i, r1, r2, r3, r4⟩
    · intro c hc h0
      exact s5 (t10 c hc) h0
  · intro task
    obtain ⟨pre1, loopevs, j, t1, t2, t3, _, _, t7, t8, t9, t10, t11⟩ :=
      PublishBatchTask_trace env cfg task w
    have hn := newCalls_of_append _ _ _ t1
    obtain ⟨s1, s2, s3, s4, s5⟩ := sleeps_of_trace cfg.PublishRetries pre1 loopevs j t2 t7 t8
    have hsplit := trace_publish_split env cfg w.history pre1 loopevs j t2 t3 t11
    rw [hn]
    refine ⟨j - 1, s1, s2, s3, s4, trace_sleep_after_publish pre1 loopevs t2 t9, ?_, ?_⟩
    · intro pre e post hs he hpre
      obtain ⟨i, hi, hsl, hform⟩ := hsplit pre e post hs he
      obtain ⟨r1, r2, r3, r4, _⟩ := retry_of_trace env cfg w.history pre j i hi hsl hpre pre1 t3
        hform
      exact ⟨i, r1, r2, r3, r4⟩
    · intro c hc h0
      exact s5 (t10 c hc) h0

theorem C21_linear_backoff_witness :
    (sleeps (newCalls World.start
      (PublishTask envNack cfgTest.RabbitMQ taskTest World.start).2)).sum =
        Second * (cfgTest.RabbitMQ.PublishRetries * (cfgTest.RabbitMQ.PublishRetries + 1) / 2) := by
  obtain ⟨m, _, _, _, _, _, _, h⟩ :=
    (C21_linear_backoff envNack cfgTest.RabbitMQ World.start).1 taskTest
  exact (h (some (.new "nack")) (by decide) (by decide)).2

/-- C22: when `PublishTask` or `PublishBatchTask` finds the client unusable on
entry, its first call is the dial of a reconnect; when that reconnect fails,
the function returns the reconnect error wrapped, having made the calls of the
reconnect only, so no delivery attempt. Every delivery attempt that is a retry
is made directly after the sleep of its iteration, the connection and channel
having then been found open, or directly after a successful dial and channel
opening that follow the sleep, the connection or channel having been found
closed. -/
theorem C22_reconnect_before_publish (env : Env) (cfg : RabbitMQConfig) (w : World) :
    (∀ task : HeightmapTask,
      (unusable env w = true →
        ∃ r tl, newCalls w (PublishTask env cfg task w).2 = (.Dial cfg.URL, r) :: tl) ∧
      (∀ err, unusable env w = true → (reconnect env cfg w).1 = some err →
        (PublishTask env cfg task w).1 =
          some (Errorf "failed to reconnect before publishing: " (some err)) ∧
        newCalls w (PublishTask env cfg task w).2 = newCalls w (reconnect env cfg w).2 ∧
        publishAttempts (newCalls w (PublishTask env cfg task w).2) = 0) ∧
      (∀ pre e post, newCalls w (PublishTask env cfg task w).2 = pre ++ e :: post →
        isPublish e = true → pre.any isPublish = true →
        (∃ pre2 d, pre = pre2 ++ [(.Sleep d, none)] ∧
          foundClosed env (w.history ++ pre) = false) ∨
        (∃ pre2 d, pre = pre2 ++ [(.Sleep d, none), (.Dial cfg.URL, none), (.Channel, none)] ∧
          foundClosed env (w.history ++ (pre2 ++ [(.Sleep d, none)])) = true))) ∧
    (∀ task : BatchHeightmapTask,
      (unusable env w = true →
        ∃ r tl, newCalls w (PublishBatchTask env cfg task w).2 = (.Dial cfg.URL, r) :: tl) ∧
      (∀ err, unusable env w = true → (reconnect env cfg w).1 = some err →
        (PublishBatchTask env cfg task w).1 =
          some (Errorf "failed to reconnect before publishing batch task: " (some err)) ∧
        newCalls w (PublishBatchTask env cfg task w).2 = newCalls w (reconnect env cfg w).2 ∧
        publishAttempts (newCalls w (PublishBatchTask env cfg task w).2) = 0) ∧
      (∀ pre e post, newCalls w (PublishBatchTask env cfg task w).2 = pre ++ e :: post →
        isPublish e = true → pre.any isPublish = true →
        (∃ pre2 d, pre = pre2 ++ [(.Sleep d, none)] ∧
          foundClosed env (w.history ++ pre) = false) ∨
        (∃ pre2 d, pre = pre2 ++ [(.Sleep d, none), (.Dial cfg.URL, none), (.Channel, none)] ∧
          foundClosed env (w.history ++ (pre2 ++ [(.Sleep d, none)])) = true))) := by
  constructor
  · intro task
    obtain ⟨pre0, loopevs, j, t1, t2, t3, _, t5, t6, t7, t8, t9, t10, t11⟩ :=
      PublishTask_trace env cfg task w
    have hn := newCalls_of_append _ _ _ t1
    have hsplit := trace_publish_split env cfg w.history pre0 loopevs j t2 t3 t11
    rw [hn]
    refine ⟨?_, ?_, ?_⟩
    · intro hu
      obtain ⟨_, r, tl, h⟩ := t5 hu
      exact ⟨r, tl ++ loopevs, by rw [h]; rfl⟩
    · intro err hu he
      obtain ⟨h1, h2⟩ := t6 err hu he
      have h3 := newCalls_of_append _ _ _ (t5 hu).1
      refine ⟨h1, by rw [h2, h3]; simp, ?_⟩
      rw [h2, List.append_nil]
      exact publishAttempts_eq_zero _ t3
    · intro pre e post hs he hpre
      obtain ⟨i, hi, hsl, hform⟩ := hsplit pre e post hs he
      exact (retry_of_trace env cfg w.history pre j i hi hsl hpre pre0 t3 hform).2.2.2.2
  · intro task
    obtain ⟨pre1, loopevs, j, t1, t2, t3, t5, t6, t7, t8, t9, t10, t11⟩ :=
      PublishBatchTask_trace env cfg task w
    have hn := newCalls_of_append _ _ _ t1
    have hsplit := trace_publish_split env cfg w.history pre1 loopevs j t2 t3 t11
    rw [hn]
    refine ⟨?_, ?_, ?_⟩
    · intro hu
      obtain ⟨r, tl, h⟩ := t5 hu
      exact ⟨r, tl ++ loopevs, by rw [h]; rfl⟩
    · intro err hu he
      obtain ⟨h1, h2, h3⟩ := t6 err hu he
      have h4 := newCalls_of_append _ _ _ h3
      refine ⟨h1, by rw [h2, h4]; simp, ?_⟩
      rw [h2, List.append_nil]
      exact publishAttempts_eq_zero _ t3
    · intro pre e post hs he hpre
      obtain ⟨i, hi, hsl, hform⟩ := hsplit pre e post hs he
      exact (retry_of_trace env cfg w.history pre j i hi hsl hpre pre1 t3 hform).2.2.2.2

theorem C22_reconnect_before_publish_witness :
    (PublishTask envDown cfgTest.RabbitMQ taskTest World.start).1 =
      some (Errorf "failed to reconnect before publishing: "
        (some (.wrap "failed to dial RabbitMQ: " (.new "connection refused")))) ∧
    publishAttempts
      (newCalls World.start (PublishTask envDown cfgTest.RabbitMQ taskTest World.start).2) = 0 :=
  ⟨(((C22_reconnect_before_publish envDown cfgTest.RabbitMQ World.start).1 taskTest).2.1
      (.wrap "failed to dial RabbitMQ: " (.new "connection refused")) (by decide) (by decide)).1,
   (((C22_reconnect_before_publish envDown cfgTest.RabbitMQ World.start).1 taskTest).2.1
      (.wrap "failed to dial RabbitMQ: " (.new "connection refused")) (by decide)
      (by decide)).2.2⟩

end Dev2gis
